import Mathlib

/-!
# Volume slice drawing (BrainOpenGLVolumeSliceDrawing)

A shallow embedding of the orthogonal and oblique volume-slice rasterizers of
`src/Brain/BrainOpenGLVolumeSliceDrawing.cxx`.

Conventions of the embedding:

* `float` and `double` values are rationals (exact arithmetic); where the source
  starts a running minimum or maximum at `std::numeric_limits<float>::max()` the
  constant `FLT_MAX` is kept and theorems that need it assume that the
  coordinates are in the range of a `float`.  Where a count rests on the
  rounding of floating-point numbers - the counter of the row loop of
  `drawObliqueSlice`, which is a sum of `double`s, and the quotients that its
  alignment truncates to numbers of voxels - the rounding is kept, as the
  functions `roundDouble` and `roundQuotient` of `DrawingContext`.
* `uint8_t` values are naturals below 256, `int64_t` values are integers (the
  buffers they index cannot reach `2^63` elements), `int32_t` values are integers
  wrapped with `toInt32`.
* The object's members that a slice draw reads are gathered in `DrawingContext`,
  the members it writes in `DrawingState`; calls to OpenGL and to the colouring,
  drawing and identification collaborators are appended to `DrawingState.events`.
* `CaretAssert` is compiled out (release build).
-/

set_option autoImplicit false

namespace Workbench

/-! ## Basic types -/

/-- A `float[3]` coordinate or vector. -/
structure Vec3 where
  x : ℚ
  y : ℚ
  z : ℚ
deriving DecidableEq

/-- A `uint8_t[4]` colour. -/
structure Rgba where
  r : Nat
  g : Nat
  b : Nat
  a : Nat
deriving DecidableEq

/-- The `float boundsOut[6]` array of `getVoxelCoordinateBoundsAndSpacing`,
in the order of its six entries. -/
structure Bounds6 where
  minX : ℚ
  maxX : ℚ
  minY : ℚ
  maxY : ℚ
  minZ : ℚ
  maxZ : ℚ
deriving DecidableEq

/-- The enumeration `VolumeSliceViewPlaneEnum::Enum`. -/
inductive VolumeSliceViewPlaneEnum where
  | ALL
  | AXIAL
  | CORONAL
  | PARASAGITTAL
deriving DecidableEq

/-- The enumeration `VolumeSliceViewModeEnum::Enum`. -/
inductive VolumeSliceViewModeEnum where
  | MONTAGE
  | OBLIQUE
  | ORTHOGONAL
deriving DecidableEq

/-- The enumeration `DRAW_MODE` of the slice drawing class. -/
inductive DRAW_MODE where
  | DRAW_MODE_ALL_STRUCTURES_VIEW
  | DRAW_MODE_VOLUME_VIEW_SLICE_3D
  | DRAW_MODE_VOLUME_VIEW_SLICE_SINGLE
deriving DecidableEq

/-- The value `std::numeric_limits<float>::max()`, that is `(2^24 - 1) * 2^104`. -/
def FLT_MAX : ℚ := 340282346638528859811704183484516925440

/-- Conversion of a floating point value to an integer type: truncation toward zero. -/
def truncToInt (q : ℚ) : Int := if 0 ≤ q then ⌊q⌋ else ⌈q⌉

/-- Wrap an integer into the range of `int8_t`. -/
def toInt8 (x : Int) : Int := (x + 128) % 256 - 128

/-- Wrap an integer into the range of `uint8_t`. -/
def toUInt8 (x : Int) : Nat := (x % 256).toNat

/-- Wrap an integer into the range of `int32_t`. -/
def toInt32 (x : Int) : Int := (x + 2147483648) % 4294967296 - 2147483648

/-- Modelled from the spec: the class `Matrix4x4` (its source is not part of the
sources at hand), an affine transform given by its three rows of four
coefficients; the fourth row of an affine transform is `(0, 0, 0, 1)`. -/
structure Matrix4x4 where
  m00 : ℚ
  m01 : ℚ
  m02 : ℚ
  m03 : ℚ
  m10 : ℚ
  m11 : ℚ
  m12 : ℚ
  m13 : ℚ
  m20 : ℚ
  m21 : ℚ
  m22 : ℚ
  m23 : ℚ
deriving DecidableEq

/-- Modelled from the spec: `Matrix4x4::multiplyPoint3`, the affine transform of a point. -/
def Matrix4x4.multiplyPoint3 (m : Matrix4x4) (p : Vec3) : Vec3 :=
  { x := m.m00 * p.x + m.m01 * p.y + m.m02 * p.z + m.m03
    y := m.m10 * p.x + m.m11 * p.y + m.m12 * p.z + m.m13
    z := m.m20 * p.x + m.m21 * p.y + m.m22 * p.z + m.m23 }

/-- Modelled from the spec: the class `Plane` (its source is not part of the
sources at hand), "a plane equation (unit normal + point)", built by
`Plane(normal, point)`; the plane is invalid when the normal is degenerate. -/
structure Plane where
  m_normalVector : Vec3
  m_pointOnPlane : Vec3
deriving DecidableEq

/-- Modelled from the spec: `Plane::isValidPlane`, false for a zero-length normal. -/
def Plane.isValidPlane (p : Plane) : Bool :=
  !(decide (p.m_normalVector.x = 0 ∧ p.m_normalVector.y = 0 ∧ p.m_normalVector.z = 0))

/-- Modelled from the spec: the signed distance of a point to the plane, for a
plane whose normal is of unit length. -/
def Plane.signedDistanceToPlane (p : Plane) (q : Vec3) : ℚ :=
  p.m_normalVector.x * (q.x - p.m_pointOnPlane.x)
    + p.m_normalVector.y * (q.y - p.m_pointOnPlane.y)
    + p.m_normalVector.z * (q.z - p.m_pointOnPlane.z)

/-! ## Collaborators -/

/-- The interface `VolumeMappableInterface` of an overlay volume, with the
queries of its subclasses (`VolumeFile`, `CiftiMappableDataFile`,
`CaretMappableDataFile`) that the slice drawing uses.  Every field is a
collaborator whose source is outside the drawing class. -/
structure VolumeMappableInterface where
  /-- First three outputs of `getDimensions`. -/
  dimI : Int
  dimJ : Int
  dimK : Int
  /-- Coordinate of the centre of a voxel. -/
  indexToSpace : Int → Int → Int → Vec3
  /-- Indices of the voxel that encloses a coordinate. -/
  enclosingVoxel : ℚ → ℚ → ℚ → Int × Int × Int
  indexValid : Int → Int → Int → Bool
  /-- Result of `dynamic_cast<VolumeFile*>` is not NULL. -/
  isVolumeFile : Bool
  /-- Result of `dynamic_cast<CiftiMappableDataFile*>` is not NULL. -/
  isCiftiMappableDataFile : Bool
  isMappedWithPalette : Bool
  isMappedWithLabelTable : Bool
  /-- Whether `getPaletteByName` finds the palette selected for a map. -/
  paletteFound : Int → Bool
  /-- Value and validity flag of `VolumeFile::interpolateValue` (cubic) at a point for a map. -/
  interpolateValue : Vec3 → Int → ℚ × Bool
  /-- Value and validity flag of `getVoxelValue` at a point for a map. -/
  getVoxelValue : Vec3 → Int → ℚ × Bool
  /-- Offset into the whole-map data of the voxel at a coordinate, negative if none. -/
  getMapDataOffsetForVoxelAtCoordinate : Vec3 → Int → Int
  /-- Byte written by `getVoxelColorsForSliceInMap` (map, plane, slice index) at a buffer offset. -/
  getVoxelColorsForSliceInMap : Int → VolumeSliceViewPlaneEnum → Int → Nat → Nat
  /-- Byte written by `NodeAndVoxelColoring::colorScalarsWithPalette` for the
  values of a map at a buffer offset. -/
  colorScalarsWithPalette : Int → List ℚ → Nat → Nat
  /-- Byte written by `NodeAndVoxelColoring::colorIndicesWithLabelTable` for the
  values of a map at a buffer offset. -/
  colorIndicesWithLabelTable : Int → List ℚ → Nat → Nat

/-- The structure `BrainOpenGLFixedPipeline::VolumeDrawInfo`: one overlay. -/
structure VolumeDrawInfo where
  volumeFile : VolumeMappableInterface
  mapIndex : Int
  opacity : ℚ

/-- The queries of `BrowserTabContent` that the slice drawing uses. -/
structure BrowserTabContent where
  getSliceCoordinateParasagittal : ℚ
  getSliceCoordinateCoronal : ℚ
  getSliceCoordinateAxial : ℚ
  getSliceIndexParasagittal : VolumeMappableInterface → Int
  getSliceIndexCoronal : VolumeMappableInterface → Int
  getSliceIndexAxial : VolumeMappableInterface → Int
  getTranslation : Vec3
  getObliqueVolumeRotationMatrix : Matrix4x4

/-- The calls to OpenGL and to the collaborators, in the order they are made. -/
inductive Event where
  | glEnableBlend
  | glBlendFuncSrcAlphaOneMinusSrcAlpha
  | glShadeModelFlat
  | glShadeModelSmooth
  | glDisableBlend
  | glEnablePolygonOffsetFill
  | glPolygonOffset (factor units : ℚ)
  | glDisablePolygonOffsetFill
  | glPushMatrix
  | glScalef (x y z : ℚ)
  | glPopMatrix
  /-- Call of `getVoxelColorsForSliceInMap` for the overlay: map index, slice index. -/
  | getVoxelColorsForSliceInMap (iVol : Nat) (mapIndex : Int) (sliceIndex : Int)
  | convertSliceColoringToOutlineMode (xdim ydim : Int)
  /-- Call of `colorScalarsWithPalette` for the overlay with its number of values. -/
  | colorScalarsWithPalette (iVol : Nat) (numValues : Nat)
  /-- Call of `colorIndicesWithLabelTable` for the overlay with its number of values. -/
  | colorIndicesWithLabelTable (iVol : Nat) (numValues : Nat)
  | logWarningMissingPalette (iVol : Nat)
  /-- Call of `colorIdentification->addItem` with the item index. -/
  | colorIdentificationAddItem (idIndex : Int)
  /-- Call of `BrainOpenGLPrimitiveDrawing::drawQuads`. -/
  | drawQuads (coordinates normals : List ℚ) (rgba : List Nat)
  /-- Call of `CiftiMappableDataFile::getMapData` for the overlay and its map index. -/
  | getMapData (iVol : Nat) (mapIndex : Int)
  | glMatrixModeModelview
  | glMatrixModeProjection
  | glLoadIdentity
  | glViewport (x y width height : Int)
  | glOrtho (left right bottom top nearVal farVal : ℚ)
  | glTranslatef (x y z : ℚ)
  /-- Call of `glGetDoublev(GL_MODELVIEW_MATRIX, m_viewingMatrix)`. -/
  | glGetModelviewMatrix
  | gluLookAt (eye center up : Vec3)
  | glEnableDepthTest
  /-- Call of `glClear(GL_COLOR_BUFFER_BIT | GL_DEPTH_BUFFER_BIT)`. -/
  | glClearColorAndDepth
  | glDisableCullFace
  | glEnableCullFace
  | applyClippingPlanes
  | disableClippingPlanes
  /-- Call of the method `drawLayers` (crosshairs, fibers, foci, surface outlines). -/
  | drawLayers (sliceViewPlane : VolumeSliceViewPlaneEnum) (drawMode : DRAW_MODE)
  /-- Call of the method `processIdentification`. -/
  | processIdentification
  /-- Call of the method `drawOrientationAxes` with its viewport. -/
  | drawOrientationAxes (x y width height : Int)
  /-- Call of the method `drawAxesCrosshairsOrthoAndOblique`. -/
  | drawAxesCrosshairsOrthoAndOblique (sliceViewPlane : VolumeSliceViewPlaneEnum)
  /-- Call of `drawTextWindowCoords` (after `glColor3ubv`) with the coordinate of a
  montage slice. -/
  | drawTextWindowCoords (sliceCoord : ℚ)
deriving DecidableEq

/-- The members of the drawing object and the collaborators that a slice draw only reads. -/
structure DrawingContext where
  m_volumeDrawInfo : List VolumeDrawInfo
  m_browserTabContent : BrowserTabContent
  m_sliceViewMode : VolumeSliceViewModeEnum
  /-- The orthographic bounds: left, right, bottom, top. -/
  m_orthographicBounds : ℚ × ℚ × ℚ × ℚ
  /-- Whole-map data fetched by `draw` for each overlay. -/
  m_ciftiMappableFileData : List (List ℚ)
  /-- Labels are drawn as outlines (`LabelDrawingTypeEnum::DRAW_OUTLINE`). -/
  isOutlineMode : Bool
  /-- Byte left by `NodeAndVoxelColoring::convertSliceColoringToOutlineMode` at an offset. -/
  convertSliceColoringToOutlineMode : List Nat → Int → Int → Nat → Nat
  /-- Colour written by `colorIdentification->addItem` into its output array,
  given the calls made so far, the array and the item index. -/
  colorIdentificationAddItem : List Event → Rgba → Int → Rgba
  /-- The function `MathFunctions::normalizeVector`. -/
  normalizeVector : Vec3 → Vec3
  /-- The function `MathFunctions::distance3D`. -/
  distance3D : Vec3 → Vec3 → ℚ
  /-- The function `MathFunctions::createUnitVector`. -/
  createUnitVector : Vec3 → Vec3 → Vec3
  /-- The function `MathFunctions::round`. -/
  round : ℚ → Int
  /-- The function `MathFunctions::remainder`. -/
  remainder : ℚ → ℚ → ℚ
  /-- The rounding of a real number to a `double`, by which the quotient and
  the sums of the `double`s of a loop header are rounded where the number of
  iterations rests on them (the counter `tVertical` of the row loop of
  `drawObliqueSlice`). -/
  roundDouble : ℚ → ℚ
  /-- The rounding of the quotient of the result of `MathFunctions::round` and
  the `float` step size to the floating type of the division, before the
  `static_cast<int64_t>` that truncates it (the numbers of voxels of the
  alignment of `drawObliqueSlice`). -/
  roundQuotient : ℚ → ℚ

/-- The members of the drawing object that a slice draw writes, and the calls made. -/
structure DrawingState where
  m_identificationModeFlag : Bool
  m_identificationIndices : List Int
  m_lookAtCenter : Vec3
  events : List Event
deriving DecidableEq

/-! ## Identification (picking) records -/

/-- Modelled from the spec: the constant `IDENTIFICATION_INDICES_PER_VOXEL`
(declared in the header, which is not part of the sources at hand), the "fixed
field count" of a record `(volumeIndex, mapIndex, i, j, k)`. -/
def IDENTIFICATION_INDICES_PER_VOXEL : Nat := 5

/-- The method `resetIdentification`: the indices are cleared (the reservation
that follows changes the capacity only). -/
def resetIdentification (st : DrawingState) : DrawingState :=
  { st with m_identificationIndices := [] }

/-- The local `idIndex` of `addVoxelToIdentification`: the identifier handed to
the colour identification for the record that the call appends. -/
def identificationIdIndex (st : DrawingState) : Int :=
  toInt32 ((st.m_identificationIndices.length / IDENTIFICATION_INDICES_PER_VOXEL : Nat) : Int)

/-- The method `addVoxelToIdentification`.  Returns the new state and the
colour left in `rgbaForColorIdentificationOut`. -/
def addVoxelToIdentification (ctx : DrawingContext) (st : DrawingState)
    (volumeIndex mapIndex voxelI voxelJ voxelK : Int) (rgbaForColorIdentificationOut : Rgba) :
    DrawingState × Rgba :=
  let idIndex : Int := identificationIdIndex st
  let rgba1 := ctx.colorIdentificationAddItem st.events rgbaForColorIdentificationOut idIndex
  let rgba2 : Rgba := { rgba1 with a := 255 }
  ({ st with
      events := st.events ++ [Event.colorIdentificationAddItem idIndex]
      m_identificationIndices :=
        st.m_identificationIndices ++ [volumeIndex, mapIndex, voxelI, voxelJ, voxelK] },
   rgba2)

/-- Read of `m_identificationIndices[i]` for an `int32_t` index; there is no
element at a negative index or past the end. -/
def identificationIndexAt (st : DrawingState) (i : Int) : Option Int :=
  if 0 ≤ i then st.m_identificationIndices[i.toNat]? else none

/-- The lookup of `processIdentification` for the item index returned by the
colour selection: the index of the overlay (`volDrawInfoIndex`) and the three
voxel indices of the record, when the item index is not negative. -/
def processIdentificationLookup (st : DrawingState) (identifiedItemIndex : Int) :
    Option (Int × Int × Int × Int) :=
  if 0 ≤ identifiedItemIndex then
    let idIndex : Int := toInt32 (identifiedItemIndex * IDENTIFICATION_INDICES_PER_VOXEL)
    match identificationIndexAt st idIndex, identificationIndexAt st (toInt32 (idIndex + 2)),
      identificationIndexAt st (toInt32 (idIndex + 3)),
      identificationIndexAt st (toInt32 (idIndex + 4)) with
    | some volDrawInfoIndex, some i, some j, some k => some (volDrawInfoIndex, i, j, k)
    | _, _, _, _ => none
  else none

/-- A sequence of calls of `addVoxelToIdentification`, each with its tuple
`(volumeIndex, mapIndex, i, j, k)`; returns the identifiers assigned, in call order. -/
def addVoxelsToIdentification (ctx : DrawingContext) :
    DrawingState → List (Int × Int × Int × Int × Int) → DrawingState × List Int
  | st, [] => (st, [])
  | st, (volumeIndex, mapIndex, i, j, k) :: rest =>
    let idIndex := identificationIdIndex st
    let st1 := (addVoxelToIdentification ctx st volumeIndex mapIndex i j k ⟨0, 0, 0, 0⟩).1
    let r := addVoxelsToIdentification ctx st1 rest
    (r.1, idIndex :: r.2)

/-! ## Bounds and spacing of the overlays -/

/-- The nine running values of the loop of `getVoxelCoordinateBoundsAndSpacing`. -/
structure BoundsAndSpacing where
  minVoxelX : ℚ
  maxVoxelX : ℚ
  minVoxelY : ℚ
  maxVoxelY : ℚ
  minVoxelZ : ℚ
  maxVoxelZ : ℚ
  voxelStepX : ℚ
  voxelStepY : ℚ
  voxelStepZ : ℚ

/-- The initial values of the loop of `getVoxelCoordinateBoundsAndSpacing`. -/
def boundsAndSpacingInit : BoundsAndSpacing :=
  { minVoxelX := FLT_MAX, maxVoxelX := -FLT_MAX
    minVoxelY := FLT_MAX, maxVoxelY := -FLT_MAX
    minVoxelZ := FLT_MAX, maxVoxelZ := -FLT_MAX
    voxelStepX := FLT_MAX, voxelStepY := FLT_MAX, voxelStepZ := FLT_MAX }

/-- One iteration of the loop of `getVoxelCoordinateBoundsAndSpacing`. -/
def boundsAndSpacingStep (acc : BoundsAndSpacing) (info : VolumeDrawInfo) : BoundsAndSpacing :=
  let volumeFile := info.volumeFile
  let origin := volumeFile.indexToSpace 0 0 0
  let p1 := volumeFile.indexToSpace 1 1 1
  let last := volumeFile.indexToSpace (volumeFile.dimI - 1) (volumeFile.dimJ - 1)
    (volumeFile.dimK - 1)
  let dx := p1.x - origin.x
  let dy := p1.y - origin.y
  let dz := p1.z - origin.z
  { voxelStepX := min acc.voxelStepX |dx|
    voxelStepY := min acc.voxelStepY |dy|
    voxelStepZ := min acc.voxelStepZ |dz|
    minVoxelX := min acc.minVoxelX (min origin.x last.x)
    maxVoxelX := max acc.maxVoxelX (max origin.x last.x)
    minVoxelY := min acc.minVoxelY (min origin.y last.y)
    maxVoxelY := max acc.maxVoxelY (max origin.y last.y)
    minVoxelZ := min acc.minVoxelZ (min origin.z last.z)
    maxVoxelZ := max acc.maxVoxelZ (max origin.z last.z) }

/-- The method `getVoxelCoordinateBoundsAndSpacing`: the returned flag and the
contents of `boundsOut` and `spacingOut` after the call, given their contents
before the call (they are not written when the overlay list is empty). -/
def getVoxelCoordinateBoundsAndSpacing (m_volumeDrawInfo : List VolumeDrawInfo)
    (boundsOut : Bounds6) (spacingOut : Vec3) : Bool × Bounds6 × Vec3 :=
  let numberOfVolumesToDraw : Int := m_volumeDrawInfo.length
  if numberOfVolumesToDraw ≤ 0 then
    (false, boundsOut, spacingOut)
  else
    let acc := m_volumeDrawInfo.foldl boundsAndSpacingStep boundsAndSpacingInit
    let boundsOut1 : Bounds6 :=
      { minX := acc.minVoxelX, maxX := acc.maxVoxelX
        minY := acc.minVoxelY, maxY := acc.maxVoxelY
        minZ := acc.minVoxelZ, maxZ := acc.maxVoxelZ }
    let spacingOut1 : Vec3 := { x := acc.voxelStepX, y := acc.voxelStepY, z := acc.voxelStepZ }
    let valid : Bool :=
      decide (acc.maxVoxelX > acc.minVoxelX) && decide (acc.maxVoxelY > acc.minVoxelY)
        && decide (acc.maxVoxelZ > acc.minVoxelZ) && decide (acc.voxelStepX > 0)
        && decide (acc.voxelStepY > 0) && decide (acc.voxelStepZ > 0)
    (valid, boundsOut1, spacingOut1)

/-- The local `voxelSize` of `drawObliqueSlice`: the smallest of the three
spacings, times three for the 3D view of volume slice viewing. -/
def obliqueVoxelSize (drawMode : DRAW_MODE) (voxelSpacing : Vec3) : ℚ :=
  let voxelSize := min voxelSpacing.x (min voxelSpacing.y voxelSpacing.z)
  match drawMode with
  | DRAW_MODE.DRAW_MODE_VOLUME_VIEW_SLICE_SINGLE => voxelSize
  | DRAW_MODE.DRAW_MODE_VOLUME_VIEW_SLICE_3D => voxelSize * 3
  | DRAW_MODE.DRAW_MODE_ALL_STRUCTURES_VIEW => voxelSize

/-! ## The slice plane -/

/-- The method `createSlicePlaneEquation`: the plane written to `planeOut`
and the state with the look-at centre recorded. -/
def createSlicePlaneEquation (ctx : DrawingContext) (st : DrawingState)
    (sliceViewPlane : VolumeSliceViewPlaneEnum) (montageSliceIndex : Int) :
    Plane × DrawingState :=
  let selectedSliceCoordinate : Vec3 :=
    { x := ctx.m_browserTabContent.getSliceCoordinateParasagittal
      y := ctx.m_browserTabContent.getSliceCoordinateCoronal
      z := ctx.m_browserTabContent.getSliceCoordinateAxial }
  let sliceNormalVector : Vec3 :=
    match sliceViewPlane with
    | VolumeSliceViewPlaneEnum.ALL => ⟨0, 0, 1⟩
    | VolumeSliceViewPlaneEnum.AXIAL => ⟨0, 0, 1⟩
    | VolumeSliceViewPlaneEnum.CORONAL => ⟨0, -1, 0⟩
    | VolumeSliceViewPlaneEnum.PARASAGITTAL => ⟨-1, 0, 0⟩
  let result : Vec3 × Vec3 :=
    match ctx.m_sliceViewMode with
    | VolumeSliceViewModeEnum.MONTAGE =>
      if 0 ≤ montageSliceIndex then
        match ctx.m_volumeDrawInfo.head? with
        | some info0 =>
          let montXYZ :=
            info0.volumeFile.indexToSpace montageSliceIndex montageSliceIndex montageSliceIndex
          match sliceViewPlane with
          | VolumeSliceViewPlaneEnum.ALL =>
            (sliceNormalVector, { selectedSliceCoordinate with z := montXYZ.z })
          | VolumeSliceViewPlaneEnum.AXIAL =>
            (sliceNormalVector, { selectedSliceCoordinate with z := montXYZ.z })
          | VolumeSliceViewPlaneEnum.CORONAL =>
            (sliceNormalVector, { selectedSliceCoordinate with y := montXYZ.y })
          | VolumeSliceViewPlaneEnum.PARASAGITTAL =>
            (sliceNormalVector, { selectedSliceCoordinate with x := montXYZ.x })
        | none => (sliceNormalVector, selectedSliceCoordinate)
      else (sliceNormalVector, selectedSliceCoordinate)
    | VolumeSliceViewModeEnum.OBLIQUE =>
      let obliqueRotationMatrix := ctx.m_browserTabContent.getObliqueVolumeRotationMatrix
      (ctx.normalizeVector (obliqueRotationMatrix.multiplyPoint3 sliceNormalVector),
        selectedSliceCoordinate)
    | VolumeSliceViewModeEnum.ORTHOGONAL => (sliceNormalVector, selectedSliceCoordinate)
  ({ m_normalVector := result.1, m_pointOnPlane := result.2 },
    { st with m_lookAtCenter := result.2 })

/-- Modelled from the spec: `Matrix4x4::identity` (the source of the class is
not part of the sources at hand), the transform that leaves every point in place. -/
def Matrix4x4.identity : Matrix4x4 := ⟨1, 0, 0, 0, 0, 1, 0, 0, 0, 0, 1, 0⟩

/-- Modelled from the spec: `Matrix4x4::postmultiply`, the composition of two
affine transforms: this transform followed by `tm`. -/
def Matrix4x4.postmultiply (m tm : Matrix4x4) : Matrix4x4 :=
  { m00 := tm.m00 * m.m00 + tm.m01 * m.m10 + tm.m02 * m.m20
    m01 := tm.m00 * m.m01 + tm.m01 * m.m11 + tm.m02 * m.m21
    m02 := tm.m00 * m.m02 + tm.m01 * m.m12 + tm.m02 * m.m22
    m03 := tm.m00 * m.m03 + tm.m01 * m.m13 + tm.m02 * m.m23 + tm.m03
    m10 := tm.m10 * m.m00 + tm.m11 * m.m10 + tm.m12 * m.m20
    m11 := tm.m10 * m.m01 + tm.m11 * m.m11 + tm.m12 * m.m21
    m12 := tm.m10 * m.m02 + tm.m11 * m.m12 + tm.m12 * m.m22
    m13 := tm.m10 * m.m03 + tm.m11 * m.m13 + tm.m12 * m.m23 + tm.m13
    m20 := tm.m20 * m.m00 + tm.m21 * m.m10 + tm.m22 * m.m20
    m21 := tm.m20 * m.m01 + tm.m21 * m.m11 + tm.m22 * m.m21
    m22 := tm.m20 * m.m02 + tm.m21 * m.m12 + tm.m22 * m.m22
    m23 := tm.m20 * m.m03 + tm.m21 * m.m13 + tm.m22 * m.m23 + tm.m23 }

/-- Modelled from the spec: `Matrix4x4::translate`, this transform followed by
the translation by `(tx, ty, tz)`. -/
def Matrix4x4.translate (m : Matrix4x4) (tx ty tz : ℚ) : Matrix4x4 :=
  m.postmultiply ⟨1, 0, 0, tx, 0, 1, 0, ty, 0, 0, 1, tz⟩

/-- The method `createObliqueTransformationMatrix`: the matrix written to
`obliqueTransformationMatrixOut`. -/
def createObliqueTransformationMatrix (ctx : DrawingContext) : Matrix4x4 :=
  let selectedSliceCoordinate : Vec3 :=
    { x := ctx.m_browserTabContent.getSliceCoordinateParasagittal
      y := ctx.m_browserTabContent.getSliceCoordinateCoronal
      z := ctx.m_browserTabContent.getSliceCoordinateAxial }
  let obliqueTransformationMatrixOut := Matrix4x4.identity
  match ctx.m_sliceViewMode with
  | VolumeSliceViewModeEnum.MONTAGE => obliqueTransformationMatrixOut
  | VolumeSliceViewModeEnum.OBLIQUE =>
    let obliqueRotationMatrix := ctx.m_browserTabContent.getObliqueVolumeRotationMatrix
    let obliqueTransformationMatrixOut :=
      obliqueTransformationMatrixOut.postmultiply obliqueRotationMatrix
    obliqueTransformationMatrixOut.translate selectedSliceCoordinate.x
      selectedSliceCoordinate.y selectedSliceCoordinate.z
  | VolumeSliceViewModeEnum.ORTHOGONAL => obliqueTransformationMatrixOut

/-! ## Orthogonal slices -/

/-- Read of a `uint8_t` buffer at an `int64_t` offset (the offsets used are in
the buffer, which `CaretAssertVectorIndex` states; a read elsewhere gives 0 here). -/
def readByte (buffer : List Nat) (offset : Int) : Nat := buffer.getD offset.toNat 0

/-- The statement `v.resize(n)` guarded by `n > v.size()`: the vector grows by zero bytes. -/
def resizeIfLarger (buffer : List Nat) (n : Int) : List Nat :=
  if n > (buffer.length : Int) then buffer ++ List.replicate (n.toNat - buffer.length) 0
  else buffer

/-- A collaborator fills the first `n` bytes of a buffer. -/
def writeBytes (buffer : List Nat) (n : Nat) (f : Nat → Nat) : List Nat :=
  (List.range n).map (fun i => f i % 256) ++ buffer.drop n

/-- The three local vectors of quadrilaterals of `drawOrthogonalSliceVoxels`
and of `drawObliqueSlice`. -/
structure QuadBuffers where
  coordinates : List ℚ
  normals : List ℚ
  rgba : List Nat
deriving DecidableEq

/-- The three components of a coordinate, in order. -/
def Vec3.toList (v : Vec3) : List ℚ := [v.x, v.y, v.z]

/-- The four components of a colour, in order. -/
def Rgba.toList (c : Rgba) : List Nat := [c.r, c.g, c.b, c.a]

/-- The local `rgba` of the inner loop of `drawOrthogonalSliceVoxels` before the
test "Draw voxel based upon opacity". -/
def orthogonalVoxelRgba (numberOfColumns : Int) (sliceRGBA : List Nat) (volumeIndex : Int)
    (sliceOpacity : Nat) (jRow iCol : Nat) : Rgba :=
  let sliceRgbaOffset : Int := 4 * ((iCol : Int) + numberOfColumns * (jRow : Int))
  let alphaOffset : Int := sliceRgbaOffset + 3
  if readByte sliceRGBA alphaOffset ≤ 0 then
    if volumeIndex = 0 then ⟨0, 0, 0, 255⟩ else ⟨0, 0, 0, 0⟩
  else
    ⟨readByte sliceRGBA sliceRgbaOffset, readByte sliceRGBA (sliceRgbaOffset + 1),
      readByte sliceRGBA (sliceRgbaOffset + 2), sliceOpacity⟩

/-- The twelve coordinates pushed for the voxel at row `jRow` and column `iCol`
in `drawOrthogonalSliceVoxels`: the corners `voxelBottomLeft`,
`voxelBottomRight`, `voxelTopRight`, `voxelTopLeft`, in this order. -/
def orthogonalVoxelCorners (coordinate rowStep columnStep : Vec3) (jRow iCol : Nat) : List ℚ :=
  let rowBottomLeft : Vec3 :=
    ⟨coordinate.x + jRow * rowStep.x, coordinate.y + jRow * rowStep.y,
      coordinate.z + jRow * rowStep.z⟩
  let rowTopLeft : Vec3 :=
    ⟨rowBottomLeft.x + rowStep.x, rowBottomLeft.y + rowStep.y, rowBottomLeft.z + rowStep.z⟩
  let voxelBottomLeft : Vec3 :=
    ⟨rowBottomLeft.x + iCol * columnStep.x, rowBottomLeft.y + iCol * columnStep.y,
      rowBottomLeft.z + iCol * columnStep.z⟩
  let voxelBottomRight : Vec3 :=
    ⟨voxelBottomLeft.x + columnStep.x, voxelBottomLeft.y + columnStep.y,
      voxelBottomLeft.z + columnStep.z⟩
  let voxelTopLeft : Vec3 :=
    ⟨rowTopLeft.x + iCol * columnStep.x, rowTopLeft.y + iCol * columnStep.y,
      rowTopLeft.z + iCol * columnStep.z⟩
  let voxelTopRight : Vec3 :=
    ⟨voxelTopLeft.x + columnStep.x, voxelTopLeft.y + columnStep.y,
      voxelTopLeft.z + columnStep.z⟩
  voxelBottomLeft.toList ++ voxelBottomRight.toList ++ voxelTopRight.toList
    ++ voxelTopLeft.toList

/-- The voxel indices `voxelI`, `voxelJ`, `voxelK` recorded for identification
for the voxel at row `jRow` and column `iCol` in `drawOrthogonalSliceVoxels`. -/
def orthogonalVoxelIJK (sliceViewPlane : VolumeSliceViewPlaneEnum)
    (selectedSliceIndices : Int × Int × Int) (jRow iCol : Nat) : Int × Int × Int :=
  match sliceViewPlane with
  | VolumeSliceViewPlaneEnum.ALL => (0, 0, 0)
  | VolumeSliceViewPlaneEnum.AXIAL => (iCol, jRow, selectedSliceIndices.2.2)
  | VolumeSliceViewPlaneEnum.CORONAL => (iCol, selectedSliceIndices.2.1, jRow)
  | VolumeSliceViewPlaneEnum.PARASAGITTAL => (selectedSliceIndices.1, iCol, jRow)

/-- The body of the inner loop of `drawOrthogonalSliceVoxels` for the voxel at
row `jRow` and column `iCol`. -/
def drawOrthogonalSliceVoxel (ctx : DrawingContext) (sliceViewPlane : VolumeSliceViewPlaneEnum)
    (sliceNormalVector : Vec3) (selectedSliceIndices : Int × Int × Int)
    (coordinate rowStep columnStep : Vec3) (numberOfColumns : Int) (sliceRGBA : List Nat)
    (volumeIndex mapIndex : Int) (sliceOpacity : Nat) (jRow iCol : Nat)
    (s : DrawingState × QuadBuffers) : DrawingState × QuadBuffers :=
  let rgba := orthogonalVoxelRgba numberOfColumns sliceRGBA volumeIndex sliceOpacity jRow iCol
  if rgba.a > 0 then
    let identified : DrawingState × Rgba :=
      if s.1.m_identificationModeFlag then
        let voxelIJK := orthogonalVoxelIJK sliceViewPlane selectedSliceIndices jRow iCol
        addVoxelToIdentification ctx s.1 volumeIndex mapIndex (toInt32 voxelIJK.1)
          (toInt32 voxelIJK.2.1) (toInt32 voxelIJK.2.2) rgba
      else (s.1, rgba)
    let rgba := identified.2
    (identified.1,
      { coordinates := s.2.coordinates
          ++ orthogonalVoxelCorners coordinate rowStep columnStep jRow iCol
        normals := s.2.normals ++ (sliceNormalVector.toList ++ sliceNormalVector.toList
          ++ sliceNormalVector.toList ++ sliceNormalVector.toList)
        rgba := s.2.rgba ++ (rgba.toList ++ rgba.toList ++ rgba.toList ++ rgba.toList) })
  else s

/-- The two nested loops of `drawOrthogonalSliceVoxels`. -/
def drawOrthogonalSliceVoxelsLoop (ctx : DrawingContext)
    (sliceViewPlane : VolumeSliceViewPlaneEnum)
    (sliceNormalVector : Vec3) (selectedSliceIndices : Int × Int × Int)
    (coordinate rowStep columnStep : Vec3) (numberOfColumns numberOfRows : Int)
    (sliceRGBA : List Nat) (volumeIndex mapIndex : Int) (sliceOpacity : Nat)
    (s : DrawingState × QuadBuffers) : DrawingState × QuadBuffers :=
  (List.range numberOfRows.toNat).foldl
    (fun s jRow =>
      (List.range numberOfColumns.toNat).foldl
        (fun s iCol =>
          drawOrthogonalSliceVoxel ctx sliceViewPlane sliceNormalVector selectedSliceIndices
            coordinate rowStep columnStep numberOfColumns sliceRGBA volumeIndex mapIndex
            sliceOpacity jRow iCol s)
        s)
    s

/-- The method `drawOrthogonalSliceVoxels`. -/
def drawOrthogonalSliceVoxels (ctx : DrawingContext) (st : DrawingState)
    (sliceViewPlane : VolumeSliceViewPlaneEnum)
    (sliceNormalVector : Vec3) (selectedSliceIndices : Int × Int × Int)
    (coordinate rowStep columnStep : Vec3) (numberOfColumns numberOfRows : Int)
    (sliceRGBA : List Nat) (volumeIndex mapIndex : Int) (sliceOpacity : Nat) : DrawingState :=
  let s := drawOrthogonalSliceVoxelsLoop ctx sliceViewPlane sliceNormalVector
    selectedSliceIndices coordinate rowStep columnStep numberOfColumns numberOfRows sliceRGBA
    volumeIndex mapIndex sliceOpacity (st, ⟨[], [], []⟩)
  if s.2.coordinates.isEmpty = false then
    { s.1 with
      events := s.1.events ++ [Event.drawQuads s.2.coordinates s.2.normals s.2.rgba] }
  else s.1

/-- The slice index of an overlay on the through-plane axis in
`drawOrthogonalSlice`: the component of the voxel enclosing `coordinateOnSlice`
(the local `sliceIndexForDrawing`; it stays -1 for the plane `ALL`). -/
def sliceIndexForDrawing (sliceViewPlane : VolumeSliceViewPlaneEnum)
    (selectedSliceCoordinate : ℚ) (volumeFile : VolumeMappableInterface) : Int :=
  let origin := volumeFile.indexToSpace 0 0 0
  let coordinateOnSlice : Vec3 :=
    match sliceViewPlane with
    | VolumeSliceViewPlaneEnum.ALL => origin
    | VolumeSliceViewPlaneEnum.AXIAL => { origin with z := selectedSliceCoordinate }
    | VolumeSliceViewPlaneEnum.CORONAL => { origin with y := selectedSliceCoordinate }
    | VolumeSliceViewPlaneEnum.PARASAGITTAL => { origin with x := selectedSliceCoordinate }
  let sliceIndicesForCoordinateOnSlice :=
    volumeFile.enclosingVoxel coordinateOnSlice.x coordinateOnSlice.y coordinateOnSlice.z
  match sliceViewPlane with
  | VolumeSliceViewPlaneEnum.ALL => -1
  | VolumeSliceViewPlaneEnum.AXIAL => sliceIndicesForCoordinateOnSlice.2.2
  | VolumeSliceViewPlaneEnum.CORONAL => sliceIndicesForCoordinateOnSlice.2.1
  | VolumeSliceViewPlaneEnum.PARASAGITTAL => sliceIndicesForCoordinateOnSlice.1

/-- The dimension of a volume on the through-plane axis of a view plane (none for `ALL`). -/
def throughPlaneDimension (sliceViewPlane : VolumeSliceViewPlaneEnum)
    (volumeFile : VolumeMappableInterface) : Option Int :=
  match sliceViewPlane with
  | VolumeSliceViewPlaneEnum.ALL => none
  | VolumeSliceViewPlaneEnum.AXIAL => some volumeFile.dimK
  | VolumeSliceViewPlaneEnum.CORONAL => some volumeFile.dimJ
  | VolumeSliceViewPlaneEnum.PARASAGITTAL => some volumeFile.dimI

/-- The second `switch` of the loop body of `drawOrthogonalSlice`: `none` when
the body executes `continue`, otherwise the local `numVoxelsInSlice`. -/
def numVoxelsInSliceOrContinue (sliceViewPlane : VolumeSliceViewPlaneEnum)
    (selectedSliceCoordinate : ℚ) (volumeFile : VolumeMappableInterface) : Option Int :=
  let sliceIndex := sliceIndexForDrawing sliceViewPlane selectedSliceCoordinate volumeFile
  match sliceViewPlane with
  | VolumeSliceViewPlaneEnum.ALL => some 0
  | VolumeSliceViewPlaneEnum.AXIAL =>
    if sliceIndex < 0 ∨ sliceIndex ≥ volumeFile.dimK then none
    else some (volumeFile.dimI * volumeFile.dimJ)
  | VolumeSliceViewPlaneEnum.CORONAL =>
    if sliceIndex < 0 ∨ sliceIndex ≥ volumeFile.dimJ then none
    else some (volumeFile.dimI * volumeFile.dimK)
  | VolumeSliceViewPlaneEnum.PARASAGITTAL =>
    if sliceIndex < 0 ∨ sliceIndex ≥ volumeFile.dimI then none
    else some (volumeFile.dimJ * volumeFile.dimK)

/-- The local `volumeDrawingOpacity` of `drawOrthogonalSlice`:
`static_cast<int8_t>(opacity * 255.0)` stored in a `uint8_t`; a value above 127
wraps in the `int8_t` and comes back as itself in the `uint8_t`. -/
def volumeDrawingOpacity (opacity : ℚ) : Nat := toUInt8 (toInt8 (truncToInt (opacity * 255)))

/-- The locals `startCoordinate`, `rowStep`, `columnStep`, `numberOfRows` and
`numberOfColumns` of `drawOrthogonalSlice`, in this order. -/
def orthogonalSliceSetup (ctx : DrawingContext) (sliceViewPlane : VolumeSliceViewPlaneEnum)
    (volumeFile : VolumeMappableInterface) : Vec3 × Vec3 × Vec3 × Int × Int :=
  let origin := volumeFile.indexToSpace 0 0 0
  let p1 := volumeFile.indexToSpace 1 1 1
  let voxelStepX := p1.x - origin.x
  let voxelStepY := p1.y - origin.y
  let voxelStepZ := p1.z - origin.z
  let startCoordinate : Vec3 :=
    ⟨origin.x - voxelStepX / 2, origin.y - voxelStepY / 2, origin.z - voxelStepZ / 2⟩
  match sliceViewPlane with
  | VolumeSliceViewPlaneEnum.ALL => (startCoordinate, ⟨0, 0, 0⟩, ⟨0, 0, 0⟩, 0, 0)
  | VolumeSliceViewPlaneEnum.AXIAL =>
    ({ startCoordinate with z := ctx.m_browserTabContent.getSliceCoordinateAxial },
      ⟨0, voxelStepY, 0⟩, ⟨voxelStepX, 0, 0⟩, volumeFile.dimJ, volumeFile.dimI)
  | VolumeSliceViewPlaneEnum.CORONAL =>
    ({ startCoordinate with y := ctx.m_browserTabContent.getSliceCoordinateCoronal },
      ⟨0, 0, voxelStepZ⟩, ⟨voxelStepX, 0, 0⟩, volumeFile.dimK, volumeFile.dimI)
  | VolumeSliceViewPlaneEnum.PARASAGITTAL =>
    ({ startCoordinate with x := ctx.m_browserTabContent.getSliceCoordinateParasagittal },
      ⟨0, 0, voxelStepZ⟩, ⟨0, voxelStepY, 0⟩, volumeFile.dimK, volumeFile.dimJ)

/-- The local `selectedSliceIndices` of `drawOrthogonalSlice` (parasagittal,
coronal, axial), with the override for the montage. -/
def orthogonalSelectedSliceIndices (ctx : DrawingContext)
    (sliceViewPlane : VolumeSliceViewPlaneEnum) (volumeFile : VolumeMappableInterface)
    (sliceIndex : Int) : Int × Int × Int :=
  let selectedSliceIndices : Int × Int × Int :=
    (ctx.m_browserTabContent.getSliceIndexParasagittal volumeFile,
      ctx.m_browserTabContent.getSliceIndexCoronal volumeFile,
      ctx.m_browserTabContent.getSliceIndexAxial volumeFile)
  match ctx.m_sliceViewMode with
  | VolumeSliceViewModeEnum.MONTAGE =>
    match sliceViewPlane with
    | VolumeSliceViewPlaneEnum.ALL => selectedSliceIndices
    | VolumeSliceViewPlaneEnum.AXIAL =>
      (selectedSliceIndices.1, selectedSliceIndices.2.1, sliceIndex)
    | VolumeSliceViewPlaneEnum.CORONAL =>
      (selectedSliceIndices.1, sliceIndex, selectedSliceIndices.2.2)
    | VolumeSliceViewPlaneEnum.PARASAGITTAL =>
      (sliceIndex, selectedSliceIndices.2.1, selectedSliceIndices.2.2)
  | VolumeSliceViewModeEnum.OBLIQUE => selectedSliceIndices
  | VolumeSliceViewModeEnum.ORTHOGONAL => selectedSliceIndices

/-- The body of the loop over the overlays of `drawOrthogonalSlice` for overlay
`iVol`; the second component of the state is the vector `sliceVoxelsRgbaVector`. -/
def drawOrthogonalSliceOverlay (ctx : DrawingContext) (drawMode : DRAW_MODE)
    (sliceViewPlane : VolumeSliceViewPlaneEnum) (sliceNormalVector : Vec3)
    (selectedSliceCoordinate : ℚ) (iVol : Nat) (volInfo : VolumeDrawInfo)
    (s : DrawingState × List Nat) : DrawingState × List Nat :=
  let volumeFile := volInfo.volumeFile
  let mapIndex := volInfo.mapIndex
  let sliceIndex := sliceIndexForDrawing sliceViewPlane selectedSliceCoordinate volumeFile
  match numVoxelsInSliceOrContinue sliceViewPlane selectedSliceCoordinate volumeFile with
  | none => s
  | some numVoxelsInSlice =>
    let numVoxelsInSliceRGBA := numVoxelsInSlice * 4
    let sliceVoxelsRgbaVector := resizeIfLarger s.2 numVoxelsInSliceRGBA
    let sliceVoxelsRgbaVector := writeBytes sliceVoxelsRgbaVector numVoxelsInSliceRGBA.toNat
      (volumeFile.getVoxelColorsForSliceInMap mapIndex sliceViewPlane sliceIndex)
    let st : DrawingState :=
      { s.1 with
        events := s.1.events ++ [Event.getVoxelColorsForSliceInMap iVol mapIndex sliceIndex] }
    let outlined : DrawingState × List Nat :=
      if volumeFile.isMappedWithLabelTable && ctx.isOutlineMode then
        let dims : Int × Int :=
          match sliceViewPlane with
          | VolumeSliceViewPlaneEnum.ALL => (0, 0)
          | VolumeSliceViewPlaneEnum.AXIAL => (volumeFile.dimI, volumeFile.dimJ)
          | VolumeSliceViewPlaneEnum.CORONAL => (volumeFile.dimI, volumeFile.dimK)
          | VolumeSliceViewPlaneEnum.PARASAGITTAL => (volumeFile.dimJ, volumeFile.dimK)
        ({ st with
            events := st.events ++ [Event.convertSliceColoringToOutlineMode dims.1 dims.2] },
          writeBytes sliceVoxelsRgbaVector (4 * dims.1 * dims.2).toNat
            (ctx.convertSliceColoringToOutlineMode sliceVoxelsRgbaVector dims.1 dims.2))
      else (st, sliceVoxelsRgbaVector)
    let selectedSliceIndices :=
      orthogonalSelectedSliceIndices ctx sliceViewPlane volumeFile sliceIndex
    let setup := orthogonalSliceSetup ctx sliceViewPlane volumeFile
    let st : DrawingState :=
      if drawMode = DRAW_MODE.DRAW_MODE_ALL_STRUCTURES_VIEW ∧ iVol > 0 then
        { outlined.1 with
          events := outlined.1.events
            ++ [Event.glEnablePolygonOffsetFill, Event.glPolygonOffset (-1) (-1)] }
      else outlined.1
    let st := drawOrthogonalSliceVoxels ctx st sliceViewPlane sliceNormalVector
      selectedSliceIndices setup.1 setup.2.1 setup.2.2.1 setup.2.2.2.2 setup.2.2.2.1
      outlined.2 (iVol : Int) (toInt32 mapIndex) (volumeDrawingOpacity volInfo.opacity)
    ({ st with events := st.events ++ [Event.glDisablePolygonOffsetFill] }, outlined.2)

/-- The loop `for (iVol = 0; iVol < numberOfVolumesToDraw; iVol++)` of
`drawOrthogonalSlice`, from overlay `iVol` on. -/
def drawOrthogonalSliceLoop (ctx : DrawingContext) (drawMode : DRAW_MODE)
    (sliceViewPlane : VolumeSliceViewPlaneEnum) (sliceNormalVector : Vec3)
    (selectedSliceCoordinate : ℚ) :
    Nat → List VolumeDrawInfo → DrawingState × List Nat → DrawingState × List Nat
  | _, [], s => s
  | iVol, volInfo :: rest, s =>
    drawOrthogonalSliceLoop ctx drawMode sliceViewPlane sliceNormalVector
      selectedSliceCoordinate (iVol + 1) rest
      (drawOrthogonalSliceOverlay ctx drawMode sliceViewPlane sliceNormalVector
        selectedSliceCoordinate iVol volInfo s)

/-- The local `selectedSliceCoordinate` of `drawOrthogonalSlice`, with the
override for the montage. -/
def orthogonalSelectedSliceCoordinate (ctx : DrawingContext)
    (sliceViewPlane : VolumeSliceViewPlaneEnum) (montageSliceIndex : Int) : ℚ :=
  let selectedSliceCoordinate : ℚ :=
    match sliceViewPlane with
    | VolumeSliceViewPlaneEnum.ALL => 0
    | VolumeSliceViewPlaneEnum.AXIAL => ctx.m_browserTabContent.getSliceCoordinateAxial
    | VolumeSliceViewPlaneEnum.CORONAL => ctx.m_browserTabContent.getSliceCoordinateCoronal
    | VolumeSliceViewPlaneEnum.PARASAGITTAL =>
      ctx.m_browserTabContent.getSliceCoordinateParasagittal
  match ctx.m_sliceViewMode with
  | VolumeSliceViewModeEnum.MONTAGE =>
    match ctx.m_volumeDrawInfo.head? with
    | some info0 =>
      let montXYZ :=
        info0.volumeFile.indexToSpace montageSliceIndex montageSliceIndex montageSliceIndex
      match sliceViewPlane with
      | VolumeSliceViewPlaneEnum.ALL => selectedSliceCoordinate
      | VolumeSliceViewPlaneEnum.AXIAL => montXYZ.z
      | VolumeSliceViewPlaneEnum.CORONAL => montXYZ.y
      | VolumeSliceViewPlaneEnum.PARASAGITTAL => montXYZ.x
    | none => selectedSliceCoordinate
  | VolumeSliceViewModeEnum.OBLIQUE => selectedSliceCoordinate
  | VolumeSliceViewModeEnum.ORTHOGONAL => selectedSliceCoordinate

/-- The method `drawOrthogonalSlice`. -/
def drawOrthogonalSlice (ctx : DrawingContext) (st : DrawingState) (drawMode : DRAW_MODE)
    (sliceViewPlane : VolumeSliceViewPlaneEnum) (plane : Plane) (montageSliceIndex : Int) :
    DrawingState :=
  let st : DrawingState :=
    { st with
      events := st.events ++ [Event.glEnableBlend, Event.glBlendFuncSrcAlphaOneMinusSrcAlpha,
        Event.glShadeModelFlat] }
  let sliceNormalVector := plane.m_normalVector
  let selectedSliceCoordinate :=
    orthogonalSelectedSliceCoordinate ctx sliceViewPlane montageSliceIndex
  let s := drawOrthogonalSliceLoop ctx drawMode sliceViewPlane sliceNormalVector
    selectedSliceCoordinate 0 ctx.m_volumeDrawInfo (st, [])
  { s.1 with events := s.1.events ++ [Event.glDisableBlend, Event.glShadeModelSmooth] }

/-! ## Oblique slices -/

/-- The class `VoxelToDraw`: one cell of the grid on the oblique plane. -/
structure VoxelToDraw where
  m_center : Vec3
  /-- The twelve coordinates of the four corners. -/
  m_coordinates : List ℚ
  m_sliceIndices : List Int
  m_sliceOffsets : List Int
deriving DecidableEq

/-- The constructor `VoxelToDraw::VoxelToDraw`. -/
def VoxelToDraw.create (center leftBottom rightBottom rightTop leftTop : Vec3) : VoxelToDraw :=
  { m_center := center
    m_coordinates := leftBottom.toList ++ rightBottom.toList ++ rightTop.toList ++ leftTop.toList
    m_sliceIndices := []
    m_sliceOffsets := [] }

/-- The method `VoxelToDraw::addVolumeValue`. -/
def VoxelToDraw.addVolumeValue (v : VoxelToDraw) (sliceIndex sliceOffset : Int) : VoxelToDraw :=
  { v with
    m_sliceIndices := v.m_sliceIndices ++ [sliceIndex]
    m_sliceOffsets := v.m_sliceOffsets ++ [sliceOffset] }

/-- The class `VolumeSlice`: the values sampled from one overlay and their colours. -/
structure VolumeSlice where
  m_volumeMappableInterface : VolumeMappableInterface
  m_mapIndex : Int
  m_values : List ℚ
  m_rgba : List Nat

/-- The constructor `VolumeSlice::VolumeSlice` (the reservation changes the capacity only). -/
def VolumeSlice.create (volumeMappableInterface : VolumeMappableInterface) (mapIndex : Int) :
    VolumeSlice :=
  { m_volumeMappableInterface := volumeMappableInterface
    m_mapIndex := mapIndex
    m_values := []
    m_rgba := [] }

/-- The method `VolumeSlice::addValue`: the index returned and the slice after the call. -/
def VolumeSlice.addValue (v : VolumeSlice) (value : ℚ) : Int × VolumeSlice :=
  ((v.m_values.length : Int), { v with m_values := v.m_values ++ [value] })

/-- The method `VolumeSlice::getRgbaForValueByIndex`: the four bytes at `&m_rgba[indx*4]`. -/
def VolumeSlice.getRgbaForValueByIndex (v : VolumeSlice) (indx : Int) : Rgba :=
  ⟨readByte v.m_rgba (indx * 4), readByte v.m_rgba (indx * 4 + 1),
    readByte v.m_rgba (indx * 4 + 2), readByte v.m_rgba (indx * 4 + 3)⟩

/-- The method `VolumeSlice::allocateColors`: `m_rgba.resize(m_values.size() * 4)`. -/
def VolumeSlice.allocateColors (v : VolumeSlice) : VolumeSlice :=
  { v with
    m_rgba := (v.m_rgba ++ List.replicate (v.m_values.length * 4 - v.m_rgba.length) 0).take
      (v.m_values.length * 4) }

/-- The value and validity flag of overlay `iVol` at the centre of a cell, as
taken in the loop over the overlays of `drawObliqueSlice`
(`useInterpolatedVoxel` is the constant `true`). -/
def obliqueSampleVolume (ctx : DrawingContext) (iVol : Nat) (vdi : VolumeDrawInfo)
    (voxelCenter : Vec3) : ℚ × Bool :=
  let volInter := vdi.volumeFile
  let isPaletteMappedVolumeFile : Bool := volInter.isVolumeFile && volInter.isMappedWithPalette
  if isPaletteMappedVolumeFile then
    volInter.interpolateValue voxelCenter vdi.mapIndex
  else if volInter.isCiftiMappableDataFile then
    let voxelOffset := volInter.getMapDataOffsetForVoxelAtCoordinate voxelCenter vdi.mapIndex
    if voxelOffset ≥ 0 then
      (((ctx.m_ciftiMappableFileData.getD iVol []).getD voxelOffset.toNat 0), true)
    else (0, false)
  else
    volInter.getVoxelValue voxelCenter vdi.mapIndex

/-- The loop over the overlays at one cell of `drawObliqueSlice`, from overlay
`iVol` on: the volume slices after the loop and the cell record
`voxelDrawingInfo`, if one was created. -/
def obliqueSampleVolumes (ctx : DrawingContext)
    (voxelCenter bottomLeftVoxelCoord bottomRightVoxelCoord topRightVoxelCoord
      topLeftVoxelCoord : Vec3) :
    Nat → List VolumeDrawInfo → List VolumeSlice → Option VoxelToDraw →
      List VolumeSlice × Option VoxelToDraw
  | _, [], volumeSlices, voxelDrawingInfo => (volumeSlices, voxelDrawingInfo)
  | _, _ :: _, [], voxelDrawingInfo => ([], voxelDrawingInfo)
  | iVol, vdi :: vdis, volumeSlice :: volumeSlices, voxelDrawingInfo =>
    let sample := obliqueSampleVolume ctx iVol vdi voxelCenter
    if sample.2 then
      let info : VoxelToDraw :=
        match voxelDrawingInfo with
        | none => VoxelToDraw.create voxelCenter bottomLeftVoxelCoord bottomRightVoxelCoord
            topRightVoxelCoord topLeftVoxelCoord
        | some v => v
      let added := volumeSlice.addValue sample.1
      let r := obliqueSampleVolumes ctx voxelCenter bottomLeftVoxelCoord bottomRightVoxelCoord
        topRightVoxelCoord topLeftVoxelCoord (iVol + 1) vdis volumeSlices
        (some (info.addVolumeValue iVol added.1))
      (added.2 :: r.1, r.2)
    else
      let r := obliqueSampleVolumes ctx voxelCenter bottomLeftVoxelCoord bottomRightVoxelCoord
        topRightVoxelCoord topLeftVoxelCoord (iVol + 1) vdis volumeSlices voxelDrawingInfo
      (volumeSlice :: r.1, r.2)

/-- The sum of two vectors. -/
def Vec3.add (a b : Vec3) : Vec3 := ⟨a.x + b.x, a.y + b.y, a.z + b.z⟩

/-- The difference of two vectors. -/
def Vec3.sub (a b : Vec3) : Vec3 := ⟨a.x - b.x, a.y - b.y, a.z - b.z⟩

/-- The product of a vector with a scalar. -/
def Vec3.scale (k : ℚ) (a : Vec3) : Vec3 := ⟨k * a.x, k * a.y, k * a.z⟩

/-- The loop `for (i = 0; i < numVoxelsInRow; i++)` over the cells of one row of
`drawObliqueSlice`, with `fuel` iterations left; the state is the volume slices
and the vector `voxelsToDraw`. -/
def obliqueRowCells (ctx : DrawingContext) (bottomVoxelEdgeD topVoxelEdgeD : Vec3) :
    Nat → Vec3 → Vec3 → List VolumeSlice × List VoxelToDraw →
      List VolumeSlice × List VoxelToDraw
  | 0, _, _, s => s
  | fuel + 1, bottomLeftVoxelCoord, topLeftVoxelCoord, s =>
    let topRightVoxelCoord := topLeftVoxelCoord.add topVoxelEdgeD
    let voxelCenter := Vec3.scale (1 / 2) (bottomLeftVoxelCoord.add topRightVoxelCoord)
    let bottomRightVoxelCoord := bottomLeftVoxelCoord.add bottomVoxelEdgeD
    let r := obliqueSampleVolumes ctx voxelCenter bottomLeftVoxelCoord bottomRightVoxelCoord
      topRightVoxelCoord topLeftVoxelCoord 0 ctx.m_volumeDrawInfo s.1 none
    obliqueRowCells ctx bottomVoxelEdgeD topVoxelEdgeD fuel
      (bottomLeftVoxelCoord.add bottomVoxelEdgeD) (topLeftVoxelCoord.add topVoxelEdgeD)
      (r.1, s.2 ++ r.2.toList)

/-- The local `numVoxelsInRow` of `drawObliqueSlice` for a row whose bottom edge
has the given length. -/
def numVoxelsInRow (ctx : DrawingContext) (voxelSize bottomVoxelEdgeDistance : ℚ) : Int :=
  ctx.round (bottomVoxelEdgeDistance / voxelSize)

/-- The body of the loop over the rows of `drawObliqueSlice` for the row at
distance `dLeft` along the left edge and `dRight` along the right edge. -/
def obliqueRow (ctx : DrawingContext) (voxelSize : ℚ) (bottomLeft bottomRight : Vec3)
    (bottomLeftToTopLeftUnitVector bottomRightToTopRightUnitVector : Vec3)
    (bottomLeftToTopLeftStep bottomRightToTopRightStep : ℚ) (dLeft dRight : ℚ)
    (s : List VolumeSlice × List VoxelToDraw) : List VolumeSlice × List VoxelToDraw :=
  let leftEdgeBottomCoord := bottomLeft.add (Vec3.scale dLeft bottomLeftToTopLeftUnitVector)
  let rightEdgeBottomCoord :=
    bottomRight.add (Vec3.scale dRight bottomRightToTopRightUnitVector)
  let leftEdgeTopCoord :=
    bottomLeft.add (Vec3.scale (dLeft + bottomLeftToTopLeftStep) bottomLeftToTopLeftUnitVector)
  let rightEdgeTopCoord :=
    bottomRight.add
      (Vec3.scale (dRight + bottomRightToTopRightStep) bottomRightToTopRightUnitVector)
  let bottomVoxelEdgeDistance := ctx.distance3D leftEdgeBottomCoord rightEdgeBottomCoord
  let bottomEdgeUnitVector := ctx.createUnitVector leftEdgeBottomCoord rightEdgeBottomCoord
  let numVoxels := numVoxelsInRow ctx voxelSize bottomVoxelEdgeDistance
  let bottomEdgeVoxelSize := bottomVoxelEdgeDistance / numVoxels
  let bottomVoxelEdgeD := Vec3.scale bottomEdgeVoxelSize bottomEdgeUnitVector
  let topVoxelEdgeDistance := ctx.distance3D leftEdgeTopCoord rightEdgeTopCoord
  let topEdgeUnitVector := ctx.createUnitVector leftEdgeTopCoord rightEdgeTopCoord
  let topEdgeVoxelSize := topVoxelEdgeDistance / numVoxels
  let topVoxelEdgeD := Vec3.scale topEdgeVoxelSize topEdgeUnitVector
  obliqueRowCells ctx bottomVoxelEdgeD topVoxelEdgeD numVoxels.toNat leftEdgeBottomCoord
    leftEdgeTopCoord s

/-- The loop `for (tVertical = 0.0, dLeft = 0.0, dRight = 0.0; tVertical < 1.0; ...)`
over the rows of `drawObliqueSlice`, with `fuel` iterations left.  The counter
`tVertical`, whose test ends the loop, is a `double`: the sum of each
`tVertical += dtVertical` is rounded. -/
def obliqueRows (ctx : DrawingContext) (voxelSize : ℚ) (bottomLeft bottomRight : Vec3)
    (bottomLeftToTopLeftUnitVector bottomRightToTopRightUnitVector : Vec3)
    (bottomLeftToTopLeftStep bottomRightToTopRightStep dtVertical : ℚ) :
    Nat → ℚ → ℚ → ℚ → List VolumeSlice × List VoxelToDraw →
      List VolumeSlice × List VoxelToDraw
  | 0, _, _, _, s => s
  | fuel + 1, tVertical, dLeft, dRight, s =>
    if tVertical < 1 then
      obliqueRows ctx voxelSize bottomLeft bottomRight bottomLeftToTopLeftUnitVector
        bottomRightToTopRightUnitVector bottomLeftToTopLeftStep bottomRightToTopRightStep
        dtVertical fuel (ctx.roundDouble (tVertical + dtVertical))
        (dLeft + bottomLeftToTopLeftStep) (dRight + bottomRightToTopRightStep)
        (obliqueRow ctx voxelSize bottomLeft bottomRight bottomLeftToTopLeftUnitVector
          bottomRightToTopRightUnitVector bottomLeftToTopLeftStep bottomRightToTopRightStep
          dLeft dRight s)
    else s

/-- The screen bounds `minScreenX`, `maxScreenX`, `minScreenY`, `maxScreenY` of
`drawObliqueSlice` after the alignment to the voxels of the first overlay
(`alignVoxelsFlag` is the constant 1). -/
def obliqueScreenBounds (ctx : DrawingContext) (st : DrawingState)
    (sliceViewPlane : VolumeSliceViewPlaneEnum) (voxelSize : ℚ) : ℚ × ℚ × ℚ × ℚ :=
  let translation := ctx.m_browserTabContent.getTranslation
  let viewOffset : ℚ × ℚ :=
    match sliceViewPlane with
    | VolumeSliceViewPlaneEnum.ALL => (0, 0)
    | VolumeSliceViewPlaneEnum.AXIAL =>
      (st.m_lookAtCenter.x + translation.x, st.m_lookAtCenter.y + translation.y)
    | VolumeSliceViewPlaneEnum.CORONAL =>
      (st.m_lookAtCenter.x + translation.x, st.m_lookAtCenter.z + translation.z)
    | VolumeSliceViewPlaneEnum.PARASAGITTAL =>
      (st.m_lookAtCenter.y + translation.y, st.m_lookAtCenter.z + translation.z)
  let minScreenX := ctx.m_orthographicBounds.1 - viewOffset.1
  let maxScreenX := ctx.m_orthographicBounds.2.1 - viewOffset.1
  let minScreenY := ctx.m_orthographicBounds.2.2.1 - viewOffset.2
  let maxScreenY := ctx.m_orthographicBounds.2.2.2 - viewOffset.2
  let actualOrigin : Vec3 :=
    match ctx.m_volumeDrawInfo.head? with
    | some info0 =>
      let originIJK := info0.volumeFile.enclosingVoxel 0 0 0
      info0.volumeFile.indexToSpace originIJK.1 originIJK.2.1 originIJK.2.2
    | none => ⟨0, 0, 0⟩
  let offsets : ℚ × ℚ × ℚ × ℚ :=
    match sliceViewPlane with
    | VolumeSliceViewPlaneEnum.ALL => (0, 0, 0, 0)
    | VolumeSliceViewPlaneEnum.AXIAL =>
      (st.m_lookAtCenter.x, st.m_lookAtCenter.y, actualOrigin.x, actualOrigin.y)
    | VolumeSliceViewPlaneEnum.CORONAL =>
      (st.m_lookAtCenter.x, st.m_lookAtCenter.z, actualOrigin.x, actualOrigin.z)
    | VolumeSliceViewPlaneEnum.PARASAGITTAL =>
      (st.m_lookAtCenter.y, st.m_lookAtCenter.z, actualOrigin.y, actualOrigin.z)
  let screenOffsetX := offsets.1
  let screenOffsetY := offsets.2.1
  let xOffset := ctx.remainder screenOffsetX voxelSize
  let yOffset := ctx.remainder screenOffsetY voxelSize
  let originOffsetX := offsets.2.2.1 - xOffset
  let originOffsetY := offsets.2.2.2 - yOffset
  let numVoxelsToLeft :=
    truncToInt (ctx.roundQuotient ((ctx.round (minScreenX + originOffsetX) : ℚ) / voxelSize))
  let numVoxelsToRight :=
    truncToInt (ctx.roundQuotient ((ctx.round (maxScreenX + originOffsetX) : ℚ) / voxelSize))
  let numVoxelsToBottom :=
    truncToInt (ctx.roundQuotient ((ctx.round (minScreenY + originOffsetY) : ℚ) / voxelSize))
  let numVoxelsToTop :=
    truncToInt (ctx.roundQuotient ((ctx.round (maxScreenY + originOffsetY) : ℚ) / voxelSize))
  let halfVoxel := voxelSize / 2
  let firstVoxelCenterX := numVoxelsToLeft * voxelSize + originOffsetX
  let lastVoxelCenterX := numVoxelsToRight * voxelSize + originOffsetX
  let firstVoxelCenterY := numVoxelsToBottom * voxelSize + originOffsetY
  let lastVoxelCenterY := numVoxelsToTop * voxelSize + originOffsetY
  (firstVoxelCenterX - halfVoxel, lastVoxelCenterX + halfVoxel,
    firstVoxelCenterY - halfVoxel, lastVoxelCenterY + halfVoxel)

/-- The corners `bottomLeft`, `bottomRight`, `topRight`, `topLeft` of the
screen in model coordinates in `drawObliqueSlice` (the plane `ALL`, for which
the source asserts and leaves the corners unset, gives zero corners here). -/
def obliqueCorners (sliceViewPlane : VolumeSliceViewPlaneEnum) (screen : ℚ × ℚ × ℚ × ℚ)
    (transformationMatrix : Matrix4x4) : Vec3 × Vec3 × Vec3 × Vec3 :=
  let minScreenX := screen.1
  let maxScreenX := screen.2.1
  let minScreenY := screen.2.2.1
  let maxScreenY := screen.2.2.2
  let corners : Vec3 × Vec3 × Vec3 × Vec3 :=
    match sliceViewPlane with
    | VolumeSliceViewPlaneEnum.ALL => (⟨0, 0, 0⟩, ⟨0, 0, 0⟩, ⟨0, 0, 0⟩, ⟨0, 0, 0⟩)
    | VolumeSliceViewPlaneEnum.AXIAL =>
      (⟨minScreenX, minScreenY, 0⟩, ⟨maxScreenX, minScreenY, 0⟩, ⟨maxScreenX, maxScreenY, 0⟩,
        ⟨minScreenX, maxScreenY, 0⟩)
    | VolumeSliceViewPlaneEnum.CORONAL =>
      (⟨minScreenX, 0, minScreenY⟩, ⟨maxScreenX, 0, minScreenY⟩, ⟨maxScreenX, 0, maxScreenY⟩,
        ⟨minScreenX, 0, maxScreenY⟩)
    | VolumeSliceViewPlaneEnum.PARASAGITTAL =>
      (⟨0, minScreenX, minScreenY⟩, ⟨0, maxScreenX, minScreenY⟩, ⟨0, maxScreenX, maxScreenY⟩,
        ⟨0, minScreenX, maxScreenY⟩)
  (transformationMatrix.multiplyPoint3 corners.1, transformationMatrix.multiplyPoint3 corners.2.1,
    transformationMatrix.multiplyPoint3 corners.2.2.1,
    transformationMatrix.multiplyPoint3 corners.2.2.2)

/-- The traversal of `drawObliqueSlice`: the volume slices with the sampled
values and the vector `voxelsToDraw`.  The `double`s `dtVertical` and
`tVertical` of the header of the row loop are rounded.  The row loop is given
`2 * ⌈1 / dtVertical⌉ + 1` iterations, twice as many as it makes in exact
arithmetic and one more: they are enough whenever a sum `tVertical +=
dtVertical` below 1, rounded, adds at least half of `dtVertical`, as the sum of
two `double`s does for every `dtVertical` between `2^-52` and 1. -/
def obliqueTraversal (ctx : DrawingContext) (st : DrawingState)
    (sliceViewPlane : VolumeSliceViewPlaneEnum) (transformationMatrix : Matrix4x4)
    (voxelSize : ℚ) : List VolumeSlice × List VoxelToDraw :=
  let corners := obliqueCorners sliceViewPlane
    (obliqueScreenBounds ctx st sliceViewPlane voxelSize) transformationMatrix
  let bottomLeft := corners.1
  let bottomRight := corners.2.1
  let topRight := corners.2.2.1
  let topLeft := corners.2.2.2
  let bottomLeftToTopLeftUnitVector := ctx.normalizeVector (topLeft.sub bottomLeft)
  let bottomLeftToTopLeftDistance := ctx.distance3D bottomLeft topLeft
  let bottomRightToTopRightUnitVector := ctx.normalizeVector (topRight.sub bottomRight)
  let bottomRightToTopRightDistance := ctx.distance3D bottomRight topRight
  let volumeSlices : List VolumeSlice :=
    ctx.m_volumeDrawInfo.map
      (fun info => VolumeSlice.create info.volumeFile (toInt32 info.mapIndex))
  if bottomLeftToTopLeftDistance > 0 ∧ bottomRightToTopRightDistance > 0 then
    let bottomLeftToTopLeftStep := voxelSize
    let numLeftSteps := bottomLeftToTopLeftDistance / bottomLeftToTopLeftStep
    let bottomRightToTopRightStep := bottomRightToTopRightDistance / numLeftSteps
    let dtVertical := ctx.roundDouble (bottomLeftToTopLeftStep / bottomLeftToTopLeftDistance)
    obliqueRows ctx voxelSize bottomLeft bottomRight bottomLeftToTopLeftUnitVector
      bottomRightToTopRightUnitVector bottomLeftToTopLeftStep bottomRightToTopRightStep
      dtVertical (2 * Int.toNat ⌈1 / dtVertical⌉ + 1) 0 0 0 (volumeSlices, [])
  else (volumeSlices, [])

/-- The body of the loop "Color voxel values" of `drawObliqueSlice` for overlay `i`. -/
def obliqueColorVolume (i : Nat) (volumeSlice : VolumeSlice) (events : List Event) :
    VolumeSlice × List Event :=
  let numValues := volumeSlice.m_values.length
  if numValues > 0 then
    let allocated := volumeSlice.allocateColors
    let mappableFile := allocated.m_volumeMappableInterface
    let mapIndex := allocated.m_mapIndex
    if mappableFile.isMappedWithPalette then
      if mappableFile.paletteFound mapIndex then
        ({ allocated with
            m_rgba := writeBytes allocated.m_rgba (4 * numValues)
              (mappableFile.colorScalarsWithPalette mapIndex allocated.m_values) },
          events ++ [Event.colorScalarsWithPalette i numValues])
      else (allocated, events ++ [Event.logWarningMissingPalette i])
    else if mappableFile.isMappedWithLabelTable then
      ({ allocated with
          m_rgba := writeBytes allocated.m_rgba (4 * numValues)
            (mappableFile.colorIndicesWithLabelTable mapIndex allocated.m_values) },
        events ++ [Event.colorIndicesWithLabelTable i numValues])
    else (allocated, events)
  else (volumeSlice, events)

/-- The loop "Color voxel values" of `drawObliqueSlice`, from overlay `i` on. -/
def obliqueColorVolumes : Nat → List VolumeSlice → List Event → List VolumeSlice × List Event
  | _, [], events => ([], events)
  | i, volumeSlice :: rest, events =>
    let c := obliqueColorVolume i volumeSlice events
    let r := obliqueColorVolumes (i + 1) rest c.2
    (c.1 :: r.1, r.2)

/-- The body of the loop over the linked entries of a cell in the compositing
of `drawObliqueSlice`: the state and the local `voxelRGBA` after the entry
`(sliceIndex, voxelOffset)`. -/
def obliqueCompositeEntry (ctx : DrawingContext) (volumeSlices : List VolumeSlice)
    (vtd : VoxelToDraw) (s : DrawingState × Rgba) (entry : Int × Int) : DrawingState × Rgba :=
  let sliceIndex := entry.1
  let voxelOffset := entry.2
  match volumeSlices[sliceIndex.toNat]? with
  | none => s
  | some volumeSlice =>
    let rgba := volumeSlice.getRgbaForValueByIndex voxelOffset
    if rgba.a > 0 then
      let voxelRGBA := rgba
      if s.1.m_identificationModeFlag then
        let volMap := volumeSlice.m_volumeMappableInterface
        let ijk := volMap.enclosingVoxel vtd.m_center.x vtd.m_center.y vtd.m_center.z
        if volMap.indexValid ijk.1 ijk.2.1 ijk.2.2 then
          addVoxelToIdentification ctx s.1 sliceIndex volumeSlice.m_mapIndex
            (toInt32 ijk.1) (toInt32 ijk.2.1) (toInt32 ijk.2.2) voxelRGBA
        else (s.1, voxelRGBA)
      else (s.1, voxelRGBA)
    else s

/-- The local `voxelRGBA` of a cell after the loop over its linked entries,
with the state after the identification records were added. -/
def obliqueCompositeVoxelRgba (ctx : DrawingContext) (volumeSlices : List VolumeSlice)
    (vtd : VoxelToDraw) (st : DrawingState) : DrawingState × Rgba :=
  (vtd.m_sliceIndices.zip vtd.m_sliceOffsets).foldl (obliqueCompositeEntry ctx volumeSlices vtd)
    (st, ⟨0, 0, 0, 0⟩)

/-- The body of the compositing loop of `drawObliqueSlice` for one cell.  The
three vectors are written at running offsets and cut to these offsets after
the loop, which is an append. -/
def obliqueCompositeVoxel (ctx : DrawingContext) (volumeSlices : List VolumeSlice)
    (sliceNormalVector : Vec3) (s : DrawingState × QuadBuffers) (vtd : VoxelToDraw) :
    DrawingState × QuadBuffers :=
  let c := obliqueCompositeVoxelRgba ctx volumeSlices vtd s.1
  let voxelRGBA := c.2
  if voxelRGBA.a > 0 then
    (c.1,
      { rgba := s.2.rgba
          ++ (voxelRGBA.toList ++ voxelRGBA.toList ++ voxelRGBA.toList ++ voxelRGBA.toList)
        normals := s.2.normals ++ (sliceNormalVector.toList ++ sliceNormalVector.toList
          ++ sliceNormalVector.toList ++ sliceNormalVector.toList)
        coordinates := s.2.coordinates ++ vtd.m_coordinates.take 12 })
  else (c.1, s.2)

/-- The compositing loop of `drawObliqueSlice` over the vector `voxelsToDraw`. -/
def obliqueComposite (ctx : DrawingContext) (volumeSlices : List VolumeSlice)
    (sliceNormalVector : Vec3) (voxelsToDraw : List VoxelToDraw) (st : DrawingState) :
    DrawingState × QuadBuffers :=
  voxelsToDraw.foldl (obliqueCompositeVoxel ctx volumeSlices sliceNormalVector)
    (st, ⟨[], [], []⟩)

/-- The part of `drawObliqueSlice` after the step size is known: traversal,
colouring, compositing and drawing. -/
def drawObliqueSliceWithVoxelSize (ctx : DrawingContext) (st : DrawingState)
    (sliceViewPlane : VolumeSliceViewPlaneEnum) (plane : Plane)
    (transformationMatrix : Matrix4x4) (zoom : ℚ) (voxelSize : ℚ) : DrawingState :=
  let t := obliqueTraversal ctx st sliceViewPlane transformationMatrix voxelSize
  let colored := obliqueColorVolumes 0 t.1 st.events
  let st : DrawingState := { st with events := colored.2 }
  let c := obliqueComposite ctx colored.1 plane.m_normalVector t.2 st
  if c.2.coordinates.isEmpty = false then
    { c.1 with
      events := c.1.events ++ [Event.glPushMatrix, Event.glScalef zoom zoom zoom,
        Event.drawQuads c.2.coordinates c.2.normals c.2.rgba, Event.glPopMatrix] }
  else c.1

/-- The method `drawObliqueSlice`.  The arrays `voxelBounds` and `voxelSpacing`
are read only after `getVoxelCoordinateBoundsAndSpacing` has filled them. -/
def drawObliqueSlice (ctx : DrawingContext) (st : DrawingState)
    (sliceViewPlane : VolumeSliceViewPlaneEnum) (plane : Plane) (drawMode : DRAW_MODE)
    (transformationMatrix : Matrix4x4) (zoom : ℚ) : DrawingState :=
  let r := getVoxelCoordinateBoundsAndSpacing ctx.m_volumeDrawInfo ⟨0, 0, 0, 0, 0, 0⟩ ⟨0, 0, 0⟩
  if r.1 = false then st
  else
    drawObliqueSliceWithVoxelSize ctx st sliceViewPlane plane transformationMatrix zoom
      (obliqueVoxelSize drawMode r.2.2)

/-! ## The slice views -/

/-- The enumeration `BrainOpenGLFixedPipeline::Mode`. -/
inductive Mode where
  | MODE_DRAWING
  | MODE_IDENTIFICATION
  | MODE_PROJECTION
deriving DecidableEq

/-- The `int viewport[4]` of a view: x, y, width, height. -/
structure Viewport where
  x : Int
  y : Int
  width : Int
  height : Int
deriving DecidableEq

/-- The queries that `draw` and the slice views make to the fixed pipeline, to
the browser tab (beyond those of `BrowserTabContent` above), to the preferences,
to the selection manager, to OpenGL and to the overlay files. -/
structure DrawCollaborators where
  /-- The member `m_fixedPipelineDrawing->mode`. -/
  mode : Mode
  orthographicLeft : ℚ
  orthographicRight : ℚ
  orthographicBottom : ℚ
  orthographicTop : ℚ
  /-- Result of `voxelID->isEnabledForSelection()`. -/
  isEnabledForSelection : Bool
  /-- Result of `glIsEnabled(GL_CULL_FACE)`. -/
  cullFaceOn : Bool
  /-- Result of `getDisplayedVolumeModel() != NULL`. -/
  hasDisplayedVolumeModel : Bool
  /-- Result of `getDisplayedWholeBrainModel() != NULL`. -/
  hasDisplayedWholeBrainModel : Bool
  getSliceViewPlane : VolumeSliceViewPlaneEnum
  getScaling : ℚ
  getMontageNumberOfRows : Int
  getMontageNumberOfColumns : Int
  getMontageSliceSpacing : Int
  isSliceAxialEnabled : Bool
  isSliceCoronalEnabled : Bool
  isSliceParasagittalEnabled : Bool
  getVolumeMontageGap : Int
  isVolumeMontageAxesCoordinatesDisplayed : Bool
  isVolumeAxesLabelsDisplayed : Bool
  /-- Result of `getVoxelSpaceBoundingBox` of an overlay file. -/
  getVoxelSpaceBoundingBox : VolumeMappableInterface → Bounds6
  /-- The data that `CiftiMappableDataFile::getMapData` writes for a map of a file. -/
  getMapData : VolumeMappableInterface → Int → List ℚ

/-- The file-level constant `showAxesInAllSlicesViewBottomLeftFlag`. -/
def showAxesInAllSlicesViewBottomLeftFlag : Bool := true

/-- The state with further calls logged. -/
def DrawingState.log (st : DrawingState) (events : List Event) : DrawingState :=
  { st with events := st.events ++ events }

/-- The method `setOrthographicProjection`: the member `m_orthographicBounds`
(left, right, bottom, top) is set and the projection is loaded. -/
def setOrthographicProjection (col : DrawCollaborators) (ctx : DrawingContext)
    (st : DrawingState) (sliceViewPlane : VolumeSliceViewPlaneEnum) (viewport : Viewport) :
    DrawingContext × DrawingState :=
  let boundingBox : Bounds6 :=
    match ctx.m_volumeDrawInfo.head? with
    | some info0 => col.getVoxelSpaceBoundingBox info0.volumeFile
    | none => ⟨0, 0, 0, 0, 0, 0⟩
  let model : ℚ × ℚ :=
    match sliceViewPlane with
    | VolumeSliceViewPlaneEnum.ALL =>
      if !showAxesInAllSlicesViewBottomLeftFlag then (boundingBox.maxY, boundingBox.minY)
      else (200, -200)
    | VolumeSliceViewPlaneEnum.AXIAL => (boundingBox.maxY, boundingBox.minY)
    | VolumeSliceViewPlaneEnum.CORONAL => (boundingBox.maxZ, boundingBox.minZ)
    | VolumeSliceViewPlaneEnum.PARASAGITTAL => (boundingBox.maxZ, boundingBox.minZ)
  let zoom := col.getScaling
  let scaleRatio : ℚ := if zoom > 0 then (1 / (98 / 100)) / zoom else 1 / (98 / 100)
  let modelTop := model.1 * scaleRatio
  let modelBottom := model.2 * scaleRatio
  let aspectRatio : ℚ := (viewport.width : ℚ) / (viewport.height : ℚ)
  let halfModelY := (modelTop - modelBottom) / 2
  let orthoBottom := modelBottom
  let orthoTop := modelTop
  let orthoRight := halfModelY * aspectRatio
  let orthoLeft := -halfModelY * aspectRatio
  ({ ctx with m_orthographicBounds := (orthoLeft, orthoRight, orthoBottom, orthoTop) },
    st.log [Event.glMatrixModeProjection, Event.glLoadIdentity,
      Event.glOrtho orthoLeft orthoRight orthoBottom orthoTop (-1000) 1000,
      Event.glMatrixModeModelview])

/-- The method `setVolumeSliceViewingAndModelingTransformations`: the camera is
set to look at the centre recorded by `createSlicePlaneEquation`. -/
def setVolumeSliceViewingAndModelingTransformations (ctx : DrawingContext)
    (st : DrawingState) (sliceViewPlane : VolumeSliceViewPlaneEnum) (plane : Plane) :
    DrawingState :=
  let selectedSlicesXYZ : Vec3 :=
    { x := ctx.m_browserTabContent.getSliceCoordinateParasagittal
      y := ctx.m_browserTabContent.getSliceCoordinateCoronal
      z := ctx.m_browserTabContent.getSliceCoordinateAxial }
  let userTranslation := ctx.m_browserTabContent.getTranslation
  let viewTranslation : ℚ × ℚ :=
    match sliceViewPlane with
    | VolumeSliceViewPlaneEnum.ALL =>
      (selectedSlicesXYZ.x + userTranslation.x, selectedSlicesXYZ.y + userTranslation.y)
    | VolumeSliceViewPlaneEnum.AXIAL =>
      (selectedSlicesXYZ.x + userTranslation.x, selectedSlicesXYZ.y + userTranslation.y)
    | VolumeSliceViewPlaneEnum.CORONAL =>
      (selectedSlicesXYZ.x + userTranslation.x, selectedSlicesXYZ.z + userTranslation.z)
    | VolumeSliceViewPlaneEnum.PARASAGITTAL =>
      (-(selectedSlicesXYZ.y + userTranslation.y), selectedSlicesXYZ.z + userTranslation.z)
  let planeNormal := plane.m_normalVector
  let cameraXYZ : Vec3 :=
    ⟨st.m_lookAtCenter.x + planeNormal.x * 1, st.m_lookAtCenter.y + planeNormal.y * 1,
      st.m_lookAtCenter.z + planeNormal.z * 1⟩
  let up : Vec3 :=
    match sliceViewPlane with
    | VolumeSliceViewPlaneEnum.ALL => ⟨0, 1, 0⟩
    | VolumeSliceViewPlaneEnum.AXIAL => ⟨0, 1, 0⟩
    | VolumeSliceViewPlaneEnum.CORONAL => ⟨0, 0, 1⟩
    | VolumeSliceViewPlaneEnum.PARASAGITTAL => ⟨0, 0, 1⟩
  let up : Vec3 :=
    if ctx.m_sliceViewMode = VolumeSliceViewModeEnum.OBLIQUE then
      ctx.m_browserTabContent.getObliqueVolumeRotationMatrix.multiplyPoint3 up
    else up
  st.log [Event.glMatrixModeModelview, Event.glLoadIdentity,
    Event.glTranslatef viewTranslation.1 viewTranslation.2 0, Event.glGetModelviewMatrix,
    Event.gluLookAt cameraXYZ st.m_lookAtCenter up]

/-- The `switch (m_sliceViewMode)` of `drawSliceForSliceView` that runs one of
the two rasterizers. -/
def drawSliceForSliceViewRasterize (ctx : DrawingContext) (st : DrawingState)
    (sliceViewPlane : VolumeSliceViewPlaneEnum) (drawMode : DRAW_MODE)
    (montageSliceIndex : Int) (slicePlane : Plane) (obliqueTransformationMatrix : Matrix4x4) :
    DrawingState :=
  match ctx.m_sliceViewMode with
  | VolumeSliceViewModeEnum.OBLIQUE =>
    drawObliqueSlice ctx st sliceViewPlane slicePlane drawMode obliqueTransformationMatrix 1
  | VolumeSliceViewModeEnum.MONTAGE =>
    drawOrthogonalSlice ctx st drawMode sliceViewPlane slicePlane montageSliceIndex
  | VolumeSliceViewModeEnum.ORTHOGONAL =>
    drawOrthogonalSlice ctx st drawMode sliceViewPlane slicePlane montageSliceIndex

/-- The part of `drawSliceForSliceView` from `resetIdentification()` on, which
is reached in drawing mode and in identification mode with the voxel
identification enabled. -/
def drawSliceForSliceViewFromReset (col : DrawCollaborators) (ctx : DrawingContext)
    (st : DrawingState) (sliceViewPlane : VolumeSliceViewPlaneEnum) (drawMode : DRAW_MODE)
    (montageSliceIndex : Int) (slicePlane : Plane) (obliqueTransformationMatrix : Matrix4x4) :
    DrawingState :=
  let st := resetIdentification st
  let cullFaceOn := col.cullFaceOn
  let st := st.log [Event.glDisableCullFace]
  let st := drawSliceForSliceViewRasterize ctx st sliceViewPlane drawMode montageSliceIndex
    slicePlane obliqueTransformationMatrix
  let st :=
    if !st.m_identificationModeFlag then
      if slicePlane.isValidPlane then st.log [Event.drawLayers sliceViewPlane drawMode] else st
    else st
  let st := st.log [Event.disableClippingPlanes]
  let st := if st.m_identificationModeFlag then st.log [Event.processIdentification] else st
  if cullFaceOn then st.log [Event.glEnableCullFace] else st

/-- The method `drawSliceForSliceView`. -/
def drawSliceForSliceView (col : DrawCollaborators) (ctx : DrawingContext) (st : DrawingState)
    (sliceViewPlane : VolumeSliceViewPlaneEnum) (drawMode : DRAW_MODE)
    (montageSliceIndex : Int) (viewport : Viewport) : DrawingContext × DrawingState :=
  let isDrawingSlice2D : Bool :=
    match drawMode with
    | DRAW_MODE.DRAW_MODE_ALL_STRUCTURES_VIEW => false
    | DRAW_MODE.DRAW_MODE_VOLUME_VIEW_SLICE_3D => false
    | DRAW_MODE.DRAW_MODE_VOLUME_VIEW_SLICE_SINGLE => true
  let isSetViewport := isDrawingSlice2D
  let st := if isDrawingSlice2D then st.log [Event.glMatrixModeModelview, Event.glLoadIdentity]
    else st
  let st :=
    if isSetViewport then
      st.log [Event.glViewport viewport.x viewport.y viewport.width viewport.height]
    else st
  let projected : DrawingContext × DrawingState :=
    if isDrawingSlice2D then setOrthographicProjection col ctx st sliceViewPlane viewport
    else (ctx, st)
  let ctx := projected.1
  let st := projected.2
  let planed := createSlicePlaneEquation ctx st sliceViewPlane montageSliceIndex
  let slicePlane := planed.1
  let st := planed.2
  if slicePlane.isValidPlane = false then (ctx, st)
  else
    let obliqueTransformationMatrix := createObliqueTransformationMatrix ctx
    let st :=
      if isDrawingSlice2D then
        setVolumeSliceViewingAndModelingTransformations ctx st sliceViewPlane slicePlane
      else st
    let st := st.log [Event.applyClippingPlanes]
    let st : DrawingState := { st with m_identificationModeFlag := false }
    match col.mode with
    | Mode.MODE_DRAWING =>
      (ctx, drawSliceForSliceViewFromReset col ctx st sliceViewPlane drawMode montageSliceIndex
        slicePlane obliqueTransformationMatrix)
    | Mode.MODE_IDENTIFICATION =>
      if col.isEnabledForSelection then
        let st : DrawingState := { st with m_identificationModeFlag := true }
        let st := st.log [Event.glClearColorAndDepth]
        (ctx, drawSliceForSliceViewFromReset col ctx st sliceViewPlane drawMode
          montageSliceIndex slicePlane obliqueTransformationMatrix)
      else (ctx, st)
    | Mode.MODE_PROJECTION => (ctx, st)

/-- The loop `while (sliceIndex >= 0)` of `drawSliceMontage` that finds the
first valid slice of the montage, with `fuel` iterations left. -/
def montageFirstValidSlice (maximumSliceIndex sliceStep : Int) : Nat → Int → Int
  | 0, sliceIndex => sliceIndex
  | fuel + 1, sliceIndex =>
    if sliceIndex ≥ 0 then
      if sliceIndex < maximumSliceIndex then sliceIndex
      else montageFirstValidSlice maximumSliceIndex sliceStep fuel (sliceIndex - sliceStep)
    else sliceIndex

/-- The body of the two nested loops of `drawSliceMontage` for row `i` and
column `j`; the state is the context, the drawing state and the local `sliceIndex`. -/
def drawSliceMontageCell (col : DrawCollaborators) (viewport : Viewport)
    (slicePlane : VolumeSliceViewPlaneEnum) (maximumSliceIndex sliceStep : Int)
    (sliceOrigin sliceThickness : ℚ) (numRows vpSizeX vpSizeY montageMargin : Int) (i j : Nat)
    (s : DrawingContext × DrawingState × Int) : DrawingContext × DrawingState × Int :=
  let sliceIndex := s.2.2
  if sliceIndex ≥ 0 ∧ sliceIndex < maximumSliceIndex then
    let vpX : Int := j * (vpSizeX + montageMargin)
    let vpY : Int := (numRows - i - 1) * (vpSizeY + montageMargin)
    let vp : Viewport := ⟨viewport.x + vpX, viewport.y + vpY, vpSizeX, vpSizeY⟩
    if vp.width ≤ 0 ∨ vp.height ≤ 0 then s
    else
      let drawn := drawSliceForSliceView col s.1 s.2.1 slicePlane
        DRAW_MODE.DRAW_MODE_VOLUME_VIEW_SLICE_SINGLE sliceIndex vp
      let sliceCoord : ℚ := sliceOrigin + sliceThickness * sliceIndex
      let st :=
        if col.isVolumeMontageAxesCoordinatesDisplayed then
          drawn.2.log [Event.drawTextWindowCoords sliceCoord]
        else drawn.2
      (drawn.1, st, sliceIndex - sliceStep)
  else (s.1, s.2.1, sliceIndex - sliceStep)

/-- The method `drawSliceMontage` (`startAtTopLeftToRight` is the constant
`true`).  The loop that finds the first valid slice is given `sliceIndex + 1`
iterations, which are enough for every positive slice step. -/
def drawSliceMontage (col : DrawCollaborators) (ctx : DrawingContext) (st : DrawingState)
    (viewport : Viewport) : DrawingContext × DrawingState :=
  let numRows := col.getMontageNumberOfRows
  let numCols := col.getMontageNumberOfColumns
  let montageMargin := col.getVolumeMontageGap
  let totalGapX := montageMargin * (numCols - 1)
  let vpSizeX := (viewport.width - totalGapX).tdiv numCols
  let totalGapY := montageMargin * (numRows - 1)
  let vpSizeY := (viewport.height - totalGapY).tdiv numRows
  let slicePlane := col.getSliceViewPlane
  let sliceStep := col.getMontageSliceSpacing
  let setup : Int × Int × ℚ × ℚ :=
    match ctx.m_volumeDrawInfo.head? with
    | none => (-1, -1, 0, 0)
    | some info0 =>
      let underlayVolume := info0.volumeFile
      let origin := underlayVolume.indexToSpace 0 0 0
      let p1 := underlayVolume.indexToSpace 1 1 1
      match slicePlane with
      | VolumeSliceViewPlaneEnum.ALL => (-1, -1, 0, 0)
      | VolumeSliceViewPlaneEnum.AXIAL =>
        (toInt32 (ctx.m_browserTabContent.getSliceIndexAxial underlayVolume),
          toInt32 underlayVolume.dimK, p1.z - origin.z, origin.z)
      | VolumeSliceViewPlaneEnum.CORONAL =>
        (toInt32 (ctx.m_browserTabContent.getSliceIndexCoronal underlayVolume),
          toInt32 underlayVolume.dimJ, p1.y - origin.y, origin.y)
      | VolumeSliceViewPlaneEnum.PARASAGITTAL =>
        (toInt32 (ctx.m_browserTabContent.getSliceIndexParasagittal underlayVolume),
          toInt32 underlayVolume.dimI, p1.x - origin.x, origin.x)
  let maximumSliceIndex := setup.2.1
  let sliceThickness := setup.2.2.1
  let sliceOrigin := setup.2.2.2
  let numSlicesViewed := numCols * numRows
  let sliceOffset := numSlicesViewed.tdiv 2 * sliceStep
  let sliceIndex := setup.1 + sliceOffset
  let sliceIndex :=
    montageFirstValidSlice maximumSliceIndex sliceStep (sliceIndex.toNat + 1) sliceIndex
  let drawn : DrawingContext × DrawingState × Int :=
    if sliceIndex ≥ 0 then
      (List.range numRows.toNat).foldl
        (fun s i =>
          (List.range numCols.toNat).foldl
            (fun s j =>
              drawSliceMontageCell col viewport slicePlane maximumSliceIndex sliceStep
                sliceOrigin sliceThickness numRows vpSizeX vpSizeY montageMargin i j s)
            s)
        (ctx, st, sliceIndex)
    else (ctx, st, sliceIndex)
  let st := drawn.2.1.log
    [Event.glViewport viewport.x viewport.y viewport.width viewport.height]
  let st :=
    if col.isVolumeAxesLabelsDisplayed then
      st.log [Event.drawAxesCrosshairsOrthoAndOblique slicePlane]
    else st
  (drawn.1, st)

/-- One of the three guarded calls of `drawSliceForSliceView` in
`drawSlicesForAllStructuresView` and `drawAllThreeSlicesForVolumeSliceView`,
between `glPushMatrix()` and `glPopMatrix()`. -/
def drawSliceForSliceViewPushed (col : DrawCollaborators)
    (s : DrawingContext × DrawingState) (sliceViewPlane : VolumeSliceViewPlaneEnum)
    (drawMode : DRAW_MODE) (montageSliceIndex : Int) (viewport : Viewport) :
    DrawingContext × DrawingState :=
  let drawn := drawSliceForSliceView col s.1 (s.2.log [Event.glPushMatrix]) sliceViewPlane
    drawMode montageSliceIndex viewport
  (drawn.1, drawn.2.log [Event.glPopMatrix])

/-- The method `drawSlicesForAllStructuresView`. -/
def drawSlicesForAllStructuresView (col : DrawCollaborators) (ctx : DrawingContext)
    (st : DrawingState) (viewport : Viewport) : DrawingContext × DrawingState :=
  let invalidSliceIndex : Int := -1
  let left := col.orthographicLeft
  let right := col.orthographicRight
  let bottom := col.orthographicBottom
  let top := col.orthographicTop
  let scale : ℚ := 2
  let centerX := (left + right) / 2
  let dx := (right - left) / 2
  let newLeft := centerX - dx * scale
  let newRight := centerX + dx * scale
  let centerY := (bottom + top) / 2
  let dy := (top - bottom) / 2
  let newBottom := centerY - dy * scale
  let newTop := centerY + dy * scale
  let ctx : DrawingContext :=
    { ctx with m_orthographicBounds := (newLeft, newRight, newBottom, newTop) }
  let s : DrawingContext × DrawingState := (ctx, st)
  let s :=
    if col.isSliceAxialEnabled then
      drawSliceForSliceViewPushed col s VolumeSliceViewPlaneEnum.AXIAL
        DRAW_MODE.DRAW_MODE_ALL_STRUCTURES_VIEW invalidSliceIndex viewport
    else s
  let s :=
    if col.isSliceCoronalEnabled then
      drawSliceForSliceViewPushed col s VolumeSliceViewPlaneEnum.CORONAL
        DRAW_MODE.DRAW_MODE_ALL_STRUCTURES_VIEW invalidSliceIndex viewport
    else s
  if col.isSliceParasagittalEnabled then
    drawSliceForSliceViewPushed col s VolumeSliceViewPlaneEnum.PARASAGITTAL
      DRAW_MODE.DRAW_MODE_ALL_STRUCTURES_VIEW invalidSliceIndex viewport
  else s

/-- The method `drawAllThreeSlicesForVolumeSliceView`. -/
def drawAllThreeSlicesForVolumeSliceView (col : DrawCollaborators) (ctx : DrawingContext)
    (st : DrawingState) (viewport : Viewport) : DrawingContext × DrawingState :=
  let invalidSliceIndex : Int := -1
  let st := st.log [Event.glViewport viewport.x viewport.y viewport.width viewport.height]
  let s := setOrthographicProjection col ctx st VolumeSliceViewPlaneEnum.ALL viewport
  let zoom := col.getScaling
  let s : DrawingContext × DrawingState :=
    (s.1, s.2.log [Event.glMatrixModeModelview, Event.glPushMatrix, Event.glLoadIdentity,
      Event.gluLookAt ⟨0, 0, 100⟩ ⟨0, 0, 0⟩ ⟨0, 1, 0⟩, Event.glScalef zoom zoom zoom])
  let s := drawSliceForSliceViewPushed col s VolumeSliceViewPlaneEnum.AXIAL
    DRAW_MODE.DRAW_MODE_VOLUME_VIEW_SLICE_3D invalidSliceIndex viewport
  let s := drawSliceForSliceViewPushed col s VolumeSliceViewPlaneEnum.CORONAL
    DRAW_MODE.DRAW_MODE_VOLUME_VIEW_SLICE_3D invalidSliceIndex viewport
  let s := drawSliceForSliceViewPushed col s VolumeSliceViewPlaneEnum.PARASAGITTAL
    DRAW_MODE.DRAW_MODE_VOLUME_VIEW_SLICE_3D invalidSliceIndex viewport
  (s.1, s.2.log [Event.glPopMatrix])

/-- The loop of `draw` that fetches the whole map of every overlay that is a
`CiftiMappableDataFile`, from overlay `i` on; the state is the member
`m_ciftiMappableFileData` and the calls made. -/
def drawFetchMapData (col : DrawCollaborators) :
    Nat → List VolumeDrawInfo → List (List ℚ) × List Event → List (List ℚ) × List Event
  | _, [], s => s
  | i, info :: rest, s =>
    let data : List (List ℚ) := s.1 ++ [[]]
    let s1 : List (List ℚ) × List Event :=
      if info.volumeFile.isCiftiMappableDataFile then
        (data.set i (col.getMapData info.volumeFile info.mapIndex),
          s.2 ++ [Event.getMapData i info.mapIndex])
      else (data, s.2)
    drawFetchMapData col (i + 1) rest s1

/-- The views of `draw` for a displayed volume model that is not a montage. -/
def drawVolumeModelViews (col : DrawCollaborators) (ctx : DrawingContext) (st : DrawingState)
    (viewport : Viewport) : DrawingContext × DrawingState :=
  let invalidSliceIndex : Int := -1
  let drawThreeSliceView : Bool :=
    match ctx.m_sliceViewMode with
    | VolumeSliceViewModeEnum.MONTAGE => false
    | VolumeSliceViewModeEnum.OBLIQUE => true
    | VolumeSliceViewModeEnum.ORTHOGONAL => false
  let st := st.log [Event.glEnableDepthTest]
  let slicePlane := col.getSliceViewPlane
  match slicePlane with
  | VolumeSliceViewPlaneEnum.ALL =>
    let gap : Int := 2
    let vpHalfX := viewport.width.tdiv 2
    let vpHalfY := viewport.height.tdiv 2
    let paraVP : Viewport := ⟨viewport.x, viewport.y + vpHalfY + gap, vpHalfX - gap, vpHalfY - gap⟩
    let s := drawSliceForSliceViewPushed col (ctx, st) VolumeSliceViewPlaneEnum.PARASAGITTAL
      DRAW_MODE.DRAW_MODE_VOLUME_VIEW_SLICE_SINGLE invalidSliceIndex paraVP
    let coronalVP : Viewport :=
      ⟨viewport.x + vpHalfX + gap, viewport.y + vpHalfY + gap, vpHalfX - gap, vpHalfY - gap⟩
    let s := drawSliceForSliceViewPushed col s VolumeSliceViewPlaneEnum.CORONAL
      DRAW_MODE.DRAW_MODE_VOLUME_VIEW_SLICE_SINGLE invalidSliceIndex coronalVP
    let axialVP : Viewport := ⟨viewport.x + vpHalfX + gap, viewport.y, vpHalfX - gap, vpHalfY - gap⟩
    let s := drawSliceForSliceViewPushed col s VolumeSliceViewPlaneEnum.AXIAL
      DRAW_MODE.DRAW_MODE_VOLUME_VIEW_SLICE_SINGLE invalidSliceIndex axialVP
    let allVP : Viewport := ⟨viewport.x, viewport.y, vpHalfX - gap, vpHalfY - gap⟩
    if drawThreeSliceView then
      if showAxesInAllSlicesViewBottomLeftFlag then
        (s.1, s.2.log [Event.drawOrientationAxes allVP.x allVP.y allVP.width allVP.height])
      else drawAllThreeSlicesForVolumeSliceView col s.1 s.2 allVP
    else s
  | _ =>
    let s := drawSliceForSliceViewPushed col (ctx, st) slicePlane
      DRAW_MODE.DRAW_MODE_VOLUME_VIEW_SLICE_SINGLE invalidSliceIndex viewport
    if showAxesInAllSlicesViewBottomLeftFlag
        ∧ ctx.m_sliceViewMode = VolumeSliceViewModeEnum.OBLIQUE then
      let st := s.2.log [Event.glPushMatrix]
      let vpSmallX := truncToInt ((viewport.width : ℚ) * (2 / 10))
      let vpSmallY := truncToInt ((viewport.height : ℚ) * (2 / 10))
      let st :=
        if vpSmallX > 20 ∧ vpSmallY > 20 then
          st.log [Event.drawOrientationAxes (viewport.x + viewport.width - vpSmallX) viewport.y
            vpSmallX vpSmallY]
        else st
      (s.1, st.log [Event.glPopMatrix])
    else s

/-- The method `draw`.  The arguments `volumeDrawInfo`, `browserTabContent` and
`sliceViewMode`, which the method copies into the members, are the members of
the context; the member `m_ciftiMappableFileData` of the context is its content
before the call. -/
def draw (col : DrawCollaborators) (ctx : DrawingContext) (st : DrawingState)
    (viewport : Viewport) : DrawingContext × DrawingState :=
  if ctx.m_volumeDrawInfo.isEmpty then (ctx, st)
  else
    let st := st.log [Event.glMatrixModeModelview]
    let fetched := drawFetchMapData col 0 ctx.m_volumeDrawInfo
      (ctx.m_ciftiMappableFileData, st.events)
    let ctx : DrawingContext := { ctx with m_ciftiMappableFileData := fetched.1 }
    let st : DrawingState := { st with events := fetched.2 }
    let s : DrawingContext × DrawingState :=
      if col.hasDisplayedVolumeModel then
        match ctx.m_sliceViewMode with
        | VolumeSliceViewModeEnum.MONTAGE => drawSliceMontage col ctx st viewport
        | VolumeSliceViewModeEnum.OBLIQUE => drawVolumeModelViews col ctx st viewport
        | VolumeSliceViewModeEnum.ORTHOGONAL => drawVolumeModelViews col ctx st viewport
      else (ctx, st)
    if col.hasDisplayedWholeBrainModel then drawSlicesForAllStructuresView col s.1 s.2 viewport
    else s

/-! ## Voxel spacing -/

/-- The method `getMinMaxVoxelSpacing`: the value returned and the outputs
`minSpacingOut` and `maxSpacingOut`. -/
def getMinMaxVoxelSpacing (volume : VolumeMappableInterface) : Bool × ℚ × ℚ :=
  let origin := volume.indexToSpace 0 0 0
  let p1 := volume.indexToSpace 1 1 1
  let dx := |p1.x - origin.x|
  let dy := |p1.y - origin.y|
  let dz := |p1.z - origin.z|
  let minSpacingOut := min (min dx dy) dz
  let maxSpacingOut := max (max dx dy) dz
  if minSpacingOut > 0 ∧ maxSpacingOut > 0 then (true, minSpacingOut, maxSpacingOut)
  else (false, minSpacingOut, maxSpacingOut)

/-! ## GraphicsPrimitiveV3f -/

/-- The enumeration `GraphicsPrimitive::ColorType`. -/
inductive ColorType where
  | NONE
  | FLOAT_RGBA
  | UNSIGNED_BYTE_RGBA
deriving DecidableEq, Repr

/-- A colour of four float components. -/
structure RgbaFloat where
  r : ℚ
  g : ℚ
  b : ℚ
  a : ℚ
deriving DecidableEq

/-- The four components of a float colour, in order. -/
def RgbaFloat.toList (c : RgbaFloat) : List ℚ := [c.r, c.g, c.b, c.a]

/-- The class `GraphicsPrimitiveV3f` with the members of its base class that
its methods use. -/
structure GraphicsPrimitiveV3f where
  m_colorType : ColorType
  /-- The coordinates of the vertices, three per vertex. -/
  m_xyz : List ℚ
  m_floatRGBA : List ℚ
  m_unsignedByteRGBA : List Nat
  m_floatSolidRGBA : RgbaFloat
  m_unsignedByteSolidRGBA : Rgba
  /-- The member `m_graphicsEngineDataForOpenGL` is not NULL. -/
  hasGraphicsEngineData : Bool
  /-- Whether `invalidateColors()` was called on the engine data. -/
  colorsInvalidated : Bool
deriving DecidableEq

/-- The constructor of `GraphicsPrimitiveV3f` for a solid float colour; the
member `m_unsignedByteSolidRGBA`, which it leaves unset, is given. -/
def GraphicsPrimitiveV3f.createFloat (rgba : RgbaFloat) (unsetByteRGBA : Rgba) :
    GraphicsPrimitiveV3f :=
  { m_colorType := ColorType.FLOAT_RGBA
    m_xyz := []
    m_floatRGBA := []
    m_unsignedByteRGBA := []
    m_floatSolidRGBA := rgba
    m_unsignedByteSolidRGBA := unsetByteRGBA
    hasGraphicsEngineData := false
    colorsInvalidated := false }

/-- The constructor of `GraphicsPrimitiveV3f` for a solid unsigned byte colour;
the member `m_floatSolidRGBA`, which it leaves unset, is given. -/
def GraphicsPrimitiveV3f.createUnsignedByte (rgba : Rgba) (unsetFloatRGBA : RgbaFloat) :
    GraphicsPrimitiveV3f :=
  { m_colorType := ColorType.UNSIGNED_BYTE_RGBA
    m_xyz := []
    m_floatRGBA := []
    m_unsignedByteRGBA := []
    m_floatSolidRGBA := unsetFloatRGBA
    m_unsignedByteSolidRGBA := rgba
    hasGraphicsEngineData := false
    colorsInvalidated := false }

/-- Modelled from the spec: `GraphicsPrimitive::addVertexProtected`, the method
of the base class, which is not among the sources; it stores the coordinate of
the vertex after those of the vertices added before. -/
def GraphicsPrimitiveV3f.addVertexProtected (p : GraphicsPrimitiveV3f) (xyz : Vec3) :
    GraphicsPrimitiveV3f :=
  { p with m_xyz := p.m_xyz ++ xyz.toList }

/-- The method `addVertex(const float xyz[3])`; the overloads with two and with
three coordinates do the same with `(x, y, 0)` and `(x, y, z)`. -/
def GraphicsPrimitiveV3f.addVertex (p : GraphicsPrimitiveV3f) (xyz : Vec3) :
    GraphicsPrimitiveV3f :=
  let p := p.addVertexProtected xyz
  match p.m_colorType with
  | ColorType.NONE => p
  | ColorType.FLOAT_RGBA => { p with m_floatRGBA := p.m_floatRGBA ++ p.m_floatSolidRGBA.toList }
  | ColorType.UNSIGNED_BYTE_RGBA =>
    { p with m_unsignedByteRGBA := p.m_unsignedByteRGBA ++ p.m_unsignedByteSolidRGBA.toList }

/-- The method `addVertices`, with the vertices of the array as a list. -/
def GraphicsPrimitiveV3f.addVertices (p : GraphicsPrimitiveV3f) (xyzArray : List Vec3) :
    GraphicsPrimitiveV3f :=
  xyzArray.foldl GraphicsPrimitiveV3f.addVertex p

/-- The body of the loop of `replaceColoring` for the vertex `i`. -/
def GraphicsPrimitiveV3f.replaceColoringAt (rgba : RgbaFloat) (p : GraphicsPrimitiveV3f)
    (i : Nat) : GraphicsPrimitiveV3f :=
  let i4 := i * 4
  { p with
    m_floatRGBA :=
      (((p.m_floatRGBA.set i4 rgba.r).set (i4 + 1) rgba.g).set (i4 + 2) rgba.b).set (i4 + 3) rgba.a
    colorsInvalidated := if p.hasGraphicsEngineData then true else p.colorsInvalidated }

/-- The method `replaceColoring` (the branch for another colour type only logs). -/
def GraphicsPrimitiveV3f.replaceColoring (p : GraphicsPrimitiveV3f) (rgba : RgbaFloat) :
    GraphicsPrimitiveV3f :=
  if p.m_colorType = ColorType.FLOAT_RGBA then
    let numVertices : Int := toInt32 ((p.m_floatRGBA.length / 4 : Nat) : Int)
    (List.range numVertices.toNat).foldl (GraphicsPrimitiveV3f.replaceColoringAt rgba) p
  else p

/-! ## Notions used to state the properties -/

/-- The colours of the linked entries of a cell, in the order of the links:
what `getRgbaForValueByIndex` returns for each `(volume, offset)` pair. -/
def linkedEntryColors (volumeSlices : List VolumeSlice) (vtd : VoxelToDraw) : List Rgba :=
  (vtd.m_sliceIndices.zip vtd.m_sliceOffsets).filterMap
    (fun entry => (volumeSlices[entry.1.toNat]?).map
      (fun volumeSlice => volumeSlice.getRgbaForValueByIndex entry.2))

/-- The first colour of a list whose alpha is not zero, the zero colour if there is none. -/
def firstNonZeroAlpha (colors : List Rgba) : Rgba :=
  (colors.find? (fun c => decide (c.a > 0))).getD ⟨0, 0, 0, 0⟩

/-- The last colour of a list whose alpha is not zero, the zero colour if there is none. -/
def lastNonZeroAlpha (colors : List Rgba) : Rgba :=
  (colors.reverse.find? (fun c => decide (c.a > 0))).getD ⟨0, 0, 0, 0⟩

/-- The quadrilateral buffers with one more quadrilateral of a single colour. -/
def QuadBuffers.addQuad (q : QuadBuffers) (coordinates : List ℚ) (normal : Vec3) (c : Rgba) :
    QuadBuffers :=
  { coordinates := q.coordinates ++ coordinates
    normals := q.normals ++ (normal.toList ++ normal.toList ++ normal.toList ++ normal.toList)
    rgba := q.rgba ++ (c.toList ++ c.toList ++ c.toList ++ c.toList) }

/-- The three absolute spacings of an overlay: the absolute differences between
the coordinates of the voxels `(1,1,1)` and `(0,0,0)`. -/
def VolumeDrawInfo.absoluteSpacing (info : VolumeDrawInfo) : Vec3 :=
  let origin := info.volumeFile.indexToSpace 0 0 0
  let p1 := info.volumeFile.indexToSpace 1 1 1
  ⟨|p1.x - origin.x|, |p1.y - origin.y|, |p1.z - origin.z|⟩

/-- The coordinate of the first voxel `(0,0,0)` of an overlay. -/
def VolumeDrawInfo.firstVoxel (info : VolumeDrawInfo) : Vec3 :=
  info.volumeFile.indexToSpace 0 0 0

/-- The coordinate of the last voxel `(dimI-1, dimJ-1, dimK-1)` of an overlay. -/
def VolumeDrawInfo.lastVoxel (info : VolumeDrawInfo) : Vec3 :=
  info.volumeFile.indexToSpace (info.volumeFile.dimI - 1) (info.volumeFile.dimJ - 1)
    (info.volumeFile.dimK - 1)

/-- The coordinates of the first and last voxel of an overlay and its spacings
are in the range of a `float`. -/
def VolumeDrawInfo.inFloatRange (info : VolumeDrawInfo) : Prop :=
  (|info.firstVoxel.x| ≤ FLT_MAX ∧ |info.firstVoxel.y| ≤ FLT_MAX ∧ |info.firstVoxel.z| ≤ FLT_MAX)
  ∧ (|info.lastVoxel.x| ≤ FLT_MAX ∧ |info.lastVoxel.y| ≤ FLT_MAX ∧ |info.lastVoxel.z| ≤ FLT_MAX)
  ∧ (info.absoluteSpacing.x ≤ FLT_MAX ∧ info.absoluteSpacing.y ≤ FLT_MAX
    ∧ info.absoluteSpacing.z ≤ FLT_MAX)

/-- The corner `n` (0 to 3) of the quadrilateral `q` of a flat coordinate buffer. -/
def quadCorner (coordinates : List ℚ) (q n : Nat) : Vec3 :=
  ⟨coordinates.getD (12 * q + 3 * n) 0, coordinates.getD (12 * q + 3 * n + 1) 0,
    coordinates.getD (12 * q + 3 * n + 2) 0⟩

/-- A flat buffer of quadrilateral coordinates holds whole quadrilaterals whose
every corner has the value `c` as component `k` (0 for x, 1 for y, 2 for z). -/
def coordinatesOnAxis (k : Nat) (c : ℚ) (coordinates : List ℚ) : Prop :=
  coordinates.length % 12 = 0
    ∧ ∀ i, i < coordinates.length → i % 3 = k → coordinates.getD i 0 = c

/-- The coordinate buffers of the calls of `drawQuads` among the events. -/
def drawnCoordinates : List Event → List (List ℚ)
  | [] => []
  | Event.drawQuads coordinates _ _ :: rest => coordinates :: drawnCoordinates rest
  | _ :: rest => drawnCoordinates rest

/-- The component of a vector on the through-plane axis of a view plane: Z for
axial (and for `ALL`, which the plane resolver treats as axial), Y for coronal,
X for parasagittal. -/
def throughPlaneComponent (sliceViewPlane : VolumeSliceViewPlaneEnum) (v : Vec3) : ℚ :=
  match sliceViewPlane with
  | VolumeSliceViewPlaneEnum.ALL => v.z
  | VolumeSliceViewPlaneEnum.AXIAL => v.z
  | VolumeSliceViewPlaneEnum.CORONAL => v.y
  | VolumeSliceViewPlaneEnum.PARASAGITTAL => v.x

/-- The two components of a vector on the in-plane axes of a view plane. -/
def inPlaneComponents (sliceViewPlane : VolumeSliceViewPlaneEnum) (v : Vec3) : ℚ × ℚ :=
  match sliceViewPlane with
  | VolumeSliceViewPlaneEnum.ALL => (v.x, v.y)
  | VolumeSliceViewPlaneEnum.AXIAL => (v.x, v.y)
  | VolumeSliceViewPlaneEnum.CORONAL => (v.x, v.z)
  | VolumeSliceViewPlaneEnum.PARASAGITTAL => (v.y, v.z)

/-- The three selected slice coordinates of the browser tab. -/
def selectedSliceCoordinates (ctx : DrawingContext) : Vec3 :=
  { x := ctx.m_browserTabContent.getSliceCoordinateParasagittal
    y := ctx.m_browserTabContent.getSliceCoordinateCoronal
    z := ctx.m_browserTabContent.getSliceCoordinateAxial }

/-- The index-to-space mapping of a volume is affine: an origin plus a linear
combination of three column vectors. -/
def VolumeMappableInterface.affineIndexToSpace (volumeFile : VolumeMappableInterface) : Prop :=
  ∃ o a b c : Vec3, ∀ i j k : Int,
    volumeFile.indexToSpace i j k =
      ⟨o.x + a.x * i + b.x * j + c.x * k, o.y + a.y * i + b.y * j + c.y * k,
        o.z + a.z * i + b.z * j + c.z * k⟩

/-- The drawing context with another slice view mode. -/
def DrawingContext.withSliceViewMode (ctx : DrawingContext)
    (sliceViewMode : VolumeSliceViewModeEnum) : DrawingContext :=
  { ctx with m_sliceViewMode := sliceViewMode }

/-- The events `after` are the events `before` followed by events that all satisfy `P`. -/
def eventsAdded (P : Event → Prop) (before after : List Event) : Prop :=
  ∃ added : List Event, after = before ++ added ∧ ∀ e ∈ added, P e

/-- The event is one of the three calls on the polygon offset:
`glEnable(GL_POLYGON_OFFSET_FILL)`, `glPolygonOffset`, `glDisable(GL_POLYGON_OFFSET_FILL)`. -/
def Event.isPolygonOffset : Event → Bool
  | Event.glEnablePolygonOffsetFill => true
  | Event.glPolygonOffset _ _ => true
  | Event.glDisablePolygonOffsetFill => true
  | _ => false

/-- The event is a call of `drawQuads`. -/
def Event.isDrawQuads : Event → Bool
  | Event.drawQuads _ _ _ => true
  | _ => false

/-- The voxels of a slice in the order in which `drawOrthogonalSliceVoxels`
visits them, as pairs `(jRow, iCol)`: row by row, each row column by column. -/
def orthogonalSliceVoxels (numberOfColumns numberOfRows : Int) : List (Nat × Nat) :=
  (List.range numberOfRows.toNat).flatMap
    (fun jRow => (List.range numberOfColumns.toNat).map (fun iCol => (jRow, iCol)))

/-- The voxels of a slice, in visiting order, for which `drawOrthogonalSliceVoxels`
emits a quadrilateral: those whose local `rgba` has a non-zero alpha. -/
def orthogonalDrawnVoxels (numberOfColumns numberOfRows : Int) (sliceRGBA : List Nat)
    (volumeIndex : Int) (sliceOpacity : Nat) : List (Nat × Nat) :=
  (orthogonalSliceVoxels numberOfColumns numberOfRows).filter
    (fun p => decide
      ((orthogonalVoxelRgba numberOfColumns sliceRGBA volumeIndex sliceOpacity p.1 p.2).a > 0))

/-- An `int64_t` value that is in the range of an `int32_t`. -/
def inInt32Range (x : Int) : Prop := -2147483648 ≤ x ∧ x < 2147483648

/-- The identification record of the voxel at row `jRow` and column `iCol` of an
orthogonal slice: the overlay's volume index and map index and the voxel
indices (column, row, selected K) for axial, (column, selected J, row) for
coronal, (selected I, column, row) for parasagittal (zero indices for `ALL`,
which is not drawn as an orthogonal slice). -/
def orthogonalPickedRecord (sliceViewPlane : VolumeSliceViewPlaneEnum)
    (selectedSliceIndices : Int × Int × Int) (volumeIndex mapIndex : Int) (jRow iCol : Nat) :
    List Int :=
  match sliceViewPlane with
  | VolumeSliceViewPlaneEnum.ALL => [volumeIndex, mapIndex, 0, 0, 0]
  | VolumeSliceViewPlaneEnum.AXIAL =>
    [volumeIndex, mapIndex, iCol, jRow, selectedSliceIndices.2.2]
  | VolumeSliceViewPlaneEnum.CORONAL =>
    [volumeIndex, mapIndex, iCol, selectedSliceIndices.2.1, jRow]
  | VolumeSliceViewPlaneEnum.PARASAGITTAL =>
    [volumeIndex, mapIndex, selectedSliceIndices.1, iCol, jRow]

/-- The linked entries `(sliceIndex, voxelOffset)` of a cell, in the order of the links. -/
def VoxelToDraw.linkedEntries (vtd : VoxelToDraw) : List (Int × Int) :=
  vtd.m_sliceIndices.zip vtd.m_sliceOffsets

/-- The colour of a linked entry is present and has a non-zero alpha. -/
def obliqueEntryNonZero (volumeSlices : List VolumeSlice) (entry : Int × Int) : Bool :=
  match volumeSlices[entry.1.toNat]? with
  | none => false
  | some volumeSlice => decide ((volumeSlice.getRgbaForValueByIndex entry.2).a > 0)

/-- The colour of a linked entry of a cell has a non-zero alpha and the voxel
that encloses the centre of the cell is a valid voxel of the entry's volume. -/
def obliqueEntryPicked (volumeSlices : List VolumeSlice) (vtd : VoxelToDraw)
    (entry : Int × Int) : Bool :=
  match volumeSlices[entry.1.toNat]? with
  | none => false
  | some volumeSlice =>
    let ijk := volumeSlice.m_volumeMappableInterface.enclosingVoxel vtd.m_center.x
      vtd.m_center.y vtd.m_center.z
    decide ((volumeSlice.getRgbaForValueByIndex entry.2).a > 0)
      && volumeSlice.m_volumeMappableInterface.indexValid ijk.1 ijk.2.1 ijk.2.2

/-- The identification record of a linked entry of a cell: the index of the
entry's volume, the map index of that volume and the indices (as `int32_t`) of
the voxel of that volume that encloses the centre of the cell. -/
def obliqueEntryRecord (volumeSlices : List VolumeSlice) (vtd : VoxelToDraw)
    (entry : Int × Int) : List Int :=
  match volumeSlices[entry.1.toNat]? with
  | none => []
  | some volumeSlice =>
    let ijk := volumeSlice.m_volumeMappableInterface.enclosingVoxel vtd.m_center.x
      vtd.m_center.y vtd.m_center.z
    [entry.1, volumeSlice.m_mapIndex, toInt32 ijk.1, toInt32 ijk.2.1, toInt32 ijk.2.2]

/-- The colour of a linked entry (the zero colour if the entry names no volume). -/
def obliqueEntryColor (volumeSlices : List VolumeSlice) (entry : Int × Int) : Rgba :=
  match volumeSlices[entry.1.toNat]? with
  | none => ⟨0, 0, 0, 0⟩
  | some volumeSlice => volumeSlice.getRgbaForValueByIndex entry.2

/-- The quadrilaterals determined by the coloured buffers of the overlays, the
cells with their links (in the overlay order) and the slice normal alone: for
every cell with a linked entry of non-zero alpha, in cell order, the cell's
corners with the colour of its last such entry. -/
def compositedQuads (volumeSlices : List VolumeSlice) (sliceNormalVector : Vec3)
    (cells : List VoxelToDraw) : QuadBuffers :=
  cells.foldl
    (fun q vtd =>
      if (lastNonZeroAlpha (linkedEntryColors volumeSlices vtd)).a > 0 then
        q.addQuad (vtd.m_coordinates.take 12) sliceNormalVector
          (lastNonZeroAlpha (linkedEntryColors volumeSlices vtd))
      else q)
    ⟨[], [], []⟩

/-- The volume slice of an overlay after the colouring loop of `drawObliqueSlice`;
the colours of an overlay are computed from its own sampled values alone. -/
def obliqueColoredSlice (volumeSlice : VolumeSlice) : VolumeSlice :=
  (obliqueColorVolume 0 volumeSlice []).1

/-- A cell without its links to the overlay `iVol`: the cell as it would be if
the overlay had given no sample. -/
def VoxelToDraw.withoutVolume (vtd : VoxelToDraw) (iVol : Nat) : VoxelToDraw :=
  { vtd with
    m_sliceIndices := (vtd.linkedEntries.filter (fun e => !decide (e.1 = (iVol : Int)))).map
      Prod.fst
    m_sliceOffsets := (vtd.linkedEntries.filter (fun e => !decide (e.1 = (iVol : Int)))).map
      Prod.snd }

/-- The event is a call that the two rasterizers make to OpenGL or to the
colouring and drawing collaborators (the calls of `addItem` apart, which come
with an identification record). -/
def Event.isRasterizerCall : Event → Bool
  | Event.glEnableBlend => true
  | Event.glBlendFuncSrcAlphaOneMinusSrcAlpha => true
  | Event.glShadeModelFlat => true
  | Event.glShadeModelSmooth => true
  | Event.glDisableBlend => true
  | Event.glEnablePolygonOffsetFill => true
  | Event.glPolygonOffset _ _ => true
  | Event.glDisablePolygonOffsetFill => true
  | Event.glPushMatrix => true
  | Event.glScalef _ _ _ => true
  | Event.glPopMatrix => true
  | Event.getVoxelColorsForSliceInMap _ _ _ => true
  | Event.convertSliceColoringToOutlineMode _ _ => true
  | Event.colorScalarsWithPalette _ _ => true
  | Event.colorIndicesWithLabelTable _ _ => true
  | Event.logWarningMissingPalette _ => true
  | Event.drawQuads _ _ _ => true
  | _ => false

/-- A relation between the state before and the state after a part of a draw
that holds across no step, across two parts in sequence, across calls logged
by the rasterizers and across a call of `addVoxelToIdentification`. -/
structure RasterizerInvariant (R : DrawingState → DrawingState → Prop) : Prop where
  refl : ∀ s, R s s
  trans : ∀ a b c, R a b → R b c → R a c
  events : ∀ (s : DrawingState) (es : List Event), (∀ e ∈ es, e.isRasterizerCall = true) →
    R s { s with events := s.events ++ es }
  addVoxel : ∀ (ctx : DrawingContext) (s : DrawingState) (volumeIndex mapIndex i j k : Int)
    (rgba : Rgba), R s (addVoxelToIdentification ctx s volumeIndex mapIndex i j k rgba).1

/-- The identifiers handed to `addItem` by the calls among the events, in call order. -/
def addedItemIds : List Event → List Int
  | [] => []
  | Event.colorIdentificationAddItem idIndex :: rest => idIndex :: addedItemIds rest
  | _ :: rest => addedItemIds rest

/-- The event is a call of `addItem`. -/
def Event.isAddItem : Event → Bool
  | Event.colorIdentificationAddItem _ => true
  | _ => false

/-- The event is a call of `getMapData`. -/
def Event.isGetMapData : Event → Bool
  | Event.getMapData _ _ => true
  | _ => false

/-- From the state `a` to the state `b` the identification records only grew:
the mode is the same, the records of `a` are still there, unmodified, followed
by whole records of `IDENTIFICATION_INDICES_PER_VOXEL` fields, and the calls
made since `a` handed to `addItem` the identifiers that continue the count of
the records of `a`, one per record appended. -/
def identificationGrows (a b : DrawingState) : Prop :=
  b.m_identificationModeFlag = a.m_identificationModeFlag
  ∧ ∃ (records : List (List Int)) (calls : List Event),
    (∀ r ∈ records, r.length = IDENTIFICATION_INDICES_PER_VOXEL)
    ∧ b.m_identificationIndices = a.m_identificationIndices ++ records.flatten
    ∧ b.events = a.events ++ calls
    ∧ addedItemIds calls = (List.range records.length).map
        (fun n => toInt32 (((a.m_identificationIndices.length
          / IDENTIFICATION_INDICES_PER_VOXEL + n : Nat) : Int)))

/-- The calls of a slice view reach `resetIdentification()` and the rasterizers:
the resolved plane is valid and the mode is drawing, or identification with the
voxel identification enabled. -/
def reachesRasterization (col : DrawCollaborators) (ctx : DrawingContext) (st : DrawingState)
    (sliceViewPlane : VolumeSliceViewPlaneEnum) (montageSliceIndex : Int) : Prop :=
  (createSlicePlaneEquation ctx st sliceViewPlane montageSliceIndex).1.isValidPlane = true
    ∧ (col.mode = Mode.MODE_DRAWING
      ∨ (col.mode = Mode.MODE_IDENTIFICATION ∧ col.isEnabledForSelection = true))

/-- From the state `a` to the state `b` the identification records are
untouched and no call of `addItem` was made. -/
def keepsRecords (a b : DrawingState) : Prop :=
  b.m_identificationIndices = a.m_identificationIndices
    ∧ eventsAdded (fun e => e.isAddItem = false) a.events b.events

/-- From the context and state `a` to the context and state `b` the buffers of
the member `m_ciftiMappableFileData` are untouched and no call of `getMapData`
was made. -/
def keepsMapData (a b : DrawingContext × DrawingState) : Prop :=
  b.1.m_ciftiMappableFileData = a.1.m_ciftiMappableFileData
    ∧ eventsAdded (fun e => e.isGetMapData = false) a.2.events b.2.events

/-- The calls of `getMapData` that fetch one whole map for every overlay that is
a `CiftiMappableDataFile`, in the order of the overlays, each with the position
of its overlay in the list and the map index of that overlay. -/
def mapDataFetches (volumeDrawInfo : List VolumeDrawInfo) : List Event :=
  (volumeDrawInfo.enum.filter (fun p => p.2.volumeFile.isCiftiMappableDataFile)).map
    (fun p => Event.getMapData p.1 p.2.mapIndex)

/-- The value and the validity flag that the overlay at position `iVol` of the
overlay list gives at a point (no sample for a position beyond the list). -/
def overlaySample (ctx : DrawingContext) (iVol : Nat) (voxelCenter : Vec3) : ℚ × Bool :=
  match ctx.m_volumeDrawInfo[iVol]? with
  | some vdi => obliqueSampleVolume ctx iVol vdi voxelCenter
  | none => (0, false)

/-- The positions in the overlay list of the overlays that give a valid sample
at a point, in increasing order. -/
def validOverlays (ctx : DrawingContext) (voxelCenter : Vec3) : List Nat :=
  (List.range ctx.m_volumeDrawInfo.length).filter
    (fun iVol => (overlaySample ctx iVol voxelCenter).2)

/-- The number of values that the volume slice at position `iVol` holds. -/
def valuesStored (volumeSlices : List VolumeSlice) (iVol : Nat) : Nat :=
  match volumeSlices[iVol]? with
  | some volumeSlice => volumeSlice.m_values.length
  | none => 0

/-- One cell of the grid of `drawObliqueSlice`: the centre and the four corners
that the loop over the cells of a row computes for it. -/
structure GridCell where
  voxelCenter : Vec3
  bottomLeftVoxelCoord : Vec3
  bottomRightVoxelCoord : Vec3
  topRightVoxelCoord : Vec3
  topLeftVoxelCoord : Vec3
deriving DecidableEq

/-- The body of the loop over the cells of a row of `drawObliqueSlice` at one
cell of the grid: the overlays are sampled at the centre and the cell record,
if one was created, is appended to `voxelsToDraw`. -/
def obliqueCellStep (ctx : DrawingContext) (s : List VolumeSlice × List VoxelToDraw)
    (g : GridCell) : List VolumeSlice × List VoxelToDraw :=
  let r := obliqueSampleVolumes ctx g.voxelCenter g.bottomLeftVoxelCoord g.bottomRightVoxelCoord
    g.topRightVoxelCoord g.topLeftVoxelCoord 0 ctx.m_volumeDrawInfo s.1 none
  (r.1, s.2 ++ r.2.toList)

/-- The cells of one row of the grid in the order of the loop
`for (i = 0; i < numVoxelsInRow; i++)`, with `fuel` iterations left. -/
def obliqueRowGrid (bottomVoxelEdgeD topVoxelEdgeD : Vec3) : Nat → Vec3 → Vec3 → List GridCell
  | 0, _, _ => []
  | fuel + 1, bottomLeftVoxelCoord, topLeftVoxelCoord =>
    { voxelCenter :=
        Vec3.scale (1 / 2) (bottomLeftVoxelCoord.add (topLeftVoxelCoord.add topVoxelEdgeD))
      bottomLeftVoxelCoord := bottomLeftVoxelCoord
      bottomRightVoxelCoord := bottomLeftVoxelCoord.add bottomVoxelEdgeD
      topRightVoxelCoord := topLeftVoxelCoord.add topVoxelEdgeD
      topLeftVoxelCoord := topLeftVoxelCoord } ::
      obliqueRowGrid bottomVoxelEdgeD topVoxelEdgeD fuel
        (bottomLeftVoxelCoord.add bottomVoxelEdgeD) (topLeftVoxelCoord.add topVoxelEdgeD)

/-- The geometry of the row of `drawObliqueSlice` at distance `dLeft` along the
left edge and `dRight` along the right edge, as the body of the loop over the
rows computes it. -/
structure RowGeometry where
  leftEdgeBottomCoord : Vec3
  rightEdgeBottomCoord : Vec3
  leftEdgeTopCoord : Vec3
  rightEdgeTopCoord : Vec3
  bottomVoxelEdgeDistance : ℚ
  bottomEdgeUnitVector : Vec3
  numVoxelsInRow : Int
  bottomEdgeVoxelSize : ℚ
  topVoxelEdgeDistance : ℚ
  topEdgeUnitVector : Vec3
  topEdgeVoxelSize : ℚ

/-- The locals of the body of the loop over the rows of `drawObliqueSlice`. -/
def obliqueRowGeometry (ctx : DrawingContext) (voxelSize : ℚ) (bottomLeft bottomRight : Vec3)
    (bottomLeftToTopLeftUnitVector bottomRightToTopRightUnitVector : Vec3)
    (bottomLeftToTopLeftStep bottomRightToTopRightStep : ℚ) (dLeft dRight : ℚ) : RowGeometry :=
  let leftEdgeBottomCoord := bottomLeft.add (Vec3.scale dLeft bottomLeftToTopLeftUnitVector)
  let rightEdgeBottomCoord :=
    bottomRight.add (Vec3.scale dRight bottomRightToTopRightUnitVector)
  let leftEdgeTopCoord :=
    bottomLeft.add (Vec3.scale (dLeft + bottomLeftToTopLeftStep) bottomLeftToTopLeftUnitVector)
  let rightEdgeTopCoord :=
    bottomRight.add
      (Vec3.scale (dRight + bottomRightToTopRightStep) bottomRightToTopRightUnitVector)
  let bottomVoxelEdgeDistance := ctx.distance3D leftEdgeBottomCoord rightEdgeBottomCoord
  let numVoxels := numVoxelsInRow ctx voxelSize bottomVoxelEdgeDistance
  let topVoxelEdgeDistance := ctx.distance3D leftEdgeTopCoord rightEdgeTopCoord
  { leftEdgeBottomCoord := leftEdgeBottomCoord
    rightEdgeBottomCoord := rightEdgeBottomCoord
    leftEdgeTopCoord := leftEdgeTopCoord
    rightEdgeTopCoord := rightEdgeTopCoord
    bottomVoxelEdgeDistance := bottomVoxelEdgeDistance
    bottomEdgeUnitVector := ctx.createUnitVector leftEdgeBottomCoord rightEdgeBottomCoord
    numVoxelsInRow := numVoxels
    bottomEdgeVoxelSize := bottomVoxelEdgeDistance / numVoxels
    topVoxelEdgeDistance := topVoxelEdgeDistance
    topEdgeUnitVector := ctx.createUnitVector leftEdgeTopCoord rightEdgeTopCoord
    topEdgeVoxelSize := topVoxelEdgeDistance / numVoxels }

/-- The cells of a row with the given geometry, in the order of the loop. -/
def RowGeometry.cells (row : RowGeometry) : List GridCell :=
  obliqueRowGrid (Vec3.scale row.bottomEdgeVoxelSize row.bottomEdgeUnitVector)
    (Vec3.scale row.topEdgeVoxelSize row.topEdgeUnitVector) row.numVoxelsInRow.toNat
    row.leftEdgeBottomCoord row.leftEdgeTopCoord

/-- The rows of the grid in the order of the loop over the rows of
`drawObliqueSlice`, with `fuel` iterations left and the counter `tVertical`
rounded at each sum. -/
def obliqueRowsGeometry (ctx : DrawingContext) (voxelSize : ℚ) (bottomLeft bottomRight : Vec3)
    (bottomLeftToTopLeftUnitVector bottomRightToTopRightUnitVector : Vec3)
    (bottomLeftToTopLeftStep bottomRightToTopRightStep dtVertical : ℚ) :
    Nat → ℚ → ℚ → ℚ → List RowGeometry
  | 0, _, _, _ => []
  | fuel + 1, tVertical, dLeft, dRight =>
    if tVertical < 1 then
      obliqueRowGeometry ctx voxelSize bottomLeft bottomRight bottomLeftToTopLeftUnitVector
        bottomRightToTopRightUnitVector bottomLeftToTopLeftStep bottomRightToTopRightStep
        dLeft dRight ::
        obliqueRowsGeometry ctx voxelSize bottomLeft bottomRight bottomLeftToTopLeftUnitVector
          bottomRightToTopRightUnitVector bottomLeftToTopLeftStep bottomRightToTopRightStep
          dtVertical fuel (ctx.roundDouble (tVertical + dtVertical))
          (dLeft + bottomLeftToTopLeftStep) (dRight + bottomRightToTopRightStep)
    else []

/-- The rows of the grid that the traversal of `drawObliqueSlice` visits, in
the order of the traversal: the rows of the row loop, with its rounded counter
and the iterations that `obliqueTraversal` gives it. -/
def obliqueGridRows (ctx : DrawingContext) (st : DrawingState)
    (sliceViewPlane : VolumeSliceViewPlaneEnum) (transformationMatrix : Matrix4x4)
    (voxelSize : ℚ) : List RowGeometry :=
  let corners := obliqueCorners sliceViewPlane
    (obliqueScreenBounds ctx st sliceViewPlane voxelSize) transformationMatrix
  let bottomLeft := corners.1
  let bottomRight := corners.2.1
  let topRight := corners.2.2.1
  let topLeft := corners.2.2.2
  let bottomLeftToTopLeftUnitVector := ctx.normalizeVector (topLeft.sub bottomLeft)
  let bottomLeftToTopLeftDistance := ctx.distance3D bottomLeft topLeft
  let bottomRightToTopRightUnitVector := ctx.normalizeVector (topRight.sub bottomRight)
  let bottomRightToTopRightDistance := ctx.distance3D bottomRight topRight
  if bottomLeftToTopLeftDistance > 0 ∧ bottomRightToTopRightDistance > 0 then
    let bottomLeftToTopLeftStep := voxelSize
    let numLeftSteps := bottomLeftToTopLeftDistance / bottomLeftToTopLeftStep
    let bottomRightToTopRightStep := bottomRightToTopRightDistance / numLeftSteps
    let dtVertical := ctx.roundDouble (bottomLeftToTopLeftStep / bottomLeftToTopLeftDistance)
    obliqueRowsGeometry ctx voxelSize bottomLeft bottomRight bottomLeftToTopLeftUnitVector
      bottomRightToTopRightUnitVector bottomLeftToTopLeftStep bottomRightToTopRightStep
      dtVertical (2 * Int.toNat ⌈1 / dtVertical⌉ + 1) 0 0 0
  else []

/-- The cells of the grid that the traversal of `drawObliqueSlice` visits, in
the order of the traversal. -/
def obliqueGrid (ctx : DrawingContext) (st : DrawingState)
    (sliceViewPlane : VolumeSliceViewPlaneEnum) (transformationMatrix : Matrix4x4)
    (voxelSize : ℚ) : List GridCell :=
  (obliqueGridRows ctx st sliceViewPlane transformationMatrix voxelSize).flatMap
    RowGeometry.cells

/-- The twelve coordinates of the corners of a cell of the grid, in the order
of the cell record. -/
def GridCell.coordinates (g : GridCell) : List ℚ :=
  g.bottomLeftVoxelCoord.toList ++ g.bottomRightVoxelCoord.toList
    ++ g.topRightVoxelCoord.toList ++ g.topLeftVoxelCoord.toList

/-- The cell record that the traversal creates at a cell of the grid when the
volume slices hold `volumeSlices` before the cell: it is linked to the overlays
that give a valid sample at the centre, each with the number of values that
its volume slice holds. -/
def GridCell.record (ctx : DrawingContext) (volumeSlices : List VolumeSlice) (g : GridCell) :
    VoxelToDraw :=
  { m_center := g.voxelCenter
    m_coordinates := g.coordinates
    m_sliceIndices := (validOverlays ctx g.voxelCenter).map Int.ofNat
    m_sliceOffsets :=
      (validOverlays ctx g.voxelCenter).map (fun iVol => Int.ofNat (valuesStored volumeSlices iVol)) }

/-- The volume slice of the overlay at position `iVol` after the traversal has
sampled at the centre of a cell: the value is appended if the sample is valid. -/
def sampledSlice (ctx : DrawingContext) (voxelCenter : Vec3) (iVol : Nat)
    (volumeSlice : VolumeSlice) : VolumeSlice :=
  if (overlaySample ctx iVol voxelCenter).2 then
    { volumeSlice with
      m_values := volumeSlice.m_values ++ [(overlaySample ctx iVol voxelCenter).1] }
  else volumeSlice

/-- The offsets of the links to the overlay at position `iVol`, in the order
of the cell records and of their links. -/
def linkedOffsets (cells : List VoxelToDraw) (iVol : Nat) : List Int :=
  cells.flatMap
    (fun cell => (cell.linkedEntries.filter (fun e => decide (e.1 = Int.ofNat iVol))).map Prod.snd)

/-- What holds of the volume slices and the cell records throughout the
traversal of `drawObliqueSlice`: there is a volume slice for each overlay;
every cell record is linked to exactly the overlays that give a valid sample at
its centre, in increasing order, of which there is at least one, with one
offset for each; the offsets linked to an overlay are, in the order of the cell
records, the positions of the values of its volume slice; and the value at a
linked offset is the value sampled at the centre of the cell. -/
structure TraversalInvariant (ctx : DrawingContext)
    (s : List VolumeSlice × List VoxelToDraw) : Prop where
  slices : s.1.length = ctx.m_volumeDrawInfo.length
  links : ∀ cell ∈ s.2,
    cell.m_sliceIndices = (validOverlays ctx cell.m_center).map Int.ofNat
      ∧ validOverlays ctx cell.m_center ≠ []
      ∧ cell.m_sliceOffsets.length = cell.m_sliceIndices.length
  offsets : ∀ iVol : Nat,
    linkedOffsets s.2 iVol = (List.range (valuesStored s.1 iVol)).map Int.ofNat
  values : ∀ cell ∈ s.2, ∀ e ∈ cell.linkedEntries,
    ∃ (iVol k : Nat) (volumeSlice : VolumeSlice),
      e = (Int.ofNat iVol, Int.ofNat k) ∧ s.1[iVol]? = some volumeSlice
        ∧ volumeSlice.m_values[k]? = some (overlaySample ctx iVol cell.m_center).1

/-- The locals `sliceIndex` (the selected slice of the underlay),
`maximumSliceIndex`, `sliceThickness` and `sliceOrigin` of `drawSliceMontage`
after its `switch (slicePlane)`. -/
def montageSetup (col : DrawCollaborators) (ctx : DrawingContext) : Int × Int × ℚ × ℚ :=
  match ctx.m_volumeDrawInfo.head? with
  | none => (-1, -1, 0, 0)
  | some info0 =>
    match col.getSliceViewPlane with
    | VolumeSliceViewPlaneEnum.ALL => (-1, -1, 0, 0)
    | VolumeSliceViewPlaneEnum.AXIAL =>
      (toInt32 (ctx.m_browserTabContent.getSliceIndexAxial info0.volumeFile),
        toInt32 info0.volumeFile.dimK,
        (info0.volumeFile.indexToSpace 1 1 1).z - (info0.volumeFile.indexToSpace 0 0 0).z,
        (info0.volumeFile.indexToSpace 0 0 0).z)
    | VolumeSliceViewPlaneEnum.CORONAL =>
      (toInt32 (ctx.m_browserTabContent.getSliceIndexCoronal info0.volumeFile),
        toInt32 info0.volumeFile.dimJ,
        (info0.volumeFile.indexToSpace 1 1 1).y - (info0.volumeFile.indexToSpace 0 0 0).y,
        (info0.volumeFile.indexToSpace 0 0 0).y)
    | VolumeSliceViewPlaneEnum.PARASAGITTAL =>
      (toInt32 (ctx.m_browserTabContent.getSliceIndexParasagittal info0.volumeFile),
        toInt32 info0.volumeFile.dimI,
        (info0.volumeFile.indexToSpace 1 1 1).x - (info0.volumeFile.indexToSpace 0 0 0).x,
        (info0.volumeFile.indexToSpace 0 0 0).x)

/-- The selected slice of the underlay in the plane of the montage. -/
def montageSelectedSlice (col : DrawCollaborators) (ctx : DrawingContext) : Int :=
  (montageSetup col ctx).1

/-- The number of slices of the underlay in the plane of the montage. -/
def montageMaximumSlice (col : DrawCollaborators) (ctx : DrawingContext) : Int :=
  (montageSetup col ctx).2.1

/-- The local `sliceIndex` of `drawSliceMontage` before the search for the
first valid slice: the selected slice plus half the number of cells times the
slice spacing. -/
def montageStartSlice (col : DrawCollaborators) (ctx : DrawingContext) : Int :=
  montageSelectedSlice col ctx
    + (col.getMontageNumberOfColumns * col.getMontageNumberOfRows).tdiv 2
      * col.getMontageSliceSpacing

/-- The local `sliceIndex` of `drawSliceMontage` after the search for the first
valid slice. -/
def montageFirstSlice (col : DrawCollaborators) (ctx : DrawingContext) : Int :=
  montageFirstValidSlice (montageMaximumSlice col ctx) col.getMontageSliceSpacing
    ((montageStartSlice col ctx).toNat + 1) (montageStartSlice col ctx)

/-- The width and the height of the cells of a montage in a viewport. -/
def montageCellSize (col : DrawCollaborators) (viewport : Viewport) : Int × Int :=
  ((viewport.width - col.getVolumeMontageGap * (col.getMontageNumberOfColumns - 1)).tdiv
      col.getMontageNumberOfColumns,
    (viewport.height - col.getVolumeMontageGap * (col.getMontageNumberOfRows - 1)).tdiv
      col.getMontageNumberOfRows)

/-- The viewport of the cell in row `i` (row 0 is the top row) and column `j`
(column 0 is the left column) of a montage. -/
def montageCellViewport (col : DrawCollaborators) (viewport : Viewport) (i j : Nat) : Viewport :=
  ⟨viewport.x + j * ((montageCellSize col viewport).1 + col.getVolumeMontageGap),
    viewport.y + (col.getMontageNumberOfRows - i - 1)
      * ((montageCellSize col viewport).2 + col.getVolumeMontageGap),
    (montageCellSize col viewport).1, (montageCellSize col viewport).2⟩

/-- The cells of a montage in row-major order from the top left: row by row,
each row from left to right, as pairs `(i, j)`. -/
def montageCells (col : DrawCollaborators) : List (Nat × Nat) :=
  (List.range col.getMontageNumberOfRows.toNat).flatMap
    (fun i => (List.range col.getMontageNumberOfColumns.toNat).map (fun j => (i, j)))

/-- The slices of a montage: the cell at position `n` of the row-major order
has the slice index `first - n * step`, and a slice is drawn in it when this
index is a slice of the volume.  The list holds the cells in which a slice is
drawn, each with its slice index, in the order of the cells. -/
def montageSlices (col : DrawCollaborators) (ctx : DrawingContext) : List ((Nat × Nat) × Int) :=
  ((montageCells col).enum.map
      (fun p => (p.2, montageFirstSlice col ctx - p.1 * col.getMontageSliceSpacing))).filter
    (fun c => decide (0 ≤ c.2 ∧ c.2 < montageMaximumSlice col ctx))

/-- The drawing of one slice of a montage in its cell: the call of
`drawSliceForSliceView` with the slice index and the viewport of the cell, and
the coordinate text when it is displayed. -/
def montageDrawSlice (col : DrawCollaborators) (ctx : DrawingContext) (viewport : Viewport)
    (s : DrawingContext × DrawingState) (c : (Nat × Nat) × Int) :
    DrawingContext × DrawingState :=
  let drawn := drawSliceForSliceView col s.1 s.2 col.getSliceViewPlane
    DRAW_MODE.DRAW_MODE_VOLUME_VIEW_SLICE_SINGLE c.2 (montageCellViewport col viewport c.1.1 c.1.2)
  let sliceCoord : ℚ := (montageSetup col ctx).2.2.2 + (montageSetup col ctx).2.2.1 * c.2
  (drawn.1,
    if col.isVolumeMontageAxesCoordinatesDisplayed then
      drawn.2.log [Event.drawTextWindowCoords sliceCoord]
    else drawn.2)

/-- The end of `drawSliceMontage` after the cells: the viewport is restored and
the axes labels are drawn when they are displayed. -/
def montageFinish (col : DrawCollaborators) (viewport : Viewport)
    (s : DrawingContext × DrawingState) : DrawingContext × DrawingState :=
  let st := s.2.log [Event.glViewport viewport.x viewport.y viewport.width viewport.height]
  (s.1,
    if col.isVolumeAxesLabelsDisplayed then
      st.log [Event.drawAxesCrosshairsOrthoAndOblique col.getSliceViewPlane]
    else st)

/-- The local `actualOrigin` of `drawObliqueSlice`: the centre of the voxel of
the first overlay that encloses the origin. -/
def obliqueActualOrigin (ctx : DrawingContext) : Vec3 :=
  match ctx.m_volumeDrawInfo.head? with
  | some info0 =>
    let originIJK := info0.volumeFile.enclosingVoxel 0 0 0
    info0.volumeFile.indexToSpace originIJK.1 originIJK.2.1 originIJK.2.2
  | none => ⟨0, 0, 0⟩

/-- The coordinates of a point along the two screen axes of a slice plane, as
the `switch (sliceViewPlane)` statements of `drawObliqueSlice` select them
(the plane `ALL`, for which the source asserts, gives zero here). -/
def screenAxes (sliceViewPlane : VolumeSliceViewPlaneEnum) (v : Vec3) : ℚ × ℚ :=
  match sliceViewPlane with
  | VolumeSliceViewPlaneEnum.ALL => (0, 0)
  | VolumeSliceViewPlaneEnum.AXIAL => (v.x, v.y)
  | VolumeSliceViewPlaneEnum.CORONAL => (v.x, v.z)
  | VolumeSliceViewPlaneEnum.PARASAGITTAL => (v.y, v.z)

/-- The locals `originOffsetX` and `originOffsetY` of `drawObliqueSlice` after
the alignment has taken `xOffset` and `yOffset` from them: the centre of the
origin voxel minus the remainder of the look-at centre modulo the step size. -/
def obliqueOriginOffset (ctx : DrawingContext) (st : DrawingState)
    (sliceViewPlane : VolumeSliceViewPlaneEnum) (voxelSize : ℚ) : ℚ × ℚ :=
  ((screenAxes sliceViewPlane (obliqueActualOrigin ctx)).1
      - ctx.remainder (screenAxes sliceViewPlane st.m_lookAtCenter).1 voxelSize,
    (screenAxes sliceViewPlane (obliqueActualOrigin ctx)).2
      - ctx.remainder (screenAxes sliceViewPlane st.m_lookAtCenter).2 voxelSize)

/-- The locals `numVoxelsToLeft`, `numVoxelsToRight`, `numVoxelsToBottom` and
`numVoxelsToTop` of `drawObliqueSlice`. -/
def obliqueVoxelCounts (ctx : DrawingContext) (st : DrawingState)
    (sliceViewPlane : VolumeSliceViewPlaneEnum) (voxelSize : ℚ) : Int × Int × Int × Int :=
  let viewOffset :=
    screenAxes sliceViewPlane (st.m_lookAtCenter.add ctx.m_browserTabContent.getTranslation)
  let originOffset := obliqueOriginOffset ctx st sliceViewPlane voxelSize
  (truncToInt
      (ctx.roundQuotient
        ((ctx.round (ctx.m_orthographicBounds.1 - viewOffset.1 + originOffset.1) : ℚ)
          / voxelSize)),
    truncToInt
      (ctx.roundQuotient
        ((ctx.round (ctx.m_orthographicBounds.2.1 - viewOffset.1 + originOffset.1) : ℚ)
          / voxelSize)),
    truncToInt
      (ctx.roundQuotient
        ((ctx.round (ctx.m_orthographicBounds.2.2.1 - viewOffset.2 + originOffset.2) : ℚ)
          / voxelSize)),
    truncToInt
      (ctx.roundQuotient
        ((ctx.round (ctx.m_orthographicBounds.2.2.2 - viewOffset.2 + originOffset.2) : ℚ)
          / voxelSize)))

/-- The transformation matrix with the identity rotation and the translation `t`. -/
def Matrix4x4.translation (t : Vec3) : Matrix4x4 := ⟨1, 0, 0, t.x, 0, 1, 0, t.y, 0, 0, 1, t.z⟩

/-- The colour of the vertex `i` in the float colour array of a primitive. -/
def GraphicsPrimitiveV3f.vertexColor (p : GraphicsPrimitiveV3f) (i : Nat) : List ℚ :=
  (p.m_floatRGBA.drop (4 * i)).take 4

/-- The number of vertices of a primitive. -/
def GraphicsPrimitiveV3f.numberOfVertices (p : GraphicsPrimitiveV3f) : Nat :=
  p.m_xyz.length / 3

/-- A call of one of the methods of `GraphicsPrimitiveV3f` that change the primitive. -/
inductive PrimitiveCall where
  | addVertex (xyz : Vec3)
  | addVertices (xyzArray : List Vec3)
  | replaceColoring (rgba : RgbaFloat)

/-- The primitive after a call. -/
def GraphicsPrimitiveV3f.call (p : GraphicsPrimitiveV3f) : PrimitiveCall → GraphicsPrimitiveV3f
  | PrimitiveCall.addVertex xyz => p.addVertex xyz
  | PrimitiveCall.addVertices xyzArray => p.addVertices xyzArray
  | PrimitiveCall.replaceColoring rgba => p.replaceColoring rgba

/-! ## Example data -/

/-- An overlay volume with an axis-aligned index-to-space mapping, given by its
dimensions, the coordinate of its first voxel and its spacing; every colour
byte of a slice is `sliceByte offset` and every value is coloured `valueByte offset`. -/
def exampleVolume (dimI dimJ dimK : Int) (origin spacing : Vec3) (sliceByte valueByte : Nat → Nat) :
    VolumeMappableInterface :=
  { dimI := dimI
    dimJ := dimJ
    dimK := dimK
    indexToSpace := fun i j k =>
      ⟨origin.x + spacing.x * i, origin.y + spacing.y * j, origin.z + spacing.z * k⟩
    enclosingVoxel := fun x y z =>
      (⌊(x - origin.x) / spacing.x + 1 / 2⌋, ⌊(y - origin.y) / spacing.y + 1 / 2⌋,
        ⌊(z - origin.z) / spacing.z + 1 / 2⌋)
    indexValid := fun i j k =>
      decide (0 ≤ i ∧ i < dimI ∧ 0 ≤ j ∧ j < dimJ ∧ 0 ≤ k ∧ k < dimK)
    isVolumeFile := true
    isCiftiMappableDataFile := false
    isMappedWithPalette := true
    isMappedWithLabelTable := false
    paletteFound := fun _ => true
    interpolateValue := fun _ _ => (1, true)
    getVoxelValue := fun _ _ => (1, true)
    getMapDataOffsetForVoxelAtCoordinate := fun _ _ => -1
    getVoxelColorsForSliceInMap := fun _ _ _ offset => sliceByte offset
    colorScalarsWithPalette := fun _ _ offset => valueByte offset
    colorIndicesWithLabelTable := fun _ _ offset => valueByte offset }

/-- An overlay of full opacity on map 0. -/
def exampleOverlay (volumeFile : VolumeMappableInterface) : VolumeDrawInfo :=
  { volumeFile := volumeFile, mapIndex := 0, opacity := 1 }

/-- A volume of 2 x 2 x 2 voxels of size 1 with its first voxel at the origin,
every colour byte being 255. -/
def exampleCube : VolumeMappableInterface :=
  exampleVolume 2 2 2 ⟨0, 0, 0⟩ ⟨1, 1, 1⟩ (fun _ => 255) (fun _ => 255)

/-- A volume of 1 x 2 x 2 voxels (a single voxel along X) of size 1. -/
def exampleSlab : VolumeMappableInterface :=
  exampleVolume 1 2 2 ⟨0, 0, 0⟩ ⟨1, 1, 1⟩ (fun _ => 255) (fun _ => 255)

/-- A volume of 1 x 1 x 2 voxels of size 1, every colour byte being 255. -/
def exampleColumn : VolumeMappableInterface :=
  exampleVolume 1 1 2 ⟨0, 0, 0⟩ ⟨1, 1, 1⟩ (fun _ => 255) (fun _ => 255)

/-- A volume of 2 x 2 x 4 voxels of size 1, every colour byte being 255. -/
def exampleFourSlices : VolumeMappableInterface :=
  exampleVolume 2 2 4 ⟨0, 0, 0⟩ ⟨1, 1, 1⟩ (fun _ => 255) (fun _ => 255)

/-- A volume of 1 x 1 x 2 voxels of size 1 whose slice colours are (10,20,30,255). -/
def exampleColored : VolumeMappableInterface :=
  exampleVolume 1 1 2 ⟨0, 0, 0⟩ ⟨1, 1, 1⟩ (fun offset => [10, 20, 30, 255].getD (offset % 4) 0)
    (fun _ => 255)

/-- A volume of 1 x 1 x 2 voxels of size 1 whose slice colours are all zero. -/
def exampleTransparent : VolumeMappableInterface :=
  exampleVolume 1 1 2 ⟨0, 0, 0⟩ ⟨1, 1, 1⟩ (fun _ => 0) (fun _ => 255)

/-- An overlay of the given opacity on map 0. -/
def exampleOverlayWithOpacity (volumeFile : VolumeMappableInterface) (opacity : ℚ) :
    VolumeDrawInfo :=
  { volumeFile := volumeFile, mapIndex := 0, opacity := opacity }

/-- The identity transform. -/
def exampleIdentityMatrix : Matrix4x4 := ⟨1, 0, 0, 0, 0, 1, 0, 0, 0, 0, 1, 0⟩

/-- A colour identification that writes the item index plus one into the three
colour bytes (low byte first). -/
def exampleAddItem (_events : List Event) (_rgba : Rgba) (idIndex : Int) : Rgba :=
  ⟨((idIndex + 1) % 256).toNat, ((idIndex + 1) / 256 % 256).toNat,
    ((idIndex + 1) / 65536 % 256).toNat, 0⟩

/-- The integer nearest to a rational number, the even one of the two nearest
at a tie. -/
def roundHalfEven (x : ℚ) : Int :=
  if x - ⌊x⌋ < 1 / 2 then ⌊x⌋
  else if 1 / 2 < x - ⌊x⌋ then ⌊x⌋ + 1
  else if ⌊x⌋ % 2 = 0 then ⌊x⌋
  else ⌊x⌋ + 1

/-- The exponent of the power of two at or below a positive rational number:
the number is doubled or halved, within `fuel` steps, until it lies between 1
and 2, and `e` counts the steps. -/
def binaryExponent : Nat → ℚ → Int → Int
  | 0, _, e => e
  | fuel + 1, q, e =>
    if q < 1 then binaryExponent fuel (2 * q) (e - 1)
    else if 2 ≤ q then binaryExponent fuel (q / 2) (e + 1)
    else e

/-- The power of two with an integer exponent. -/
def twoPow (e : Int) : ℚ :=
  if 0 ≤ e then ((2 ^ e.toNat : Nat) : ℚ) else 1 / ((2 ^ (-e).toNat : Nat) : ℚ)

/-- The binary floating-point number with `bits + 1` significant bits nearest
to a rational number, as IEEE 754 rounds (to nearest, ties to the even
significand), for the numbers of the normal range. -/
def roundToBinary (bits : Int) (q : ℚ) : ℚ :=
  if q = 0 then 0
  else
    (if q < 0 then -1 else 1)
      * ((roundHalfEven (|q| / twoPow (binaryExponent 1100 |q| 0 - bits)) : Int) : ℚ)
      * twoPow (binaryExponent 1100 |q| 0 - bits)

/-- The `double` (binary64, 53 significant bits) nearest to a rational number. -/
def roundToDouble (q : ℚ) : ℚ := roundToBinary 52 q

/-- The `float` (binary32, 24 significant bits) nearest to a rational number. -/
def roundToFloat (q : ℚ) : ℚ := roundToBinary 23 q

/-- A drawing context over the given overlays: all selected slice coordinates
are `selected`, no rotation; the distance of the examples is the sum of the
absolute coordinate differences, which is the distance of two points that
differ along one axis; the `double`s are rounded as binary64 numbers and the
quotients of the alignment as `float`s. -/
def exampleContext (overlays : List VolumeDrawInfo) (sliceViewMode : VolumeSliceViewModeEnum)
    (selected : ℚ) : DrawingContext :=
  { m_volumeDrawInfo := overlays
    m_browserTabContent :=
      { getSliceCoordinateParasagittal := selected
        getSliceCoordinateCoronal := selected
        getSliceCoordinateAxial := selected
        getSliceIndexParasagittal := fun _ => 0
        getSliceIndexCoronal := fun _ => 0
        getSliceIndexAxial := fun _ => 0
        getTranslation := ⟨0, 0, 0⟩
        getObliqueVolumeRotationMatrix := exampleIdentityMatrix }
    m_sliceViewMode := sliceViewMode
    m_orthographicBounds := (-1, 1, -1, 1)
    m_ciftiMappableFileData := overlays.map (fun _ => [])
    isOutlineMode := false
    convertSliceColoringToOutlineMode := fun buffer _ _ offset => buffer.getD offset 0
    colorIdentificationAddItem := exampleAddItem
    normalizeVector := fun v => v
    distance3D := fun a b => |a.x - b.x| + |a.y - b.y| + |a.z - b.z|
    createUnitVector := fun a b =>
      Vec3.scale (1 / (|a.x - b.x| + |a.y - b.y| + |a.z - b.z|)) (b.sub a)
    round := fun q => ⌊q + 1 / 2⌋
    remainder := fun a b => a - b * ⌊a / b + 1 / 2⌋
    roundDouble := roundToDouble
    roundQuotient := roundToFloat }

/-- A state in the given mode with no identification record and no event. -/
def exampleState (identificationModeFlag : Bool) : DrawingState :=
  { m_identificationModeFlag := identificationModeFlag
    m_identificationIndices := []
    m_lookAtCenter := ⟨0, 0, 0⟩
    events := [] }

/-- A volume slice of `exampleCube` with the given colour bytes. -/
def exampleVolumeSlice (rgba : List Nat) : VolumeSlice :=
  { m_volumeMappableInterface := exampleCube
    m_mapIndex := 0
    m_values := List.replicate (rgba.length / 4) 1
    m_rgba := rgba }

/-- A cell linked to the first value of overlay 0 and the first value of overlay 1. -/
def exampleCellTwoLinks : VoxelToDraw :=
  ((VoxelToDraw.create ⟨1 / 2, 1 / 2, 0⟩ ⟨0, 0, 0⟩ ⟨1, 0, 0⟩ ⟨1, 1, 0⟩ ⟨0, 1, 0⟩).addVolumeValue
    0 0).addVolumeValue 1 0

/-- A cell linked to the first value of overlay 0 only. -/
def exampleCellOneLink : VoxelToDraw :=
  (VoxelToDraw.create ⟨1 / 2, 1 / 2, 0⟩ ⟨0, 0, 0⟩ ⟨1, 0, 0⟩ ⟨1, 1, 0⟩ ⟨0, 1, 0⟩).addVolumeValue
    0 0

/-- A volume of 2 x 2 x 20 voxels of size 2 with its first voxel at the origin. -/
def exampleThickSlices : VolumeMappableInterface :=
  exampleVolume 2 2 20 ⟨0, 0, 0⟩ ⟨2, 2, 2⟩ (fun _ => 255) (fun _ => 255)


/-- Collaborators of a draw in the given mode: the voxel identification is
enabled, face culling is on, a volume model is displayed in the axial plane at
zoom 1, the montage has one row and one column, and `getMapData` of a map
delivers the two values `mapIndex` and `mapIndex + 1`. -/
def exampleCollaborators (mode : Mode) : DrawCollaborators :=
  { mode := mode
    orthographicLeft := -1
    orthographicRight := 1
    orthographicBottom := -1
    orthographicTop := 1
    isEnabledForSelection := true
    cullFaceOn := true
    hasDisplayedVolumeModel := true
    hasDisplayedWholeBrainModel := false
    getSliceViewPlane := VolumeSliceViewPlaneEnum.AXIAL
    getScaling := 1
    getMontageNumberOfRows := 1
    getMontageNumberOfColumns := 1
    getMontageSliceSpacing := 1
    isSliceAxialEnabled := true
    isSliceCoronalEnabled := true
    isSliceParasagittalEnabled := true
    getVolumeMontageGap := 0
    isVolumeMontageAxesCoordinatesDisplayed := false
    isVolumeAxesLabelsDisplayed := false
    getVoxelSpaceBoundingBox := fun _ => ⟨0, 2, 0, 2, 0, 2⟩
    getMapData := fun _ mapIndex => [(mapIndex : ℚ), (mapIndex : ℚ) + 1] }

/-- A state in the given mode that still holds the record of an earlier draw. -/
def exampleStateWithRecord (identificationModeFlag : Bool) : DrawingState :=
  { m_identificationModeFlag := identificationModeFlag
    m_identificationIndices := [0, 0, 1, 1, 1]
    m_lookAtCenter := ⟨0, 0, 0⟩
    events := [] }

/-- The volume `exampleCube` whose palette name is not found in the palette file. -/
def exampleMissingPalette : VolumeMappableInterface :=
  { exampleCube with paletteFound := fun _ => false }

/-- A CIFTI file over the grid of `exampleCube`: it is no `VolumeFile`, and the
offset of the voxel at a coordinate in its map data is 1 for a coordinate with
a non-negative X and -1 (no voxel) otherwise. -/
def exampleCifti : VolumeMappableInterface :=
  { exampleCube with
    isVolumeFile := false
    isCiftiMappableDataFile := true
    getMapDataOffsetForVoxelAtCoordinate := fun center _ => if 0 ≤ center.x then 1 else -1 }

/-- The volume `exampleCube` with every value coloured (10,20,30,255). -/
def exampleTinted : VolumeMappableInterface :=
  exampleVolume 2 2 2 ⟨0, 0, 0⟩ ⟨1, 1, 1⟩ (fun _ => 255)
    (fun offset => [10, 20, 30, 255].getD (offset % 4) 0)

/-- An oblique drawing context with the overlay `exampleTinted` under the
overlay `exampleCube`. -/
def exampleLayeredContext : DrawingContext :=
  exampleContext [exampleOverlay exampleTinted, exampleOverlay exampleCube]
    VolumeSliceViewModeEnum.OBLIQUE 0

/-- The first cell record of the axial traversal of `exampleLayeredContext`
with step size 1: it is linked to the first value of both overlays. -/
def exampleFirstCell : VoxelToDraw :=
  { m_center := ⟨-1, 0, 0⟩
    m_coordinates := [-3 / 2, -3 / 2, 0, -1 / 2, -3 / 2, 0, -1 / 2, 3 / 2, 0, -3 / 2, 3 / 2, 0]
    m_sliceIndices := [0, 1]
    m_sliceOffsets := [0, 0] }

/-- The volume slices of the axial traversal of `exampleLayeredContext` with
step size 1, after the colouring. -/
def exampleColoredSlices : List VolumeSlice :=
  (obliqueColorVolumes 0
    (obliqueTraversal exampleLayeredContext (exampleState false) VolumeSliceViewPlaneEnum.AXIAL
      exampleIdentityMatrix 1).1 []).1

/-- The collaborators of a montage of 2 rows and 2 columns of axial slices with
the slice spacing 1 and no gap. -/
def exampleMontage : DrawCollaborators :=
  { exampleCollaborators Mode.MODE_DRAWING with
    getMontageNumberOfRows := 2
    getMontageNumberOfColumns := 2 }

/-- A montage drawing context with the single overlay `exampleFourSlices`; the
selected slice is the slice 0. -/
def exampleMontageContext : DrawingContext :=
  exampleContext [exampleOverlay exampleFourSlices] VolumeSliceViewModeEnum.MONTAGE 0

/-- The oblique drawing context of the overlay `exampleCube` in which
`normalizeVector`, like `distance3D` and `createUnitVector`, measures a vector
by the sum of the absolute values of its components, which is its length for
the vectors along an axis. -/
def exampleUnitContext : DrawingContext :=
  { exampleContext [exampleOverlay exampleCube] VolumeSliceViewModeEnum.OBLIQUE 0 with
    normalizeVector := fun v => Vec3.scale (1 / (|v.x| + |v.y| + |v.z|)) v }

/-- The context `exampleUnitContext` with a screen that is 2 wide and 9 high,
which the alignment with step size 1 makes 3 wide and 10 high. -/
def exampleTallContext : DrawingContext :=
  { exampleUnitContext with m_orthographicBounds := (-1, 1, -5, 4) }
/-! ## Theorems -/

/-! ## Compositing of the oblique slice -/

theorem obliqueCompositeEntry_drawing (ctx : DrawingContext) (volumeSlices : List VolumeSlice)
    (vtd : VoxelToDraw) (st : DrawingState) (acc : Rgba) (entry : Int × Int)
    (hmode : st.m_identificationModeFlag = false) :
    obliqueCompositeEntry ctx volumeSlices vtd (st, acc) entry =
      (st, match (volumeSlices[entry.1.toNat]?).map
          (fun volumeSlice => volumeSlice.getRgbaForValueByIndex entry.2) with
        | none => acc
        | some c => if c.a > 0 then c else acc) := by
  unfold obliqueCompositeEntry
  cases h : volumeSlices[entry.1.toNat]? with
  | none => simp [h]
  | some volumeSlice =>
    by_cases hc : (volumeSlice.getRgbaForValueByIndex entry.2).a > 0
    · simp [h, hc, hmode]
    · simp [h, hc]

theorem obliqueCompositeFold_drawing (ctx : DrawingContext) (volumeSlices : List VolumeSlice)
    (vtd : VoxelToDraw) (st : DrawingState) (hmode : st.m_identificationModeFlag = false) :
    ∀ (entries : List (Int × Int)) (acc : Rgba),
      entries.foldl (obliqueCompositeEntry ctx volumeSlices vtd) (st, acc) =
        (st, (((entries.filterMap
          (fun entry => (volumeSlices[entry.1.toNat]?).map
            (fun volumeSlice => volumeSlice.getRgbaForValueByIndex entry.2))).reverse.find?
              (fun c => decide (c.a > 0))).getD acc)) := by
  intro entries
  induction entries with
  | nil => intro acc; simp
  | cons entry rest ih =>
    intro acc
    rw [List.foldl_cons, obliqueCompositeEntry_drawing ctx volumeSlices vtd st acc entry hmode, ih]
    cases h : (volumeSlices[entry.1.toNat]?).map
        (fun volumeSlice => volumeSlice.getRgbaForValueByIndex entry.2) with
    | none => simp [List.filterMap_cons, h]
    | some c =>
      simp only [List.filterMap_cons, h, List.reverse_cons, List.find?_append]
      by_cases hc : c.a > 0
      · cases hf : List.find? (fun c => decide (c.a > 0)) (List.filterMap
            (fun entry => (volumeSlices[entry.1.toNat]?).map
              (fun volumeSlice => volumeSlice.getRgbaForValueByIndex entry.2)) rest).reverse <;>
          simp [hc]
      · cases hf : List.find? (fun c => decide (c.a > 0)) (List.filterMap
            (fun entry => (volumeSlices[entry.1.toNat]?).map
              (fun volumeSlice => volumeSlice.getRgbaForValueByIndex entry.2)) rest).reverse <;>
          simp [hc]

theorem obliqueCompositeVoxelRgba_drawing (ctx : DrawingContext)
    (volumeSlices : List VolumeSlice) (vtd : VoxelToDraw) (st : DrawingState)
    (hmode : st.m_identificationModeFlag = false) :
    obliqueCompositeVoxelRgba ctx volumeSlices vtd st =
      (st, lastNonZeroAlpha (linkedEntryColors volumeSlices vtd)) := by
  unfold obliqueCompositeVoxelRgba lastNonZeroAlpha linkedEntryColors
  exact obliqueCompositeFold_drawing ctx volumeSlices vtd st hmode _ _

theorem obliqueCompositeVoxel_drawing (ctx : DrawingContext) (volumeSlices : List VolumeSlice)
    (sliceNormalVector : Vec3) (s : DrawingState × QuadBuffers) (vtd : VoxelToDraw)
    (hmode : s.1.m_identificationModeFlag = false) :
    obliqueCompositeVoxel ctx volumeSlices sliceNormalVector s vtd =
      if (lastNonZeroAlpha (linkedEntryColors volumeSlices vtd)).a > 0 then
        (s.1, s.2.addQuad (vtd.m_coordinates.take 12) sliceNormalVector
          (lastNonZeroAlpha (linkedEntryColors volumeSlices vtd)))
      else s := by
  unfold obliqueCompositeVoxel
  rw [obliqueCompositeVoxelRgba_drawing ctx volumeSlices vtd s.1 hmode]
  by_cases h : (lastNonZeroAlpha (linkedEntryColors volumeSlices vtd)).a > 0
  · simp [h, QuadBuffers.addQuad]
  · simp [h]

theorem find?_getD_zero_alpha (colors : List Rgba) :
    (((colors.find? (fun c => decide (c.a > 0))).getD ⟨0, 0, 0, 0⟩).a > 0) ↔
      ∃ c ∈ colors, c.a > 0 := by
  cases h : colors.find? (fun c => decide (c.a > 0)) with
  | none =>
    simp only [Option.getD_none]
    rw [List.find?_eq_none] at h
    constructor
    · intro h0; exact absurd h0 (by decide)
    · rintro ⟨c, hc, hpos⟩
      have := h c hc
      simp at this
      omega
  | some c =>
    simp only [Option.getD_some]
    have hp := List.find?_some h
    have hm := List.mem_of_find?_eq_some h
    simp at hp
    constructor
    · intro _; exact ⟨c, hm, hp⟩
    · intro _; exact hp

theorem find?_getD_mem (colors : List Rgba)
    (h : ((colors.find? (fun c => decide (c.a > 0))).getD ⟨0, 0, 0, 0⟩).a > 0) :
    ((colors.find? (fun c => decide (c.a > 0))).getD ⟨0, 0, 0, 0⟩) ∈ colors := by
  cases hf : colors.find? (fun c => decide (c.a > 0)) with
  | none => rw [hf] at h; exact absurd h (by decide)
  | some c => simpa using List.mem_of_find?_eq_some hf

theorem lastNonZeroAlpha_pos_iff (colors : List Rgba) :
    (lastNonZeroAlpha colors).a > 0 ↔ ∃ c ∈ colors, c.a > 0 := by
  unfold lastNonZeroAlpha
  rw [find?_getD_zero_alpha]
  simp

theorem lastNonZeroAlpha_mem (colors : List Rgba) (h : (lastNonZeroAlpha colors).a > 0) :
    lastNonZeroAlpha colors ∈ colors := by
  unfold lastNonZeroAlpha at h ⊢
  have := find?_getD_mem colors.reverse h
  simpa using this

theorem lastNonZeroAlpha_pair (c0 c1 : Rgba) (h1 : c1.a > 0) :
    lastNonZeroAlpha [c0, c1] = c1 := by
  simp [lastNonZeroAlpha, List.find?, h1]

theorem VoxelToDraw.create_coordinates_length (c lb rb rt lt : Vec3) :
    (VoxelToDraw.create c lb rb rt lt).m_coordinates.length = 12 := by
  simp [VoxelToDraw.create, Vec3.toList]

theorem obliqueSampleVolumes_coordinates (ctx : DrawingContext) (c lb rb rt lt : Vec3) :
    ∀ (vdis : List VolumeDrawInfo) (iVol : Nat) (volumeSlices : List VolumeSlice)
      (cur : Option VoxelToDraw),
      (∀ v, cur = some v → v.m_coordinates.length = 12) →
      ∀ v, (obliqueSampleVolumes ctx c lb rb rt lt iVol vdis volumeSlices cur).2 = some v →
        v.m_coordinates.length = 12 := by
  intro vdis
  induction vdis with
  | nil => intro iVol volumeSlices cur hcur v hv; simp [obliqueSampleVolumes] at hv; exact hcur v hv
  | cons vdi rest ih =>
    intro iVol volumeSlices cur hcur v hv
    cases volumeSlices with
    | nil => simp [obliqueSampleVolumes] at hv; exact hcur v hv
    | cons volumeSlice slices =>
      simp only [obliqueSampleVolumes] at hv
      split at hv
      · refine ih (iVol + 1) slices _ ?_ v hv
        intro w hw
        cases cur with
        | none =>
          simp at hw
          rw [← hw]
          simp [VoxelToDraw.addVolumeValue, VoxelToDraw.create, Vec3.toList]
        | some u =>
          simp at hw
          rw [← hw]
          simpa [VoxelToDraw.addVolumeValue] using hcur u rfl
      · exact ih (iVol + 1) slices cur hcur v hv

theorem obliqueRowCells_coordinates (ctx : DrawingContext) (bottomD topD : Vec3) :
    ∀ (fuel : Nat) (bl tl : Vec3) (s : List VolumeSlice × List VoxelToDraw),
      (∀ v ∈ s.2, v.m_coordinates.length = 12) →
      ∀ v ∈ (obliqueRowCells ctx bottomD topD fuel bl tl s).2, v.m_coordinates.length = 12 := by
  intro fuel
  induction fuel with
  | zero => intro bl tl s hs v hv; simpa [obliqueRowCells] using hs v hv
  | succ n ih =>
    intro bl tl s hs v hv
    simp only [obliqueRowCells] at hv
    refine ih _ _ _ ?_ v hv
    intro w hw
    simp only [List.mem_append, Option.mem_toList, Option.mem_def] at hw
    rcases hw with hw | hw
    · exact hs w hw
    · exact obliqueSampleVolumes_coordinates ctx _ _ _ _ _ _ _ _ _ (by simp) w hw

theorem obliqueRows_coordinates (ctx : DrawingContext) (voxelSize : ℚ) (bl br ul ur : Vec3)
    (stepL stepR dt : ℚ) :
    ∀ (fuel : Nat) (t dL dR : ℚ) (s : List VolumeSlice × List VoxelToDraw),
      (∀ v ∈ s.2, v.m_coordinates.length = 12) →
      ∀ v ∈ (obliqueRows ctx voxelSize bl br ul ur stepL stepR dt fuel t dL dR s).2,
        v.m_coordinates.length = 12 := by
  intro fuel
  induction fuel with
  | zero => intro t dL dR s hs v hv; simpa [obliqueRows] using hs v hv
  | succ n ih =>
    intro t dL dR s hs v hv
    simp only [obliqueRows] at hv
    split at hv
    · refine ih _ _ _ _ ?_ v hv
      intro w hw
      exact obliqueRowCells_coordinates ctx _ _ _ _ _ s hs w hw
    · exact hs v hv

theorem obliqueTraversal_coordinates (ctx : DrawingContext) (st : DrawingState)
    (sliceViewPlane : VolumeSliceViewPlaneEnum) (transformationMatrix : Matrix4x4)
    (voxelSize : ℚ) :
    ∀ v ∈ (obliqueTraversal ctx st sliceViewPlane transformationMatrix voxelSize).2,
      v.m_coordinates.length = 12 := by
  intro v hv
  simp only [obliqueTraversal] at hv
  split at hv
  · exact obliqueRows_coordinates ctx _ _ _ _ _ _ _ _ _ _ _ _ _ (by simp) v hv
  · simp at hv

theorem obliqueComposite_fold_drawing (ctx : DrawingContext) (volumeSlices : List VolumeSlice)
    (sliceNormalVector : Vec3) :
    ∀ (cells : List VoxelToDraw) (s : DrawingState × QuadBuffers),
      s.1.m_identificationModeFlag = false →
      (∀ v ∈ cells, v.m_coordinates.length = 12) →
      (cells.foldl (obliqueCompositeVoxel ctx volumeSlices sliceNormalVector) s).1 = s.1
      ∧ (cells.foldl (obliqueCompositeVoxel ctx volumeSlices sliceNormalVector)
          s).2.coordinates.length = s.2.coordinates.length + 12 * (cells.filter (fun vtd =>
            decide ((lastNonZeroAlpha (linkedEntryColors volumeSlices vtd)).a > 0))).length
      ∧ (cells.foldl (obliqueCompositeVoxel ctx volumeSlices sliceNormalVector)
          s).2.normals.length = s.2.normals.length + 12 * (cells.filter (fun vtd =>
            decide ((lastNonZeroAlpha (linkedEntryColors volumeSlices vtd)).a > 0))).length
      ∧ (cells.foldl (obliqueCompositeVoxel ctx volumeSlices sliceNormalVector)
          s).2.rgba.length = s.2.rgba.length + 16 * (cells.filter (fun vtd =>
            decide ((lastNonZeroAlpha (linkedEntryColors volumeSlices vtd)).a > 0))).length := by
  intro cells
  induction cells with
  | nil => intro s _ _; simp
  | cons vtd rest ih =>
    intro s hmode hlen
    have hv : vtd.m_coordinates.length = 12 := hlen vtd (by simp)
    have hrest : ∀ v ∈ rest, v.m_coordinates.length = 12 := fun v hv => hlen v (by simp [hv])
    rw [List.foldl_cons, obliqueCompositeVoxel_drawing ctx volumeSlices sliceNormalVector s vtd
      hmode]
    by_cases h : (lastNonZeroAlpha (linkedEntryColors volumeSlices vtd)).a > 0
    · rw [if_pos h]
      obtain ⟨h1, h2, h3, h4⟩ := ih (s.1, s.2.addQuad (vtd.m_coordinates.take 12)
        sliceNormalVector (lastNonZeroAlpha (linkedEntryColors volumeSlices vtd))) hmode hrest
      refine ⟨h1, ?_, ?_, ?_⟩
      · rw [h2]; simp [QuadBuffers.addQuad, List.filter_cons, h, hv]; omega
      · rw [h3]; simp [QuadBuffers.addQuad, List.filter_cons, h, Vec3.toList]; omega
      · rw [h4]; simp [QuadBuffers.addQuad, List.filter_cons, h, Rgba.toList]; omega
    · rw [if_neg h]
      obtain ⟨h1, h2, h3, h4⟩ := ih s hmode hrest
      refine ⟨h1, ?_, ?_, ?_⟩
      · rw [h2]; simp [List.filter_cons, h]
      · rw [h3]; simp [List.filter_cons, h]
      · rw [h4]; simp [List.filter_cons, h]

/-- The row loop of the traversal stops by its own test: when every rounded
sum `tVertical += dtVertical` below 1 adds at least half of `dtVertical`, the
loop has left once the fuel covers `2 / dtVertical` iterations, and more fuel
changes nothing. -/
theorem obliqueRows_fuel_enough (ctx : DrawingContext) (voxelSize : ℚ) (bl br ul ur : Vec3)
    (stepL stepR dt : ℚ)
    (hhalf : ∀ t : ℚ, 0 ≤ t → t < 1 → t + dt / 2 ≤ ctx.roundDouble (t + dt)) (hdt : 0 ≤ dt) :
    ∀ (fuel extra : Nat) (t dL dR : ℚ) (s : List VolumeSlice × List VoxelToDraw),
      0 ≤ t → 1 ≤ t + fuel * (dt / 2) →
      obliqueRows ctx voxelSize bl br ul ur stepL stepR dt (fuel + extra) t dL dR s =
        obliqueRows ctx voxelSize bl br ul ur stepL stepR dt fuel t dL dR s := by
  intro fuel
  induction fuel with
  | zero =>
    intro extra t dL dR s _ h
    have ht : ¬ t < 1 := by
      simp only [Nat.cast_zero, zero_mul, add_zero] at h
      exact not_lt.2 h
    cases extra with
    | zero => rfl
    | succ e => simp [obliqueRows, ht]
  | succ n ih =>
    intro extra t dL dR s h0 h
    have e : n + 1 + extra = (n + extra) + 1 := by omega
    rw [e]
    simp only [obliqueRows]
    split
    · rename_i ht
      have hstep := hhalf t h0 ht
      apply ih
      · linarith
      · have : ((n + 1 : Nat) : ℚ) = (n : ℚ) + 1 := by push_cast; ring
        rw [this] at h
        linarith
    · rfl

/-- The fuel given to the row loop by `obliqueTraversal` covers the iterations
of the loop: for a positive `dtVertical` it is at least `2 / dtVertical`. -/
theorem obliqueTraversal_fuel_covers (dtVertical : ℚ) (hdt : 0 < dtVertical) :
    1 ≤ (0 : ℚ) + ((2 * Int.toNat ⌈1 / dtVertical⌉ + 1 : Nat) : ℚ) * (dtVertical / 2) := by
  have h1 : (1 / dtVertical : ℚ) ≤ ((⌈1 / dtVertical⌉ : Int) : ℚ) := Int.le_ceil _
  have h2 : (0 : Int) ≤ ⌈1 / dtVertical⌉ := Int.ceil_nonneg (by positivity)
  have h3 : ((Int.toNat ⌈1 / dtVertical⌉ : Nat) : ℚ) = ((⌈1 / dtVertical⌉ : Int) : ℚ) := by
    have := Int.toNat_of_nonneg h2
    exact_mod_cast this
  have h4 : (1 : ℚ) ≤ ((⌈1 / dtVertical⌉ : Int) : ℚ) * dtVertical :=
    calc (1 : ℚ) = (1 / dtVertical) * dtVertical := by field_simp
      _ ≤ ((⌈1 / dtVertical⌉ : Int) : ℚ) * dtVertical :=
          mul_le_mul_of_nonneg_right h1 (le_of_lt hdt)
  push_cast
  rw [h3]
  nlinarith

/-- The traversal of `drawObliqueSlice` does not rest on the number of
iterations that the model gives to the row loop: when every rounded sum
`tVertical += dtVertical` below 1 adds at least half of the positive
`dtVertical`, the row loop with these iterations and with any number of
iterations more gives the same volume slices and cell records. -/
theorem obliqueRows_result_of_more_fuel (ctx : DrawingContext) (voxelSize : ℚ)
    (bl br ul ur : Vec3) (stepL stepR dt : ℚ) (extra : Nat)
    (s : List VolumeSlice × List VoxelToDraw) (hdt : 0 < dt)
    (hhalf : ∀ t : ℚ, 0 ≤ t → t < 1 → t + dt / 2 ≤ ctx.roundDouble (t + dt)) :
    obliqueRows ctx voxelSize bl br ul ur stepL stepR dt
        (2 * Int.toNat ⌈1 / dt⌉ + 1 + extra) 0 0 0 s =
      obliqueRows ctx voxelSize bl br ul ur stepL stepR dt (2 * Int.toNat ⌈1 / dt⌉ + 1) 0 0 0 s :=
  obliqueRows_fuel_enough ctx voxelSize bl br ul ur stepL stepR dt hhalf (le_of_lt hdt) _ extra
    0 0 0 s (le_refl 0) (obliqueTraversal_fuel_covers dt hdt)

theorem binaryExponent_nonpos :
    ∀ (fuel : Nat) (q : ℚ) (e : Int), q < 2 → e ≤ 0 → binaryExponent fuel q e ≤ 0 := by
  intro fuel
  induction fuel with
  | zero => intro q e _ he; exact he
  | succ n ih =>
    intro q e hq he
    unfold binaryExponent
    split_ifs with h1 h2
    · exact ih _ _ (by linarith) (by omega)
    · exact absurd hq (not_lt.2 h2)
    · exact he

theorem twoPow_pos (e : Int) : 0 < twoPow e := by
  unfold twoPow
  split_ifs
  · positivity
  · positivity

theorem twoPow_le (e : Int) (he : e ≤ -52) : twoPow e ≤ 1 / 2 ^ 52 := by
  unfold twoPow
  rw [if_neg (by omega)]
  have h1 : (2 : Nat) ^ 52 ≤ 2 ^ (-e).toNat := Nat.pow_le_pow_right (by decide) (by omega)
  have h2 : ((2 : ℚ) ^ 52) ≤ ((2 ^ (-e).toNat : Nat) : ℚ) := by exact_mod_cast h1
  exact one_div_le_one_div_of_le (by positivity) h2

theorem roundHalfEven_ge (x : ℚ) : x - 1 / 2 ≤ (roundHalfEven x : ℚ) := by
  have h1 : (⌊x⌋ : ℚ) ≤ x := Int.floor_le x
  have h2 : x < (⌊x⌋ : ℚ) + 1 := Int.lt_floor_add_one x
  unfold roundHalfEven
  split_ifs <;> push_cast <;> linarith

/-- The sum of a counter in [0, 1) and a step `dt ≥ 2^-52`, rounded to a
`double`, is at least the counter plus half of the step: the rounding error of
a number below 2 is at most `2^-53`. -/
theorem roundToDouble_sum_ge_half (t dt : ℚ) (ht0 : 0 ≤ t) (ht1 : t < 1)
    (hdt : 1 / 2 ^ 52 ≤ dt) (hdt1 : dt ≤ 1) : t + dt / 2 ≤ roundToDouble (t + dt) := by
  have hpos : 0 < t + dt := by
    have : (0 : ℚ) < 1 / 2 ^ 52 := by positivity
    linarith
  have habs : |t + dt| = t + dt := abs_of_pos hpos
  have he : binaryExponent 1100 (t + dt) 0 - 52 ≤ -52 := by
    have := binaryExponent_nonpos 1100 (t + dt) 0 (by linarith) (le_refl 0)
    omega
  have hu := twoPow_pos (binaryExponent 1100 (t + dt) 0 - 52)
  have hu2 := twoPow_le (binaryExponent 1100 (t + dt) 0 - 52) he
  have hr := roundHalfEven_ge ((t + dt) / twoPow (binaryExponent 1100 (t + dt) 0 - 52))
  unfold roundToDouble roundToBinary
  rw [if_neg (ne_of_gt hpos), if_neg (not_lt.2 (le_of_lt hpos)), habs, one_mul]
  have hmul := mul_le_mul_of_nonneg_right hr (le_of_lt hu)
  rw [sub_mul, div_mul_cancel₀ _ (ne_of_gt hu)] at hmul
  have h53 : (1 : ℚ) / 2 * (1 / 2 ^ 52) ≤ dt / 2 := by linarith
  nlinarith

/-- With the `double`s of the loop header rounded as binary64 numbers, the
iterations that `obliqueTraversal` gives to the row loop are enough for every
`dtVertical` between `2^-52` and 1: more iterations give the same result. -/
theorem obliqueRows_enough_for_doubles (ctx : DrawingContext) (voxelSize : ℚ)
    (bl br ul ur : Vec3) (stepL stepR dt : ℚ) (extra : Nat)
    (s : List VolumeSlice × List VoxelToDraw)
    (hround : ctx.roundDouble = roundToDouble) (hdt : 1 / 2 ^ 52 ≤ dt) (hdt1 : dt ≤ 1) :
    obliqueRows ctx voxelSize bl br ul ur stepL stepR dt
        (2 * Int.toNat ⌈1 / dt⌉ + 1 + extra) 0 0 0 s =
      obliqueRows ctx voxelSize bl br ul ur stepL stepR dt (2 * Int.toNat ⌈1 / dt⌉ + 1) 0 0 0 s :=
  obliqueRows_result_of_more_fuel ctx voxelSize bl br ul ur stepL stepR dt extra s
    (lt_of_lt_of_le (by positivity) hdt)
    (fun t ht0 ht1 => by
      rw [hround]
      exact roundToDouble_sum_ge_half t dt ht0 ht1 hdt hdt1)

/-- C1 (amended): in drawing mode the composited colour of a cell of
`drawObliqueSlice` is the colour of the last linked `(volume, offset)` entry, in
overlay order, whose alpha is not zero (every such entry overwrites the earlier
ones), the state being untouched; the quadrilateral emitted for the cell
carries this colour; and for a cell linked to two overlays whose colours both
have a non-zero alpha this is the colour of the second overlay. -/
theorem oblique_composite_last_nonzero_alpha_wins (ctx : DrawingContext)
    (volumeSlices : List VolumeSlice) (sliceNormalVector : Vec3) (vtd : VoxelToDraw)
    (s : DrawingState × QuadBuffers) (hmode : s.1.m_identificationModeFlag = false) :
    obliqueCompositeVoxelRgba ctx volumeSlices vtd s.1 =
        (s.1, lastNonZeroAlpha (linkedEntryColors volumeSlices vtd))
    ∧ ((lastNonZeroAlpha (linkedEntryColors volumeSlices vtd)).a > 0 →
        obliqueCompositeVoxel ctx volumeSlices sliceNormalVector s vtd =
          (s.1, s.2.addQuad (vtd.m_coordinates.take 12) sliceNormalVector
            (lastNonZeroAlpha (linkedEntryColors volumeSlices vtd))))
    ∧ (∀ c0 c1 : Rgba, linkedEntryColors volumeSlices vtd = [c0, c1] → c0.a > 0 → c1.a > 0 →
        (obliqueCompositeVoxelRgba ctx volumeSlices vtd s.1).2 = c1) := by
  refine ⟨obliqueCompositeVoxelRgba_drawing ctx volumeSlices vtd s.1 hmode, ?_, ?_⟩
  · intro h
    rw [obliqueCompositeVoxel_drawing ctx volumeSlices sliceNormalVector s vtd hmode, if_pos h]
  · intro c0 c1 hc _ h1
    rw [obliqueCompositeVoxelRgba_drawing ctx volumeSlices vtd s.1 hmode, hc]
    exact lastNonZeroAlpha_pair c0 c1 h1

/-- Witness of C1 (amended): a cell linked to a red overlay of alpha 255 and a
green overlay of alpha 128, in drawing mode. -/
theorem oblique_composite_last_nonzero_alpha_wins_witness :
    (exampleState false).m_identificationModeFlag = false
    ∧ obliqueCompositeVoxelRgba (exampleContext [] VolumeSliceViewModeEnum.OBLIQUE 0)
        [exampleVolumeSlice [255, 0, 0, 255], exampleVolumeSlice [0, 255, 0, 128]]
        exampleCellTwoLinks (exampleState false) =
      (exampleState false, lastNonZeroAlpha (linkedEntryColors
        [exampleVolumeSlice [255, 0, 0, 255], exampleVolumeSlice [0, 255, 0, 128]]
        exampleCellTwoLinks)) :=
  ⟨rfl, (oblique_composite_last_nonzero_alpha_wins
    (exampleContext [] VolumeSliceViewModeEnum.OBLIQUE 0)
    [exampleVolumeSlice [255, 0, 0, 255], exampleVolumeSlice [0, 255, 0, 128]] ⟨0, 0, 1⟩
    exampleCellTwoLinks (exampleState false, ⟨[], [], []⟩) rfl).1⟩

/-- Counterexample to C1 as stated: a cell linked to a first overlay coloured
(255,0,0,255) and a second, semi-transparent overlay coloured (0,255,0,128)
is composited to the colour of the second overlay, not to that of the first
entry with non-zero alpha; and in identification mode a cell with the single
entry (255,0,0,255) is composited to the identification colour (1,0,0,255). -/
theorem oblique_composite_first_entry_does_not_win :
    ((obliqueCompositeVoxelRgba (exampleContext [] VolumeSliceViewModeEnum.OBLIQUE 0)
        [exampleVolumeSlice [255, 0, 0, 255], exampleVolumeSlice [0, 255, 0, 128]]
        exampleCellTwoLinks (exampleState false)).2 = ⟨0, 255, 0, 128⟩
      ∧ (obliqueCompositeVoxelRgba (exampleContext [] VolumeSliceViewModeEnum.OBLIQUE 0)
        [exampleVolumeSlice [255, 0, 0, 255], exampleVolumeSlice [0, 255, 0, 128]]
        exampleCellTwoLinks (exampleState false)).2 ≠ firstNonZeroAlpha (linkedEntryColors
          [exampleVolumeSlice [255, 0, 0, 255], exampleVolumeSlice [0, 255, 0, 128]]
          exampleCellTwoLinks))
    ∧ ((obliqueCompositeVoxelRgba (exampleContext [] VolumeSliceViewModeEnum.OBLIQUE 0)
        [exampleVolumeSlice [255, 0, 0, 255]] exampleCellOneLink (exampleState true)).2
          = ⟨1, 0, 0, 255⟩
      ∧ (obliqueCompositeVoxelRgba (exampleContext [] VolumeSliceViewModeEnum.OBLIQUE 0)
        [exampleVolumeSlice [255, 0, 0, 255]] exampleCellOneLink (exampleState true)).2
          ≠ firstNonZeroAlpha (linkedEntryColors [exampleVolumeSlice [255, 0, 0, 255]]
            exampleCellOneLink)) := by
  decide!

theorem any_nonzero_alpha_iff (colors : List Rgba) :
    colors.any (fun c => decide (c.a > 0)) = decide ((lastNonZeroAlpha colors).a > 0) := by
  rw [Bool.eq_iff_iff]
  simp only [List.any_eq_true, decide_eq_true_eq]
  exact (lastNonZeroAlpha_pos_iff colors).symm

/-- C7: in drawing mode `drawObliqueSlice` emits a quadrilateral for a cell if
and only if one of the linked entries of the cell has a non-zero alpha after
the colouring: then exactly one quadrilateral is appended, whose four colours
are the colour of one of these entries (never a synthesised black) and whose
coordinates are those stored in the cell, and a cell whose entries all have
alpha zero leaves the buffers as they are; the constructor stores the corners
in the order left-bottom, right-bottom, right-top, left-top; and with `q` the
number of cells of the traversal that have an entry of non-zero alpha, the
draw makes no call of `drawQuads` when `q = 0` and otherwise one call whose
buffers hold `12 q` coordinates, `12 q` normal components and `16 q` colour
bytes. -/
theorem oblique_quad_emitted_iff_nonzero_alpha (ctx : DrawingContext) (st : DrawingState)
    (sliceViewPlane : VolumeSliceViewPlaneEnum) (plane : Plane)
    (transformationMatrix : Matrix4x4) (zoom voxelSize : ℚ)
    (hmode : st.m_identificationModeFlag = false) :
    (∀ (volumeSlices : List VolumeSlice) (sliceNormalVector : Vec3)
        (s : DrawingState × QuadBuffers) (vtd : VoxelToDraw),
        s.1.m_identificationModeFlag = false →
        ((∃ c ∈ linkedEntryColors volumeSlices vtd, c.a > 0) →
          ∃ c ∈ linkedEntryColors volumeSlices vtd, c.a > 0 ∧
            obliqueCompositeVoxel ctx volumeSlices sliceNormalVector s vtd =
              (s.1, s.2.addQuad (vtd.m_coordinates.take 12) sliceNormalVector c))
        ∧ ((∀ c ∈ linkedEntryColors volumeSlices vtd, c.a = 0) →
          obliqueCompositeVoxel ctx volumeSlices sliceNormalVector s vtd = s))
    ∧ (∀ (center leftBottom rightBottom rightTop leftTop : Vec3) (iVol offset : Int),
        ((VoxelToDraw.create center leftBottom rightBottom rightTop leftTop).addVolumeValue
          iVol offset).m_coordinates.take 12 =
          [leftBottom.x, leftBottom.y, leftBottom.z, rightBottom.x, rightBottom.y, rightBottom.z,
            rightTop.x, rightTop.y, rightTop.z, leftTop.x, leftTop.y, leftTop.z])
    ∧ (∃ (coordinates normals : List ℚ) (rgba : List Nat),
        coordinates.length = 12 * ((obliqueTraversal ctx st sliceViewPlane transformationMatrix
            voxelSize).2.filter (fun vtd => (linkedEntryColors (obliqueColorVolumes 0
              (obliqueTraversal ctx st sliceViewPlane transformationMatrix voxelSize).1
              st.events).1 vtd).any (fun c => decide (c.a > 0)))).length
        ∧ normals.length = 12 * ((obliqueTraversal ctx st sliceViewPlane transformationMatrix
            voxelSize).2.filter (fun vtd => (linkedEntryColors (obliqueColorVolumes 0
              (obliqueTraversal ctx st sliceViewPlane transformationMatrix voxelSize).1
              st.events).1 vtd).any (fun c => decide (c.a > 0)))).length
        ∧ rgba.length = 16 * ((obliqueTraversal ctx st sliceViewPlane transformationMatrix
            voxelSize).2.filter (fun vtd => (linkedEntryColors (obliqueColorVolumes 0
              (obliqueTraversal ctx st sliceViewPlane transformationMatrix voxelSize).1
              st.events).1 vtd).any (fun c => decide (c.a > 0)))).length
        ∧ (drawObliqueSliceWithVoxelSize ctx st sliceViewPlane plane transformationMatrix zoom
            voxelSize).events =
          (obliqueColorVolumes 0 (obliqueTraversal ctx st sliceViewPlane transformationMatrix
            voxelSize).1 st.events).2 ++
            (if ((obliqueTraversal ctx st sliceViewPlane transformationMatrix
                voxelSize).2.filter (fun vtd => (linkedEntryColors (obliqueColorVolumes 0
                  (obliqueTraversal ctx st sliceViewPlane transformationMatrix voxelSize).1
                  st.events).1 vtd).any (fun c => decide (c.a > 0)))).length = 0 then []
             else [Event.glPushMatrix, Event.glScalef zoom zoom zoom,
               Event.drawQuads coordinates normals rgba, Event.glPopMatrix])) := by
  refine ⟨?_, ?_, ?_⟩
  · intro volumeSlices sliceNormalVector s vtd hs
    constructor
    · intro hex
      have hpos := (lastNonZeroAlpha_pos_iff _).2 hex
      refine ⟨lastNonZeroAlpha (linkedEntryColors volumeSlices vtd),
        lastNonZeroAlpha_mem _ hpos, hpos, ?_⟩
      rw [obliqueCompositeVoxel_drawing ctx volumeSlices sliceNormalVector s vtd hs, if_pos hpos]
    · intro hall
      have hneg : ¬ (lastNonZeroAlpha (linkedEntryColors volumeSlices vtd)).a > 0 := by
        intro hpos
        obtain ⟨c, hc, hcpos⟩ := (lastNonZeroAlpha_pos_iff _).1 hpos
        have := hall c hc
        omega
      rw [obliqueCompositeVoxel_drawing ctx volumeSlices sliceNormalVector s vtd hs, if_neg hneg]
  · intro center leftBottom rightBottom rightTop leftTop iVol offset
    simp [VoxelToDraw.create, VoxelToDraw.addVolumeValue, Vec3.toList]
  · have hfilter : ∀ (volumeSlices : List VolumeSlice) (cells : List VoxelToDraw),
        cells.filter (fun vtd => (linkedEntryColors volumeSlices vtd).any
          (fun c => decide (c.a > 0))) =
        cells.filter (fun vtd => decide ((lastNonZeroAlpha
          (linkedEntryColors volumeSlices vtd)).a > 0)) := by
      intro volumeSlices cells
      congr 1
      funext vtd
      exact any_nonzero_alpha_iff _
    simp only [hfilter]
    obtain ⟨h1, h2, h3, h4⟩ := obliqueComposite_fold_drawing ctx
      (obliqueColorVolumes 0 (obliqueTraversal ctx st sliceViewPlane transformationMatrix
        voxelSize).1 st.events).1 plane.m_normalVector
      (obliqueTraversal ctx st sliceViewPlane transformationMatrix voxelSize).2
      ({ st with events := (obliqueColorVolumes 0 (obliqueTraversal ctx st sliceViewPlane
        transformationMatrix voxelSize).1 st.events).2 }, ⟨[], [], []⟩) hmode
      (obliqueTraversal_coordinates ctx st sliceViewPlane transformationMatrix voxelSize)
    refine ⟨(obliqueComposite ctx (obliqueColorVolumes 0 (obliqueTraversal ctx st sliceViewPlane
        transformationMatrix voxelSize).1 st.events).1 plane.m_normalVector
        (obliqueTraversal ctx st sliceViewPlane transformationMatrix voxelSize).2
        { st with events := (obliqueColorVolumes 0 (obliqueTraversal ctx st sliceViewPlane
          transformationMatrix voxelSize).1 st.events).2 }).2.coordinates,
      (obliqueComposite ctx (obliqueColorVolumes 0 (obliqueTraversal ctx st sliceViewPlane
        transformationMatrix voxelSize).1 st.events).1 plane.m_normalVector
        (obliqueTraversal ctx st sliceViewPlane transformationMatrix voxelSize).2
        { st with events := (obliqueColorVolumes 0 (obliqueTraversal ctx st sliceViewPlane
          transformationMatrix voxelSize).1 st.events).2 }).2.normals,
      (obliqueComposite ctx (obliqueColorVolumes 0 (obliqueTraversal ctx st sliceViewPlane
        transformationMatrix voxelSize).1 st.events).1 plane.m_normalVector
        (obliqueTraversal ctx st sliceViewPlane transformationMatrix voxelSize).2
        { st with events := (obliqueColorVolumes 0 (obliqueTraversal ctx st sliceViewPlane
          transformationMatrix voxelSize).1 st.events).2 }).2.rgba, ?_, ?_, ?_, ?_⟩
    · simpa [obliqueComposite] using h2
    · simpa [obliqueComposite] using h3
    · simpa [obliqueComposite] using h4
    · simp only [drawObliqueSliceWithVoxelSize, obliqueComposite]
      dsimp only at h2
      simp only [List.length_nil, Nat.zero_add] at h2
      by_cases hq : ((obliqueTraversal ctx st sliceViewPlane transformationMatrix
          voxelSize).2.filter (fun vtd => decide ((lastNonZeroAlpha (linkedEntryColors
            (obliqueColorVolumes 0 (obliqueTraversal ctx st sliceViewPlane transformationMatrix
              voxelSize).1 st.events).1 vtd)).a > 0))).length = 0
      · rw [if_pos hq]
        rw [hq] at h2
        have hnil := List.eq_nil_of_length_eq_zero h2
        simp [hnil, h1]
      · rw [if_neg hq]
        have hne : (List.foldl (obliqueCompositeVoxel ctx
            (obliqueColorVolumes 0 (obliqueTraversal ctx st sliceViewPlane transformationMatrix
              voxelSize).1 st.events).1 plane.m_normalVector)
            ({ st with events := (obliqueColorVolumes 0 (obliqueTraversal ctx st sliceViewPlane
              transformationMatrix voxelSize).1 st.events).2 }, ⟨[], [], []⟩)
            (obliqueTraversal ctx st sliceViewPlane transformationMatrix
              voxelSize).2).2.coordinates ≠ [] := by
          intro hnil
          rw [hnil] at h2
          simp only [List.length_nil] at h2
          omega
        simp [hne, h1]

/-- Witness of C7: the cell linked to the colours (255,0,0,255) and (0,255,0,128)
emits one quadrilateral in drawing mode. -/
theorem oblique_quad_emitted_iff_nonzero_alpha_witness :
    (exampleState false).m_identificationModeFlag = false
    ∧ ∃ c ∈ linkedEntryColors
          [exampleVolumeSlice [255, 0, 0, 255], exampleVolumeSlice [0, 255, 0, 128]]
          exampleCellTwoLinks,
        c.a > 0 ∧
        obliqueCompositeVoxel (exampleContext [exampleOverlay exampleCube]
            VolumeSliceViewModeEnum.OBLIQUE 0)
          [exampleVolumeSlice [255, 0, 0, 255], exampleVolumeSlice [0, 255, 0, 128]] ⟨0, 0, 1⟩
          (exampleState false, ⟨[], [], []⟩) exampleCellTwoLinks =
        (exampleState false, QuadBuffers.addQuad ⟨[], [], []⟩
          (exampleCellTwoLinks.m_coordinates.take 12) ⟨0, 0, 1⟩ c) :=
  ⟨rfl, ((oblique_quad_emitted_iff_nonzero_alpha
    (exampleContext [exampleOverlay exampleCube] VolumeSliceViewModeEnum.OBLIQUE 0)
    (exampleState false) VolumeSliceViewPlaneEnum.AXIAL ⟨⟨0, 0, 1⟩, ⟨0, 0, 0⟩⟩
    exampleIdentityMatrix 1 1 rfl).1
      [exampleVolumeSlice [255, 0, 0, 255], exampleVolumeSlice [0, 255, 0, 128]] ⟨0, 0, 1⟩
      (exampleState false, ⟨[], [], []⟩) exampleCellTwoLinks rfl).1
        ⟨⟨0, 255, 0, 128⟩, by decide!, by decide⟩⟩

/-! ## Identification records -/

theorem toInt32_of_range (x : Int) (h0 : 0 ≤ x) (h1 : x < 2147483648) : toInt32 x = x := by
  unfold toInt32
  omega

theorem addVoxelToIdentification_indices (ctx : DrawingContext) (st : DrawingState)
    (v mp i j k : Int) (c : Rgba) :
    (addVoxelToIdentification ctx st v mp i j k c).1.m_identificationIndices =
      st.m_identificationIndices ++ [v, mp, i, j, k] := rfl

theorem addVoxelsToIdentification_append (ctx : DrawingContext) :
    ∀ (calls : List (Int × Int × Int × Int × Int)) (st : DrawingState),
      ∃ tail : List Int,
        (addVoxelsToIdentification ctx st calls).1.m_identificationIndices =
          st.m_identificationIndices ++ tail := by
  intro calls
  induction calls with
  | nil => intro st; exact ⟨[], by simp [addVoxelsToIdentification]⟩
  | cons call rest ih =>
    intro st
    obtain ⟨v, mp, i, j, k⟩ := call
    obtain ⟨tail, ht⟩ := ih (addVoxelToIdentification ctx st v mp i j k ⟨0, 0, 0, 0⟩).1
    refine ⟨[v, mp, i, j, k] ++ tail, ?_⟩
    simp only [addVoxelsToIdentification]
    rw [ht, addVoxelToIdentification_indices]
    simp

theorem getElem?_append_offset (l m : List Int) (t : Nat) :
    (l ++ m)[l.length + t]? = m[t]? := by
  rw [List.getElem?_append_right (by omega)]
  congr 1
  omega

theorem addVoxelsToIdentification_records (ctx : DrawingContext) :
    ∀ (calls : List (Int × Int × Int × Int × Int)) (st : DrawingState) (n : Nat)
      (v mp i j k : Int), calls[n]? = some (v, mp, i, j, k) →
      (addVoxelsToIdentification ctx st calls).1.m_identificationIndices[
          st.m_identificationIndices.length + 5 * n]? = some v
      ∧ (addVoxelsToIdentification ctx st calls).1.m_identificationIndices[
          st.m_identificationIndices.length + 5 * n + 1]? = some mp
      ∧ (addVoxelsToIdentification ctx st calls).1.m_identificationIndices[
          st.m_identificationIndices.length + 5 * n + 2]? = some i
      ∧ (addVoxelsToIdentification ctx st calls).1.m_identificationIndices[
          st.m_identificationIndices.length + 5 * n + 3]? = some j
      ∧ (addVoxelsToIdentification ctx st calls).1.m_identificationIndices[
          st.m_identificationIndices.length + 5 * n + 4]? = some k := by
  intro calls
  induction calls with
  | nil => intro st n v mp i j k h; simp at h
  | cons call rest ih =>
    intro st n v mp i j k h
    obtain ⟨v0, mp0, i0, j0, k0⟩ := call
    cases n with
    | zero =>
      simp at h
      obtain ⟨rfl, rfl, rfl, rfl, rfl⟩ := h
      obtain ⟨tail, ht⟩ := addVoxelsToIdentification_append ctx rest
        (addVoxelToIdentification ctx st v0 mp0 i0 j0 k0 ⟨0, 0, 0, 0⟩).1
      simp only [addVoxelsToIdentification]
      rw [ht, addVoxelToIdentification_indices, List.append_assoc]
      simp only [Nat.mul_zero]
      refine ⟨?_, ?_, ?_, ?_, ?_⟩
      · rw [getElem?_append_offset]; simp
      · rw [Nat.add_assoc, getElem?_append_offset]; simp
      · rw [Nat.add_assoc, getElem?_append_offset]; simp
      · rw [Nat.add_assoc, getElem?_append_offset]; simp
      · rw [Nat.add_assoc, getElem?_append_offset]; simp
    | succ m =>
      simp at h
      have := ih (addVoxelToIdentification ctx st v0 mp0 i0 j0 k0 ⟨0, 0, 0, 0⟩).1 m v mp i j k h
      simp only [addVoxelsToIdentification]
      rw [addVoxelToIdentification_indices] at this
      simp only [List.length_append, List.length_cons, List.length_nil] at this
      have e : st.m_identificationIndices.length + 5 * (m + 1)
          = st.m_identificationIndices.length + (0 + 1 + 1 + 1 + 1 + 1) + 5 * m := by omega
      rw [e]
      exact this

theorem addVoxelsToIdentification_length (ctx : DrawingContext) :
    ∀ (calls : List (Int × Int × Int × Int × Int)) (st : DrawingState),
      (addVoxelsToIdentification ctx st calls).1.m_identificationIndices.length =
        st.m_identificationIndices.length + 5 * calls.length := by
  intro calls
  induction calls with
  | nil => intro st; simp [addVoxelsToIdentification]
  | cons call rest ih =>
    intro st
    obtain ⟨v, mp, i, j, k⟩ := call
    simp only [addVoxelsToIdentification]
    rw [ih, addVoxelToIdentification_indices]
    simp
    omega

theorem addVoxelsToIdentification_ids (ctx : DrawingContext) :
    ∀ (calls : List (Int × Int × Int × Int × Int)) (st : DrawingState) (n : Nat),
      n < calls.length →
      (addVoxelsToIdentification ctx st calls).2[n]? =
        some (toInt32 (((st.m_identificationIndices.length + 5 * n) / 5 : Nat) : Int)) := by
  intro calls
  induction calls with
  | nil => intro st n h; simp at h
  | cons call rest ih =>
    intro st n h
    obtain ⟨v, mp, i, j, k⟩ := call
    cases n with
    | zero =>
      simp only [addVoxelsToIdentification, List.getElem?_cons_zero, identificationIdIndex,
        IDENTIFICATION_INDICES_PER_VOXEL, Nat.mul_zero, Nat.add_zero]
    | succ m =>
      simp only [addVoxelsToIdentification, List.getElem?_cons_succ]
      rw [ih _ m (by simpa using h), addVoxelToIdentification_indices]
      simp only [List.length_append, List.length_cons, List.length_nil]
      have e : st.m_identificationIndices.length + (0 + 1 + 1 + 1 + 1 + 1) + 5 * m
          = st.m_identificationIndices.length + 5 * (m + 1) := by omega
      rw [e]

theorem addVoxelsToIdentification_ids_length (ctx : DrawingContext) :
    ∀ (calls : List (Int × Int × Int × Int × Int)) (st : DrawingState),
      (addVoxelsToIdentification ctx st calls).2.length = calls.length := by
  intro calls
  induction calls with
  | nil => intro st; simp [addVoxelsToIdentification]
  | cons call rest ih =>
    intro st
    obtain ⟨v, mp, i, j, k⟩ := call
    simp [addVoxelsToIdentification, ih]

theorem toInt32_mul_five (n : Nat) (hn : 5 * n + 4 < 2147483648) :
    toInt32 ((n : Int) * ((IDENTIFICATION_INDICES_PER_VOXEL : Nat) : Int))
      = ((5 * n : Nat) : Int) := by
  have e : ((IDENTIFICATION_INDICES_PER_VOXEL : Nat) : Int) = 5 := rfl
  rw [e, toInt32_of_range]
  · omega
  · omega
  · omega

theorem toInt32_add_small (m t : Nat) (h : m + t < 2147483648) :
    toInt32 ((m : Int) + (t : Int)) = ((m + t : Nat) : Int) := by
  rw [toInt32_of_range] <;> omega

theorem processIdentificationLookup_of_records (st : DrawingState) (n : Nat)
    (v i j k : Int) (hn : 5 * n + 4 < 2147483648)
    (h0 : st.m_identificationIndices[5 * n]? = some v)
    (h2 : st.m_identificationIndices[5 * n + 2]? = some i)
    (h3 : st.m_identificationIndices[5 * n + 3]? = some j)
    (h4 : st.m_identificationIndices[5 * n + 4]? = some k) :
    processIdentificationLookup st (n : Int) = some (v, i, j, k) := by
  have e2 := toInt32_add_small (5 * n) 2 (by omega)
  have e3 := toInt32_add_small (5 * n) 3 (by omega)
  have e4 := toInt32_add_small (5 * n) 4 (by omega)
  have c2 : ((2 : Nat) : Int) = 2 := rfl
  have c3 : ((3 : Nat) : Int) = 3 := rfl
  have c4 : ((4 : Nat) : Int) = 4 := rfl
  rw [c2] at e2
  rw [c3] at e3
  rw [c4] at e4
  unfold processIdentificationLookup
  rw [if_pos (Int.ofNat_nonneg n)]
  simp only []
  rw [toInt32_mul_five n hn, e2, e3, e4]
  unfold identificationIndexAt
  rw [if_pos (Int.ofNat_nonneg _), if_pos (Int.ofNat_nonneg _), if_pos (Int.ofNat_nonneg _),
    if_pos (Int.ofNat_nonneg _)]
  simp only [Int.toNat_ofNat]
  rw [h0, h2, h3, h4]

theorem identificationIndexAt_of_record (st : DrawingState) (m : Nat) (x : Int)
    (h : st.m_identificationIndices[m]? = some x) :
    identificationIndexAt st (m : Int) = some x := by
  unfold identificationIndexAt
  rw [if_pos (by omega), Int.toNat_ofNat, h]

theorem processIdentificationLookup_overflow (st : DrawingState) :
    processIdentificationLookup st 429496730 = none := by
  have e0 : toInt32 ((429496730 : Int) * ((IDENTIFICATION_INDICES_PER_VOXEL : Nat) : Int))
      = -2147483646 := by decide
  unfold processIdentificationLookup
  rw [if_pos (by decide)]
  simp only [e0, identificationIndexAt]
  rw [if_neg (by decide)]

/-- C2 (amended): after `resetIdentification`, for every sequence of calls of
`addVoxelToIdentification` short enough for five times the number of records
to fit the `int32_t` index arithmetic (`5 * calls < 2^31`), call number `n`
(from 0) is assigned the identifier `n`, the identifiers are strictly
increasing and pairwise distinct, and the lookup of `processIdentification`
for the identifier `n` (record index times the field count) returns the
`volumeIndex` and the `(i, j, k)` recorded by that call, the `mapIndex` being
the second field of the record. -/
theorem identification_round_trip (ctx : DrawingContext) (st : DrawingState)
    (calls : List (Int × Int × Int × Int × Int)) (hbound : 5 * calls.length < 2147483648) :
    (addVoxelsToIdentification ctx (resetIdentification st) calls).2 =
        (List.range calls.length).map Int.ofNat
    ∧ (addVoxelsToIdentification ctx (resetIdentification st) calls).2.Pairwise
        (fun a b => a < b)
    ∧ (addVoxelsToIdentification ctx (resetIdentification st) calls).2.Nodup
    ∧ ∀ (n : Nat) (v mp i j k : Int), calls[n]? = some (v, mp, i, j, k) →
        processIdentificationLookup
            (addVoxelsToIdentification ctx (resetIdentification st) calls).1 (n : Int) =
          some (v, i, j, k)
        ∧ identificationIndexAt
            (addVoxelsToIdentification ctx (resetIdentification st) calls).1
            ((n : Int) * 5 + 1) = some mp := by
  have hids : (addVoxelsToIdentification ctx (resetIdentification st) calls).2 =
      (List.range calls.length).map Int.ofNat := by
    apply List.ext_getElem?
    intro n
    by_cases hn : n < calls.length
    · rw [addVoxelsToIdentification_ids ctx calls _ n hn]
      have e : (resetIdentification st).m_identificationIndices.length = 0 := rfl
      rw [e, List.getElem?_map, List.getElem?_range hn]
      simp only [Nat.zero_add, Option.map_some']
      rw [Nat.mul_div_cancel_left n (by decide : 0 < 5), toInt32_of_range]
      · rfl
      · omega
      · omega
    · rw [List.getElem?_eq_none (by rw [addVoxelsToIdentification_ids_length]; omega),
        List.getElem?_eq_none (by simp; omega)]
  have hpair : ((List.range calls.length).map Int.ofNat).Pairwise
      (fun a b => a < b) := by
    rw [List.pairwise_map]
    exact List.Pairwise.imp (fun h => Int.ofNat_lt.2 h) (List.pairwise_lt_range calls.length)
  refine ⟨hids, ?_, ?_, ?_⟩
  · rw [hids]; exact hpair
  · rw [hids]; exact List.Pairwise.imp (fun h => ne_of_lt h) hpair
  · intro n v mp i j k h
    have hn : n < calls.length := by
      by_contra hc
      rw [List.getElem?_eq_none (by omega)] at h
      exact absurd h (by simp)
    obtain ⟨r0, r1, r2, r3, r4⟩ :=
      addVoxelsToIdentification_records ctx calls (resetIdentification st) n v mp i j k h
    have e : (resetIdentification st).m_identificationIndices.length = 0 := rfl
    rw [e] at r0 r1 r2 r3 r4
    simp only [Nat.zero_add] at r0 r1 r2 r3 r4
    constructor
    · exact processIdentificationLookup_of_records _ n v i j k (by omega) r0 r2 r3 r4
    · have e1 : (n : Int) * 5 + 1 = ((5 * n + 1 : Nat) : Int) := by omega
      rw [e1]
      exact identificationIndexAt_of_record _ _ _ r1

/-- Witness of C2 (amended): two calls. -/
theorem identification_round_trip_witness :
    5 * [((0 : Int), (0 : Int), (1 : Int), (2 : Int), (3 : Int)), (1, 0, 4, 5, 6)].length
      < 2147483648
    ∧ processIdentificationLookup
        (addVoxelsToIdentification (exampleContext [] VolumeSliceViewModeEnum.ORTHOGONAL 0)
          (resetIdentification (exampleState true)) [(0, 0, 1, 2, 3), (1, 0, 4, 5, 6)]).1
        ((1 : Nat) : Int) = some (1, 4, 5, 6) :=
  ⟨by decide, ((identification_round_trip (exampleContext [] VolumeSliceViewModeEnum.ORTHOGONAL 0)
    (exampleState true) [(0, 0, 1, 2, 3), (1, 0, 4, 5, 6)] (by decide)).2.2.2
      1 1 0 4 5 6 rfl).1⟩

/-- Counterexample to C2 as stated: in a sequence of 429496731 calls the last
call is assigned the identifier 429496730, and the lookup of
`processIdentification` for this identifier finds no record, because
`identifiedItemIndex * 5` leaves the range of `int32_t`. -/
theorem identification_round_trip_fails_past_int32 :
    (addVoxelsToIdentification (exampleContext [] VolumeSliceViewModeEnum.ORTHOGONAL 0)
        (resetIdentification (exampleState true))
        (List.replicate 429496731 (0, 0, 0, 0, 0))).2[429496730]? = some 429496730
    ∧ processIdentificationLookup
        (addVoxelsToIdentification (exampleContext [] VolumeSliceViewModeEnum.ORTHOGONAL 0)
          (resetIdentification (exampleState true))
          (List.replicate 429496731 (0, 0, 0, 0, 0))).1 429496730 = none := by
  constructor
  · rw [addVoxelsToIdentification_ids _ _ _ 429496730
      (by rw [List.length_replicate]; decide)]
    have e : (resetIdentification (exampleState true)).m_identificationIndices.length = 0 := rfl
    rw [e]
    decide
  · exact processIdentificationLookup_overflow _

/-! ## Orthogonal slices -/

theorem drawnCoordinates_append (a b : List Event) :
    drawnCoordinates (a ++ b) = drawnCoordinates a ++ drawnCoordinates b := by
  induction a with
  | nil => rfl
  | cons e rest ih => cases e <;> simp [drawnCoordinates, ih]

theorem coordinatesOnAxis_nil (k : Nat) (c : ℚ) : coordinatesOnAxis k c [] := by
  constructor
  · rfl
  · intro i hi; simp at hi

theorem coordinatesOnAxis_append (k : Nat) (c : ℚ) (a b : List ℚ)
    (ha : coordinatesOnAxis k c a) (hb : coordinatesOnAxis k c b) :
    coordinatesOnAxis k c (a ++ b) := by
  obtain ⟨la, pa⟩ := ha
  obtain ⟨lb, pb⟩ := hb
  constructor
  · rw [List.length_append]; omega
  · intro i hi hk
    rw [List.length_append] at hi
    by_cases h : i < a.length
    · rw [List.getD_append _ _ _ _ h]
      exact pa i h hk
    · rw [List.getD_append_right _ _ _ _ (by omega)]
      exact pb (i - a.length) (by omega) (by omega)

theorem orthogonalVoxelCorners_x (coordinate rowStep columnStep : Vec3) (jRow iCol : Nat)
    (hr : rowStep.x = 0) (hc : columnStep.x = 0) :
    coordinatesOnAxis 0 coordinate.x
      (orthogonalVoxelCorners coordinate rowStep columnStep jRow iCol) := by
  constructor
  · simp [orthogonalVoxelCorners, Vec3.toList]
  · intro i hi hk
    simp only [orthogonalVoxelCorners, Vec3.toList, List.cons_append, List.nil_append,
      List.length_cons, List.length_nil] at hi ⊢
    have hi' : i < 12 := by omega
    interval_cases i <;> simp_all

theorem orthogonalVoxelCorners_y (coordinate rowStep columnStep : Vec3) (jRow iCol : Nat)
    (hr : rowStep.y = 0) (hc : columnStep.y = 0) :
    coordinatesOnAxis 1 coordinate.y
      (orthogonalVoxelCorners coordinate rowStep columnStep jRow iCol) := by
  constructor
  · simp [orthogonalVoxelCorners, Vec3.toList]
  · intro i hi hk
    simp only [orthogonalVoxelCorners, Vec3.toList, List.cons_append, List.nil_append,
      List.length_cons, List.length_nil] at hi ⊢
    have hi' : i < 12 := by omega
    interval_cases i <;> simp_all

theorem orthogonalVoxelCorners_z (coordinate rowStep columnStep : Vec3) (jRow iCol : Nat)
    (hr : rowStep.z = 0) (hc : columnStep.z = 0) :
    coordinatesOnAxis 2 coordinate.z
      (orthogonalVoxelCorners coordinate rowStep columnStep jRow iCol) := by
  constructor
  · simp [orthogonalVoxelCorners, Vec3.toList]
  · intro i hi hk
    simp only [orthogonalVoxelCorners, Vec3.toList, List.cons_append, List.nil_append,
      List.length_cons, List.length_nil] at hi ⊢
    have hi' : i < 12 := by omega
    interval_cases i <;> simp_all

theorem foldl_invariant {σ α : Type} (P : σ → Prop) (f : σ → α → σ)
    (hf : ∀ s x, P s → P (f s x)) : ∀ (xs : List α) (s : σ), P s → P (xs.foldl f s) := by
  intro xs
  induction xs with
  | nil => intro s hs; exact hs
  | cons x rest ih => intro s hs; exact ih (f s x) (hf s x hs)

theorem drawOrthogonalSliceVoxel_onAxis (ctx : DrawingContext)
    (sliceViewPlane : VolumeSliceViewPlaneEnum)
    (sliceNormalVector : Vec3) (selectedSliceIndices : Int × Int × Int)
    (coordinate rowStep columnStep : Vec3) (numberOfColumns : Int) (sliceRGBA : List Nat)
    (volumeIndex mapIndex : Int) (sliceOpacity : Nat) (jRow iCol : Nat)
    (s : DrawingState × QuadBuffers) (k : Nat) (c : ℚ) (drawn : List (List ℚ))
    (hcorner : coordinatesOnAxis k c
      (orthogonalVoxelCorners coordinate rowStep columnStep jRow iCol))
    (hs : coordinatesOnAxis k c s.2.coordinates ∧ drawnCoordinates s.1.events = drawn) :
    coordinatesOnAxis k c (drawOrthogonalSliceVoxel ctx sliceViewPlane sliceNormalVector
        selectedSliceIndices coordinate rowStep columnStep numberOfColumns sliceRGBA volumeIndex
        mapIndex sliceOpacity jRow iCol s).2.coordinates
    ∧ drawnCoordinates (drawOrthogonalSliceVoxel ctx sliceViewPlane sliceNormalVector
        selectedSliceIndices coordinate rowStep columnStep numberOfColumns sliceRGBA volumeIndex
        mapIndex sliceOpacity jRow iCol s).1.events = drawn := by
  unfold drawOrthogonalSliceVoxel
  simp only []
  split
  · split
    · refine ⟨coordinatesOnAxis_append k c _ _ hs.1 hcorner, ?_⟩
      simp only [addVoxelToIdentification, drawnCoordinates_append, drawnCoordinates, hs.2,
        List.append_nil]
    · exact ⟨coordinatesOnAxis_append k c _ _ hs.1 hcorner, hs.2⟩
  · exact hs

theorem drawOrthogonalSliceVoxels_onAxis (ctx : DrawingContext) (st : DrawingState)
    (sliceViewPlane : VolumeSliceViewPlaneEnum)
    (sliceNormalVector : Vec3) (selectedSliceIndices : Int × Int × Int)
    (coordinate rowStep columnStep : Vec3) (numberOfColumns numberOfRows : Int)
    (sliceRGBA : List Nat) (volumeIndex mapIndex : Int) (sliceOpacity : Nat)
    (k : Nat) (c : ℚ)
    (hcorner : ∀ jRow iCol, coordinatesOnAxis k c
      (orthogonalVoxelCorners coordinate rowStep columnStep jRow iCol))
    (hst : ∀ coords ∈ drawnCoordinates st.events, coordinatesOnAxis k c coords) :
    ∀ coords ∈ drawnCoordinates (drawOrthogonalSliceVoxels ctx st sliceViewPlane
        sliceNormalVector selectedSliceIndices coordinate rowStep columnStep numberOfColumns
        numberOfRows sliceRGBA volumeIndex mapIndex sliceOpacity).events,
      coordinatesOnAxis k c coords := by
  have hloop : coordinatesOnAxis k c (drawOrthogonalSliceVoxelsLoop ctx sliceViewPlane
        sliceNormalVector selectedSliceIndices coordinate rowStep columnStep numberOfColumns
        numberOfRows sliceRGBA volumeIndex mapIndex sliceOpacity
        (st, ⟨[], [], []⟩)).2.coordinates
      ∧ drawnCoordinates (drawOrthogonalSliceVoxelsLoop ctx sliceViewPlane
        sliceNormalVector selectedSliceIndices coordinate rowStep columnStep numberOfColumns
        numberOfRows sliceRGBA volumeIndex mapIndex sliceOpacity
        (st, ⟨[], [], []⟩)).1.events = drawnCoordinates st.events := by
    unfold drawOrthogonalSliceVoxelsLoop
    apply foldl_invariant (fun s : DrawingState × QuadBuffers =>
      coordinatesOnAxis k c s.2.coordinates ∧ drawnCoordinates s.1.events =
        drawnCoordinates st.events)
    · intro s jRow hs
      apply foldl_invariant (fun s : DrawingState × QuadBuffers =>
        coordinatesOnAxis k c s.2.coordinates ∧ drawnCoordinates s.1.events =
          drawnCoordinates st.events)
      · intro s iCol hs
        exact drawOrthogonalSliceVoxel_onAxis ctx sliceViewPlane sliceNormalVector
          selectedSliceIndices coordinate rowStep columnStep numberOfColumns sliceRGBA
          volumeIndex mapIndex sliceOpacity jRow iCol s k c _ (hcorner jRow iCol) hs
      · exact hs
    · exact ⟨coordinatesOnAxis_nil k c, rfl⟩
  intro coords hmem
  unfold drawOrthogonalSliceVoxels at hmem
  simp only [] at hmem
  split at hmem
  · simp only [drawnCoordinates_append, drawnCoordinates, hloop.2, List.mem_append,
      List.mem_singleton] at hmem
    rcases hmem with h | h
    · exact hst coords h
    · rw [h]; exact hloop.1
  · rw [hloop.2] at hmem
    exact hst coords hmem

theorem orthogonalSliceSetup_onAxis (ctx : DrawingContext)
    (volumeFile : VolumeMappableInterface) (jRow iCol : Nat) :
    coordinatesOnAxis 2 ctx.m_browserTabContent.getSliceCoordinateAxial
        (orthogonalVoxelCorners
          (orthogonalSliceSetup ctx VolumeSliceViewPlaneEnum.AXIAL volumeFile).1
          (orthogonalSliceSetup ctx VolumeSliceViewPlaneEnum.AXIAL volumeFile).2.1
          (orthogonalSliceSetup ctx VolumeSliceViewPlaneEnum.AXIAL volumeFile).2.2.1 jRow iCol)
    ∧ coordinatesOnAxis 1 ctx.m_browserTabContent.getSliceCoordinateCoronal
        (orthogonalVoxelCorners
          (orthogonalSliceSetup ctx VolumeSliceViewPlaneEnum.CORONAL volumeFile).1
          (orthogonalSliceSetup ctx VolumeSliceViewPlaneEnum.CORONAL volumeFile).2.1
          (orthogonalSliceSetup ctx VolumeSliceViewPlaneEnum.CORONAL volumeFile).2.2.1 jRow iCol)
    ∧ coordinatesOnAxis 0 ctx.m_browserTabContent.getSliceCoordinateParasagittal
        (orthogonalVoxelCorners
          (orthogonalSliceSetup ctx VolumeSliceViewPlaneEnum.PARASAGITTAL volumeFile).1
          (orthogonalSliceSetup ctx VolumeSliceViewPlaneEnum.PARASAGITTAL volumeFile).2.1
          (orthogonalSliceSetup ctx VolumeSliceViewPlaneEnum.PARASAGITTAL volumeFile).2.2.1
          jRow iCol) :=
  ⟨orthogonalVoxelCorners_z _ _ _ jRow iCol rfl rfl,
    orthogonalVoxelCorners_y _ _ _ jRow iCol rfl rfl,
    orthogonalVoxelCorners_x _ _ _ jRow iCol rfl rfl⟩

theorem drawOrthogonalSliceOverlay_onAxis (ctx : DrawingContext) (drawMode : DRAW_MODE)
    (sliceViewPlane : VolumeSliceViewPlaneEnum) (sliceNormalVector : Vec3)
    (selectedSliceCoordinate : ℚ) (iVol : Nat) (volInfo : VolumeDrawInfo)
    (s : DrawingState × List Nat) (k : Nat) (c : ℚ)
    (hcorner : ∀ jRow iCol, coordinatesOnAxis k c
      (orthogonalVoxelCorners (orthogonalSliceSetup ctx sliceViewPlane volInfo.volumeFile).1
        (orthogonalSliceSetup ctx sliceViewPlane volInfo.volumeFile).2.1
        (orthogonalSliceSetup ctx sliceViewPlane volInfo.volumeFile).2.2.1 jRow iCol))
    (hs : ∀ coords ∈ drawnCoordinates s.1.events, coordinatesOnAxis k c coords) :
    ∀ coords ∈ drawnCoordinates (drawOrthogonalSliceOverlay ctx drawMode sliceViewPlane
        sliceNormalVector selectedSliceCoordinate iVol volInfo s).1.events,
      coordinatesOnAxis k c coords := by
  unfold drawOrthogonalSliceOverlay
  simp only []
  split
  · exact hs
  · simp only [drawnCoordinates_append, drawnCoordinates, List.append_nil]
    apply drawOrthogonalSliceVoxels_onAxis ctx _ sliceViewPlane sliceNormalVector _ _ _ _ _ _ _
      _ _ _ k c hcorner
    split <;> split <;>
      simpa only [drawnCoordinates_append, drawnCoordinates, List.append_nil] using hs

theorem drawOrthogonalSliceLoop_onAxis (ctx : DrawingContext) (drawMode : DRAW_MODE)
    (sliceViewPlane : VolumeSliceViewPlaneEnum) (sliceNormalVector : Vec3)
    (selectedSliceCoordinate : ℚ) (k : Nat) (c : ℚ)
    (hcorner : ∀ (volumeFile : VolumeMappableInterface) (jRow iCol : Nat),
      coordinatesOnAxis k c
        (orthogonalVoxelCorners (orthogonalSliceSetup ctx sliceViewPlane volumeFile).1
          (orthogonalSliceSetup ctx sliceViewPlane volumeFile).2.1
          (orthogonalSliceSetup ctx sliceViewPlane volumeFile).2.2.1 jRow iCol)) :
    ∀ (vols : List VolumeDrawInfo) (iVol : Nat) (s : DrawingState × List Nat),
      (∀ coords ∈ drawnCoordinates s.1.events, coordinatesOnAxis k c coords) →
      ∀ coords ∈ drawnCoordinates (drawOrthogonalSliceLoop ctx drawMode sliceViewPlane
          sliceNormalVector selectedSliceCoordinate iVol vols s).1.events,
        coordinatesOnAxis k c coords := by
  intro vols
  induction vols with
  | nil => intro iVol s hs; simpa [drawOrthogonalSliceLoop] using hs
  | cons volInfo rest ih =>
    intro iVol s hs
    rw [drawOrthogonalSliceLoop]
    exact ih (iVol + 1) _ (drawOrthogonalSliceOverlay_onAxis ctx drawMode sliceViewPlane
      sliceNormalVector selectedSliceCoordinate iVol volInfo s k c
      (hcorner volInfo.volumeFile) hs)

theorem drawOrthogonalSlice_onAxis (ctx : DrawingContext) (st : DrawingState)
    (drawMode : DRAW_MODE) (sliceViewPlane : VolumeSliceViewPlaneEnum) (plane : Plane)
    (montageSliceIndex : Int) (k : Nat) (c : ℚ)
    (hcorner : ∀ (volumeFile : VolumeMappableInterface) (jRow iCol : Nat),
      coordinatesOnAxis k c
        (orthogonalVoxelCorners (orthogonalSliceSetup ctx sliceViewPlane volumeFile).1
          (orthogonalSliceSetup ctx sliceViewPlane volumeFile).2.1
          (orthogonalSliceSetup ctx sliceViewPlane volumeFile).2.2.1 jRow iCol))
    (hst : ∀ coords ∈ drawnCoordinates st.events, coordinatesOnAxis k c coords) :
    ∀ coords ∈ drawnCoordinates (drawOrthogonalSlice ctx st drawMode sliceViewPlane plane
        montageSliceIndex).events,
      coordinatesOnAxis k c coords := by
  unfold drawOrthogonalSlice
  simp only [drawnCoordinates_append, drawnCoordinates, List.append_nil]
  apply drawOrthogonalSliceLoop_onAxis ctx drawMode sliceViewPlane _ _ k c hcorner
  simpa only [drawnCoordinates_append, drawnCoordinates, List.append_nil] using hst

theorem quadCorner_onAxis (k : Nat) (c : ℚ) (coords : List ℚ)
    (h : coordinatesOnAxis k c coords) (q n : Nat) (hq : 12 * q + 11 < coords.length)
    (hn : n < 4) :
    (k = 0 → (quadCorner coords q n).x = c) ∧ (k = 1 → (quadCorner coords q n).y = c)
    ∧ (k = 2 → (quadCorner coords q n).z = c) := by
  refine ⟨?_, ?_, ?_⟩
  · intro hk; subst hk
    exact h.2 (12 * q + 3 * n) (by omega) (by omega)
  · intro hk; subst hk
    exact h.2 (12 * q + 3 * n + 1) (by omega) (by omega)
  · intro hk; subst hk
    exact h.2 (12 * q + 3 * n + 2) (by omega) (by omega)

/-- In orthogonal view mode, for each of the three view planes,
every corner of every quadrilateral drawn by `drawOrthogonalSlice` is at signed
distance zero from the plane resolved by `createSlicePlaneEquation`: its
through-plane coordinate is the selected slice coordinate, which is the
through-plane coordinate of the reference point of the plane. -/
theorem orthogonal_mode_quads_on_resolved_plane (ctx : DrawingContext) (st : DrawingState)
    (drawMode : DRAW_MODE) (sliceViewPlane : VolumeSliceViewPlaneEnum)
    (montageSliceIndex : Int)
    (hmode : ctx.m_sliceViewMode = VolumeSliceViewModeEnum.ORTHOGONAL)
    (hplane : sliceViewPlane ≠ VolumeSliceViewPlaneEnum.ALL)
    (hst : drawnCoordinates st.events = []) :
    ∀ coords ∈ drawnCoordinates (drawOrthogonalSlice ctx
        (createSlicePlaneEquation ctx st sliceViewPlane montageSliceIndex).2 drawMode
        sliceViewPlane (createSlicePlaneEquation ctx st sliceViewPlane montageSliceIndex).1
        montageSliceIndex).events,
      ∀ q n : Nat, 12 * q + 11 < coords.length → n < 4 →
        (createSlicePlaneEquation ctx st sliceViewPlane
          montageSliceIndex).1.signedDistanceToPlane (quadCorner coords q n) = 0 := by
  intro coords hmem q n hq hn
  have hst' : ∀ (k : Nat) (c : ℚ), ∀ coords ∈ drawnCoordinates
      (createSlicePlaneEquation ctx st sliceViewPlane montageSliceIndex).2.events,
      coordinatesOnAxis k c coords := by
    intro k c coords hc
    have : (createSlicePlaneEquation ctx st sliceViewPlane montageSliceIndex).2.events
        = st.events := rfl
    rw [this, hst] at hc
    simp at hc
  cases sliceViewPlane with
  | ALL => exact absurd rfl hplane
  | AXIAL =>
    have h := drawOrthogonalSlice_onAxis ctx _ drawMode VolumeSliceViewPlaneEnum.AXIAL _
      montageSliceIndex 2 ctx.m_browserTabContent.getSliceCoordinateAxial
      (fun v j i => (orthogonalSliceSetup_onAxis ctx v j i).1) (hst' _ _) coords hmem
    have hz := (quadCorner_onAxis 2 _ coords h q n hq hn).2.2 rfl
    simp [createSlicePlaneEquation, hmode, Plane.signedDistanceToPlane, hz]
  | CORONAL =>
    have h := drawOrthogonalSlice_onAxis ctx _ drawMode VolumeSliceViewPlaneEnum.CORONAL _
      montageSliceIndex 1 ctx.m_browserTabContent.getSliceCoordinateCoronal
      (fun v j i => (orthogonalSliceSetup_onAxis ctx v j i).2.1) (hst' _ _) coords hmem
    have hy := (quadCorner_onAxis 1 _ coords h q n hq hn).2.1 rfl
    simp [createSlicePlaneEquation, hmode, Plane.signedDistanceToPlane, hy]
  | PARASAGITTAL =>
    have h := drawOrthogonalSlice_onAxis ctx _ drawMode VolumeSliceViewPlaneEnum.PARASAGITTAL _
      montageSliceIndex 0 ctx.m_browserTabContent.getSliceCoordinateParasagittal
      (fun v j i => (orthogonalSliceSetup_onAxis ctx v j i).2.2) (hst' _ _) coords hmem
    have hx := (quadCorner_onAxis 0 _ coords h q n hq hn).1 rfl
    simp [createSlicePlaneEquation, hmode, Plane.signedDistanceToPlane, hx]

/-- C3 (failing input): in montage mode, axial plane, montage slice index 1, one
overlay of 1 x 1 x 2 voxels of size 1 with its first voxel at the origin and
the selected axial coordinate 0: `createSlicePlaneEquation` resolves the plane
through `(0, 0, 1)` with normal `(0, 0, 1)`, and `drawOrthogonalSlice` draws
one quadrilateral whose four corners have the through-plane coordinate 0, at
signed distance -1 from that plane. -/
theorem orthogonal_montage_quad_off_resolved_plane :
    (createSlicePlaneEquation
        (exampleContext [exampleOverlay exampleColumn] VolumeSliceViewModeEnum.MONTAGE 0)
        (exampleState false) VolumeSliceViewPlaneEnum.AXIAL 1).1 = ⟨⟨0, 0, 1⟩, ⟨0, 0, 1⟩⟩
    ∧ drawnCoordinates (drawOrthogonalSlice
        (exampleContext [exampleOverlay exampleColumn] VolumeSliceViewModeEnum.MONTAGE 0)
        (createSlicePlaneEquation
          (exampleContext [exampleOverlay exampleColumn] VolumeSliceViewModeEnum.MONTAGE 0)
          (exampleState false) VolumeSliceViewPlaneEnum.AXIAL 1).2
        DRAW_MODE.DRAW_MODE_VOLUME_VIEW_SLICE_SINGLE VolumeSliceViewPlaneEnum.AXIAL
        ⟨⟨0, 0, 1⟩, ⟨0, 0, 1⟩⟩ 1).events =
      [[-1 / 2, -1 / 2, 0, 1 / 2, -1 / 2, 0, 1 / 2, 1 / 2, 0, -1 / 2, 1 / 2, 0]]
    ∧ (∀ n ∈ [0, 1, 2, 3],
        (quadCorner [-1 / 2, -1 / 2, 0, 1 / 2, -1 / 2, 0, 1 / 2, 1 / 2, 0, -1 / 2, 1 / 2, 0]
          0 n).z = 0
        ∧ Plane.signedDistanceToPlane ⟨⟨0, 0, 1⟩, ⟨0, 0, 1⟩⟩
          (quadCorner [-1 / 2, -1 / 2, 0, 1 / 2, -1 / 2, 0, 1 / 2, 1 / 2, 0, -1 / 2, 1 / 2, 0]
            0 n) = -1) := by
  decide!

theorem volumeDrawingOpacity_eq_floor (opacity : ℚ) (h0 : 0 ≤ opacity) (h1 : opacity ≤ 1) :
    volumeDrawingOpacity opacity = (⌊opacity * 255⌋).toNat ∧ volumeDrawingOpacity opacity ≤ 255 := by
  have hnn : (0 : ℚ) ≤ opacity * 255 := by positivity
  have hle : opacity * 255 ≤ 255 := by linarith
  have hf0 : 0 ≤ ⌊opacity * 255⌋ := Int.floor_nonneg.2 hnn
  have hf1 : ⌊opacity * 255⌋ ≤ 255 := by
    have : ⌊opacity * 255⌋ ≤ ⌊(255 : ℚ)⌋ := Int.floor_mono hle
    simpa using this
  unfold volumeDrawingOpacity truncToInt toInt8 toUInt8
  rw [if_pos hnn]
  omega

theorem volumeDrawingOpacity_pos_iff (opacity : ℚ) (h0 : 0 ≤ opacity) (h1 : opacity ≤ 1) :
    volumeDrawingOpacity opacity > 0 ↔ 1 / 255 ≤ opacity := by
  have hnn : (0 : ℚ) ≤ opacity * 255 := by positivity
  rw [(volumeDrawingOpacity_eq_floor opacity h0 h1).1]
  have hf0 : 0 ≤ ⌊opacity * 255⌋ := Int.floor_nonneg.2 hnn
  constructor
  · intro h
    have h1 : (1 : Int) ≤ ⌊opacity * 255⌋ := by omega
    have := Int.le_floor.1 h1
    have h2 : (1 : ℚ) ≤ opacity * 255 := by simpa using this
    linarith
  · intro h
    have h2 : ((1 : Int) : ℚ) ≤ opacity * 255 := by
      have : (1 : ℚ) ≤ opacity * 255 := by linarith
      simpa using this
    have := Int.le_floor.2 h2
    omega

theorem orthogonalVoxelRgba_zero_alpha (numberOfColumns : Int) (sliceRGBA : List Nat)
    (volumeIndex : Int) (sliceOpacity : Nat) (jRow iCol : Nat)
    (hzero : readByte sliceRGBA (4 * ((iCol : Int) + numberOfColumns * (jRow : Int)) + 3) = 0) :
    orthogonalVoxelRgba numberOfColumns sliceRGBA volumeIndex sliceOpacity jRow iCol =
      if volumeIndex = 0 then ⟨0, 0, 0, 255⟩ else ⟨0, 0, 0, 0⟩ := by
  unfold orthogonalVoxelRgba
  simp only [hzero]
  rw [if_pos (le_refl 0)]

theorem orthogonalVoxelRgba_nonzero_alpha (numberOfColumns : Int) (sliceRGBA : List Nat)
    (volumeIndex : Int) (sliceOpacity : Nat) (jRow iCol : Nat)
    (hnz : readByte sliceRGBA (4 * ((iCol : Int) + numberOfColumns * (jRow : Int)) + 3) ≠ 0) :
    orthogonalVoxelRgba numberOfColumns sliceRGBA volumeIndex sliceOpacity jRow iCol =
      ⟨readByte sliceRGBA (4 * ((iCol : Int) + numberOfColumns * (jRow : Int))),
        readByte sliceRGBA (4 * ((iCol : Int) + numberOfColumns * (jRow : Int)) + 1),
        readByte sliceRGBA (4 * ((iCol : Int) + numberOfColumns * (jRow : Int)) + 2),
        sliceOpacity⟩ := by
  unfold orthogonalVoxelRgba
  simp only []
  rw [if_neg (by omega)]

theorem drawOrthogonalSliceVoxel_of_rgba (ctx : DrawingContext)
    (sliceViewPlane : VolumeSliceViewPlaneEnum)
    (sliceNormalVector : Vec3) (selectedSliceIndices : Int × Int × Int)
    (coordinate rowStep columnStep : Vec3) (numberOfColumns : Int) (sliceRGBA : List Nat)
    (volumeIndex mapIndex : Int) (sliceOpacity : Nat) (jRow iCol : Nat)
    (s : DrawingState × QuadBuffers) (c : Rgba)
    (hc : orthogonalVoxelRgba numberOfColumns sliceRGBA volumeIndex sliceOpacity jRow iCol = c) :
    (c.a = 0 → drawOrthogonalSliceVoxel ctx sliceViewPlane sliceNormalVector selectedSliceIndices
        coordinate rowStep columnStep numberOfColumns sliceRGBA volumeIndex mapIndex
        sliceOpacity jRow iCol s = s)
    ∧ (c.a > 0 → s.1.m_identificationModeFlag = false →
        drawOrthogonalSliceVoxel ctx sliceViewPlane sliceNormalVector selectedSliceIndices
          coordinate rowStep columnStep numberOfColumns sliceRGBA volumeIndex mapIndex
          sliceOpacity jRow iCol s =
        (s.1, s.2.addQuad (orthogonalVoxelCorners coordinate rowStep columnStep jRow iCol)
          sliceNormalVector c))
    ∧ (c.a > 0 → s.1.m_identificationModeFlag = true →
        drawOrthogonalSliceVoxel ctx sliceViewPlane sliceNormalVector selectedSliceIndices
          coordinate rowStep columnStep numberOfColumns sliceRGBA volumeIndex mapIndex
          sliceOpacity jRow iCol s =
        ((addVoxelToIdentification ctx s.1 volumeIndex mapIndex
            (toInt32 (orthogonalVoxelIJK sliceViewPlane selectedSliceIndices jRow iCol).1)
            (toInt32 (orthogonalVoxelIJK sliceViewPlane selectedSliceIndices jRow iCol).2.1)
            (toInt32 (orthogonalVoxelIJK sliceViewPlane selectedSliceIndices jRow iCol).2.2)
            c).1,
          s.2.addQuad (orthogonalVoxelCorners coordinate rowStep columnStep jRow iCol)
            sliceNormalVector
            { ctx.colorIdentificationAddItem s.1.events c (identificationIdIndex s.1) with
              a := 255 })) := by
  refine ⟨?_, ?_, ?_⟩
  · intro h0
    unfold drawOrthogonalSliceVoxel
    simp only [hc]
    rw [if_neg (by omega)]
  · intro hpos hmode
    unfold drawOrthogonalSliceVoxel
    simp only [hc, hmode]
    rw [if_pos hpos]
    simp [QuadBuffers.addQuad]
  · intro hpos hmode
    unfold drawOrthogonalSliceVoxel
    simp only [hc, hmode]
    rw [if_pos hpos]
    simp [QuadBuffers.addQuad, addVoxelToIdentification]

/-- C4 (amended): in `drawOrthogonalSliceVoxels`, for a voxel whose colour-buffer
alpha is zero: for an overlay with a volume index other than 0 nothing is
emitted, in either mode; for the first overlay (volume index 0) exactly one
quadrilateral is emitted, with the colour (0,0,0,255) in drawing mode, and in
identification mode with the identification colour of the record added for it,
whose alpha is set to 255. -/
theorem orthogonal_zero_alpha_voxel (ctx : DrawingContext)
    (sliceViewPlane : VolumeSliceViewPlaneEnum)
    (sliceNormalVector : Vec3) (selectedSliceIndices : Int × Int × Int)
    (coordinate rowStep columnStep : Vec3) (numberOfColumns : Int) (sliceRGBA : List Nat)
    (volumeIndex mapIndex : Int) (sliceOpacity : Nat) (jRow iCol : Nat)
    (s : DrawingState × QuadBuffers)
    (hzero : readByte sliceRGBA (4 * ((iCol : Int) + numberOfColumns * (jRow : Int)) + 3) = 0) :
    (volumeIndex ≠ 0 →
      drawOrthogonalSliceVoxel ctx sliceViewPlane sliceNormalVector selectedSliceIndices
        coordinate rowStep columnStep numberOfColumns sliceRGBA volumeIndex mapIndex
        sliceOpacity jRow iCol s = s)
    ∧ (volumeIndex = 0 → s.1.m_identificationModeFlag = false →
      drawOrthogonalSliceVoxel ctx sliceViewPlane sliceNormalVector selectedSliceIndices
        coordinate rowStep columnStep numberOfColumns sliceRGBA volumeIndex mapIndex
        sliceOpacity jRow iCol s =
      (s.1, s.2.addQuad (orthogonalVoxelCorners coordinate rowStep columnStep jRow iCol)
        sliceNormalVector ⟨0, 0, 0, 255⟩))
    ∧ (volumeIndex = 0 → s.1.m_identificationModeFlag = true →
      drawOrthogonalSliceVoxel ctx sliceViewPlane sliceNormalVector selectedSliceIndices
        coordinate rowStep columnStep numberOfColumns sliceRGBA volumeIndex mapIndex
        sliceOpacity jRow iCol s =
      ((addVoxelToIdentification ctx s.1 volumeIndex mapIndex
          (toInt32 (orthogonalVoxelIJK sliceViewPlane selectedSliceIndices jRow iCol).1)
          (toInt32 (orthogonalVoxelIJK sliceViewPlane selectedSliceIndices jRow iCol).2.1)
          (toInt32 (orthogonalVoxelIJK sliceViewPlane selectedSliceIndices jRow iCol).2.2)
          ⟨0, 0, 0, 255⟩).1,
        s.2.addQuad (orthogonalVoxelCorners coordinate rowStep columnStep jRow iCol)
          sliceNormalVector
          { ctx.colorIdentificationAddItem s.1.events ⟨0, 0, 0, 255⟩
              (identificationIdIndex s.1) with a := 255 })) := by
  have hrgba := orthogonalVoxelRgba_zero_alpha numberOfColumns sliceRGBA volumeIndex
    sliceOpacity jRow iCol hzero
  refine ⟨?_, ?_, ?_⟩
  · intro hne
    rw [if_neg hne] at hrgba
    exact (drawOrthogonalSliceVoxel_of_rgba ctx sliceViewPlane sliceNormalVector
      selectedSliceIndices coordinate rowStep columnStep numberOfColumns sliceRGBA volumeIndex
      mapIndex sliceOpacity jRow iCol s _ hrgba).1 rfl
  · intro h0 hmode
    rw [if_pos h0] at hrgba
    exact (drawOrthogonalSliceVoxel_of_rgba ctx sliceViewPlane sliceNormalVector
      selectedSliceIndices coordinate rowStep columnStep numberOfColumns sliceRGBA volumeIndex
      mapIndex sliceOpacity jRow iCol s _ hrgba).2.1 (by decide) hmode
  · intro h0 hmode
    rw [if_pos h0] at hrgba
    exact (drawOrthogonalSliceVoxel_of_rgba ctx sliceViewPlane sliceNormalVector
      selectedSliceIndices coordinate rowStep columnStep numberOfColumns sliceRGBA volumeIndex
      mapIndex sliceOpacity jRow iCol s _ hrgba).2.2 (by decide) hmode

/-- Witness of C4 (amended): a voxel of alpha zero of the first overlay. -/
theorem orthogonal_zero_alpha_voxel_witness :
    readByte [0, 0, 0, 0] (4 * (((0 : Nat) : Int) + 1 * ((0 : Nat) : Int)) + 3) = 0
    ∧ drawOrthogonalSliceVoxel
        (exampleContext [exampleOverlay exampleTransparent] VolumeSliceViewModeEnum.ORTHOGONAL 0)
        VolumeSliceViewPlaneEnum.AXIAL ⟨0, 0, 1⟩ (0, 0, 0) ⟨-1 / 2, -1 / 2, 0⟩ ⟨0, 1, 0⟩
        ⟨1, 0, 0⟩ 1 [0, 0, 0, 0] 0 0 255 0 0 (exampleState false, ⟨[], [], []⟩) =
      (exampleState false, QuadBuffers.addQuad ⟨[], [], []⟩
        (orthogonalVoxelCorners ⟨-1 / 2, -1 / 2, 0⟩ ⟨0, 1, 0⟩ ⟨1, 0, 0⟩ 0 0) ⟨0, 0, 1⟩
        ⟨0, 0, 0, 255⟩) :=
  ⟨by decide, (orthogonal_zero_alpha_voxel
    (exampleContext [exampleOverlay exampleTransparent] VolumeSliceViewModeEnum.ORTHOGONAL 0)
    VolumeSliceViewPlaneEnum.AXIAL ⟨0, 0, 1⟩ (0, 0, 0) ⟨-1 / 2, -1 / 2, 0⟩ ⟨0, 1, 0⟩ ⟨1, 0, 0⟩ 1
    [0, 0, 0, 0] 0 0 255 0 0 (exampleState false, ⟨[], [], []⟩) (by decide)).2.1 rfl rfl⟩

/-- Counterexample to C4 as stated: in identification mode the quadrilateral of
a zero-alpha voxel of the first overlay carries the identification colour
(1,0,0,255), not (0,0,0,255); shown for the voxel alone and for the whole of
`drawOrthogonalSlice` on an overlay of one voxel per slice. -/
theorem orthogonal_zero_alpha_voxel_identification_color :
    (drawOrthogonalSliceVoxel
        (exampleContext [exampleOverlay exampleTransparent] VolumeSliceViewModeEnum.ORTHOGONAL 0)
        VolumeSliceViewPlaneEnum.AXIAL ⟨0, 0, 1⟩ (0, 0, 0) ⟨-1 / 2, -1 / 2, 0⟩ ⟨0, 1, 0⟩
        ⟨1, 0, 0⟩ 1 [0, 0, 0, 0] 0 0 255 0 0 (exampleState true, ⟨[], [], []⟩)).2.rgba =
      [1, 0, 0, 255, 1, 0, 0, 255, 1, 0, 0, 255, 1, 0, 0, 255]
    ∧ (drawOrthogonalSlice
        (exampleContext [exampleOverlay exampleTransparent] VolumeSliceViewModeEnum.ORTHOGONAL 0)
        (exampleState true) DRAW_MODE.DRAW_MODE_VOLUME_VIEW_SLICE_SINGLE
        VolumeSliceViewPlaneEnum.AXIAL ⟨⟨0, 0, 1⟩, ⟨0, 0, 0⟩⟩ (-1)).events =
      [Event.glEnableBlend, Event.glBlendFuncSrcAlphaOneMinusSrcAlpha, Event.glShadeModelFlat,
        Event.getVoxelColorsForSliceInMap 0 0 0, Event.colorIdentificationAddItem 0,
        Event.drawQuads [-1 / 2, -1 / 2, 0, 1 / 2, -1 / 2, 0, 1 / 2, 1 / 2, 0, -1 / 2, 1 / 2, 0]
          [0, 0, 1, 0, 0, 1, 0, 0, 1, 0, 0, 1]
          [1, 0, 0, 255, 1, 0, 0, 255, 1, 0, 0, 255, 1, 0, 0, 255],
        Event.glDisablePolygonOffsetFill, Event.glDisableBlend, Event.glShadeModelSmooth] := by
  decide!

/-- C5 (amended): in the orthogonal path, for an overlay of opacity in [0,1] the
opacity byte is `opacity * 255` truncated, and it is positive exactly when
`opacity ≥ 1/255`; for a voxel whose colour-buffer alpha is not zero: if the
opacity byte is zero nothing is emitted; if it is positive exactly one
quadrilateral is emitted, in drawing mode with the RGB of the colour buffer at
offset `4 * (column + numberOfColumns * row)` and the opacity byte as alpha,
and in identification mode with the identification colour of the record added
for it, whose alpha is set to 255: `addVoxelToIdentification` appends the
record of the overlay, the map and the voxel, and the colour of the
quadrilateral is the colour that `colorIdentification->addItem` writes for the
identifier of that record. -/
theorem orthogonal_nonzero_alpha_voxel (ctx : DrawingContext)
    (sliceViewPlane : VolumeSliceViewPlaneEnum)
    (sliceNormalVector : Vec3) (selectedSliceIndices : Int × Int × Int)
    (coordinate rowStep columnStep : Vec3) (numberOfColumns : Int) (sliceRGBA : List Nat)
    (volumeIndex mapIndex : Int) (opacity : ℚ) (jRow iCol : Nat)
    (s : DrawingState × QuadBuffers) (h0 : 0 ≤ opacity) (h1 : opacity ≤ 1)
    (hnz : readByte sliceRGBA (4 * ((iCol : Int) + numberOfColumns * (jRow : Int)) + 3) ≠ 0) :
    volumeDrawingOpacity opacity = (⌊opacity * 255⌋).toNat
    ∧ (volumeDrawingOpacity opacity > 0 ↔ 1 / 255 ≤ opacity)
    ∧ (volumeDrawingOpacity opacity = 0 →
      drawOrthogonalSliceVoxel ctx sliceViewPlane sliceNormalVector selectedSliceIndices
        coordinate rowStep columnStep numberOfColumns sliceRGBA volumeIndex mapIndex
        (volumeDrawingOpacity opacity) jRow iCol s = s)
    ∧ (volumeDrawingOpacity opacity > 0 → s.1.m_identificationModeFlag = false →
      drawOrthogonalSliceVoxel ctx sliceViewPlane sliceNormalVector selectedSliceIndices
        coordinate rowStep columnStep numberOfColumns sliceRGBA volumeIndex mapIndex
        (volumeDrawingOpacity opacity) jRow iCol s =
      (s.1, s.2.addQuad (orthogonalVoxelCorners coordinate rowStep columnStep jRow iCol)
        sliceNormalVector
        ⟨readByte sliceRGBA (4 * ((iCol : Int) + numberOfColumns * (jRow : Int))),
          readByte sliceRGBA (4 * ((iCol : Int) + numberOfColumns * (jRow : Int)) + 1),
          readByte sliceRGBA (4 * ((iCol : Int) + numberOfColumns * (jRow : Int)) + 2),
          volumeDrawingOpacity opacity⟩))
    ∧ (volumeDrawingOpacity opacity > 0 → s.1.m_identificationModeFlag = true →
      drawOrthogonalSliceVoxel ctx sliceViewPlane sliceNormalVector selectedSliceIndices
        coordinate rowStep columnStep numberOfColumns sliceRGBA volumeIndex mapIndex
        (volumeDrawingOpacity opacity) jRow iCol s =
      ((addVoxelToIdentification ctx s.1 volumeIndex mapIndex
          (toInt32 (orthogonalVoxelIJK sliceViewPlane selectedSliceIndices jRow iCol).1)
          (toInt32 (orthogonalVoxelIJK sliceViewPlane selectedSliceIndices jRow iCol).2.1)
          (toInt32 (orthogonalVoxelIJK sliceViewPlane selectedSliceIndices jRow iCol).2.2)
          ⟨readByte sliceRGBA (4 * ((iCol : Int) + numberOfColumns * (jRow : Int))),
            readByte sliceRGBA (4 * ((iCol : Int) + numberOfColumns * (jRow : Int)) + 1),
            readByte sliceRGBA (4 * ((iCol : Int) + numberOfColumns * (jRow : Int)) + 2),
            volumeDrawingOpacity opacity⟩).1,
        s.2.addQuad (orthogonalVoxelCorners coordinate rowStep columnStep jRow iCol)
          sliceNormalVector
          { ctx.colorIdentificationAddItem s.1.events
              ⟨readByte sliceRGBA (4 * ((iCol : Int) + numberOfColumns * (jRow : Int))),
                readByte sliceRGBA (4 * ((iCol : Int) + numberOfColumns * (jRow : Int)) + 1),
                readByte sliceRGBA (4 * ((iCol : Int) + numberOfColumns * (jRow : Int)) + 2),
                volumeDrawingOpacity opacity⟩
              (identificationIdIndex s.1) with a := 255 })
      ∧ (addVoxelToIdentification ctx s.1 volumeIndex mapIndex
          (toInt32 (orthogonalVoxelIJK sliceViewPlane selectedSliceIndices jRow iCol).1)
          (toInt32 (orthogonalVoxelIJK sliceViewPlane selectedSliceIndices jRow iCol).2.1)
          (toInt32 (orthogonalVoxelIJK sliceViewPlane selectedSliceIndices jRow iCol).2.2)
          ⟨readByte sliceRGBA (4 * ((iCol : Int) + numberOfColumns * (jRow : Int))),
            readByte sliceRGBA (4 * ((iCol : Int) + numberOfColumns * (jRow : Int)) + 1),
            readByte sliceRGBA (4 * ((iCol : Int) + numberOfColumns * (jRow : Int)) + 2),
            volumeDrawingOpacity opacity⟩).1.m_identificationIndices =
        s.1.m_identificationIndices
          ++ [volumeIndex, mapIndex,
            toInt32 (orthogonalVoxelIJK sliceViewPlane selectedSliceIndices jRow iCol).1,
            toInt32 (orthogonalVoxelIJK sliceViewPlane selectedSliceIndices jRow iCol).2.1,
            toInt32 (orthogonalVoxelIJK sliceViewPlane selectedSliceIndices jRow iCol).2.2]) := by
  have hrgba := orthogonalVoxelRgba_nonzero_alpha numberOfColumns sliceRGBA volumeIndex
    (volumeDrawingOpacity opacity) jRow iCol hnz
  have hstep := drawOrthogonalSliceVoxel_of_rgba ctx sliceViewPlane sliceNormalVector
    selectedSliceIndices coordinate rowStep columnStep numberOfColumns sliceRGBA volumeIndex
    mapIndex (volumeDrawingOpacity opacity) jRow iCol s _ hrgba
  refine ⟨(volumeDrawingOpacity_eq_floor opacity h0 h1).1,
    volumeDrawingOpacity_pos_iff opacity h0 h1, ?_, ?_, ?_⟩
  · intro hz
    exact hstep.1 hz
  · intro hpos hmode
    exact hstep.2.1 hpos hmode
  · intro hpos hmode
    exact ⟨hstep.2.2 hpos hmode, rfl⟩

/-- Witness of C5 (amended): a voxel coloured (10,20,30,255) of an overlay of
opacity 1/2 in drawing mode is drawn with the colour (10,20,30,127). -/
theorem orthogonal_nonzero_alpha_voxel_witness :
    ((0 : ℚ) ≤ 1 / 2 ∧ (1 : ℚ) / 2 ≤ 1
      ∧ readByte [10, 20, 30, 255] (4 * (((0 : Nat) : Int) + 1 * ((0 : Nat) : Int)) + 3) ≠ 0)
    ∧ volumeDrawingOpacity (1 / 2) = 127
    ∧ drawOrthogonalSliceVoxel
        (exampleContext [exampleOverlayWithOpacity exampleColored (1 / 2)]
          VolumeSliceViewModeEnum.ORTHOGONAL 0)
        VolumeSliceViewPlaneEnum.AXIAL ⟨0, 0, 1⟩ (0, 0, 0) ⟨-1 / 2, -1 / 2, 0⟩ ⟨0, 1, 0⟩
        ⟨1, 0, 0⟩ 1 [10, 20, 30, 255] 0 0 (volumeDrawingOpacity (1 / 2)) 0 0
        (exampleState false, ⟨[], [], []⟩) =
      (exampleState false, QuadBuffers.addQuad ⟨[], [], []⟩
        (orthogonalVoxelCorners ⟨-1 / 2, -1 / 2, 0⟩ ⟨0, 1, 0⟩ ⟨1, 0, 0⟩ 0 0) ⟨0, 0, 1⟩
        ⟨readByte [10, 20, 30, 255] (4 * (((0 : Nat) : Int) + 1 * ((0 : Nat) : Int))),
          readByte [10, 20, 30, 255] (4 * (((0 : Nat) : Int) + 1 * ((0 : Nat) : Int)) + 1),
          readByte [10, 20, 30, 255] (4 * (((0 : Nat) : Int) + 1 * ((0 : Nat) : Int)) + 2),
          volumeDrawingOpacity (1 / 2)⟩) :=
  ⟨⟨by norm_num, by norm_num, by decide⟩, by decide!, (orthogonal_nonzero_alpha_voxel
    (exampleContext [exampleOverlayWithOpacity exampleColored (1 / 2)]
      VolumeSliceViewModeEnum.ORTHOGONAL 0)
    VolumeSliceViewPlaneEnum.AXIAL ⟨0, 0, 1⟩ (0, 0, 0) ⟨-1 / 2, -1 / 2, 0⟩ ⟨0, 1, 0⟩ ⟨1, 0, 0⟩ 1
    [10, 20, 30, 255] 0 0 (1 / 2) 0 0 (exampleState false, ⟨[], [], []⟩)
    (by norm_num) (by norm_num) (by decide)).2.2.2.1 (by decide!) rfl⟩

/-- Counterexample to C5 as stated: for an overlay of opacity 0 (in [0,1]) a
voxel of colour-buffer alpha 255 emits no quadrilateral, for the voxel alone
and in the whole of `drawOrthogonalSlice` (no call of `drawQuads`); and in
identification mode, with opacity 1, the quadrilateral of a voxel coloured
(10,20,30,255) carries the identification colour (1,0,0,255). -/
theorem orthogonal_nonzero_alpha_voxel_not_always_drawn :
    drawOrthogonalSliceVoxel
        (exampleContext [exampleOverlayWithOpacity exampleColored 0]
          VolumeSliceViewModeEnum.ORTHOGONAL 0)
        VolumeSliceViewPlaneEnum.AXIAL ⟨0, 0, 1⟩ (0, 0, 0) ⟨-1 / 2, -1 / 2, 0⟩ ⟨0, 1, 0⟩
        ⟨1, 0, 0⟩ 1 [10, 20, 30, 255] 0 0 (volumeDrawingOpacity 0) 0 0
        (exampleState false, ⟨[], [], []⟩) = (exampleState false, ⟨[], [], []⟩)
    ∧ (drawOrthogonalSlice
        (exampleContext [exampleOverlayWithOpacity exampleColored 0]
          VolumeSliceViewModeEnum.ORTHOGONAL 0)
        (exampleState false) DRAW_MODE.DRAW_MODE_VOLUME_VIEW_SLICE_SINGLE
        VolumeSliceViewPlaneEnum.AXIAL ⟨⟨0, 0, 1⟩, ⟨0, 0, 0⟩⟩ (-1)).events =
      [Event.glEnableBlend, Event.glBlendFuncSrcAlphaOneMinusSrcAlpha, Event.glShadeModelFlat,
        Event.getVoxelColorsForSliceInMap 0 0 0, Event.glDisablePolygonOffsetFill,
        Event.glDisableBlend, Event.glShadeModelSmooth]
    ∧ (drawOrthogonalSliceVoxel
        (exampleContext [exampleOverlayWithOpacity exampleColored 1]
          VolumeSliceViewModeEnum.ORTHOGONAL 0)
        VolumeSliceViewPlaneEnum.AXIAL ⟨0, 0, 1⟩ (0, 0, 0) ⟨-1 / 2, -1 / 2, 0⟩ ⟨0, 1, 0⟩
        ⟨1, 0, 0⟩ 1 [10, 20, 30, 255] 0 0 (volumeDrawingOpacity 1) 0 0
        (exampleState true, ⟨[], [], []⟩)).2.rgba =
      [1, 0, 0, 255, 1, 0, 0, 255, 1, 0, 0, 255, 1, 0, 0, 255] := by
  decide!

theorem drawOrthogonalSliceVoxel_events (ctx : DrawingContext)
    (sliceViewPlane : VolumeSliceViewPlaneEnum)
    (sliceNormalVector : Vec3) (selectedSliceIndices : Int × Int × Int)
    (coordinate rowStep columnStep : Vec3) (numberOfColumns : Int) (sliceRGBA : List Nat)
    (volumeIndex mapIndex : Int) (sliceOpacity : Nat) (jRow iCol : Nat)
    (s : DrawingState × QuadBuffers) :
    ∃ added : List Event,
      (drawOrthogonalSliceVoxel ctx sliceViewPlane sliceNormalVector selectedSliceIndices
        coordinate rowStep columnStep numberOfColumns sliceRGBA volumeIndex mapIndex
        sliceOpacity jRow iCol s).1.events = s.1.events ++ added := by
  unfold drawOrthogonalSliceVoxel
  simp only []
  split
  · split
    · exact ⟨_, rfl⟩
    · exact ⟨[], by simp⟩
  · exact ⟨[], by simp⟩

theorem foldl_events_append {α β : Type} (f : DrawingState × β → α → DrawingState × β)
    (hf : ∀ s x, ∃ added : List Event, (f s x).1.events = s.1.events ++ added) :
    ∀ (xs : List α) (s : DrawingState × β),
      ∃ added : List Event, (xs.foldl f s).1.events = s.1.events ++ added := by
  intro xs
  induction xs with
  | nil => intro s; exact ⟨[], by simp⟩
  | cons x rest ih =>
    intro s
    obtain ⟨a1, h1⟩ := hf s x
    obtain ⟨a2, h2⟩ := ih (f s x)
    exact ⟨a1 ++ a2, by rw [List.foldl_cons, h2, h1, List.append_assoc]⟩

theorem drawOrthogonalSliceVoxels_events (ctx : DrawingContext) (st : DrawingState)
    (sliceViewPlane : VolumeSliceViewPlaneEnum)
    (sliceNormalVector : Vec3) (selectedSliceIndices : Int × Int × Int)
    (coordinate rowStep columnStep : Vec3) (numberOfColumns numberOfRows : Int)
    (sliceRGBA : List Nat) (volumeIndex mapIndex : Int) (sliceOpacity : Nat) :
    ∃ added : List Event,
      (drawOrthogonalSliceVoxels ctx st sliceViewPlane sliceNormalVector selectedSliceIndices
        coordinate rowStep columnStep numberOfColumns numberOfRows sliceRGBA volumeIndex
        mapIndex sliceOpacity).events = st.events ++ added := by
  have hloop : ∃ added : List Event,
      (drawOrthogonalSliceVoxelsLoop ctx sliceViewPlane sliceNormalVector selectedSliceIndices
        coordinate rowStep columnStep numberOfColumns numberOfRows sliceRGBA volumeIndex
        mapIndex sliceOpacity (st, ⟨[], [], []⟩)).1.events = st.events ++ added := by
    unfold drawOrthogonalSliceVoxelsLoop
    apply foldl_events_append
    intro s jRow
    apply foldl_events_append
    intro s iCol
    exact drawOrthogonalSliceVoxel_events ctx sliceViewPlane sliceNormalVector
      selectedSliceIndices coordinate rowStep columnStep numberOfColumns sliceRGBA volumeIndex
      mapIndex sliceOpacity jRow iCol s
  obtain ⟨added, h⟩ := hloop
  unfold drawOrthogonalSliceVoxels
  simp only []
  split
  · apply Exists.intro
    simp only [h, List.append_assoc]
    exact rfl
  · exact ⟨added, h⟩

theorem drawOrthogonalSliceVoxels_events_drop (ctx : DrawingContext) (st : DrawingState)
    (sliceViewPlane : VolumeSliceViewPlaneEnum)
    (sliceNormalVector : Vec3) (selectedSliceIndices : Int × Int × Int)
    (coordinate rowStep columnStep : Vec3) (numberOfColumns numberOfRows : Int)
    (sliceRGBA : List Nat) (volumeIndex mapIndex : Int) (sliceOpacity : Nat) :
    (drawOrthogonalSliceVoxels ctx st sliceViewPlane sliceNormalVector selectedSliceIndices
        coordinate rowStep columnStep numberOfColumns numberOfRows sliceRGBA volumeIndex
        mapIndex sliceOpacity).events =
      st.events ++ ((drawOrthogonalSliceVoxels ctx st sliceViewPlane sliceNormalVector
        selectedSliceIndices coordinate rowStep columnStep numberOfColumns numberOfRows
        sliceRGBA volumeIndex mapIndex sliceOpacity).events.drop st.events.length) := by
  obtain ⟨added, h⟩ := drawOrthogonalSliceVoxels_events ctx st sliceViewPlane
    sliceNormalVector selectedSliceIndices coordinate rowStep columnStep numberOfColumns
    numberOfRows sliceRGBA volumeIndex mapIndex sliceOpacity
  rw [h, List.drop_left]

theorem numVoxelsInSliceOrContinue_eq_none_iff (sliceViewPlane : VolumeSliceViewPlaneEnum)
    (selectedSliceCoordinate : ℚ) (volumeFile : VolumeMappableInterface) (dim : Int)
    (hdim : throughPlaneDimension sliceViewPlane volumeFile = some dim) :
    numVoxelsInSliceOrContinue sliceViewPlane selectedSliceCoordinate volumeFile = none ↔
      (sliceIndexForDrawing sliceViewPlane selectedSliceCoordinate volumeFile < 0
        ∨ sliceIndexForDrawing sliceViewPlane selectedSliceCoordinate volumeFile ≥ dim) := by
  cases sliceViewPlane with
  | ALL => simp [throughPlaneDimension] at hdim
  | AXIAL =>
    simp only [throughPlaneDimension, Option.some.injEq] at hdim
    subst hdim
    unfold numVoxelsInSliceOrContinue
    simp only []
    split <;> simp_all
  | CORONAL =>
    simp only [throughPlaneDimension, Option.some.injEq] at hdim
    subst hdim
    unfold numVoxelsInSliceOrContinue
    simp only []
    split <;> simp_all
  | PARASAGITTAL =>
    simp only [throughPlaneDimension, Option.some.injEq] at hdim
    subst hdim
    unfold numVoxelsInSliceOrContinue
    simp only []
    split <;> simp_all

/-- C6: for an overlay processed by `drawOrthogonalSlice` on one of the three
view planes, with `dim` the dimension of its volume on the through-plane axis:
if the slice index computed on that axis is negative or at least `dim`, the
overlay leaves the state as it is (no colour request, no quadrilateral, no
identification record) and the loop goes on with the remaining overlays; if
the index is in range the overlay is drawn: its colours are requested for that
slice index as the first call made for it, `drawOrthogonalSliceVoxels` runs,
and the polygon offset is disabled as the last call. -/
theorem orthogonal_slice_index_bounds_check (ctx : DrawingContext) (drawMode : DRAW_MODE)
    (sliceViewPlane : VolumeSliceViewPlaneEnum) (sliceNormalVector : Vec3)
    (selectedSliceCoordinate : ℚ) (iVol : Nat) (volInfo : VolumeDrawInfo)
    (rest : List VolumeDrawInfo) (s : DrawingState × List Nat) (dim : Int)
    (hdim : throughPlaneDimension sliceViewPlane volInfo.volumeFile = some dim) :
    ((sliceIndexForDrawing sliceViewPlane selectedSliceCoordinate volInfo.volumeFile < 0
        ∨ sliceIndexForDrawing sliceViewPlane selectedSliceCoordinate volInfo.volumeFile ≥ dim) →
      drawOrthogonalSliceOverlay ctx drawMode sliceViewPlane sliceNormalVector
        selectedSliceCoordinate iVol volInfo s = s
      ∧ drawOrthogonalSliceLoop ctx drawMode sliceViewPlane sliceNormalVector
          selectedSliceCoordinate iVol (volInfo :: rest) s =
        drawOrthogonalSliceLoop ctx drawMode sliceViewPlane sliceNormalVector
          selectedSliceCoordinate (iVol + 1) rest s)
    ∧ ((0 ≤ sliceIndexForDrawing sliceViewPlane selectedSliceCoordinate volInfo.volumeFile
        ∧ sliceIndexForDrawing sliceViewPlane selectedSliceCoordinate volInfo.volumeFile < dim) →
      (∃ later : List Event,
        (drawOrthogonalSliceOverlay ctx drawMode sliceViewPlane sliceNormalVector
          selectedSliceCoordinate iVol volInfo s).1.events =
        s.1.events ++ Event.getVoxelColorsForSliceInMap iVol volInfo.mapIndex
          (sliceIndexForDrawing sliceViewPlane selectedSliceCoordinate volInfo.volumeFile)
          :: later)
      ∧ (drawOrthogonalSliceOverlay ctx drawMode sliceViewPlane sliceNormalVector
          selectedSliceCoordinate iVol volInfo s).1.events.getLast? =
        some Event.glDisablePolygonOffsetFill
      ∧ drawOrthogonalSliceLoop ctx drawMode sliceViewPlane sliceNormalVector
          selectedSliceCoordinate iVol (volInfo :: rest) s =
        drawOrthogonalSliceLoop ctx drawMode sliceViewPlane sliceNormalVector
          selectedSliceCoordinate (iVol + 1) rest
          (drawOrthogonalSliceOverlay ctx drawMode sliceViewPlane sliceNormalVector
            selectedSliceCoordinate iVol volInfo s)) := by
  have hiff := numVoxelsInSliceOrContinue_eq_none_iff sliceViewPlane selectedSliceCoordinate
    volInfo.volumeFile dim hdim
  constructor
  · intro hout
    have hnone := hiff.2 hout
    have hstep : drawOrthogonalSliceOverlay ctx drawMode sliceViewPlane sliceNormalVector
        selectedSliceCoordinate iVol volInfo s = s := by
      unfold drawOrthogonalSliceOverlay
      simp only [hnone]
    refine ⟨hstep, ?_⟩
    rw [drawOrthogonalSliceLoop, hstep]
  · intro hin
    refine ⟨?_, ?_, by rw [drawOrthogonalSliceLoop]⟩
    rotate_left
    · cases h : numVoxelsInSliceOrContinue sliceViewPlane selectedSliceCoordinate
          volInfo.volumeFile with
      | none =>
        have := hiff.1 h
        omega
      | some n =>
        unfold drawOrthogonalSliceOverlay
        simp only [h]
        simp
    have hsome : ∃ n, numVoxelsInSliceOrContinue sliceViewPlane selectedSliceCoordinate
        volInfo.volumeFile = some n := by
      cases h : numVoxelsInSliceOrContinue sliceViewPlane selectedSliceCoordinate
          volInfo.volumeFile with
      | none =>
        have := hiff.1 h
        omega
      | some n => exact ⟨n, rfl⟩
    obtain ⟨n, hn⟩ := hsome
    unfold drawOrthogonalSliceOverlay
    simp only [hn]
    rw [drawOrthogonalSliceVoxels_events_drop]
    split <;> split <;>
      (apply Exists.intro
       simp only [List.append_assoc, List.cons_append, List.nil_append]
       exact rfl)

/-- Witness of C6: the slice index 5 of a volume with 4 slices on the
through-plane axis; the overlay is omitted. -/
theorem orthogonal_slice_index_bounds_check_witness :
    throughPlaneDimension VolumeSliceViewPlaneEnum.AXIAL
        (exampleOverlay exampleFourSlices).volumeFile = some 4
    ∧ sliceIndexForDrawing VolumeSliceViewPlaneEnum.AXIAL 5
        (exampleOverlay exampleFourSlices).volumeFile = 5
    ∧ drawOrthogonalSliceOverlay
        (exampleContext [exampleOverlay exampleFourSlices] VolumeSliceViewModeEnum.ORTHOGONAL 5)
        DRAW_MODE.DRAW_MODE_VOLUME_VIEW_SLICE_SINGLE VolumeSliceViewPlaneEnum.AXIAL ⟨0, 0, 1⟩ 5 0
        (exampleOverlay exampleFourSlices) (exampleState false, []) = (exampleState false, []) :=
  ⟨rfl, by decide!, ((orthogonal_slice_index_bounds_check
    (exampleContext [exampleOverlay exampleFourSlices] VolumeSliceViewModeEnum.ORTHOGONAL 5)
    DRAW_MODE.DRAW_MODE_VOLUME_VIEW_SLICE_SINGLE VolumeSliceViewPlaneEnum.AXIAL ⟨0, 0, 1⟩ 5 0
    (exampleOverlay exampleFourSlices) [] (exampleState false, []) 4 rfl).1
      (Or.inr (by decide!))).1⟩

/-! ## Bounds and spacing of the overlays -/

theorem foldl_min_le {α : Type} (f : α → ℚ) :
    ∀ (l : List α) (init : ℚ),
      l.foldl (fun a v => min a (f v)) init ≤ init
      ∧ ∀ v ∈ l, l.foldl (fun a v => min a (f v)) init ≤ f v := by
  intro l
  induction l with
  | nil => intro init; simp
  | cons x rest ih =>
    intro init
    obtain ⟨h1, h2⟩ := ih (min init (f x))
    rw [List.foldl_cons]
    refine ⟨le_trans h1 (min_le_left _ _), ?_⟩
    intro v hv
    rcases List.mem_cons.1 hv with rfl | hv
    · exact le_trans h1 (min_le_right _ _)
    · exact h2 v hv

theorem foldl_min_mem {α : Type} (f : α → ℚ) :
    ∀ (l : List α) (init : ℚ),
      l.foldl (fun a v => min a (f v)) init = init
      ∨ ∃ v ∈ l, l.foldl (fun a v => min a (f v)) init = f v := by
  intro l
  induction l with
  | nil => intro init; simp
  | cons x rest ih =>
    intro init
    rw [List.foldl_cons]
    rcases ih (min init (f x)) with h | ⟨v, hv, h⟩
    · rcases min_choice init (f x) with hm | hm
      · left; rw [h, hm]
      · right; exact ⟨x, by simp, by rw [h, hm]⟩
    · right; exact ⟨v, by simp [hv], h⟩

theorem foldl_max_ge {α : Type} (f : α → ℚ) :
    ∀ (l : List α) (init : ℚ),
      init ≤ l.foldl (fun a v => max a (f v)) init
      ∧ ∀ v ∈ l, f v ≤ l.foldl (fun a v => max a (f v)) init := by
  intro l
  induction l with
  | nil => intro init; simp
  | cons x rest ih =>
    intro init
    obtain ⟨h1, h2⟩ := ih (max init (f x))
    rw [List.foldl_cons]
    refine ⟨le_trans (le_max_left _ _) h1, ?_⟩
    intro v hv
    rcases List.mem_cons.1 hv with rfl | hv
    · exact le_trans (le_max_right _ _) h1
    · exact h2 v hv

theorem foldl_max_mem {α : Type} (f : α → ℚ) :
    ∀ (l : List α) (init : ℚ),
      l.foldl (fun a v => max a (f v)) init = init
      ∨ ∃ v ∈ l, l.foldl (fun a v => max a (f v)) init = f v := by
  intro l
  induction l with
  | nil => intro init; simp
  | cons x rest ih =>
    intro init
    rw [List.foldl_cons]
    rcases ih (max init (f x)) with h | ⟨v, hv, h⟩
    · rcases max_choice init (f x) with hm | hm
      · left; rw [h, hm]
      · right; exact ⟨x, by simp, by rw [h, hm]⟩
    · right; exact ⟨v, by simp [hv], h⟩

theorem foldl_min_isLeast {α : Type} (f : α → ℚ) (l : List α) (init : ℚ) (hne : l ≠ [])
    (hle : ∀ v ∈ l, f v ≤ init) :
    IsLeast {c | ∃ v ∈ l, c = f v} (l.foldl (fun a v => min a (f v)) init) := by
  obtain ⟨h1, h2⟩ := foldl_min_le f l init
  constructor
  · rcases foldl_min_mem f l init with h | ⟨v, hv, h⟩
    · obtain ⟨x, hx⟩ := List.exists_mem_of_ne_nil l hne
      refine ⟨x, hx, ?_⟩
      have := h2 x hx
      have := hle x hx
      rw [h] at *
      exact le_antisymm (by assumption) (by assumption)
    · exact ⟨v, hv, h⟩
  · rintro c ⟨v, hv, rfl⟩
    exact h2 v hv

theorem foldl_max_isGreatest {α : Type} (f : α → ℚ) (l : List α) (init : ℚ) (hne : l ≠ [])
    (hle : ∀ v ∈ l, init ≤ f v) :
    IsGreatest {c | ∃ v ∈ l, c = f v} (l.foldl (fun a v => max a (f v)) init) := by
  obtain ⟨h1, h2⟩ := foldl_max_ge f l init
  constructor
  · rcases foldl_max_mem f l init with h | ⟨v, hv, h⟩
    · obtain ⟨x, hx⟩ := List.exists_mem_of_ne_nil l hne
      refine ⟨x, hx, ?_⟩
      have := h2 x hx
      have := hle x hx
      rw [h] at *
      exact le_antisymm (by assumption) (by assumption)
    · exact ⟨v, hv, h⟩
  · rintro c ⟨v, hv, rfl⟩
    exact h2 v hv

theorem foldl_boundsAndSpacingStep_proj (p : BoundsAndSpacing → ℚ)
    (g : ℚ → VolumeDrawInfo → ℚ)
    (hstep : ∀ acc info, p (boundsAndSpacingStep acc info) = g (p acc) info) :
    ∀ (l : List VolumeDrawInfo) (acc : BoundsAndSpacing),
      p (l.foldl boundsAndSpacingStep acc) = l.foldl g (p acc) := by
  intro l
  induction l with
  | nil => intro acc; rfl
  | cons x rest ih =>
    intro acc
    rw [List.foldl_cons, List.foldl_cons, ih, hstep]

theorem isLeast_min_pair {α : Type} (a b : α → ℚ) (l : List α) (m : ℚ)
    (h : IsLeast {c | ∃ v ∈ l, c = min (a v) (b v)} m) :
    IsLeast {c | ∃ v ∈ l, c = a v ∨ c = b v} m := by
  obtain ⟨⟨v, hv, hm⟩, hlb⟩ := h
  constructor
  · refine ⟨v, hv, ?_⟩
    rcases min_choice (a v) (b v) with hc | hc
    · left; rw [hm, hc]
    · right; rw [hm, hc]
  · rintro c ⟨w, hw, hc⟩
    have := hlb ⟨w, hw, rfl⟩
    rcases hc with rfl | rfl
    · exact le_trans this (min_le_left _ _)
    · exact le_trans this (min_le_right _ _)

theorem isGreatest_max_pair {α : Type} (a b : α → ℚ) (l : List α) (m : ℚ)
    (h : IsGreatest {c | ∃ v ∈ l, c = max (a v) (b v)} m) :
    IsGreatest {c | ∃ v ∈ l, c = a v ∨ c = b v} m := by
  obtain ⟨⟨v, hv, hm⟩, hub⟩ := h
  constructor
  · refine ⟨v, hv, ?_⟩
    rcases max_choice (a v) (b v) with hc | hc
    · left; rw [hm, hc]
    · right; rw [hm, hc]
  · rintro c ⟨w, hw, hc⟩
    have := hub ⟨w, hw, rfl⟩
    rcases hc with rfl | rfl
    · exact le_trans (le_max_left _ _) this
    · exact le_trans (le_max_right _ _) this

theorem getVoxelCoordinateBoundsAndSpacing_nil (boundsOut : Bounds6) (spacingOut : Vec3) :
    getVoxelCoordinateBoundsAndSpacing [] boundsOut spacingOut = (false, boundsOut, spacingOut) := by
  simp [getVoxelCoordinateBoundsAndSpacing]

theorem getVoxelCoordinateBoundsAndSpacing_outputs (vols : List VolumeDrawInfo)
    (boundsOut : Bounds6) (spacingOut : Vec3) (hne : vols ≠ []) :
    (getVoxelCoordinateBoundsAndSpacing vols boundsOut spacingOut).2.1.minX =
        vols.foldl (fun a v => min a (min v.firstVoxel.x v.lastVoxel.x)) FLT_MAX
    ∧ (getVoxelCoordinateBoundsAndSpacing vols boundsOut spacingOut).2.1.maxX =
        vols.foldl (fun a v => max a (max v.firstVoxel.x v.lastVoxel.x)) (-FLT_MAX)
    ∧ (getVoxelCoordinateBoundsAndSpacing vols boundsOut spacingOut).2.1.minY =
        vols.foldl (fun a v => min a (min v.firstVoxel.y v.lastVoxel.y)) FLT_MAX
    ∧ (getVoxelCoordinateBoundsAndSpacing vols boundsOut spacingOut).2.1.maxY =
        vols.foldl (fun a v => max a (max v.firstVoxel.y v.lastVoxel.y)) (-FLT_MAX)
    ∧ (getVoxelCoordinateBoundsAndSpacing vols boundsOut spacingOut).2.1.minZ =
        vols.foldl (fun a v => min a (min v.firstVoxel.z v.lastVoxel.z)) FLT_MAX
    ∧ (getVoxelCoordinateBoundsAndSpacing vols boundsOut spacingOut).2.1.maxZ =
        vols.foldl (fun a v => max a (max v.firstVoxel.z v.lastVoxel.z)) (-FLT_MAX)
    ∧ (getVoxelCoordinateBoundsAndSpacing vols boundsOut spacingOut).2.2.x =
        vols.foldl (fun a v => min a v.absoluteSpacing.x) FLT_MAX
    ∧ (getVoxelCoordinateBoundsAndSpacing vols boundsOut spacingOut).2.2.y =
        vols.foldl (fun a v => min a v.absoluteSpacing.y) FLT_MAX
    ∧ (getVoxelCoordinateBoundsAndSpacing vols boundsOut spacingOut).2.2.z =
        vols.foldl (fun a v => min a v.absoluteSpacing.z) FLT_MAX := by
  have hlen : ¬ ((vols.length : Int) ≤ 0) := by
    have : 0 < vols.length := List.length_pos.2 hne
    omega
  unfold getVoxelCoordinateBoundsAndSpacing
  simp only [hlen, if_false]
  refine ⟨?_, ?_, ?_, ?_, ?_, ?_, ?_, ?_, ?_⟩
  · exact foldl_boundsAndSpacingStep_proj (fun a => a.minVoxelX) _ (fun _ _ => rfl) vols _
  · exact foldl_boundsAndSpacingStep_proj (fun a => a.maxVoxelX) _ (fun _ _ => rfl) vols _
  · exact foldl_boundsAndSpacingStep_proj (fun a => a.minVoxelY) _ (fun _ _ => rfl) vols _
  · exact foldl_boundsAndSpacingStep_proj (fun a => a.maxVoxelY) _ (fun _ _ => rfl) vols _
  · exact foldl_boundsAndSpacingStep_proj (fun a => a.minVoxelZ) _ (fun _ _ => rfl) vols _
  · exact foldl_boundsAndSpacingStep_proj (fun a => a.maxVoxelZ) _ (fun _ _ => rfl) vols _
  · exact foldl_boundsAndSpacingStep_proj (fun a => a.voxelStepX) _ (fun _ _ => rfl) vols _
  · exact foldl_boundsAndSpacingStep_proj (fun a => a.voxelStepY) _ (fun _ _ => rfl) vols _
  · exact foldl_boundsAndSpacingStep_proj (fun a => a.voxelStepZ) _ (fun _ _ => rfl) vols _

theorem getVoxelCoordinateBoundsAndSpacing_valid (vols : List VolumeDrawInfo)
    (boundsOut : Bounds6) (spacingOut : Vec3) (hne : vols ≠ []) :
    (getVoxelCoordinateBoundsAndSpacing vols boundsOut spacingOut).1 = true ↔
      ((getVoxelCoordinateBoundsAndSpacing vols boundsOut spacingOut).2.1.maxX >
          (getVoxelCoordinateBoundsAndSpacing vols boundsOut spacingOut).2.1.minX
        ∧ (getVoxelCoordinateBoundsAndSpacing vols boundsOut spacingOut).2.1.maxY >
          (getVoxelCoordinateBoundsAndSpacing vols boundsOut spacingOut).2.1.minY
        ∧ (getVoxelCoordinateBoundsAndSpacing vols boundsOut spacingOut).2.1.maxZ >
          (getVoxelCoordinateBoundsAndSpacing vols boundsOut spacingOut).2.1.minZ
        ∧ (getVoxelCoordinateBoundsAndSpacing vols boundsOut spacingOut).2.2.x > 0
        ∧ (getVoxelCoordinateBoundsAndSpacing vols boundsOut spacingOut).2.2.y > 0
        ∧ (getVoxelCoordinateBoundsAndSpacing vols boundsOut spacingOut).2.2.z > 0) := by
  have hlen : ¬ ((vols.length : Int) ≤ 0) := by
    have : 0 < vols.length := List.length_pos.2 hne
    omega
  unfold getVoxelCoordinateBoundsAndSpacing
  simp only [hlen, if_false, Bool.and_eq_true, decide_eq_true_eq]
  tauto

theorem inFloatRange_bounds (info : VolumeDrawInfo) (h : info.inFloatRange) :
    (-FLT_MAX ≤ min info.firstVoxel.x info.lastVoxel.x
      ∧ max info.firstVoxel.x info.lastVoxel.x ≤ FLT_MAX)
    ∧ (-FLT_MAX ≤ min info.firstVoxel.y info.lastVoxel.y
      ∧ max info.firstVoxel.y info.lastVoxel.y ≤ FLT_MAX)
    ∧ (-FLT_MAX ≤ min info.firstVoxel.z info.lastVoxel.z
      ∧ max info.firstVoxel.z info.lastVoxel.z ≤ FLT_MAX) := by
  obtain ⟨⟨f1, f2, f3⟩, ⟨l1, l2, l3⟩, _⟩ := h
  rw [abs_le] at f1 f2 f3 l1 l2 l3
  refine ⟨⟨le_min f1.1 l1.1, max_le f1.2 l1.2⟩, ⟨le_min f2.1 l2.1, max_le f2.2 l2.2⟩,
    ⟨le_min f3.1 l3.1, max_le f3.2 l3.2⟩⟩

theorem spacing_outputs_isLeast (vols : List VolumeDrawInfo) (boundsOut : Bounds6)
    (spacingOut : Vec3) (hne : vols ≠ []) (hrange : ∀ v ∈ vols, v.inFloatRange) :
    IsLeast {c | ∃ v ∈ vols, c = v.absoluteSpacing.x}
        (getVoxelCoordinateBoundsAndSpacing vols boundsOut spacingOut).2.2.x
    ∧ IsLeast {c | ∃ v ∈ vols, c = v.absoluteSpacing.y}
        (getVoxelCoordinateBoundsAndSpacing vols boundsOut spacingOut).2.2.y
    ∧ IsLeast {c | ∃ v ∈ vols, c = v.absoluteSpacing.z}
        (getVoxelCoordinateBoundsAndSpacing vols boundsOut spacingOut).2.2.z := by
  obtain ⟨_, _, _, _, _, _, e7, e8, e9⟩ :=
    getVoxelCoordinateBoundsAndSpacing_outputs vols boundsOut spacingOut hne
  rw [e7, e8, e9]
  exact ⟨foldl_min_isLeast (fun v : VolumeDrawInfo => v.absoluteSpacing.x) vols FLT_MAX hne
      (fun v hv => (hrange v hv).2.2.1),
    foldl_min_isLeast (fun v : VolumeDrawInfo => v.absoluteSpacing.y) vols FLT_MAX hne
      (fun v hv => (hrange v hv).2.2.2.1),
    foldl_min_isLeast (fun v : VolumeDrawInfo => v.absoluteSpacing.z) vols FLT_MAX hne
      (fun v hv => (hrange v hv).2.2.2.2)⟩

/-- C10: for a non-empty overlay list whose coordinates are in the range of a
`float`, `getVoxelCoordinateBoundsAndSpacing` outputs on each axis the minimum
and the maximum, over all overlays, of the coordinates of the first voxel
`(0,0,0)` and of the last voxel `(dimI-1, dimJ-1, dimK-1)`, and as spacing the
minimum over all overlays of the absolute difference between
`indexToSpace(1,1,1)` and `indexToSpace(0,0,0)`; the first and last voxel
centres of every overlay lie inside the output bounds and every output
spacing is non-negative. -/
theorem bounds_and_spacing_outputs (vols : List VolumeDrawInfo) (boundsOut : Bounds6)
    (spacingOut : Vec3) (hne : vols ≠ []) (hrange : ∀ v ∈ vols, v.inFloatRange) :
    (IsLeast {c | ∃ v ∈ vols, c = v.firstVoxel.x ∨ c = v.lastVoxel.x}
        (getVoxelCoordinateBoundsAndSpacing vols boundsOut spacingOut).2.1.minX
      ∧ IsGreatest {c | ∃ v ∈ vols, c = v.firstVoxel.x ∨ c = v.lastVoxel.x}
        (getVoxelCoordinateBoundsAndSpacing vols boundsOut spacingOut).2.1.maxX
      ∧ IsLeast {c | ∃ v ∈ vols, c = v.firstVoxel.y ∨ c = v.lastVoxel.y}
        (getVoxelCoordinateBoundsAndSpacing vols boundsOut spacingOut).2.1.minY
      ∧ IsGreatest {c | ∃ v ∈ vols, c = v.firstVoxel.y ∨ c = v.lastVoxel.y}
        (getVoxelCoordinateBoundsAndSpacing vols boundsOut spacingOut).2.1.maxY
      ∧ IsLeast {c | ∃ v ∈ vols, c = v.firstVoxel.z ∨ c = v.lastVoxel.z}
        (getVoxelCoordinateBoundsAndSpacing vols boundsOut spacingOut).2.1.minZ
      ∧ IsGreatest {c | ∃ v ∈ vols, c = v.firstVoxel.z ∨ c = v.lastVoxel.z}
        (getVoxelCoordinateBoundsAndSpacing vols boundsOut spacingOut).2.1.maxZ)
    ∧ (IsLeast {c | ∃ v ∈ vols, c = v.absoluteSpacing.x}
        (getVoxelCoordinateBoundsAndSpacing vols boundsOut spacingOut).2.2.x
      ∧ IsLeast {c | ∃ v ∈ vols, c = v.absoluteSpacing.y}
        (getVoxelCoordinateBoundsAndSpacing vols boundsOut spacingOut).2.2.y
      ∧ IsLeast {c | ∃ v ∈ vols, c = v.absoluteSpacing.z}
        (getVoxelCoordinateBoundsAndSpacing vols boundsOut spacingOut).2.2.z)
    ∧ (∀ v ∈ vols, ∀ p : Vec3, p = v.firstVoxel ∨ p = v.lastVoxel →
        (getVoxelCoordinateBoundsAndSpacing vols boundsOut spacingOut).2.1.minX ≤ p.x
        ∧ p.x ≤ (getVoxelCoordinateBoundsAndSpacing vols boundsOut spacingOut).2.1.maxX
        ∧ (getVoxelCoordinateBoundsAndSpacing vols boundsOut spacingOut).2.1.minY ≤ p.y
        ∧ p.y ≤ (getVoxelCoordinateBoundsAndSpacing vols boundsOut spacingOut).2.1.maxY
        ∧ (getVoxelCoordinateBoundsAndSpacing vols boundsOut spacingOut).2.1.minZ ≤ p.z
        ∧ p.z ≤ (getVoxelCoordinateBoundsAndSpacing vols boundsOut spacingOut).2.1.maxZ)
    ∧ (0 ≤ (getVoxelCoordinateBoundsAndSpacing vols boundsOut spacingOut).2.2.x
      ∧ 0 ≤ (getVoxelCoordinateBoundsAndSpacing vols boundsOut spacingOut).2.2.y
      ∧ 0 ≤ (getVoxelCoordinateBoundsAndSpacing vols boundsOut spacingOut).2.2.z) := by
  obtain ⟨s1, s2, s3⟩ := spacing_outputs_isLeast vols boundsOut spacingOut hne hrange
  obtain ⟨e1, e2, e3, e4, e5, e6, _, _, _⟩ :=
    getVoxelCoordinateBoundsAndSpacing_outputs vols boundsOut spacingOut hne
  rw [e1, e2, e3, e4, e5, e6]
  have hb := fun v hv => inFloatRange_bounds v (hrange v hv)
  have l1 := isLeast_min_pair _ _ vols _ (foldl_min_isLeast
    (fun v : VolumeDrawInfo => min v.firstVoxel.x v.lastVoxel.x) vols FLT_MAX hne
    (fun v hv => le_trans (min_le_max) (hb v hv).1.2))
  have g1 := isGreatest_max_pair _ _ vols _ (foldl_max_isGreatest
    (fun v : VolumeDrawInfo => max v.firstVoxel.x v.lastVoxel.x) vols (-FLT_MAX) hne
    (fun v hv => le_trans (hb v hv).1.1 (min_le_max)))
  have l2 := isLeast_min_pair _ _ vols _ (foldl_min_isLeast
    (fun v : VolumeDrawInfo => min v.firstVoxel.y v.lastVoxel.y) vols FLT_MAX hne
    (fun v hv => le_trans (min_le_max) (hb v hv).2.1.2))
  have g2 := isGreatest_max_pair _ _ vols _ (foldl_max_isGreatest
    (fun v : VolumeDrawInfo => max v.firstVoxel.y v.lastVoxel.y) vols (-FLT_MAX) hne
    (fun v hv => le_trans (hb v hv).2.1.1 (min_le_max)))
  have l3 := isLeast_min_pair _ _ vols _ (foldl_min_isLeast
    (fun v : VolumeDrawInfo => min v.firstVoxel.z v.lastVoxel.z) vols FLT_MAX hne
    (fun v hv => le_trans (min_le_max) (hb v hv).2.2.2))
  have g3 := isGreatest_max_pair _ _ vols _ (foldl_max_isGreatest
    (fun v : VolumeDrawInfo => max v.firstVoxel.z v.lastVoxel.z) vols (-FLT_MAX) hne
    (fun v hv => le_trans (hb v hv).2.2.1 (min_le_max)))
  refine ⟨⟨l1, g1, l2, g2, l3, g3⟩, ⟨s1, s2, s3⟩, ?_, ?_⟩
  · intro v hv p hp
    refine ⟨l1.2 ⟨v, hv, ?_⟩, g1.2 ⟨v, hv, ?_⟩, l2.2 ⟨v, hv, ?_⟩, g2.2 ⟨v, hv, ?_⟩,
      l3.2 ⟨v, hv, ?_⟩, g3.2 ⟨v, hv, ?_⟩⟩ <;>
    · rcases hp with rfl | rfl
      · exact Or.inl rfl
      · exact Or.inr rfl
  · obtain ⟨v, hv, h1⟩ := s1.1
    obtain ⟨w, hw, h2⟩ := s2.1
    obtain ⟨u, hu, h3⟩ := s3.1
    refine ⟨?_, ?_, ?_⟩
    · rw [h1]; exact abs_nonneg _
    · rw [h2]; exact abs_nonneg _
    · rw [h3]; exact abs_nonneg _

theorem exampleCube_inFloatRange : (exampleOverlay exampleCube).inFloatRange := by
  unfold VolumeDrawInfo.inFloatRange
  decide!

theorem exampleSlab_inFloatRange : (exampleOverlay exampleSlab).inFloatRange := by
  unfold VolumeDrawInfo.inFloatRange
  decide!

/-- Witness of C10: the single overlay `exampleCube`, whose voxel centres span
`[0, 1]` on every axis with spacing 1. -/
theorem bounds_and_spacing_outputs_witness :
    ([exampleOverlay exampleCube] ≠ [] ∧ ∀ v ∈ [exampleOverlay exampleCube], v.inFloatRange)
    ∧ IsLeast {c | ∃ v ∈ [exampleOverlay exampleCube], c = v.absoluteSpacing.x}
        (getVoxelCoordinateBoundsAndSpacing [exampleOverlay exampleCube] ⟨0, 0, 0, 0, 0, 0⟩
          ⟨0, 0, 0⟩).2.2.x
    ∧ (getVoxelCoordinateBoundsAndSpacing [exampleOverlay exampleCube] ⟨0, 0, 0, 0, 0, 0⟩
          ⟨0, 0, 0⟩) = (true, ⟨0, 1, 0, 1, 0, 1⟩, ⟨1, 1, 1⟩) :=
  ⟨⟨by simp, fun v hv => by
      rw [List.mem_singleton] at hv
      rw [hv]
      exact exampleCube_inFloatRange⟩,
    (bounds_and_spacing_outputs [exampleOverlay exampleCube] ⟨0, 0, 0, 0, 0, 0⟩ ⟨0, 0, 0⟩
      (by simp) (fun v hv => by
        rw [List.mem_singleton] at hv
        rw [hv]
        exact exampleCube_inFloatRange)).2.1.1,
    by decide!⟩

theorem isLeast_min_three {α : Type} (a b c : α → ℚ) (l : List α) (ma mb mc : ℚ)
    (ha : IsLeast {q | ∃ v ∈ l, q = a v} ma) (hb : IsLeast {q | ∃ v ∈ l, q = b v} mb)
    (hc : IsLeast {q | ∃ v ∈ l, q = c v} mc) :
    IsLeast {q | ∃ v ∈ l, q = a v ∨ q = b v ∨ q = c v} (min ma (min mb mc)) := by
  obtain ⟨⟨va, hva, ea⟩, la⟩ := ha
  obtain ⟨⟨vb, hvb, eb⟩, lb⟩ := hb
  obtain ⟨⟨vc, hvc, ec⟩, lc⟩ := hc
  constructor
  · rcases min_choice ma (min mb mc) with h | h
    · exact ⟨va, hva, Or.inl (by rw [h, ea])⟩
    · rcases min_choice mb mc with h2 | h2
      · exact ⟨vb, hvb, Or.inr (Or.inl (by rw [h, h2, eb]))⟩
      · exact ⟨vc, hvc, Or.inr (Or.inr (by rw [h, h2, ec]))⟩
  · rintro q ⟨v, hv, hq⟩
    rcases hq with rfl | rfl | rfl
    · exact le_trans (min_le_left _ _) (la ⟨v, hv, rfl⟩)
    · exact le_trans (min_le_right _ _) (le_trans (min_le_left _ _) (lb ⟨v, hv, rfl⟩))
    · exact le_trans (min_le_right _ _) (le_trans (min_le_right _ _) (lc ⟨v, hv, rfl⟩))

/-- C8: in every oblique draw that passes the bounds check (overlay coordinates
in the range of a `float`), the step size `voxelSize` handed to the traversal
is the minimum, over all overlays and the three axes, of the absolute voxel
spacing when the draw mode is the single-slice view or the all-structures
view, and exactly 3 times that minimum when the draw mode is the 3D
volume-slice view. -/
theorem oblique_step_size_is_minimum_spacing (ctx : DrawingContext) (st : DrawingState)
    (sliceViewPlane : VolumeSliceViewPlaneEnum) (plane : Plane) (drawMode : DRAW_MODE)
    (transformationMatrix : Matrix4x4) (zoom : ℚ)
    (hrange : ∀ v ∈ ctx.m_volumeDrawInfo, v.inFloatRange)
    (hvalid : (getVoxelCoordinateBoundsAndSpacing ctx.m_volumeDrawInfo ⟨0, 0, 0, 0, 0, 0⟩
      ⟨0, 0, 0⟩).1 = true) :
    ∃ m : ℚ,
      IsLeast {c | ∃ v ∈ ctx.m_volumeDrawInfo,
        c = v.absoluteSpacing.x ∨ c = v.absoluteSpacing.y ∨ c = v.absoluteSpacing.z} m
      ∧ obliqueVoxelSize drawMode (getVoxelCoordinateBoundsAndSpacing ctx.m_volumeDrawInfo
          ⟨0, 0, 0, 0, 0, 0⟩ ⟨0, 0, 0⟩).2.2 =
        (if drawMode = DRAW_MODE.DRAW_MODE_VOLUME_VIEW_SLICE_3D then 3 * m else m)
      ∧ drawObliqueSlice ctx st sliceViewPlane plane drawMode transformationMatrix zoom =
        drawObliqueSliceWithVoxelSize ctx st sliceViewPlane plane transformationMatrix zoom
          (if drawMode = DRAW_MODE.DRAW_MODE_VOLUME_VIEW_SLICE_3D then 3 * m else m) := by
  have hne : ctx.m_volumeDrawInfo ≠ [] := by
    intro h
    rw [h, getVoxelCoordinateBoundsAndSpacing_nil] at hvalid
    exact absurd hvalid (by decide)
  obtain ⟨s1, s2, s3⟩ := spacing_outputs_isLeast ctx.m_volumeDrawInfo
    ⟨0, 0, 0, 0, 0, 0⟩ ⟨0, 0, 0⟩ hne hrange
  have hsize : obliqueVoxelSize drawMode (getVoxelCoordinateBoundsAndSpacing
      ctx.m_volumeDrawInfo ⟨0, 0, 0, 0, 0, 0⟩ ⟨0, 0, 0⟩).2.2 =
      (if drawMode = DRAW_MODE.DRAW_MODE_VOLUME_VIEW_SLICE_3D then
        3 * (min (getVoxelCoordinateBoundsAndSpacing ctx.m_volumeDrawInfo
          ⟨0, 0, 0, 0, 0, 0⟩ ⟨0, 0, 0⟩).2.2.x
          (min (getVoxelCoordinateBoundsAndSpacing ctx.m_volumeDrawInfo
            ⟨0, 0, 0, 0, 0, 0⟩ ⟨0, 0, 0⟩).2.2.y
            (getVoxelCoordinateBoundsAndSpacing ctx.m_volumeDrawInfo
              ⟨0, 0, 0, 0, 0, 0⟩ ⟨0, 0, 0⟩).2.2.z))
      else min (getVoxelCoordinateBoundsAndSpacing ctx.m_volumeDrawInfo
          ⟨0, 0, 0, 0, 0, 0⟩ ⟨0, 0, 0⟩).2.2.x
          (min (getVoxelCoordinateBoundsAndSpacing ctx.m_volumeDrawInfo
            ⟨0, 0, 0, 0, 0, 0⟩ ⟨0, 0, 0⟩).2.2.y
            (getVoxelCoordinateBoundsAndSpacing ctx.m_volumeDrawInfo
              ⟨0, 0, 0, 0, 0, 0⟩ ⟨0, 0, 0⟩).2.2.z)) := by
    cases drawMode <;> simp [obliqueVoxelSize, mul_comm]
  refine ⟨_, isLeast_min_three _ _ _ _ _ _ _ s1 s2 s3, hsize, ?_⟩
  unfold drawObliqueSlice
  simp only [hvalid]
  rw [hsize]
  simp

/-- Witness of C8: the single overlay `exampleCube` (spacing 1 on every axis) in
the 3D volume-slice view. -/
theorem oblique_step_size_is_minimum_spacing_witness :
    ((∀ v ∈ (exampleContext [exampleOverlay exampleCube]
        VolumeSliceViewModeEnum.OBLIQUE 0).m_volumeDrawInfo, v.inFloatRange)
      ∧ (getVoxelCoordinateBoundsAndSpacing (exampleContext [exampleOverlay exampleCube]
        VolumeSliceViewModeEnum.OBLIQUE 0).m_volumeDrawInfo ⟨0, 0, 0, 0, 0, 0⟩
          ⟨0, 0, 0⟩).1 = true)
    ∧ (∃ m : ℚ,
      IsLeast {c | ∃ v ∈ (exampleContext [exampleOverlay exampleCube]
          VolumeSliceViewModeEnum.OBLIQUE 0).m_volumeDrawInfo,
        c = v.absoluteSpacing.x ∨ c = v.absoluteSpacing.y ∨ c = v.absoluteSpacing.z} m
      ∧ obliqueVoxelSize DRAW_MODE.DRAW_MODE_VOLUME_VIEW_SLICE_3D
          (getVoxelCoordinateBoundsAndSpacing (exampleContext [exampleOverlay exampleCube]
            VolumeSliceViewModeEnum.OBLIQUE 0).m_volumeDrawInfo
            ⟨0, 0, 0, 0, 0, 0⟩ ⟨0, 0, 0⟩).2.2 =
        (if DRAW_MODE.DRAW_MODE_VOLUME_VIEW_SLICE_3D = DRAW_MODE.DRAW_MODE_VOLUME_VIEW_SLICE_3D
          then 3 * m else m))
    ∧ obliqueVoxelSize DRAW_MODE.DRAW_MODE_VOLUME_VIEW_SLICE_3D
          (getVoxelCoordinateBoundsAndSpacing (exampleContext [exampleOverlay exampleCube]
            VolumeSliceViewModeEnum.OBLIQUE 0).m_volumeDrawInfo
            ⟨0, 0, 0, 0, 0, 0⟩ ⟨0, 0, 0⟩).2.2 = 3 :=
  ⟨⟨fun v hv => by
      have hv' : v ∈ [exampleOverlay exampleCube] := hv
      rw [List.mem_singleton] at hv'
      rw [hv']
      exact exampleCube_inFloatRange, by decide!⟩,
    (let ⟨m, h1, h2, _⟩ := oblique_step_size_is_minimum_spacing
      (exampleContext [exampleOverlay exampleCube] VolumeSliceViewModeEnum.OBLIQUE 0)
      (exampleState false) VolumeSliceViewPlaneEnum.AXIAL ⟨⟨0, 0, 1⟩, ⟨0, 0, 0⟩⟩
      DRAW_MODE.DRAW_MODE_VOLUME_VIEW_SLICE_3D exampleIdentityMatrix 1
      (fun v hv => by
        have hv' : v ∈ [exampleOverlay exampleCube] := hv
        rw [List.mem_singleton] at hv'
        rw [hv']
        exact exampleCube_inFloatRange) (by decide!)
     ⟨m, h1, h2⟩),
    by decide!⟩

/-- C9 (amended): `getVoxelCoordinateBoundsAndSpacing` reports failure for an
empty overlay list; for a non-empty list it reports failure exactly when the
bounds it outputs (the union over all overlays) have a non-positive extent on
some axis or a spacing it outputs is not positive; in particular it fails
whenever some overlay has spacing zero on some axis, and whenever on some axis
all overlays have their first and last voxel at one and the same coordinate
(in the range of a `float`), as for a single overlay with one voxel along
that axis; and whenever it reports failure `drawObliqueSlice` returns the
state unchanged: no quadrilateral is drawn, no value is coloured and no
identification record is added. -/
theorem bounds_failure_aborts_oblique_draw (ctx : DrawingContext) (st : DrawingState)
    (sliceViewPlane : VolumeSliceViewPlaneEnum) (plane : Plane) (drawMode : DRAW_MODE)
    (transformationMatrix : Matrix4x4) (zoom : ℚ) (boundsOut : Bounds6) (spacingOut : Vec3) :
    (ctx.m_volumeDrawInfo = [] →
      (getVoxelCoordinateBoundsAndSpacing ctx.m_volumeDrawInfo boundsOut spacingOut).1 = false)
    ∧ (ctx.m_volumeDrawInfo ≠ [] →
      ((getVoxelCoordinateBoundsAndSpacing ctx.m_volumeDrawInfo boundsOut spacingOut).1 = false ↔
        ((getVoxelCoordinateBoundsAndSpacing ctx.m_volumeDrawInfo boundsOut spacingOut).2.1.maxX ≤
            (getVoxelCoordinateBoundsAndSpacing ctx.m_volumeDrawInfo boundsOut spacingOut).2.1.minX
          ∨ (getVoxelCoordinateBoundsAndSpacing ctx.m_volumeDrawInfo boundsOut spacingOut).2.1.maxY ≤
            (getVoxelCoordinateBoundsAndSpacing ctx.m_volumeDrawInfo boundsOut spacingOut).2.1.minY
          ∨ (getVoxelCoordinateBoundsAndSpacing ctx.m_volumeDrawInfo boundsOut spacingOut).2.1.maxZ ≤
            (getVoxelCoordinateBoundsAndSpacing ctx.m_volumeDrawInfo boundsOut spacingOut).2.1.minZ
          ∨ (getVoxelCoordinateBoundsAndSpacing ctx.m_volumeDrawInfo boundsOut spacingOut).2.2.x ≤ 0
          ∨ (getVoxelCoordinateBoundsAndSpacing ctx.m_volumeDrawInfo boundsOut spacingOut).2.2.y ≤ 0
          ∨ (getVoxelCoordinateBoundsAndSpacing ctx.m_volumeDrawInfo boundsOut spacingOut).2.2.z ≤ 0)))
    ∧ ((∃ v ∈ ctx.m_volumeDrawInfo,
          v.absoluteSpacing.x = 0 ∨ v.absoluteSpacing.y = 0 ∨ v.absoluteSpacing.z = 0) →
      (getVoxelCoordinateBoundsAndSpacing ctx.m_volumeDrawInfo boundsOut spacingOut).1 = false)
    ∧ (∀ c : ℚ, |c| ≤ FLT_MAX →
        ((∀ v ∈ ctx.m_volumeDrawInfo, v.firstVoxel.x = c ∧ v.lastVoxel.x = c)
          ∨ (∀ v ∈ ctx.m_volumeDrawInfo, v.firstVoxel.y = c ∧ v.lastVoxel.y = c)
          ∨ (∀ v ∈ ctx.m_volumeDrawInfo, v.firstVoxel.z = c ∧ v.lastVoxel.z = c)) →
      (getVoxelCoordinateBoundsAndSpacing ctx.m_volumeDrawInfo boundsOut spacingOut).1 = false)
    ∧ ((getVoxelCoordinateBoundsAndSpacing ctx.m_volumeDrawInfo ⟨0, 0, 0, 0, 0, 0⟩
          ⟨0, 0, 0⟩).1 = false →
      drawObliqueSlice ctx st sliceViewPlane plane drawMode transformationMatrix zoom = st) := by
  have hnil : ctx.m_volumeDrawInfo = [] →
      (getVoxelCoordinateBoundsAndSpacing ctx.m_volumeDrawInfo boundsOut spacingOut).1 = false := by
    intro h
    rw [h, getVoxelCoordinateBoundsAndSpacing_nil]
  have hiff : ctx.m_volumeDrawInfo ≠ [] →
      ((getVoxelCoordinateBoundsAndSpacing ctx.m_volumeDrawInfo boundsOut spacingOut).1 = false ↔
        ((getVoxelCoordinateBoundsAndSpacing ctx.m_volumeDrawInfo boundsOut spacingOut).2.1.maxX ≤
            (getVoxelCoordinateBoundsAndSpacing ctx.m_volumeDrawInfo boundsOut spacingOut).2.1.minX
          ∨ (getVoxelCoordinateBoundsAndSpacing ctx.m_volumeDrawInfo boundsOut spacingOut).2.1.maxY ≤
            (getVoxelCoordinateBoundsAndSpacing ctx.m_volumeDrawInfo boundsOut spacingOut).2.1.minY
          ∨ (getVoxelCoordinateBoundsAndSpacing ctx.m_volumeDrawInfo boundsOut spacingOut).2.1.maxZ ≤
            (getVoxelCoordinateBoundsAndSpacing ctx.m_volumeDrawInfo boundsOut spacingOut).2.1.minZ
          ∨ (getVoxelCoordinateBoundsAndSpacing ctx.m_volumeDrawInfo boundsOut spacingOut).2.2.x ≤ 0
          ∨ (getVoxelCoordinateBoundsAndSpacing ctx.m_volumeDrawInfo boundsOut spacingOut).2.2.y ≤ 0
          ∨ (getVoxelCoordinateBoundsAndSpacing ctx.m_volumeDrawInfo boundsOut spacingOut).2.2.z ≤ 0)) := by
    intro hne
    have hv := getVoxelCoordinateBoundsAndSpacing_valid ctx.m_volumeDrawInfo boundsOut
      spacingOut hne
    rw [← Bool.not_eq_true, hv]
    simp only [gt_iff_lt, not_and_or, not_lt]
  refine ⟨hnil, hiff, ?_, ?_, ?_⟩
  · rintro ⟨v, hv, hz⟩
    have hne : ctx.m_volumeDrawInfo ≠ [] := List.ne_nil_of_mem hv
    obtain ⟨_, _, _, _, _, _, e7, e8, e9⟩ :=
      getVoxelCoordinateBoundsAndSpacing_outputs ctx.m_volumeDrawInfo boundsOut spacingOut hne
    rw [hiff hne, e7, e8, e9]
    rcases hz with hz | hz | hz
    · right; right; right; left
      rw [← hz]
      exact (foldl_min_le (fun v : VolumeDrawInfo => v.absoluteSpacing.x) _ _).2 v hv
    · right; right; right; right; left
      rw [← hz]
      exact (foldl_min_le (fun v : VolumeDrawInfo => v.absoluteSpacing.y) _ _).2 v hv
    · right; right; right; right; right
      rw [← hz]
      exact (foldl_min_le (fun v : VolumeDrawInfo => v.absoluteSpacing.z) _ _).2 v hv
  · intro c hc hall
    by_cases hne : ctx.m_volumeDrawInfo = []
    · exact hnil hne
    · obtain ⟨e1, e2, e3, e4, e5, e6, _, _, _⟩ :=
        getVoxelCoordinateBoundsAndSpacing_outputs ctx.m_volumeDrawInfo boundsOut spacingOut hne
      rw [hiff hne, e1, e2, e3, e4, e5, e6]
      obtain ⟨x, hx⟩ := List.exists_mem_of_ne_nil _ hne
      rw [abs_le] at hc
      have key : ∀ (a b : VolumeDrawInfo → ℚ),
          (∀ v ∈ ctx.m_volumeDrawInfo, a v = c ∧ b v = c) →
          ctx.m_volumeDrawInfo.foldl (fun acc v => max acc (max (a v) (b v))) (-FLT_MAX) ≤
            ctx.m_volumeDrawInfo.foldl (fun acc v => min acc (min (a v) (b v))) FLT_MAX := by
        intro a b hab
        have hmax : ctx.m_volumeDrawInfo.foldl (fun acc v => max acc (max (a v) (b v)))
            (-FLT_MAX) ≤ c := by
          rcases foldl_max_mem (fun v => max (a v) (b v)) ctx.m_volumeDrawInfo (-FLT_MAX) with
            h | ⟨v, hv, h⟩
          · rw [h]; exact hc.1
          · rw [h, (hab v hv).1, (hab v hv).2, max_self]
        have hmin : c ≤ ctx.m_volumeDrawInfo.foldl (fun acc v => min acc (min (a v) (b v)))
            FLT_MAX := by
          rcases foldl_min_mem (fun v => min (a v) (b v)) ctx.m_volumeDrawInfo FLT_MAX with
            h | ⟨v, hv, h⟩
          · rw [h]; exact hc.2
          · rw [h, (hab v hv).1, (hab v hv).2, min_self]
        exact le_trans hmax hmin
      rcases hall with h | h | h
      · left
        exact key (fun v => v.firstVoxel.x) (fun v => v.lastVoxel.x) h
      · right; left
        exact key (fun v => v.firstVoxel.y) (fun v => v.lastVoxel.y) h
      · right; right; left
        exact key (fun v => v.firstVoxel.z) (fun v => v.lastVoxel.z) h
  · intro hfail
    unfold drawObliqueSlice
    simp only [hfail]
    simp

/-- Witness of C9 (amended): the single overlay `exampleSlab`, which has one
voxel along X; the bounds check fails and the oblique draw returns the state
unchanged. -/
theorem bounds_failure_aborts_oblique_draw_witness :
    (getVoxelCoordinateBoundsAndSpacing (exampleContext [exampleOverlay exampleSlab]
        VolumeSliceViewModeEnum.OBLIQUE 0).m_volumeDrawInfo ⟨0, 0, 0, 0, 0, 0⟩
          ⟨0, 0, 0⟩).1 = false
    ∧ drawObliqueSlice (exampleContext [exampleOverlay exampleSlab]
        VolumeSliceViewModeEnum.OBLIQUE 0) (exampleState false) VolumeSliceViewPlaneEnum.AXIAL
        ⟨⟨0, 0, 1⟩, ⟨0, 0, 0⟩⟩ DRAW_MODE.DRAW_MODE_VOLUME_VIEW_SLICE_SINGLE
        exampleIdentityMatrix 1 = exampleState false :=
  ⟨by decide!, (bounds_failure_aborts_oblique_draw (exampleContext [exampleOverlay exampleSlab]
    VolumeSliceViewModeEnum.OBLIQUE 0) (exampleState false) VolumeSliceViewPlaneEnum.AXIAL
    ⟨⟨0, 0, 1⟩, ⟨0, 0, 0⟩⟩ DRAW_MODE.DRAW_MODE_VOLUME_VIEW_SLICE_SINGLE exampleIdentityMatrix 1
    ⟨0, 0, 0, 0, 0, 0⟩ ⟨0, 0, 0⟩).2.2.2.2 (by decide!)⟩

/-- Counterexample to C9 as stated: of the two overlays `exampleSlab` and
`exampleCube` the first has no extent on the X axis (its first and last voxel
are both at x = 0), yet `getVoxelCoordinateBoundsAndSpacing` reports success,
with the union bounds `[0, 1]` on every axis, and `drawObliqueSlice` draws
(one call of `drawQuads` with the 108 coordinates of 9 quadrilaterals). -/
theorem bounds_check_passes_with_flat_overlay :
    ((exampleOverlay exampleSlab).firstVoxel.x = 0 ∧ (exampleOverlay exampleSlab).lastVoxel.x = 0)
    ∧ getVoxelCoordinateBoundsAndSpacing [exampleOverlay exampleSlab, exampleOverlay exampleCube]
        ⟨0, 0, 0, 0, 0, 0⟩ ⟨0, 0, 0⟩ = (true, ⟨0, 1, 0, 1, 0, 1⟩, ⟨1, 1, 1⟩)
    ∧ (drawnCoordinates (drawObliqueSlice
        (exampleContext [exampleOverlay exampleSlab, exampleOverlay exampleCube]
          VolumeSliceViewModeEnum.OBLIQUE 0) (exampleState false)
        VolumeSliceViewPlaneEnum.AXIAL ⟨⟨0, 0, 1⟩, ⟨0, 0, 0⟩⟩
        DRAW_MODE.DRAW_MODE_VOLUME_VIEW_SLICE_SINGLE exampleIdentityMatrix 1).events).map
          List.length = [108] := by
  decide!

/-! ## The slice plane resolver -/

theorem createSlicePlaneEquation_lookAtCenter (ctx : DrawingContext) (st : DrawingState)
    (sliceViewPlane : VolumeSliceViewPlaneEnum) (montageSliceIndex : Int) :
    (createSlicePlaneEquation ctx st sliceViewPlane montageSliceIndex).2.m_lookAtCenter =
      (createSlicePlaneEquation ctx st sliceViewPlane montageSliceIndex).1.m_pointOnPlane := by
  rfl

theorem exampleVolume_affineIndexToSpace (dimI dimJ dimK : Int) (origin spacing : Vec3)
    (sliceByte valueByte : Nat → Nat) :
    (exampleVolume dimI dimJ dimK origin spacing sliceByte valueByte).affineIndexToSpace :=
  ⟨origin, ⟨spacing.x, 0, 0⟩, ⟨0, spacing.y, 0⟩, ⟨0, 0, spacing.z⟩, fun i j k => by
    simp [exampleVolume]⟩

/-- C11: in montage mode with a montage slice index `n ≥ 0` and a first overlay
whose index-to-space mapping is affine, the reference point of the plane
resolved by `createSlicePlaneEquation` has the through-plane coordinate
`origin + spacing * n` (origin: the through-axis coordinate of voxel (0,0,0) of
the first overlay; spacing: the through-axis difference of voxels (1,1,1) and
(0,0,0)) and the selected slice coordinates on the two in-plane axes; when
`n < 0` or the mode is orthogonal the reference point is the three selected
slice coordinates. -/
theorem montage_plane_reference_point (ctx : DrawingContext) (st : DrawingState)
    (sliceViewPlane : VolumeSliceViewPlaneEnum) (n : Int) :
    (∀ info0 : VolumeDrawInfo, ctx.m_sliceViewMode = VolumeSliceViewModeEnum.MONTAGE → 0 ≤ n →
      ctx.m_volumeDrawInfo.head? = some info0 → info0.volumeFile.affineIndexToSpace →
      throughPlaneComponent sliceViewPlane
          (createSlicePlaneEquation ctx st sliceViewPlane n).1.m_pointOnPlane =
        throughPlaneComponent sliceViewPlane (info0.volumeFile.indexToSpace 0 0 0)
          + (throughPlaneComponent sliceViewPlane (info0.volumeFile.indexToSpace 1 1 1)
              - throughPlaneComponent sliceViewPlane (info0.volumeFile.indexToSpace 0 0 0)) * n
      ∧ inPlaneComponents sliceViewPlane
          (createSlicePlaneEquation ctx st sliceViewPlane n).1.m_pointOnPlane =
        inPlaneComponents sliceViewPlane (selectedSliceCoordinates ctx))
    ∧ ((n < 0 ∨ ctx.m_sliceViewMode = VolumeSliceViewModeEnum.ORTHOGONAL) →
      (createSlicePlaneEquation ctx st sliceViewPlane n).1.m_pointOnPlane =
        selectedSliceCoordinates ctx) := by
  constructor
  · intro info0 hmode hn hhead haff
    obtain ⟨o, a, b, c, h⟩ := haff
    have hpt : (createSlicePlaneEquation ctx st sliceViewPlane n).1.m_pointOnPlane =
        match sliceViewPlane with
        | VolumeSliceViewPlaneEnum.ALL =>
          { selectedSliceCoordinates ctx with z := (info0.volumeFile.indexToSpace n n n).z }
        | VolumeSliceViewPlaneEnum.AXIAL =>
          { selectedSliceCoordinates ctx with z := (info0.volumeFile.indexToSpace n n n).z }
        | VolumeSliceViewPlaneEnum.CORONAL =>
          { selectedSliceCoordinates ctx with y := (info0.volumeFile.indexToSpace n n n).y }
        | VolumeSliceViewPlaneEnum.PARASAGITTAL =>
          { selectedSliceCoordinates ctx with x := (info0.volumeFile.indexToSpace n n n).x } := by
      unfold createSlicePlaneEquation selectedSliceCoordinates
      simp only [hmode, hn, hhead, if_true]
      cases sliceViewPlane <;> rfl
    rw [hpt]
    rw [h n n n, h 0 0 0, h 1 1 1]
    cases sliceViewPlane <;>
      simp only [throughPlaneComponent, inPlaneComponents, selectedSliceCoordinates] <;>
      refine ⟨?_, trivial⟩ <;> push_cast <;> ring
  · intro hcase
    unfold createSlicePlaneEquation selectedSliceCoordinates
    rcases hcase with hn | hmode
    · have hn2 : ¬ (0 ≤ n) := by omega
      cases ctx.m_sliceViewMode <;> simp only [hn2, if_false]
    · simp only [hmode]

/-- Witness of C11: montage slice index 10 on the axial plane of a volume with
spacing 2 and origin 0 (selected coordinates 5): the reference point of the
plane is at 20 on the through-plane axis and at the selected coordinates in
the plane. -/
theorem montage_plane_reference_point_witness :
    ((exampleContext [exampleOverlay exampleThickSlices] VolumeSliceViewModeEnum.MONTAGE
        5).m_sliceViewMode = VolumeSliceViewModeEnum.MONTAGE
      ∧ (0 : Int) ≤ 10
      ∧ (exampleContext [exampleOverlay exampleThickSlices] VolumeSliceViewModeEnum.MONTAGE
        5).m_volumeDrawInfo.head? = some (exampleOverlay exampleThickSlices)
      ∧ (exampleOverlay exampleThickSlices).volumeFile.affineIndexToSpace)
    ∧ (throughPlaneComponent VolumeSliceViewPlaneEnum.AXIAL
          (createSlicePlaneEquation
            (exampleContext [exampleOverlay exampleThickSlices] VolumeSliceViewModeEnum.MONTAGE 5)
            (exampleState false) VolumeSliceViewPlaneEnum.AXIAL 10).1.m_pointOnPlane =
        throughPlaneComponent VolumeSliceViewPlaneEnum.AXIAL
            ((exampleOverlay exampleThickSlices).volumeFile.indexToSpace 0 0 0)
          + (throughPlaneComponent VolumeSliceViewPlaneEnum.AXIAL
                ((exampleOverlay exampleThickSlices).volumeFile.indexToSpace 1 1 1)
              - throughPlaneComponent VolumeSliceViewPlaneEnum.AXIAL
                ((exampleOverlay exampleThickSlices).volumeFile.indexToSpace 0 0 0)) * (10 : Int)
      ∧ inPlaneComponents VolumeSliceViewPlaneEnum.AXIAL
          (createSlicePlaneEquation
            (exampleContext [exampleOverlay exampleThickSlices] VolumeSliceViewModeEnum.MONTAGE 5)
            (exampleState false) VolumeSliceViewPlaneEnum.AXIAL 10).1.m_pointOnPlane =
        inPlaneComponents VolumeSliceViewPlaneEnum.AXIAL
          (selectedSliceCoordinates (exampleContext [exampleOverlay exampleThickSlices]
            VolumeSliceViewModeEnum.MONTAGE 5)))
    ∧ throughPlaneComponent VolumeSliceViewPlaneEnum.AXIAL
          (createSlicePlaneEquation
            (exampleContext [exampleOverlay exampleThickSlices] VolumeSliceViewModeEnum.MONTAGE 5)
            (exampleState false) VolumeSliceViewPlaneEnum.AXIAL 10).1.m_pointOnPlane = 20 :=
  ⟨⟨rfl, by decide, rfl, exampleVolume_affineIndexToSpace 2 2 20 ⟨0, 0, 0⟩ ⟨2, 2, 2⟩ _ _⟩,
    (montage_plane_reference_point
      (exampleContext [exampleOverlay exampleThickSlices] VolumeSliceViewModeEnum.MONTAGE 5)
      (exampleState false) VolumeSliceViewPlaneEnum.AXIAL 10).1
      (exampleOverlay exampleThickSlices) rfl (by decide) rfl
      (exampleVolume_affineIndexToSpace 2 2 20 ⟨0, 0, 0⟩ ⟨2, 2, 2⟩ _ _),
    by decide!⟩

/-- C12: in orthogonal and montage modes, for every view plane, the normal of
the plane resolved by `createSlicePlaneEquation` is an axis vector of unit
length: (0,0,1) for axial (and for `ALL`, resolved as axial), (0,-1,0) for
coronal, (-1,0,0) for parasagittal; its only non-zero component is the
through-plane one, of magnitude 1, and the plane is valid (the normal is not
degenerate). -/
theorem orthogonal_plane_normal_is_unit_axis (ctx : DrawingContext) (st : DrawingState)
    (sliceViewPlane : VolumeSliceViewPlaneEnum) (montageSliceIndex : Int) :
    (ctx.m_sliceViewMode = VolumeSliceViewModeEnum.ORTHOGONAL
        ∨ ctx.m_sliceViewMode = VolumeSliceViewModeEnum.MONTAGE) →
      (createSlicePlaneEquation ctx st sliceViewPlane montageSliceIndex).1.m_normalVector =
          (match sliceViewPlane with
            | VolumeSliceViewPlaneEnum.ALL => ⟨0, 0, 1⟩
            | VolumeSliceViewPlaneEnum.AXIAL => ⟨0, 0, 1⟩
            | VolumeSliceViewPlaneEnum.CORONAL => ⟨0, -1, 0⟩
            | VolumeSliceViewPlaneEnum.PARASAGITTAL => ⟨-1, 0, 0⟩)
      ∧ |throughPlaneComponent sliceViewPlane
          (createSlicePlaneEquation ctx st sliceViewPlane montageSliceIndex).1.m_normalVector| = 1
      ∧ inPlaneComponents sliceViewPlane
          (createSlicePlaneEquation ctx st sliceViewPlane montageSliceIndex).1.m_normalVector =
        (0, 0)
      ∧ (createSlicePlaneEquation ctx st sliceViewPlane montageSliceIndex).1.m_normalVector.x ^ 2
          + (createSlicePlaneEquation ctx st sliceViewPlane
              montageSliceIndex).1.m_normalVector.y ^ 2
          + (createSlicePlaneEquation ctx st sliceViewPlane
              montageSliceIndex).1.m_normalVector.z ^ 2 = 1
      ∧ (createSlicePlaneEquation ctx st sliceViewPlane montageSliceIndex).1.isValidPlane
          = true := by
  intro hmode
  have hn : (createSlicePlaneEquation ctx st sliceViewPlane montageSliceIndex).1.m_normalVector =
      (match sliceViewPlane with
        | VolumeSliceViewPlaneEnum.ALL => ⟨0, 0, 1⟩
        | VolumeSliceViewPlaneEnum.AXIAL => ⟨0, 0, 1⟩
        | VolumeSliceViewPlaneEnum.CORONAL => ⟨0, -1, 0⟩
        | VolumeSliceViewPlaneEnum.PARASAGITTAL => ⟨-1, 0, 0⟩) := by
    unfold createSlicePlaneEquation
    rcases hmode with hmode | hmode
    · simp only [hmode]
    · simp only [hmode]
      split
      · cases h : ctx.m_volumeDrawInfo.head? with
        | none => rfl
        | some info0 => cases sliceViewPlane <;> rfl
      · rfl
  unfold Plane.isValidPlane
  rw [hn]
  cases sliceViewPlane <;> simp [throughPlaneComponent, inPlaneComponents]

/-- Witness of C12: the coronal plane in montage mode has the normal (0,-1,0). -/
theorem orthogonal_plane_normal_is_unit_axis_witness :
    ((exampleContext [exampleOverlay exampleCube] VolumeSliceViewModeEnum.MONTAGE
        0).m_sliceViewMode = VolumeSliceViewModeEnum.ORTHOGONAL
      ∨ (exampleContext [exampleOverlay exampleCube] VolumeSliceViewModeEnum.MONTAGE
        0).m_sliceViewMode = VolumeSliceViewModeEnum.MONTAGE)
    ∧ (createSlicePlaneEquation
        (exampleContext [exampleOverlay exampleCube] VolumeSliceViewModeEnum.MONTAGE 0)
        (exampleState false) VolumeSliceViewPlaneEnum.CORONAL 1).1.m_normalVector = ⟨0, -1, 0⟩ :=
  ⟨Or.inr rfl, (orthogonal_plane_normal_is_unit_axis
    (exampleContext [exampleOverlay exampleCube] VolumeSliceViewModeEnum.MONTAGE 0)
    (exampleState false) VolumeSliceViewPlaneEnum.CORONAL 1 (Or.inr rfl)).1⟩

/-- C13: for every view plane and every selected slice coordinate, when the view
mode is oblique and the oblique rotation matrix is the identity (normalizing a
vector of unit length returns the vector), `createSlicePlaneEquation` yields
the plane it yields in orthogonal mode, with the same normal and the same
reference point, and `createObliqueTransformationMatrix` yields the pure
translation by the selected slice coordinate. -/
theorem oblique_identity_rotation_is_orthogonal_plane (ctx : DrawingContext) (st : DrawingState)
    (sliceViewPlane : VolumeSliceViewPlaneEnum) (montageSliceIndex montageSliceIndex1 : Int)
    (hmode : ctx.m_sliceViewMode = VolumeSliceViewModeEnum.OBLIQUE)
    (hrot : ctx.m_browserTabContent.getObliqueVolumeRotationMatrix = Matrix4x4.identity)
    (hnorm : ∀ v : Vec3, v.x ^ 2 + v.y ^ 2 + v.z ^ 2 = 1 → ctx.normalizeVector v = v) :
    (createSlicePlaneEquation ctx st sliceViewPlane montageSliceIndex).1 =
        (createSlicePlaneEquation (ctx.withSliceViewMode VolumeSliceViewModeEnum.ORTHOGONAL) st
          sliceViewPlane montageSliceIndex1).1
    ∧ (createSlicePlaneEquation ctx st sliceViewPlane montageSliceIndex).1.m_pointOnPlane =
        selectedSliceCoordinates ctx
    ∧ createObliqueTransformationMatrix ctx =
        ⟨1, 0, 0, (selectedSliceCoordinates ctx).x, 0, 1, 0, (selectedSliceCoordinates ctx).y,
          0, 0, 1, (selectedSliceCoordinates ctx).z⟩
    ∧ ∀ p : Vec3, (createObliqueTransformationMatrix ctx).multiplyPoint3 p =
        p.add (selectedSliceCoordinates ctx) := by
  have hmat : createObliqueTransformationMatrix ctx =
      ⟨1, 0, 0, (selectedSliceCoordinates ctx).x, 0, 1, 0, (selectedSliceCoordinates ctx).y,
        0, 0, 1, (selectedSliceCoordinates ctx).z⟩ := by
    unfold createObliqueTransformationMatrix
    simp only [hmode, hrot]
    simp [Matrix4x4.translate, Matrix4x4.postmultiply, Matrix4x4.identity,
      selectedSliceCoordinates]
  refine ⟨?_, ?_, hmat, ?_⟩
  · unfold createSlicePlaneEquation DrawingContext.withSliceViewMode
    simp only [hmode, hrot]
    cases sliceViewPlane <;>
      simp only [Matrix4x4.multiplyPoint3, Matrix4x4.identity] <;>
      (rw [hnorm] <;> norm_num)
  · unfold createSlicePlaneEquation selectedSliceCoordinates
    simp only [hmode]
  · intro p
    rw [hmat]
    simp [Matrix4x4.multiplyPoint3, Vec3.add]

/-- Witness of C13: the axial plane in oblique mode with the identity rotation
and the selected slice coordinates (5, 5, 5). -/
theorem oblique_identity_rotation_is_orthogonal_plane_witness :
    ((exampleContext [exampleOverlay exampleCube] VolumeSliceViewModeEnum.OBLIQUE
        5).m_sliceViewMode = VolumeSliceViewModeEnum.OBLIQUE
      ∧ (exampleContext [exampleOverlay exampleCube] VolumeSliceViewModeEnum.OBLIQUE
        5).m_browserTabContent.getObliqueVolumeRotationMatrix = Matrix4x4.identity
      ∧ ∀ v : Vec3, v.x ^ 2 + v.y ^ 2 + v.z ^ 2 = 1 →
        (exampleContext [exampleOverlay exampleCube] VolumeSliceViewModeEnum.OBLIQUE
          5).normalizeVector v = v)
    ∧ (createSlicePlaneEquation
        (exampleContext [exampleOverlay exampleCube] VolumeSliceViewModeEnum.OBLIQUE 5)
        (exampleState false) VolumeSliceViewPlaneEnum.AXIAL (-1)).1 =
      (createSlicePlaneEquation
        ((exampleContext [exampleOverlay exampleCube] VolumeSliceViewModeEnum.OBLIQUE
          5).withSliceViewMode VolumeSliceViewModeEnum.ORTHOGONAL)
        (exampleState false) VolumeSliceViewPlaneEnum.AXIAL (-1)).1
    ∧ (createSlicePlaneEquation
        (exampleContext [exampleOverlay exampleCube] VolumeSliceViewModeEnum.OBLIQUE 5)
        (exampleState false) VolumeSliceViewPlaneEnum.AXIAL (-1)).1 = ⟨⟨0, 0, 1⟩, ⟨5, 5, 5⟩⟩
    ∧ createObliqueTransformationMatrix
        (exampleContext [exampleOverlay exampleCube] VolumeSliceViewModeEnum.OBLIQUE 5) =
      ⟨1, 0, 0, 5, 0, 1, 0, 5, 0, 0, 1, 5⟩ :=
  ⟨⟨rfl, rfl, fun _ _ => rfl⟩,
    (oblique_identity_rotation_is_orthogonal_plane
      (exampleContext [exampleOverlay exampleCube] VolumeSliceViewModeEnum.OBLIQUE 5)
      (exampleState false) VolumeSliceViewPlaneEnum.AXIAL (-1) (-1) rfl rfl
      (fun _ _ => rfl)).1,
    by decide!, by decide!⟩

/-! ## Events added by the rasterizers -/

theorem eventsAdded_refl (P : Event → Prop) (events : List Event) :
    eventsAdded P events events :=
  ⟨[], by simp, by simp⟩

theorem eventsAdded_trans (P : Event → Prop) {a b c : List Event}
    (h1 : eventsAdded P a b) (h2 : eventsAdded P b c) : eventsAdded P a c := by
  obtain ⟨x, hx, hpx⟩ := h1
  obtain ⟨y, hy, hpy⟩ := h2
  refine ⟨x ++ y, by rw [hy, hx, List.append_assoc], ?_⟩
  intro e he
  rcases List.mem_append.1 he with h | h
  · exact hpx e h
  · exact hpy e h

theorem eventsAdded_append (P : Event → Prop) (events added : List Event)
    (h : ∀ e ∈ added, P e) : eventsAdded P events (events ++ added) :=
  ⟨added, rfl, h⟩

theorem eventsAdded_mono {P Q : Event → Prop} (hPQ : ∀ e, P e → Q e) {a b : List Event}
    (h : eventsAdded P a b) : eventsAdded Q a b := by
  obtain ⟨x, hx, hpx⟩ := h
  exact ⟨x, hx, fun e he => hPQ e (hpx e he)⟩

theorem foldl_eventsAdded {α β : Type} (P : Event → Prop)
    (f : DrawingState × β → α → DrawingState × β)
    (hf : ∀ s x, eventsAdded P s.1.events (f s x).1.events) :
    ∀ (xs : List α) (s : DrawingState × β),
      eventsAdded P s.1.events (xs.foldl f s).1.events := by
  intro xs
  induction xs with
  | nil => intro s; exact eventsAdded_refl P _
  | cons x rest ih =>
    intro s
    rw [List.foldl_cons]
    exact eventsAdded_trans P (hf s x) (ih (f s x))

theorem addVoxelToIdentification_eventsAdded (P : Event → Prop)
    (hadd : ∀ idIndex, P (Event.colorIdentificationAddItem idIndex))
    (ctx : DrawingContext) (st : DrawingState) (volumeIndex mapIndex i j k : Int) (rgba : Rgba) :
    eventsAdded P st.events
      (addVoxelToIdentification ctx st volumeIndex mapIndex i j k rgba).1.events := by
  unfold addVoxelToIdentification
  apply eventsAdded_append
  intro e he
  rw [List.mem_singleton] at he
  rw [he]
  exact hadd _

theorem drawOrthogonalSliceVoxel_eventsAdded (P : Event → Prop)
    (hadd : ∀ idIndex, P (Event.colorIdentificationAddItem idIndex))
    (ctx : DrawingContext) (sliceViewPlane : VolumeSliceViewPlaneEnum)
    (sliceNormalVector : Vec3) (selectedSliceIndices : Int × Int × Int)
    (coordinate rowStep columnStep : Vec3) (numberOfColumns : Int) (sliceRGBA : List Nat)
    (volumeIndex mapIndex : Int) (sliceOpacity : Nat) (jRow iCol : Nat)
    (s : DrawingState × QuadBuffers) :
    eventsAdded P s.1.events
      (drawOrthogonalSliceVoxel ctx sliceViewPlane sliceNormalVector selectedSliceIndices
        coordinate rowStep columnStep numberOfColumns sliceRGBA volumeIndex mapIndex
        sliceOpacity jRow iCol s).1.events := by
  unfold drawOrthogonalSliceVoxel
  simp only []
  split
  · split
    · exact addVoxelToIdentification_eventsAdded P hadd ctx s.1 _ _ _ _ _
        (orthogonalVoxelRgba numberOfColumns sliceRGBA volumeIndex sliceOpacity jRow iCol)
    · exact eventsAdded_refl P _
  · exact eventsAdded_refl P _

theorem drawOrthogonalSliceVoxels_eventsAdded (P : Event → Prop)
    (hadd : ∀ idIndex, P (Event.colorIdentificationAddItem idIndex))
    (hquads : ∀ coordinates normals rgba, P (Event.drawQuads coordinates normals rgba))
    (ctx : DrawingContext) (st : DrawingState) (sliceViewPlane : VolumeSliceViewPlaneEnum)
    (sliceNormalVector : Vec3) (selectedSliceIndices : Int × Int × Int)
    (coordinate rowStep columnStep : Vec3) (numberOfColumns numberOfRows : Int)
    (sliceRGBA : List Nat) (volumeIndex mapIndex : Int) (sliceOpacity : Nat) :
    eventsAdded P st.events
      (drawOrthogonalSliceVoxels ctx st sliceViewPlane sliceNormalVector selectedSliceIndices
        coordinate rowStep columnStep numberOfColumns numberOfRows sliceRGBA volumeIndex
        mapIndex sliceOpacity).events := by
  have hloop : eventsAdded P st.events
      (drawOrthogonalSliceVoxelsLoop ctx sliceViewPlane sliceNormalVector selectedSliceIndices
        coordinate rowStep columnStep numberOfColumns numberOfRows sliceRGBA volumeIndex
        mapIndex sliceOpacity (st, ⟨[], [], []⟩)).1.events := by
    unfold drawOrthogonalSliceVoxelsLoop
    refine foldl_eventsAdded P _ ?_ _ ((st, ⟨[], [], []⟩) : DrawingState × QuadBuffers)
    intro s jRow
    apply foldl_eventsAdded
    intro s iCol
    exact drawOrthogonalSliceVoxel_eventsAdded P hadd ctx sliceViewPlane sliceNormalVector
      selectedSliceIndices coordinate rowStep columnStep numberOfColumns sliceRGBA volumeIndex
      mapIndex sliceOpacity jRow iCol s
  unfold drawOrthogonalSliceVoxels
  simp only []
  split
  · refine eventsAdded_trans P hloop (eventsAdded_append P _ _ ?_)
    intro e he
    rw [List.mem_singleton] at he
    rw [he]
    exact hquads _ _ _
  · exact hloop

theorem drawOrthogonalSliceVoxels_events_drop_satisfy (P : Event → Prop)
    (hadd : ∀ idIndex, P (Event.colorIdentificationAddItem idIndex))
    (hquads : ∀ coordinates normals rgba, P (Event.drawQuads coordinates normals rgba))
    (ctx : DrawingContext) (st : DrawingState) (sliceViewPlane : VolumeSliceViewPlaneEnum)
    (sliceNormalVector : Vec3) (selectedSliceIndices : Int × Int × Int)
    (coordinate rowStep columnStep : Vec3) (numberOfColumns numberOfRows : Int)
    (sliceRGBA : List Nat) (volumeIndex mapIndex : Int) (sliceOpacity : Nat) (len : Nat)
    (hlen : len = st.events.length) :
    ∀ e ∈ (drawOrthogonalSliceVoxels ctx st sliceViewPlane sliceNormalVector
        selectedSliceIndices coordinate rowStep columnStep numberOfColumns numberOfRows
        sliceRGBA volumeIndex mapIndex sliceOpacity).events.drop len, P e := by
  subst hlen
  obtain ⟨added, h, hp⟩ := drawOrthogonalSliceVoxels_eventsAdded P hadd hquads ctx st
    sliceViewPlane sliceNormalVector selectedSliceIndices coordinate rowStep columnStep
    numberOfColumns numberOfRows sliceRGBA volumeIndex mapIndex sliceOpacity
  rw [h, List.drop_left]
  exact hp

theorem drawOrthogonalSliceVoxelsLoop_eventsAdded (P : Event → Prop)
    (hadd : ∀ idIndex, P (Event.colorIdentificationAddItem idIndex))
    (ctx : DrawingContext) (sliceViewPlane : VolumeSliceViewPlaneEnum)
    (sliceNormalVector : Vec3) (selectedSliceIndices : Int × Int × Int)
    (coordinate rowStep columnStep : Vec3) (numberOfColumns numberOfRows : Int)
    (sliceRGBA : List Nat) (volumeIndex mapIndex : Int) (sliceOpacity : Nat)
    (s : DrawingState × QuadBuffers) :
    eventsAdded P s.1.events
      (drawOrthogonalSliceVoxelsLoop ctx sliceViewPlane sliceNormalVector selectedSliceIndices
        coordinate rowStep columnStep numberOfColumns numberOfRows sliceRGBA volumeIndex
        mapIndex sliceOpacity s).1.events := by
  unfold drawOrthogonalSliceVoxelsLoop
  refine foldl_eventsAdded P _ ?_ _ s
  intro s jRow
  apply foldl_eventsAdded
  intro s iCol
  exact drawOrthogonalSliceVoxel_eventsAdded P hadd ctx sliceViewPlane sliceNormalVector
    selectedSliceIndices coordinate rowStep columnStep numberOfColumns sliceRGBA volumeIndex
    mapIndex sliceOpacity jRow iCol s

/-! ## Polygon offset of the overlays -/

/-- C19 (amended): in `drawOrthogonalSlice`, for an overlay `iVol` that is drawn
(its slice index is in range), the calls made for the overlay are: calls that
neither touch the polygon offset nor draw; then, in the all-structures view
only and only for `iVol > 0`, the enabling of the polygon offset with the
offset (-1,-1); then the calls of `drawOrthogonalSliceVoxels`, none of which
touches the polygon offset; then the disabling of the polygon offset.  In the
two other draw modes, and for overlay 0, the polygon offset is not enabled. -/
theorem polygon_offset_in_all_structures_view (ctx : DrawingContext) (drawMode : DRAW_MODE)
    (sliceViewPlane : VolumeSliceViewPlaneEnum) (sliceNormalVector : Vec3)
    (selectedSliceCoordinate : ℚ) (iVol : Nat) (volInfo : VolumeDrawInfo)
    (s : DrawingState × List Nat) (numVoxelsInSlice : Int)
    (hdrawn : numVoxelsInSliceOrContinue sliceViewPlane selectedSliceCoordinate
      volInfo.volumeFile = some numVoxelsInSlice) :
    ∃ before voxels : List Event,
      (drawOrthogonalSliceOverlay ctx drawMode sliceViewPlane sliceNormalVector
          selectedSliceCoordinate iVol volInfo s).1.events =
        s.1.events ++ before
          ++ (if drawMode = DRAW_MODE.DRAW_MODE_ALL_STRUCTURES_VIEW ∧ iVol > 0 then
              [Event.glEnablePolygonOffsetFill, Event.glPolygonOffset (-1) (-1)] else [])
          ++ voxels ++ [Event.glDisablePolygonOffsetFill]
      ∧ (∀ e ∈ before, e.isPolygonOffset = false ∧ e.isDrawQuads = false)
      ∧ (∀ e ∈ voxels, e.isPolygonOffset = false) := by
  unfold drawOrthogonalSliceOverlay
  simp only [hdrawn]
  rw [drawOrthogonalSliceVoxels_events_drop]
  by_cases hout : (volInfo.volumeFile.isMappedWithLabelTable && ctx.isOutlineMode) = true
  · by_cases hoff : drawMode = DRAW_MODE.DRAW_MODE_ALL_STRUCTURES_VIEW ∧ iVol > 0
    · simp only [hout, hoff, if_true, and_self]
      refine ⟨?b1_0 ++ ?b2_0, ?v_0, ?h1, ?h2, ?h3⟩
      case h1 =>
        rw [← List.append_assoc s.1.events]
        exact rfl
      case h3 =>
        exact drawOrthogonalSliceVoxels_events_drop_satisfy (fun e => e.isPolygonOffset = false)
          (fun _ => rfl) (fun _ _ _ => rfl) ctx _ sliceViewPlane sliceNormalVector _ _ _ _ _ _
          _ _ _ _ _ rfl
      case h2 =>
        intro e he
        simp only [List.mem_append, List.mem_singleton] at he
        rcases he with rfl | rfl <;> exact ⟨rfl, rfl⟩
    · simp only [hout, hoff, if_true, if_false, List.append_nil]
      refine ⟨?b1_1 ++ ?b2_1, ?v_1, ?h1, ?h2, ?h3⟩
      case h1 =>
        rw [← List.append_assoc s.1.events]
        exact rfl
      case h3 =>
        exact drawOrthogonalSliceVoxels_events_drop_satisfy (fun e => e.isPolygonOffset = false)
          (fun _ => rfl) (fun _ _ _ => rfl) ctx _ sliceViewPlane sliceNormalVector _ _ _ _ _ _
          _ _ _ _ _ rfl
      case h2 =>
        intro e he
        simp only [List.mem_append, List.mem_singleton] at he
        rcases he with rfl | rfl <;> exact ⟨rfl, rfl⟩
  · by_cases hoff : drawMode = DRAW_MODE.DRAW_MODE_ALL_STRUCTURES_VIEW ∧ iVol > 0
    · simp only [hout, hoff, if_true, and_self]
      refine ⟨?b_2, ?v_2, ?h1, ?h2, ?h3⟩
      case h1 => exact rfl
      case h3 =>
        exact drawOrthogonalSliceVoxels_events_drop_satisfy (fun e => e.isPolygonOffset = false)
          (fun _ => rfl) (fun _ _ _ => rfl) ctx _ sliceViewPlane sliceNormalVector _ _ _ _ _ _
          _ _ _ _ _ rfl
      case h2 =>
        intro e he
        simp only [List.mem_singleton] at he
        rcases he with rfl
        exact ⟨rfl, rfl⟩
    · simp only [hout, hoff, if_true, if_false, List.append_nil]
      refine ⟨?b_3, ?v_3, ?h1, ?h2, ?h3⟩
      case h1 => exact rfl
      case h3 =>
        exact drawOrthogonalSliceVoxels_events_drop_satisfy (fun e => e.isPolygonOffset = false)
          (fun _ => rfl) (fun _ _ _ => rfl) ctx _ sliceViewPlane sliceNormalVector _ _ _ _ _ _
          _ _ _ _ _ rfl
      case h2 =>
        intro e he
        simp only [List.mem_singleton] at he
        rcases he with rfl
        exact ⟨rfl, rfl⟩

/-- Witness of C19: the second of two overlays `exampleColumn` in the
all-structures view on the axial plane. -/
theorem polygon_offset_in_all_structures_view_witness :
    numVoxelsInSliceOrContinue VolumeSliceViewPlaneEnum.AXIAL 0
        (exampleOverlay exampleColumn).volumeFile = some 1
    ∧ ∃ before voxels : List Event,
      (drawOrthogonalSliceOverlay
          (exampleContext [exampleOverlay exampleColumn, exampleOverlay exampleColumn]
            VolumeSliceViewModeEnum.ORTHOGONAL 0)
          DRAW_MODE.DRAW_MODE_ALL_STRUCTURES_VIEW VolumeSliceViewPlaneEnum.AXIAL ⟨0, 0, 1⟩ 0 1
          (exampleOverlay exampleColumn) (exampleState false, [])).1.events =
        (exampleState false, ([] : List Nat)).1.events ++ before
          ++ (if DRAW_MODE.DRAW_MODE_ALL_STRUCTURES_VIEW = DRAW_MODE.DRAW_MODE_ALL_STRUCTURES_VIEW
                ∧ 1 > 0 then
              [Event.glEnablePolygonOffsetFill, Event.glPolygonOffset (-1) (-1)] else [])
          ++ voxels ++ [Event.glDisablePolygonOffsetFill]
      ∧ (∀ e ∈ before, e.isPolygonOffset = false ∧ e.isDrawQuads = false)
      ∧ (∀ e ∈ voxels, e.isPolygonOffset = false) :=
  ⟨by decide!, polygon_offset_in_all_structures_view
    (exampleContext [exampleOverlay exampleColumn, exampleOverlay exampleColumn]
      VolumeSliceViewModeEnum.ORTHOGONAL 0)
    DRAW_MODE.DRAW_MODE_ALL_STRUCTURES_VIEW VolumeSliceViewPlaneEnum.AXIAL ⟨0, 0, 1⟩ 0 1
    (exampleOverlay exampleColumn) (exampleState false, []) 1 (by decide!)⟩

/-- Counterexample to C19 as stated: in the single-slice draw mode
`drawOrthogonalSlice` draws the two overlays `exampleColumn` on the axial plane
(two calls of `drawQuads`, the second after the colours of overlay 1 were
requested) and never enables the polygon offset; the calls for overlay 1 are
the colour request, `drawQuads` and the disabling of the polygon offset. -/
theorem polygon_offset_not_enabled_in_single_slice_view :
    Event.glEnablePolygonOffsetFill ∉
      (drawOrthogonalSlice
        (exampleContext [exampleOverlay exampleColumn, exampleOverlay exampleColumn]
          VolumeSliceViewModeEnum.ORTHOGONAL 0)
        (exampleState false) DRAW_MODE.DRAW_MODE_VOLUME_VIEW_SLICE_SINGLE
        VolumeSliceViewPlaneEnum.AXIAL ⟨⟨0, 0, 1⟩, ⟨0, 0, 0⟩⟩ (-1)).events
    ∧ (drawOrthogonalSlice
        (exampleContext [exampleOverlay exampleColumn, exampleOverlay exampleColumn]
          VolumeSliceViewModeEnum.ORTHOGONAL 0)
        (exampleState false) DRAW_MODE.DRAW_MODE_VOLUME_VIEW_SLICE_SINGLE
        VolumeSliceViewPlaneEnum.AXIAL ⟨⟨0, 0, 1⟩, ⟨0, 0, 0⟩⟩ (-1)).events.drop 6 =
      [Event.getVoxelColorsForSliceInMap 1 0 0,
        Event.drawQuads [-1 / 2, -1 / 2, 0, 1 / 2, -1 / 2, 0, 1 / 2, 1 / 2, 0, -1 / 2, 1 / 2, 0]
          [0, 0, 1, 0, 0, 1, 0, 0, 1, 0, 0, 1]
          [255, 255, 255, 255, 255, 255, 255, 255, 255, 255, 255, 255, 255, 255, 255, 255],
        Event.glDisablePolygonOffsetFill, Event.glDisableBlend, Event.glShadeModelSmooth] := by
  decide!

/-! ## Identification records of the orthogonal path -/

theorem toInt32_of_inInt32Range (x : Int) (h : inInt32Range x) : toInt32 x = x := by
  unfold inInt32Range at h
  unfold toInt32
  omega

theorem foldl_nested_eq_foldl_pairs {σ : Type} (g : σ → Nat → Nat → σ) (cols : List Nat) :
    ∀ (rows : List Nat) (s : σ),
      rows.foldl (fun s j => cols.foldl (fun s i => g s j i) s) s =
        (rows.flatMap (fun j => cols.map (fun i => (j, i)))).foldl (fun s p => g s p.1 p.2) s := by
  intro rows
  induction rows with
  | nil => intro s; rfl
  | cons j rest ih =>
    intro s
    rw [List.foldl_cons, List.flatMap_cons, List.foldl_append, List.foldl_map, ih]

theorem mem_orthogonalSliceVoxels (numberOfColumns numberOfRows : Int) (p : Nat × Nat)
    (h : p ∈ orthogonalSliceVoxels numberOfColumns numberOfRows) :
    (p.1 : Int) < numberOfRows ∧ (p.2 : Int) < numberOfColumns := by
  unfold orthogonalSliceVoxels at h
  simp only [List.mem_flatMap, List.mem_map, List.mem_range] at h
  obtain ⟨j, hj, i, hi, rfl⟩ := h
  constructor <;> simp only <;> omega

theorem foldl_records_and_quads {α : Type}
    (f : DrawingState × QuadBuffers → α → DrawingState × QuadBuffers) (c : α → Bool)
    (record : α → List Int) (corners : α → List ℚ) :
    ∀ (l : List α),
      (∀ s x, x ∈ l → s.1.m_identificationModeFlag = true →
        (f s x).1.m_identificationModeFlag = true
        ∧ (f s x).1.m_identificationIndices =
            s.1.m_identificationIndices ++ (if c x = true then record x else [])
        ∧ (f s x).2.coordinates = s.2.coordinates ++ (if c x = true then corners x else [])) →
      ∀ s : DrawingState × QuadBuffers, s.1.m_identificationModeFlag = true →
        (l.foldl f s).1.m_identificationModeFlag = true
        ∧ (l.foldl f s).1.m_identificationIndices =
            s.1.m_identificationIndices ++ (l.filter c).flatMap record
        ∧ (l.foldl f s).2.coordinates = s.2.coordinates ++ (l.filter c).flatMap corners := by
  intro l
  induction l with
  | nil => intro _ s hs; simp [hs]
  | cons x rest ih =>
    intro hf s hs
    obtain ⟨h1, h2, h3⟩ := hf s x (List.mem_cons_self _ _) hs
    obtain ⟨k1, k2, k3⟩ := ih (fun s y hy => hf s y (List.mem_cons_of_mem _ hy)) (f s x) h1
    rw [List.foldl_cons]
    refine ⟨k1, ?_, ?_⟩
    · rw [k2, h2]
      by_cases hc : c x = true <;> simp [hc, List.filter_cons]
    · rw [k3, h3]
      by_cases hc : c x = true <;> simp [hc, List.filter_cons]

theorem drawOrthogonalSliceVoxel_picking (ctx : DrawingContext)
    (sliceViewPlane : VolumeSliceViewPlaneEnum)
    (sliceNormalVector : Vec3) (selectedSliceIndices : Int × Int × Int)
    (coordinate rowStep columnStep : Vec3) (numberOfColumns : Int) (sliceRGBA : List Nat)
    (volumeIndex mapIndex : Int) (sliceOpacity : Nat) (jRow iCol : Nat)
    (s : DrawingState × QuadBuffers) (hs : s.1.m_identificationModeFlag = true) :
    drawOrthogonalSliceVoxel ctx sliceViewPlane sliceNormalVector selectedSliceIndices
        coordinate rowStep columnStep numberOfColumns sliceRGBA volumeIndex mapIndex
        sliceOpacity jRow iCol s =
      if (orthogonalVoxelRgba numberOfColumns sliceRGBA volumeIndex sliceOpacity jRow iCol).a > 0
      then
        ({ s.1 with
            events := s.1.events ++ [Event.colorIdentificationAddItem (identificationIdIndex s.1)]
            m_identificationIndices := s.1.m_identificationIndices ++
              [volumeIndex, mapIndex,
                toInt32 (orthogonalVoxelIJK sliceViewPlane selectedSliceIndices jRow iCol).1,
                toInt32 (orthogonalVoxelIJK sliceViewPlane selectedSliceIndices jRow iCol).2.1,
                toInt32 (orthogonalVoxelIJK sliceViewPlane selectedSliceIndices jRow iCol).2.2] },
          s.2.addQuad (orthogonalVoxelCorners coordinate rowStep columnStep jRow iCol)
            sliceNormalVector
            { ctx.colorIdentificationAddItem s.1.events
                (orthogonalVoxelRgba numberOfColumns sliceRGBA volumeIndex sliceOpacity jRow iCol)
                (identificationIdIndex s.1) with a := 255 })
      else s := by
  unfold drawOrthogonalSliceVoxel
  by_cases h : (orthogonalVoxelRgba numberOfColumns sliceRGBA volumeIndex sliceOpacity
      jRow iCol).a > 0
  · simp only [hs, h, if_true, addVoxelToIdentification, QuadBuffers.addQuad]
  · simp only [h, if_false]

theorem orthogonalPickedRecord_eq (sliceViewPlane : VolumeSliceViewPlaneEnum)
    (selectedSliceIndices : Int × Int × Int) (volumeIndex mapIndex : Int) (jRow iCol : Nat)
    (hrow : (jRow : Int) < 2147483648) (hcol : (iCol : Int) < 2147483648)
    (hsel : inInt32Range selectedSliceIndices.1 ∧ inInt32Range selectedSliceIndices.2.1
      ∧ inInt32Range selectedSliceIndices.2.2) :
    [volumeIndex, mapIndex,
      toInt32 (orthogonalVoxelIJK sliceViewPlane selectedSliceIndices jRow iCol).1,
      toInt32 (orthogonalVoxelIJK sliceViewPlane selectedSliceIndices jRow iCol).2.1,
      toInt32 (orthogonalVoxelIJK sliceViewPlane selectedSliceIndices jRow iCol).2.2] =
    orthogonalPickedRecord sliceViewPlane selectedSliceIndices volumeIndex mapIndex jRow iCol := by
  have hr : inInt32Range (jRow : Int) := ⟨by omega, hrow⟩
  have hc : inInt32Range (iCol : Int) := ⟨by omega, hcol⟩
  have h0 : inInt32Range 0 := ⟨by omega, by omega⟩
  cases sliceViewPlane <;>
    simp only [orthogonalVoxelIJK, orthogonalPickedRecord, toInt32_of_inInt32Range _ hr,
      toInt32_of_inInt32Range _ hc, toInt32_of_inInt32Range _ h0,
      toInt32_of_inInt32Range _ hsel.1, toInt32_of_inInt32Range _ hsel.2.1,
      toInt32_of_inInt32Range _ hsel.2.2]

theorem orthogonalPickedRecord_length (sliceViewPlane : VolumeSliceViewPlaneEnum)
    (selectedSliceIndices : Int × Int × Int) (volumeIndex mapIndex : Int) (jRow iCol : Nat) :
    (orthogonalPickedRecord sliceViewPlane selectedSliceIndices volumeIndex mapIndex
      jRow iCol).length = IDENTIFICATION_INDICES_PER_VOXEL := by
  cases sliceViewPlane <;> rfl

theorem orthogonalVoxelCorners_length (coordinate rowStep columnStep : Vec3) (jRow iCol : Nat) :
    (orthogonalVoxelCorners coordinate rowStep columnStep jRow iCol).length = 12 := by
  rfl

theorem flatMap_length_const {α β : Type} (f : α → List β) (n : Nat) :
    ∀ (l : List α), (∀ x ∈ l, (f x).length = n) → (l.flatMap f).length = n * l.length := by
  intro l
  induction l with
  | nil => intro _; simp
  | cons x rest ih =>
    intro h
    rw [List.flatMap_cons, List.length_append, h x (List.mem_cons_self _ _),
      ih (fun y hy => h y (List.mem_cons_of_mem _ hy)), List.length_cons]
    ring

theorem drawnCoordinates_of_no_drawQuads :
    ∀ (events : List Event), (∀ e ∈ events, e.isDrawQuads = false) →
      drawnCoordinates events = [] := by
  intro events
  induction events with
  | nil => intro _; rfl
  | cons e rest ih =>
    intro h
    have he := h e (List.mem_cons_self _ _)
    have hrest := ih (fun x hx => h x (List.mem_cons_of_mem _ hx))
    cases e <;> first | exact hrest | (simp [Event.isDrawQuads] at he)

theorem drawOrthogonalSliceVoxelsLoop_picking (ctx : DrawingContext) (st : DrawingState)
    (sliceViewPlane : VolumeSliceViewPlaneEnum)
    (sliceNormalVector : Vec3) (selectedSliceIndices : Int × Int × Int)
    (coordinate rowStep columnStep : Vec3) (numberOfColumns numberOfRows : Int)
    (sliceRGBA : List Nat) (volumeIndex mapIndex : Int) (sliceOpacity : Nat)
    (hmode : st.m_identificationModeFlag = true)
    (hrows : numberOfRows ≤ 2147483648) (hcols : numberOfColumns ≤ 2147483648)
    (hsel : inInt32Range selectedSliceIndices.1 ∧ inInt32Range selectedSliceIndices.2.1
      ∧ inInt32Range selectedSliceIndices.2.2) :
    (drawOrthogonalSliceVoxelsLoop ctx sliceViewPlane sliceNormalVector selectedSliceIndices
        coordinate rowStep columnStep numberOfColumns numberOfRows sliceRGBA volumeIndex
        mapIndex sliceOpacity (st, ⟨[], [], []⟩)).1.m_identificationIndices =
      st.m_identificationIndices
        ++ (orthogonalDrawnVoxels numberOfColumns numberOfRows sliceRGBA volumeIndex
            sliceOpacity).flatMap
          (fun p => orthogonalPickedRecord sliceViewPlane selectedSliceIndices volumeIndex
            mapIndex p.1 p.2)
    ∧ (drawOrthogonalSliceVoxelsLoop ctx sliceViewPlane sliceNormalVector selectedSliceIndices
        coordinate rowStep columnStep numberOfColumns numberOfRows sliceRGBA volumeIndex
        mapIndex sliceOpacity (st, ⟨[], [], []⟩)).2.coordinates =
      (orthogonalDrawnVoxels numberOfColumns numberOfRows sliceRGBA volumeIndex
          sliceOpacity).flatMap
        (fun p => orthogonalVoxelCorners coordinate rowStep columnStep p.1 p.2) := by
  have hflat : drawOrthogonalSliceVoxelsLoop ctx sliceViewPlane sliceNormalVector
      selectedSliceIndices coordinate rowStep columnStep numberOfColumns numberOfRows sliceRGBA
      volumeIndex mapIndex sliceOpacity (st, ⟨[], [], []⟩) =
      (orthogonalSliceVoxels numberOfColumns numberOfRows).foldl
        (fun s p => drawOrthogonalSliceVoxel ctx sliceViewPlane sliceNormalVector
          selectedSliceIndices coordinate rowStep columnStep numberOfColumns sliceRGBA
          volumeIndex mapIndex sliceOpacity p.1 p.2 s) (st, ⟨[], [], []⟩) :=
    foldl_nested_eq_foldl_pairs
      (fun s j i => drawOrthogonalSliceVoxel ctx sliceViewPlane sliceNormalVector
        selectedSliceIndices coordinate rowStep columnStep numberOfColumns sliceRGBA
        volumeIndex mapIndex sliceOpacity j i s) _ _ _
  rw [hflat]
  have h := foldl_records_and_quads
    (fun s p => drawOrthogonalSliceVoxel ctx sliceViewPlane sliceNormalVector
      selectedSliceIndices coordinate rowStep columnStep numberOfColumns sliceRGBA
      volumeIndex mapIndex sliceOpacity p.1 p.2 s)
    (fun p => decide
      ((orthogonalVoxelRgba numberOfColumns sliceRGBA volumeIndex sliceOpacity p.1 p.2).a > 0))
    (fun p => orthogonalPickedRecord sliceViewPlane selectedSliceIndices volumeIndex
      mapIndex p.1 p.2)
    (fun p => orthogonalVoxelCorners coordinate rowStep columnStep p.1 p.2)
    (orthogonalSliceVoxels numberOfColumns numberOfRows)
    (by
      intro s p hp hs
      obtain ⟨hr, hc⟩ := mem_orthogonalSliceVoxels _ _ p hp
      simp only []
      rw [drawOrthogonalSliceVoxel_picking _ _ _ _ _ _ _ _ _ _ _ _ _ _ s hs]
      by_cases ha : (orthogonalVoxelRgba numberOfColumns sliceRGBA volumeIndex sliceOpacity
          p.1 p.2).a > 0
      · simp only [ha, if_true, decide_True, QuadBuffers.addQuad]
        rw [orthogonalPickedRecord_eq _ _ _ _ _ _ (by omega) (by omega) hsel]
        exact ⟨hs, rfl, trivial⟩
      · simp [ha, hs])
    (st, ⟨[], [], []⟩) hmode
  refine ⟨h.2.1, ?_⟩
  have h3 := h.2.2
  simp only [List.nil_append] at h3
  exact h3

/-- C15: in picking mode of the orthogonal path (row and column counts and
selected slice indices in the range of the `int32_t` record fields),
`drawOrthogonalSliceVoxels` treats the voxel at `(jRow, iCol)` as follows: if its
local alpha is zero it emits no quadrilateral and appends no record; otherwise
it appends exactly one record, holding the overlay's volume index and map index
and the voxel indices (column, row, selected K) for axial, (column, selected J,
row) for coronal, (selected I, column, row) for parasagittal, and emits one
quadrilateral whose colour is the identifier colour of that record with alpha
255.  Over the whole call the records appended and the quadrilaterals handed
to `drawQuads` are those of the same voxels in the same order, so there are as
many records as quadrilaterals. -/
theorem orthogonal_picking_one_record_per_quad (ctx : DrawingContext) (st : DrawingState)
    (sliceViewPlane : VolumeSliceViewPlaneEnum)
    (sliceNormalVector : Vec3) (selectedSliceIndices : Int × Int × Int)
    (coordinate rowStep columnStep : Vec3) (numberOfColumns numberOfRows : Int)
    (sliceRGBA : List Nat) (volumeIndex mapIndex : Int) (sliceOpacity : Nat)
    (hmode : st.m_identificationModeFlag = true)
    (hrows : numberOfRows ≤ 2147483648) (hcols : numberOfColumns ≤ 2147483648)
    (hsel : inInt32Range selectedSliceIndices.1 ∧ inInt32Range selectedSliceIndices.2.1
      ∧ inInt32Range selectedSliceIndices.2.2) :
    (∀ (s : DrawingState × QuadBuffers) (jRow iCol : Nat),
      s.1.m_identificationModeFlag = true → (jRow : Int) < numberOfRows →
      (iCol : Int) < numberOfColumns →
      drawOrthogonalSliceVoxel ctx sliceViewPlane sliceNormalVector selectedSliceIndices
          coordinate rowStep columnStep numberOfColumns sliceRGBA volumeIndex mapIndex
          sliceOpacity jRow iCol s =
        if (orthogonalVoxelRgba numberOfColumns sliceRGBA volumeIndex sliceOpacity
            jRow iCol).a > 0
        then
          ({ s.1 with
              events :=
                s.1.events ++ [Event.colorIdentificationAddItem (identificationIdIndex s.1)]
              m_identificationIndices := s.1.m_identificationIndices ++
                orthogonalPickedRecord sliceViewPlane selectedSliceIndices volumeIndex mapIndex
                  jRow iCol },
            s.2.addQuad (orthogonalVoxelCorners coordinate rowStep columnStep jRow iCol)
              sliceNormalVector
              { ctx.colorIdentificationAddItem s.1.events
                  (orthogonalVoxelRgba numberOfColumns sliceRGBA volumeIndex sliceOpacity
                    jRow iCol)
                  (identificationIdIndex s.1) with a := 255 })
        else s)
    ∧ (drawOrthogonalSliceVoxels ctx st sliceViewPlane sliceNormalVector selectedSliceIndices
          coordinate rowStep columnStep numberOfColumns numberOfRows sliceRGBA volumeIndex
          mapIndex sliceOpacity).m_identificationIndices =
        st.m_identificationIndices
          ++ (orthogonalDrawnVoxels numberOfColumns numberOfRows sliceRGBA volumeIndex
              sliceOpacity).flatMap
            (fun p => orthogonalPickedRecord sliceViewPlane selectedSliceIndices volumeIndex
              mapIndex p.1 p.2)
    ∧ drawnCoordinates
        ((drawOrthogonalSliceVoxels ctx st sliceViewPlane sliceNormalVector
          selectedSliceIndices coordinate rowStep columnStep numberOfColumns numberOfRows
          sliceRGBA volumeIndex mapIndex sliceOpacity).events.drop st.events.length) =
        (if (orthogonalDrawnVoxels numberOfColumns numberOfRows sliceRGBA volumeIndex
            sliceOpacity).isEmpty then []
          else [(orthogonalDrawnVoxels numberOfColumns numberOfRows sliceRGBA volumeIndex
              sliceOpacity).flatMap
            (fun p => orthogonalVoxelCorners coordinate rowStep columnStep p.1 p.2)])
    ∧ (drawOrthogonalSliceVoxels ctx st sliceViewPlane sliceNormalVector selectedSliceIndices
          coordinate rowStep columnStep numberOfColumns numberOfRows sliceRGBA volumeIndex
          mapIndex sliceOpacity).m_identificationIndices.length =
        st.m_identificationIndices.length + IDENTIFICATION_INDICES_PER_VOXEL
          * (orthogonalDrawnVoxels numberOfColumns numberOfRows sliceRGBA volumeIndex
              sliceOpacity).length
    ∧ ((orthogonalDrawnVoxels numberOfColumns numberOfRows sliceRGBA volumeIndex
          sliceOpacity).flatMap
        (fun p => orthogonalVoxelCorners coordinate rowStep columnStep p.1 p.2)).length =
      12 * (orthogonalDrawnVoxels numberOfColumns numberOfRows sliceRGBA volumeIndex
          sliceOpacity).length := by
  obtain ⟨hidx, hcoord⟩ := drawOrthogonalSliceVoxelsLoop_picking ctx st sliceViewPlane
    sliceNormalVector selectedSliceIndices coordinate rowStep columnStep numberOfColumns
    numberOfRows sliceRGBA volumeIndex mapIndex sliceOpacity hmode hrows hcols hsel
  have hlen12 := flatMap_length_const
    (fun p : Nat × Nat => orthogonalVoxelCorners coordinate rowStep columnStep p.1 p.2) 12
    (orthogonalDrawnVoxels numberOfColumns numberOfRows sliceRGBA volumeIndex sliceOpacity)
    (fun p _ => orthogonalVoxelCorners_length _ _ _ _ _)
  have hlen5 := flatMap_length_const
    (fun p : Nat × Nat => orthogonalPickedRecord sliceViewPlane selectedSliceIndices
      volumeIndex mapIndex p.1 p.2) IDENTIFICATION_INDICES_PER_VOXEL
    (orthogonalDrawnVoxels numberOfColumns numberOfRows sliceRGBA volumeIndex sliceOpacity)
    (fun p _ => orthogonalPickedRecord_length _ _ _ _ _ _)
  have hfinal : (drawOrthogonalSliceVoxels ctx st sliceViewPlane sliceNormalVector
      selectedSliceIndices coordinate rowStep columnStep numberOfColumns numberOfRows sliceRGBA
      volumeIndex mapIndex sliceOpacity).m_identificationIndices =
      st.m_identificationIndices
        ++ (orthogonalDrawnVoxels numberOfColumns numberOfRows sliceRGBA volumeIndex
            sliceOpacity).flatMap
          (fun p => orthogonalPickedRecord sliceViewPlane selectedSliceIndices volumeIndex
            mapIndex p.1 p.2) := by
    rw [← hidx]
    unfold drawOrthogonalSliceVoxels
    simp only []
    split <;> rfl
  refine ⟨?_, hfinal, ?_, ?_, hlen12⟩
  · intro s jRow iCol hs hr hc
    rw [drawOrthogonalSliceVoxel_picking _ _ _ _ _ _ _ _ _ _ _ _ _ _ s hs,
      orthogonalPickedRecord_eq _ _ _ _ _ _ (by omega) (by omega) hsel]
  · obtain ⟨added, hadded, hno⟩ := drawOrthogonalSliceVoxelsLoop_eventsAdded
      (fun e => e.isDrawQuads = false) (fun _ => rfl) ctx sliceViewPlane sliceNormalVector
      selectedSliceIndices coordinate rowStep columnStep numberOfColumns numberOfRows sliceRGBA
      volumeIndex mapIndex sliceOpacity (st, ⟨[], [], []⟩)
    have hnone := drawnCoordinates_of_no_drawQuads added hno
    unfold drawOrthogonalSliceVoxels
    simp only []
    by_cases hempty : (orthogonalDrawnVoxels numberOfColumns numberOfRows sliceRGBA volumeIndex
        sliceOpacity).isEmpty = true
    · have hnil : (orthogonalDrawnVoxels numberOfColumns numberOfRows sliceRGBA volumeIndex
          sliceOpacity) = [] := List.isEmpty_iff.1 hempty
      rw [hcoord, hnil]
      simp only [List.flatMap_nil, List.isEmpty_nil, if_true]
      rw [if_neg (by simp), hadded, List.drop_left]
      exact hnone
    · have hne : ((orthogonalDrawnVoxels numberOfColumns numberOfRows sliceRGBA volumeIndex
          sliceOpacity).flatMap
          (fun p => orthogonalVoxelCorners coordinate rowStep columnStep p.1 p.2)).isEmpty
          = false := by
        cases hd : orthogonalDrawnVoxels numberOfColumns numberOfRows sliceRGBA volumeIndex
            sliceOpacity with
        | nil => simp [hd] at hempty
        | cons x rest => rfl
      rw [hcoord]
      simp only [hne, hempty, if_true]
      rw [hadded, List.append_assoc, List.drop_left, drawnCoordinates_append, hnone]
      simp [drawnCoordinates]
  · rw [hfinal, List.length_append, hlen5]

/-- Witness of C15: a slice of one row and two columns of overlay 1, the first
voxel coloured (10,20,30,255) and the second with alpha 0, on the axial plane
with the selected slice 7: one record `(1, 0, 0, 0, 7)` for the one
quadrilateral. -/
theorem orthogonal_picking_one_record_per_quad_witness :
    ((exampleState true).m_identificationModeFlag = true
      ∧ (1 : Int) ≤ 2147483648 ∧ (2 : Int) ≤ 2147483648
      ∧ inInt32Range ((0 : Int), (0 : Int), (7 : Int)).1
      ∧ inInt32Range ((0 : Int), (0 : Int), (7 : Int)).2.1
      ∧ inInt32Range ((0 : Int), (0 : Int), (7 : Int)).2.2)
    ∧ (drawOrthogonalSliceVoxels
          (exampleContext [exampleOverlay exampleColored] VolumeSliceViewModeEnum.ORTHOGONAL 0)
          (exampleState true) VolumeSliceViewPlaneEnum.AXIAL ⟨0, 0, 1⟩ (0, 0, 7) ⟨0, 0, 0⟩
          ⟨0, 1, 0⟩ ⟨1, 0, 0⟩ 2 1 [10, 20, 30, 255, 0, 0, 0, 0] 1 0 255).m_identificationIndices =
        (exampleState true).m_identificationIndices
          ++ (orthogonalDrawnVoxels 2 1 [10, 20, 30, 255, 0, 0, 0, 0] 1 255).flatMap
            (fun p => orthogonalPickedRecord VolumeSliceViewPlaneEnum.AXIAL (0, 0, 7) 1 0
              p.1 p.2)
    ∧ (drawOrthogonalSliceVoxels
          (exampleContext [exampleOverlay exampleColored] VolumeSliceViewModeEnum.ORTHOGONAL 0)
          (exampleState true) VolumeSliceViewPlaneEnum.AXIAL ⟨0, 0, 1⟩ (0, 0, 7) ⟨0, 0, 0⟩
          ⟨0, 1, 0⟩ ⟨1, 0, 0⟩ 2 1 [10, 20, 30, 255, 0, 0, 0, 0] 1 0 255).m_identificationIndices =
        [1, 0, 0, 0, 7]
    ∧ (drawOrthogonalSliceVoxels
          (exampleContext [exampleOverlay exampleColored] VolumeSliceViewModeEnum.ORTHOGONAL 0)
          (exampleState true) VolumeSliceViewPlaneEnum.AXIAL ⟨0, 0, 1⟩ (0, 0, 7) ⟨0, 0, 0⟩
          ⟨0, 1, 0⟩ ⟨1, 0, 0⟩ 2 1 [10, 20, 30, 255, 0, 0, 0, 0] 1 0 255).events =
        [Event.colorIdentificationAddItem 0,
          Event.drawQuads [0, 0, 0, 1, 0, 0, 1, 1, 0, 0, 1, 0]
            [0, 0, 1, 0, 0, 1, 0, 0, 1, 0, 0, 1]
            [1, 0, 0, 255, 1, 0, 0, 255, 1, 0, 0, 255, 1, 0, 0, 255]] :=
  ⟨⟨rfl, by decide, by decide, ⟨by decide, by decide⟩, ⟨by decide, by decide⟩,
      ⟨by decide, by decide⟩⟩,
    (orthogonal_picking_one_record_per_quad
      (exampleContext [exampleOverlay exampleColored] VolumeSliceViewModeEnum.ORTHOGONAL 0)
      (exampleState true) VolumeSliceViewPlaneEnum.AXIAL ⟨0, 0, 1⟩ (0, 0, 7) ⟨0, 0, 0⟩
      ⟨0, 1, 0⟩ ⟨1, 0, 0⟩ 2 1 [10, 20, 30, 255, 0, 0, 0, 0] 1 0 255 rfl (by decide) (by decide)
      ⟨⟨by decide, by decide⟩, ⟨by decide, by decide⟩, ⟨by decide, by decide⟩⟩).2.1,
    by decide!, by decide!⟩

/-! ## Identification records of the oblique path -/

theorem obliqueCompositeEntry_picking (ctx : DrawingContext) (volumeSlices : List VolumeSlice)
    (vtd : VoxelToDraw) (s : DrawingState × Rgba) (entry : Int × Int)
    (hs : s.1.m_identificationModeFlag = true) :
    (obliqueCompositeEntry ctx volumeSlices vtd s entry).1.m_identificationModeFlag = true
    ∧ (obliqueCompositeEntry ctx volumeSlices vtd s entry).1.m_identificationIndices =
        s.1.m_identificationIndices
          ++ (if obliqueEntryPicked volumeSlices vtd entry = true then
              obliqueEntryRecord volumeSlices vtd entry else [])
    ∧ ((obliqueCompositeEntry ctx volumeSlices vtd s entry).2.a > 0 ↔
        (s.2.a > 0 ∨ obliqueEntryNonZero volumeSlices entry = true)) := by
  unfold obliqueCompositeEntry obliqueEntryPicked obliqueEntryRecord obliqueEntryNonZero
  cases h : volumeSlices[entry.1.toNat]? with
  | none => simp [h, hs]
  | some volumeSlice =>
    by_cases hc : (volumeSlice.getRgbaForValueByIndex entry.2).a > 0
    · by_cases hv : volumeSlice.m_volumeMappableInterface.indexValid
          (volumeSlice.m_volumeMappableInterface.enclosingVoxel vtd.m_center.x vtd.m_center.y
            vtd.m_center.z).1
          (volumeSlice.m_volumeMappableInterface.enclosingVoxel vtd.m_center.x vtd.m_center.y
            vtd.m_center.z).2.1
          (volumeSlice.m_volumeMappableInterface.enclosingVoxel vtd.m_center.x vtd.m_center.y
            vtd.m_center.z).2.2 = true
      · simp [h, hc, hv, hs, addVoxelToIdentification]
      · simp [h, hc, hv, hs]
    · simp [h, hc, hs]

theorem obliqueCompositeFold_picking (ctx : DrawingContext) (volumeSlices : List VolumeSlice)
    (vtd : VoxelToDraw) :
    ∀ (entries : List (Int × Int)) (s : DrawingState × Rgba),
      s.1.m_identificationModeFlag = true →
      (entries.foldl (obliqueCompositeEntry ctx volumeSlices vtd) s).1.m_identificationModeFlag
          = true
      ∧ (entries.foldl (obliqueCompositeEntry ctx volumeSlices vtd) s).1.m_identificationIndices =
          s.1.m_identificationIndices
            ++ (entries.filter (obliqueEntryPicked volumeSlices vtd)).flatMap
              (obliqueEntryRecord volumeSlices vtd)
      ∧ ((entries.foldl (obliqueCompositeEntry ctx volumeSlices vtd) s).2.a > 0 ↔
          (s.2.a > 0 ∨ entries.any (obliqueEntryNonZero volumeSlices) = true)) := by
  intro entries
  induction entries with
  | nil => intro s hs; simp [hs]
  | cons entry rest ih =>
    intro s hs
    obtain ⟨h1, h2, h3⟩ := obliqueCompositeEntry_picking ctx volumeSlices vtd s entry hs
    obtain ⟨k1, k2, k3⟩ := ih (obliqueCompositeEntry ctx volumeSlices vtd s entry) h1
    rw [List.foldl_cons]
    refine ⟨k1, ?_, ?_⟩
    · rw [k2, h2]
      by_cases hp : obliqueEntryPicked volumeSlices vtd entry = true <;>
        simp [hp, List.filter_cons]
    · rw [k3, h3, List.any_cons, Bool.or_eq_true]
      tauto

theorem obliqueEntryPicked_nonZero (volumeSlices : List VolumeSlice) (vtd : VoxelToDraw)
    (entry : Int × Int) (h : obliqueEntryPicked volumeSlices vtd entry = true) :
    obliqueEntryNonZero volumeSlices entry = true := by
  unfold obliqueEntryPicked at h
  unfold obliqueEntryNonZero
  cases hv : volumeSlices[entry.1.toNat]? with
  | none => simp [hv] at h
  | some volumeSlice =>
    simp only [hv, Bool.and_eq_true] at h
    simpa [hv] using h.1

theorem picked_records_nil_of_no_nonZero (volumeSlices : List VolumeSlice) (vtd : VoxelToDraw)
    (entries : List (Int × Int)) (h : entries.any (obliqueEntryNonZero volumeSlices) = false) :
    (entries.filter (obliqueEntryPicked volumeSlices vtd)).flatMap
      (obliqueEntryRecord volumeSlices vtd) = [] := by
  have hnil : entries.filter (obliqueEntryPicked volumeSlices vtd) = [] := by
    rw [List.filter_eq_nil_iff]
    intro entry hmem hp
    have hnz := obliqueEntryPicked_nonZero volumeSlices vtd entry hp
    have : entries.any (obliqueEntryNonZero volumeSlices) = true :=
      List.any_eq_true.2 ⟨entry, hmem, hnz⟩
    rw [h] at this
    exact Bool.noConfusion this
  rw [hnil]
  rfl

theorem flatMap_filter_of_nil {α β : Type} (c : α → Bool) (f : α → List β) :
    ∀ (l : List α), (∀ x ∈ l, c x = false → f x = []) →
      (l.filter c).flatMap f = l.flatMap f := by
  intro l
  induction l with
  | nil => intro _; rfl
  | cons x rest ih =>
    intro h
    have hrest := ih (fun y hy => h y (List.mem_cons_of_mem _ hy))
    by_cases hc : c x = true
    · rw [List.filter_cons, if_pos hc, List.flatMap_cons, List.flatMap_cons, hrest]
    · have hx := h x (List.mem_cons_self _ _) (by simpa using hc)
      rw [List.filter_cons, if_neg hc, List.flatMap_cons, hx, hrest, List.nil_append]

theorem obliqueCompositeVoxel_picking (ctx : DrawingContext) (volumeSlices : List VolumeSlice)
    (sliceNormalVector : Vec3) (s : DrawingState × QuadBuffers) (vtd : VoxelToDraw)
    (hs : s.1.m_identificationModeFlag = true) :
    (obliqueCompositeVoxel ctx volumeSlices sliceNormalVector s vtd).1.m_identificationModeFlag
        = true
    ∧ (obliqueCompositeVoxel ctx volumeSlices sliceNormalVector s vtd).1.m_identificationIndices =
        s.1.m_identificationIndices
          ++ (vtd.linkedEntries.filter (obliqueEntryPicked volumeSlices vtd)).flatMap
            (obliqueEntryRecord volumeSlices vtd)
    ∧ (obliqueCompositeVoxel ctx volumeSlices sliceNormalVector s vtd).2.coordinates =
        s.2.coordinates
          ++ (if vtd.linkedEntries.any (obliqueEntryNonZero volumeSlices) = true then
              vtd.m_coordinates.take 12 else []) := by
  obtain ⟨h1, h2, h3⟩ := obliqueCompositeFold_picking ctx volumeSlices vtd vtd.linkedEntries
    (s.1, ⟨0, 0, 0, 0⟩) hs
  have h3' : (obliqueCompositeVoxelRgba ctx volumeSlices vtd s.1).2.a > 0 ↔
      vtd.linkedEntries.any (obliqueEntryNonZero volumeSlices) = true := by
    unfold obliqueCompositeVoxelRgba
    rw [show vtd.m_sliceIndices.zip vtd.m_sliceOffsets = vtd.linkedEntries from rfl, h3]
    simp
  unfold obliqueCompositeVoxel
  simp only []
  by_cases hany : vtd.linkedEntries.any (obliqueEntryNonZero volumeSlices) = true
  · rw [if_pos (h3'.2 hany), if_pos hany]
    exact ⟨h1, h2, rfl⟩
  · have hneg : ¬ (obliqueCompositeVoxelRgba ctx volumeSlices vtd s.1).2.a > 0 :=
      fun hpos => hany (h3'.1 hpos)
    rw [if_neg hneg, if_neg hany]
    exact ⟨h1, h2, by simp⟩

theorem obliqueComposite_picking (ctx : DrawingContext) (volumeSlices : List VolumeSlice)
    (sliceNormalVector : Vec3) (cells : List VoxelToDraw) (st : DrawingState)
    (hmode : st.m_identificationModeFlag = true) :
    (obliqueComposite ctx volumeSlices sliceNormalVector cells st).1.m_identificationIndices =
      st.m_identificationIndices
        ++ cells.flatMap (fun vtd =>
          (vtd.linkedEntries.filter (obliqueEntryPicked volumeSlices vtd)).flatMap
            (obliqueEntryRecord volumeSlices vtd))
    ∧ (obliqueComposite ctx volumeSlices sliceNormalVector cells st).2.coordinates =
      (cells.filter (fun vtd => vtd.linkedEntries.any (obliqueEntryNonZero volumeSlices))).flatMap
        (fun vtd => vtd.m_coordinates.take 12) := by
  have h := foldl_records_and_quads (obliqueCompositeVoxel ctx volumeSlices sliceNormalVector)
    (fun vtd => vtd.linkedEntries.any (obliqueEntryNonZero volumeSlices))
    (fun vtd => (vtd.linkedEntries.filter (obliqueEntryPicked volumeSlices vtd)).flatMap
      (obliqueEntryRecord volumeSlices vtd))
    (fun vtd => vtd.m_coordinates.take 12) cells
    (by
      intro s vtd _ hs
      obtain ⟨h1, h2, h3⟩ := obliqueCompositeVoxel_picking ctx volumeSlices sliceNormalVector
        s vtd hs
      refine ⟨h1, ?_, h3⟩
      rw [h2]
      by_cases hany : vtd.linkedEntries.any (obliqueEntryNonZero volumeSlices) = true
      · simp only [hany, if_true]
      · have hf : vtd.linkedEntries.any (obliqueEntryNonZero volumeSlices) = false := by
          simpa using hany
        simp only [hf, Bool.false_eq_true, if_false]
        rw [picked_records_nil_of_no_nonZero volumeSlices vtd _ hf])
    (st, ⟨[], [], []⟩) hmode
  unfold obliqueComposite
  refine ⟨?_, ?_⟩
  · rw [h.2.1]
    rw [flatMap_filter_of_nil]
    intro vtd _ hc
    exact picked_records_nil_of_no_nonZero volumeSlices vtd _ hc
  · rw [h.2.2]
    simp

theorem obliqueCompositeEntry_of_zero (ctx : DrawingContext) (volumeSlices : List VolumeSlice)
    (vtd : VoxelToDraw) (s : DrawingState × Rgba) (entry : Int × Int)
    (h : obliqueEntryNonZero volumeSlices entry = false) :
    obliqueCompositeEntry ctx volumeSlices vtd s entry = s := by
  unfold obliqueEntryNonZero at h
  unfold obliqueCompositeEntry
  cases hv : volumeSlices[entry.1.toNat]? with
  | none => simp [hv]
  | some volumeSlice =>
    simp only [hv, decide_eq_false_iff_not] at h
    simp [hv, h]

theorem obliqueCompositeFold_of_zero (ctx : DrawingContext) (volumeSlices : List VolumeSlice)
    (vtd : VoxelToDraw) :
    ∀ (entries : List (Int × Int)) (s : DrawingState × Rgba),
      (∀ e ∈ entries, obliqueEntryNonZero volumeSlices e = false) →
      entries.foldl (obliqueCompositeEntry ctx volumeSlices vtd) s = s := by
  intro entries
  induction entries with
  | nil => intro s _; rfl
  | cons e rest ih =>
    intro s h
    rw [List.foldl_cons, obliqueCompositeEntry_of_zero ctx volumeSlices vtd s e
      (h e (List.mem_cons_self _ _))]
    exact ih s (fun x hx => h x (List.mem_cons_of_mem _ hx))

theorem obliqueCompositeEntry_of_picked (ctx : DrawingContext) (volumeSlices : List VolumeSlice)
    (vtd : VoxelToDraw) (s : DrawingState × Rgba) (entry : Int × Int)
    (hs : s.1.m_identificationModeFlag = true)
    (h : obliqueEntryPicked volumeSlices vtd entry = true) :
    obliqueCompositeEntry ctx volumeSlices vtd s entry =
      ({ s.1 with
          events := s.1.events ++ [Event.colorIdentificationAddItem (identificationIdIndex s.1)]
          m_identificationIndices :=
            s.1.m_identificationIndices ++ obliqueEntryRecord volumeSlices vtd entry },
        { ctx.colorIdentificationAddItem s.1.events (obliqueEntryColor volumeSlices entry)
            (identificationIdIndex s.1) with a := 255 }) := by
  unfold obliqueEntryPicked at h
  unfold obliqueCompositeEntry obliqueEntryRecord obliqueEntryColor
  cases hv : volumeSlices[entry.1.toNat]? with
  | none => simp [hv] at h
  | some volumeSlice =>
    simp only [hv, Bool.and_eq_true, decide_eq_true_eq] at h
    simp [hv, h.1, h.2, hs, addVoxelToIdentification]

theorem obliqueCompositeVoxelRgba_winning_entry (ctx : DrawingContext)
    (volumeSlices : List VolumeSlice) (vtd : VoxelToDraw) (st : DrawingState)
    (front back : List (Int × Int)) (w : Int × Int)
    (hs : st.m_identificationModeFlag = true)
    (hentries : vtd.linkedEntries = front ++ w :: back)
    (hw : obliqueEntryPicked volumeSlices vtd w = true)
    (hback : ∀ e ∈ back, obliqueEntryNonZero volumeSlices e = false) :
    obliqueCompositeVoxelRgba ctx volumeSlices vtd st =
      ({ (front.foldl (obliqueCompositeEntry ctx volumeSlices vtd) (st, ⟨0, 0, 0, 0⟩)).1 with
          events :=
            (front.foldl (obliqueCompositeEntry ctx volumeSlices vtd) (st, ⟨0, 0, 0, 0⟩)).1.events
              ++ [Event.colorIdentificationAddItem (identificationIdIndex
                (front.foldl (obliqueCompositeEntry ctx volumeSlices vtd) (st, ⟨0, 0, 0, 0⟩)).1)]
          m_identificationIndices :=
            (front.foldl (obliqueCompositeEntry ctx volumeSlices vtd)
                (st, ⟨0, 0, 0, 0⟩)).1.m_identificationIndices
              ++ obliqueEntryRecord volumeSlices vtd w },
        { ctx.colorIdentificationAddItem
            (front.foldl (obliqueCompositeEntry ctx volumeSlices vtd) (st, ⟨0, 0, 0, 0⟩)).1.events
            (obliqueEntryColor volumeSlices w)
            (identificationIdIndex
              (front.foldl (obliqueCompositeEntry ctx volumeSlices vtd) (st, ⟨0, 0, 0, 0⟩)).1)
          with a := 255 }) := by
  have hflag := (obliqueCompositeFold_picking ctx volumeSlices vtd front (st, ⟨0, 0, 0, 0⟩) hs).1
  unfold obliqueCompositeVoxelRgba
  rw [show vtd.m_sliceIndices.zip vtd.m_sliceOffsets = vtd.linkedEntries from rfl, hentries,
    List.foldl_append, List.foldl_cons,
    obliqueCompositeEntry_of_picked ctx volumeSlices vtd _ w hflag hw,
    obliqueCompositeFold_of_zero ctx volumeSlices vtd back _ hback]

theorem obliqueEntryRecord_length (volumeSlices : List VolumeSlice) (vtd : VoxelToDraw)
    (entry : Int × Int) (h : obliqueEntryPicked volumeSlices vtd entry = true) :
    (obliqueEntryRecord volumeSlices vtd entry).length = IDENTIFICATION_INDICES_PER_VOXEL := by
  unfold obliqueEntryPicked at h
  unfold obliqueEntryRecord
  cases hv : volumeSlices[entry.1.toNat]? with
  | none => simp [hv] at h
  | some volumeSlice => rfl

theorem flatMap_flatMap_length {α β γ : Type} (F : α → List β) (R : α → β → List γ) (n : Nat) :
    ∀ (l : List α), (∀ x ∈ l, ((F x).flatMap (R x)).length = n * (F x).length) →
      (l.flatMap (fun x => (F x).flatMap (R x))).length = n * (l.flatMap F).length := by
  intro l
  induction l with
  | nil => intro _; simp
  | cons x rest ih =>
    intro h
    rw [List.flatMap_cons, List.flatMap_cons, List.length_append, List.length_append,
      h x (List.mem_cons_self _ _), ih (fun y hy => h y (List.mem_cons_of_mem _ hy))]
    ring

theorem filter_length_le_flatMap_length {α β : Type} (c : α → Bool) (F : α → List β) :
    ∀ (l : List α), (∀ x ∈ l, c x = true → 1 ≤ (F x).length) →
      (l.filter c).length ≤ (l.flatMap F).length := by
  intro l
  induction l with
  | nil => intro _; simp
  | cons x rest ih =>
    intro h
    have hrest := ih (fun y hy => h y (List.mem_cons_of_mem _ hy))
    rw [List.flatMap_cons, List.length_append]
    by_cases hc : c x = true
    · have hx := h x (List.mem_cons_self _ _) hc
      rw [List.filter_cons, if_pos hc, List.length_cons]
      omega
    · rw [List.filter_cons, if_neg hc]
      omega

/-- C14 (amended): in picking mode of the oblique path the compositing appends
one identification record for every linked entry of a cell whose colour has a
non-zero alpha and for which the voxel enclosing the cell centre is a valid
voxel of the entry's volume, in the order of the cells and of their links; the
record holds the index of the entry's volume, that volume's map index and the
indices of the voxel of that volume that encloses the cell centre.  A
quadrilateral is emitted for every cell with an entry of non-zero alpha.  When
the last entry of non-zero alpha of a cell (the winning volume) gets a record,
that record is the last one appended for the cell and the cell's colour is the
identifier colour of that record with alpha 255.  The number of records
appended is the number of such entries; when every entry of non-zero alpha
has a valid enclosing voxel it is at least the number of quadrilaterals. -/
theorem oblique_picking_record_per_entry (ctx : DrawingContext)
    (volumeSlices : List VolumeSlice) (sliceNormalVector : Vec3) (cells : List VoxelToDraw)
    (st : DrawingState) (hmode : st.m_identificationModeFlag = true) :
    (obliqueComposite ctx volumeSlices sliceNormalVector cells st).1.m_identificationIndices =
      st.m_identificationIndices
        ++ cells.flatMap (fun vtd =>
          (vtd.linkedEntries.filter (obliqueEntryPicked volumeSlices vtd)).flatMap
            (obliqueEntryRecord volumeSlices vtd))
    ∧ (obliqueComposite ctx volumeSlices sliceNormalVector cells st).2.coordinates =
      (cells.filter (fun vtd => vtd.linkedEntries.any (obliqueEntryNonZero volumeSlices))).flatMap
        (fun vtd => vtd.m_coordinates.take 12)
    ∧ (∀ (vtd : VoxelToDraw) (st1 : DrawingState) (front back : List (Int × Int))
        (w : Int × Int), st1.m_identificationModeFlag = true →
        vtd.linkedEntries = front ++ w :: back →
        obliqueEntryPicked volumeSlices vtd w = true →
        (∀ e ∈ back, obliqueEntryNonZero volumeSlices e = false) →
        obliqueCompositeVoxelRgba ctx volumeSlices vtd st1 =
          ({ (front.foldl (obliqueCompositeEntry ctx volumeSlices vtd) (st1, ⟨0, 0, 0, 0⟩)).1 with
              events :=
                (front.foldl (obliqueCompositeEntry ctx volumeSlices vtd)
                    (st1, ⟨0, 0, 0, 0⟩)).1.events
                  ++ [Event.colorIdentificationAddItem (identificationIdIndex
                    (front.foldl (obliqueCompositeEntry ctx volumeSlices vtd)
                      (st1, ⟨0, 0, 0, 0⟩)).1)]
              m_identificationIndices :=
                (front.foldl (obliqueCompositeEntry ctx volumeSlices vtd)
                    (st1, ⟨0, 0, 0, 0⟩)).1.m_identificationIndices
                  ++ obliqueEntryRecord volumeSlices vtd w },
            { ctx.colorIdentificationAddItem
                (front.foldl (obliqueCompositeEntry ctx volumeSlices vtd)
                  (st1, ⟨0, 0, 0, 0⟩)).1.events
                (obliqueEntryColor volumeSlices w)
                (identificationIdIndex
                  (front.foldl (obliqueCompositeEntry ctx volumeSlices vtd)
                    (st1, ⟨0, 0, 0, 0⟩)).1)
              with a := 255 }))
    ∧ (obliqueComposite ctx volumeSlices sliceNormalVector cells
          st).1.m_identificationIndices.length =
        st.m_identificationIndices.length + IDENTIFICATION_INDICES_PER_VOXEL
          * (cells.flatMap (fun vtd =>
              vtd.linkedEntries.filter (obliqueEntryPicked volumeSlices vtd))).length
    ∧ ((∀ vtd ∈ cells, ∀ e ∈ vtd.linkedEntries, obliqueEntryNonZero volumeSlices e = true →
          obliqueEntryPicked volumeSlices vtd e = true) →
        (cells.filter
            (fun vtd => vtd.linkedEntries.any (obliqueEntryNonZero volumeSlices))).length ≤
          (cells.flatMap (fun vtd =>
            vtd.linkedEntries.filter (obliqueEntryPicked volumeSlices vtd))).length) := by
  obtain ⟨hidx, hcoord⟩ := obliqueComposite_picking ctx volumeSlices sliceNormalVector cells st
    hmode
  refine ⟨hidx, hcoord, ?_, ?_, ?_⟩
  · intro vtd st1 front back w hs hentries hw hback
    exact obliqueCompositeVoxelRgba_winning_entry ctx volumeSlices vtd st1 front back w hs
      hentries hw hback
  · rw [hidx, List.length_append]
    congr 1
    apply flatMap_flatMap_length
      (fun vtd : VoxelToDraw => vtd.linkedEntries.filter (obliqueEntryPicked volumeSlices vtd))
      (fun vtd => obliqueEntryRecord volumeSlices vtd)
    intro vtd _
    apply flatMap_length_const
    intro e he
    exact obliqueEntryRecord_length volumeSlices vtd e (List.mem_filter.1 he).2
  · intro hvalid
    apply filter_length_le_flatMap_length
    intro vtd hvtd hany
    obtain ⟨e, he, hnz⟩ := List.any_eq_true.1 hany
    have hp := hvalid vtd hvtd e he hnz
    have hmem : e ∈ vtd.linkedEntries.filter (obliqueEntryPicked volumeSlices vtd) :=
      List.mem_filter.2 ⟨he, hp⟩
    exact List.length_pos_of_mem hmem

/-- Witness of C14: one cell linked to two overlays, both coloured with a
non-zero alpha at the cell, in picking mode. -/
theorem oblique_picking_record_per_entry_witness :
    (exampleState true).m_identificationModeFlag = true
    ∧ (obliqueComposite
        (exampleContext [exampleOverlay exampleCube, exampleOverlay exampleCube]
          VolumeSliceViewModeEnum.OBLIQUE 0)
        [exampleVolumeSlice [10, 20, 30, 255], exampleVolumeSlice [40, 50, 60, 255]] ⟨0, 0, 1⟩
        [exampleCellTwoLinks] (exampleState true)).1.m_identificationIndices =
      (exampleState true).m_identificationIndices
        ++ [exampleCellTwoLinks].flatMap (fun vtd =>
          (vtd.linkedEntries.filter (obliqueEntryPicked
            [exampleVolumeSlice [10, 20, 30, 255], exampleVolumeSlice [40, 50, 60, 255]]
            vtd)).flatMap
            (obliqueEntryRecord
              [exampleVolumeSlice [10, 20, 30, 255], exampleVolumeSlice [40, 50, 60, 255]] vtd)) :=
  ⟨rfl, (oblique_picking_record_per_entry
    (exampleContext [exampleOverlay exampleCube, exampleOverlay exampleCube]
      VolumeSliceViewModeEnum.OBLIQUE 0)
    [exampleVolumeSlice [10, 20, 30, 255], exampleVolumeSlice [40, 50, 60, 255]] ⟨0, 0, 1⟩
    [exampleCellTwoLinks] (exampleState true) rfl).1⟩

/-- Counterexample to C14 as stated: in picking mode a cell linked to two
overlays that are both coloured with a non-zero alpha emits one quadrilateral
(twelve coordinates, coloured with the identifier 1 of the second record) and
appends two identification records, `(0, 0, 1, 1, 0)` and `(1, 0, 1, 1, 0)`. -/
theorem oblique_picking_two_records_for_one_quad :
    (obliqueComposite
        (exampleContext [exampleOverlay exampleCube, exampleOverlay exampleCube]
          VolumeSliceViewModeEnum.OBLIQUE 0)
        [exampleVolumeSlice [10, 20, 30, 255], exampleVolumeSlice [40, 50, 60, 255]] ⟨0, 0, 1⟩
        [exampleCellTwoLinks] (exampleState true)).2 =
      { coordinates := [0, 0, 0, 1, 0, 0, 1, 1, 0, 0, 1, 0]
        normals := [0, 0, 1, 0, 0, 1, 0, 0, 1, 0, 0, 1]
        rgba := [2, 0, 0, 255, 2, 0, 0, 255, 2, 0, 0, 255, 2, 0, 0, 255] }
    ∧ (obliqueComposite
        (exampleContext [exampleOverlay exampleCube, exampleOverlay exampleCube]
          VolumeSliceViewModeEnum.OBLIQUE 0)
        [exampleVolumeSlice [10, 20, 30, 255], exampleVolumeSlice [40, 50, 60, 255]] ⟨0, 0, 1⟩
        [exampleCellTwoLinks] (exampleState true)).1.m_identificationIndices =
      [0, 0, 1, 1, 0, 1, 0, 1, 1, 0] := by
  decide!

/-! ## Repeatability of the compositing -/

theorem obliqueComposite_foldl_drawing_eq (ctx : DrawingContext)
    (volumeSlices : List VolumeSlice) (sliceNormalVector : Vec3) :
    ∀ (cells : List VoxelToDraw) (s : DrawingState × QuadBuffers),
      s.1.m_identificationModeFlag = false →
      cells.foldl (obliqueCompositeVoxel ctx volumeSlices sliceNormalVector) s =
        (s.1, cells.foldl
          (fun q vtd =>
            if (lastNonZeroAlpha (linkedEntryColors volumeSlices vtd)).a > 0 then
              q.addQuad (vtd.m_coordinates.take 12) sliceNormalVector
                (lastNonZeroAlpha (linkedEntryColors volumeSlices vtd))
            else q) s.2) := by
  intro cells
  induction cells with
  | nil => intro s _; rfl
  | cons vtd rest ih =>
    intro s hmode
    rw [List.foldl_cons, List.foldl_cons,
      obliqueCompositeVoxel_drawing ctx volumeSlices sliceNormalVector s vtd hmode]
    by_cases h : (lastNonZeroAlpha (linkedEntryColors volumeSlices vtd)).a > 0
    · rw [if_pos h, if_pos h]
      exact ih _ hmode
    · rw [if_neg h, if_neg h]
      exact ih _ hmode

theorem obliqueComposite_drawing (ctx : DrawingContext) (volumeSlices : List VolumeSlice)
    (sliceNormalVector : Vec3) (cells : List VoxelToDraw) (st : DrawingState)
    (hmode : st.m_identificationModeFlag = false) :
    obliqueComposite ctx volumeSlices sliceNormalVector cells st =
      (st, compositedQuads volumeSlices sliceNormalVector cells) := by
  unfold obliqueComposite compositedQuads
  exact obliqueComposite_foldl_drawing_eq ctx volumeSlices sliceNormalVector cells
    (st, ⟨[], [], []⟩) hmode

theorem obliqueCompositeEntry_agree (ctx1 ctx2 : DrawingContext)
    (volumeSlices : List VolumeSlice) (vtd : VoxelToDraw) (s1 s2 : DrawingState × Rgba)
    (entry : Int × Int)
    (hadd : ∀ (e1 e2 : List Event) (c : Rgba) (i : Int),
      ctx1.colorIdentificationAddItem e1 c i = ctx2.colorIdentificationAddItem e2 c i)
    (hflag : s1.1.m_identificationModeFlag = s2.1.m_identificationModeFlag)
    (hrec : s1.1.m_identificationIndices = s2.1.m_identificationIndices)
    (hc : s1.2 = s2.2) :
    (obliqueCompositeEntry ctx1 volumeSlices vtd s1 entry).1.m_identificationModeFlag =
        (obliqueCompositeEntry ctx2 volumeSlices vtd s2 entry).1.m_identificationModeFlag
    ∧ (obliqueCompositeEntry ctx1 volumeSlices vtd s1 entry).1.m_identificationIndices =
        (obliqueCompositeEntry ctx2 volumeSlices vtd s2 entry).1.m_identificationIndices
    ∧ (obliqueCompositeEntry ctx1 volumeSlices vtd s1 entry).2 =
        (obliqueCompositeEntry ctx2 volumeSlices vtd s2 entry).2 := by
  unfold obliqueCompositeEntry
  cases h : volumeSlices[entry.1.toNat]? with
  | none =>
    simp only [h]
    exact ⟨hflag, hrec, hc⟩
  | some volumeSlice =>
    simp only [h]
    by_cases ha : (volumeSlice.getRgbaForValueByIndex entry.2).a > 0
    · simp only [ha, if_true, ← hflag]
      cases hm : s1.1.m_identificationModeFlag with
      | false =>
        simp only [Bool.false_eq_true, if_false]
        exact ⟨hflag, hrec, trivial⟩
      | true =>
        simp only [if_true]
        by_cases hv : volumeSlice.m_volumeMappableInterface.indexValid
            (volumeSlice.m_volumeMappableInterface.enclosingVoxel vtd.m_center.x vtd.m_center.y
              vtd.m_center.z).1
            (volumeSlice.m_volumeMappableInterface.enclosingVoxel vtd.m_center.x vtd.m_center.y
              vtd.m_center.z).2.1
            (volumeSlice.m_volumeMappableInterface.enclosingVoxel vtd.m_center.x vtd.m_center.y
              vtd.m_center.z).2.2 = true
        · simp only [hv, if_true, addVoxelToIdentification, identificationIdIndex, hrec,
            hadd s1.1.events s2.1.events]
          exact ⟨hflag, trivial, trivial⟩
        · simp only [hv, Bool.false_eq_true, if_false]
          exact ⟨hflag, hrec, trivial⟩
    · simp only [ha, if_false]
      exact ⟨hflag, hrec, hc⟩

theorem obliqueCompositeFold_agree (ctx1 ctx2 : DrawingContext)
    (volumeSlices : List VolumeSlice) (vtd : VoxelToDraw)
    (hadd : ∀ (e1 e2 : List Event) (c : Rgba) (i : Int),
      ctx1.colorIdentificationAddItem e1 c i = ctx2.colorIdentificationAddItem e2 c i) :
    ∀ (entries : List (Int × Int)) (s1 s2 : DrawingState × Rgba),
      s1.1.m_identificationModeFlag = s2.1.m_identificationModeFlag →
      s1.1.m_identificationIndices = s2.1.m_identificationIndices →
      s1.2 = s2.2 →
      (entries.foldl (obliqueCompositeEntry ctx1 volumeSlices vtd) s1).1.m_identificationModeFlag =
          (entries.foldl (obliqueCompositeEntry ctx2 volumeSlices vtd)
            s2).1.m_identificationModeFlag
      ∧ (entries.foldl (obliqueCompositeEntry ctx1 volumeSlices vtd)
            s1).1.m_identificationIndices =
          (entries.foldl (obliqueCompositeEntry ctx2 volumeSlices vtd)
            s2).1.m_identificationIndices
      ∧ (entries.foldl (obliqueCompositeEntry ctx1 volumeSlices vtd) s1).2 =
          (entries.foldl (obliqueCompositeEntry ctx2 volumeSlices vtd) s2).2 := by
  intro entries
  induction entries with
  | nil => intro s1 s2 h1 h2 h3; exact ⟨h1, h2, h3⟩
  | cons entry rest ih =>
    intro s1 s2 h1 h2 h3
    obtain ⟨k1, k2, k3⟩ :=
      obliqueCompositeEntry_agree ctx1 ctx2 volumeSlices vtd s1 s2 entry hadd h1 h2 h3
    rw [List.foldl_cons, List.foldl_cons]
    exact ih _ _ k1 k2 k3

theorem obliqueCompositeVoxel_agree (ctx1 ctx2 : DrawingContext)
    (volumeSlices : List VolumeSlice) (sliceNormalVector : Vec3) (vtd : VoxelToDraw)
    (s1 s2 : DrawingState × QuadBuffers)
    (hadd : ∀ (e1 e2 : List Event) (c : Rgba) (i : Int),
      ctx1.colorIdentificationAddItem e1 c i = ctx2.colorIdentificationAddItem e2 c i)
    (hflag : s1.1.m_identificationModeFlag = s2.1.m_identificationModeFlag)
    (hrec : s1.1.m_identificationIndices = s2.1.m_identificationIndices)
    (hq : s1.2 = s2.2) :
    (obliqueCompositeVoxel ctx1 volumeSlices sliceNormalVector s1 vtd).1.m_identificationModeFlag
        = (obliqueCompositeVoxel ctx2 volumeSlices sliceNormalVector s2
            vtd).1.m_identificationModeFlag
    ∧ (obliqueCompositeVoxel ctx1 volumeSlices sliceNormalVector s1
          vtd).1.m_identificationIndices =
        (obliqueCompositeVoxel ctx2 volumeSlices sliceNormalVector s2
          vtd).1.m_identificationIndices
    ∧ (obliqueCompositeVoxel ctx1 volumeSlices sliceNormalVector s1 vtd).2 =
        (obliqueCompositeVoxel ctx2 volumeSlices sliceNormalVector s2 vtd).2 := by
  obtain ⟨k1, k2, k3⟩ := obliqueCompositeFold_agree ctx1 ctx2 volumeSlices vtd hadd
    (vtd.m_sliceIndices.zip vtd.m_sliceOffsets) (s1.1, ⟨0, 0, 0, 0⟩) (s2.1, ⟨0, 0, 0, 0⟩)
    hflag hrec rfl
  unfold obliqueCompositeVoxel obliqueCompositeVoxelRgba
  simp only [k3, hq]
  split_ifs
  · exact ⟨k1, k2, rfl⟩
  · exact ⟨k1, k2, rfl⟩

theorem obliqueComposite_agree (ctx1 ctx2 : DrawingContext)
    (volumeSlices : List VolumeSlice) (sliceNormalVector : Vec3)
    (hadd : ∀ (e1 e2 : List Event) (c : Rgba) (i : Int),
      ctx1.colorIdentificationAddItem e1 c i = ctx2.colorIdentificationAddItem e2 c i) :
    ∀ (cells : List VoxelToDraw) (s1 s2 : DrawingState × QuadBuffers),
      s1.1.m_identificationModeFlag = s2.1.m_identificationModeFlag →
      s1.1.m_identificationIndices = s2.1.m_identificationIndices →
      s1.2 = s2.2 →
      (cells.foldl (obliqueCompositeVoxel ctx1 volumeSlices sliceNormalVector)
            s1).1.m_identificationIndices =
          (cells.foldl (obliqueCompositeVoxel ctx2 volumeSlices sliceNormalVector)
            s2).1.m_identificationIndices
      ∧ (cells.foldl (obliqueCompositeVoxel ctx1 volumeSlices sliceNormalVector) s1).2 =
          (cells.foldl (obliqueCompositeVoxel ctx2 volumeSlices sliceNormalVector) s2).2 := by
  intro cells
  induction cells with
  | nil => intro s1 s2 _ h2 h3; exact ⟨h2, h3⟩
  | cons vtd rest ih =>
    intro s1 s2 h1 h2 h3
    obtain ⟨k1, k2, k3⟩ := obliqueCompositeVoxel_agree ctx1 ctx2 volumeSlices sliceNormalVector
      vtd s1 s2 hadd h1 h2 h3
    rw [List.foldl_cons, List.foldl_cons]
    exact ih _ _ k1 k2 k3

theorem obliqueComposite_picking_mode (ctx : DrawingContext) (volumeSlices : List VolumeSlice)
    (sliceNormalVector : Vec3) (cells : List VoxelToDraw) (st : DrawingState)
    (hmode : st.m_identificationModeFlag = true) :
    (obliqueComposite ctx volumeSlices sliceNormalVector cells st).1.m_identificationModeFlag
      = true := by
  unfold obliqueComposite
  exact foldl_invariant (fun s : DrawingState × QuadBuffers => s.1.m_identificationModeFlag = true)
    (obliqueCompositeVoxel ctx volumeSlices sliceNormalVector)
    (fun s vtd hs =>
      (obliqueCompositeVoxel_picking ctx volumeSlices sliceNormalVector s vtd hs).1)
    cells (st, ⟨[], [], []⟩) hmode

/-- C20: the compositing step of `drawObliqueSlice` is repeatable.  In drawing
mode it is a function of the per-volume coloured buffers, the cell links, the
overlay order and the slice normal alone: it leaves the state as it is and
every run, from whatever state and with whatever collaborators, yields the
same buffers (byte-identical RGBA, same quadrilaterals), in particular a
second run that follows the first.  In picking mode, in which the compositing
appends identification records and colours a cell with the colour of its
identifier, two runs that start with the same identification records yield the
same buffers (byte-identical RGBA, same quadrilaterals) and the same records,
given that `colorIdentification->addItem` writes the same colour for the same
array and identifier; so does a second run that follows the first, each run
starting, as in `drawSliceForSliceView`, after `resetIdentification`. -/
theorem compositing_repeatable (volumeSlices : List VolumeSlice) (sliceNormalVector : Vec3)
    (cells : List VoxelToDraw) (ctx1 ctx2 : DrawingContext) (st1 st2 : DrawingState) :
    (st1.m_identificationModeFlag = false → st2.m_identificationModeFlag = false →
      (obliqueComposite ctx1 volumeSlices sliceNormalVector cells st1).2 =
          (obliqueComposite ctx2 volumeSlices sliceNormalVector cells st2).2
      ∧ (obliqueComposite ctx1 volumeSlices sliceNormalVector cells st1).1 = st1
      ∧ obliqueComposite ctx1 volumeSlices sliceNormalVector cells
          (obliqueComposite ctx1 volumeSlices sliceNormalVector cells st1).1 =
        obliqueComposite ctx1 volumeSlices sliceNormalVector cells st1)
    ∧ (st1.m_identificationModeFlag = true → st2.m_identificationModeFlag = true →
      st1.m_identificationIndices = st2.m_identificationIndices →
      (∀ (e1 e2 : List Event) (c : Rgba) (i : Int),
        ctx1.colorIdentificationAddItem e1 c i = ctx2.colorIdentificationAddItem e2 c i) →
      (obliqueComposite ctx1 volumeSlices sliceNormalVector cells st1).2 =
          (obliqueComposite ctx2 volumeSlices sliceNormalVector cells st2).2
      ∧ (obliqueComposite ctx1 volumeSlices sliceNormalVector cells
            st1).1.m_identificationIndices =
          (obliqueComposite ctx2 volumeSlices sliceNormalVector cells
            st2).1.m_identificationIndices)
    ∧ (st1.m_identificationModeFlag = true →
      (∀ (e1 e2 : List Event) (c : Rgba) (i : Int),
        ctx1.colorIdentificationAddItem e1 c i = ctx1.colorIdentificationAddItem e2 c i) →
      (obliqueComposite ctx1 volumeSlices sliceNormalVector cells
          (resetIdentification
            (obliqueComposite ctx1 volumeSlices sliceNormalVector cells
              (resetIdentification st1)).1)).2 =
        (obliqueComposite ctx1 volumeSlices sliceNormalVector cells
          (resetIdentification st1)).2
      ∧ (obliqueComposite ctx1 volumeSlices sliceNormalVector cells
          (resetIdentification
            (obliqueComposite ctx1 volumeSlices sliceNormalVector cells
              (resetIdentification st1)).1)).1.m_identificationIndices =
        (obliqueComposite ctx1 volumeSlices sliceNormalVector cells
          (resetIdentification st1)).1.m_identificationIndices) := by
  refine ⟨?_, ?_, ?_⟩
  · intro h1 h2
    rw [obliqueComposite_drawing ctx1 volumeSlices sliceNormalVector cells st1 h1,
      obliqueComposite_drawing ctx2 volumeSlices sliceNormalVector cells st2 h2]
    refine ⟨rfl, rfl, ?_⟩
    exact obliqueComposite_drawing ctx1 volumeSlices sliceNormalVector cells st1 h1
  · intro h1 h2 hrec hadd
    obtain ⟨k2, k3⟩ := obliqueComposite_agree ctx1 ctx2 volumeSlices sliceNormalVector hadd cells
      (st1, ⟨[], [], []⟩) (st2, ⟨[], [], []⟩) (h1.trans h2.symm) hrec rfl
    exact ⟨k3, k2⟩
  · intro h1 hadd
    have hflag : (resetIdentification
        (obliqueComposite ctx1 volumeSlices sliceNormalVector cells
          (resetIdentification st1)).1).m_identificationModeFlag
        = (resetIdentification st1).m_identificationModeFlag := by
      have := obliqueComposite_picking_mode ctx1 volumeSlices sliceNormalVector cells
        (resetIdentification st1) h1
      exact this.trans h1.symm
    obtain ⟨k2, k3⟩ := obliqueComposite_agree ctx1 ctx1 volumeSlices sliceNormalVector hadd cells
      (resetIdentification
        (obliqueComposite ctx1 volumeSlices sliceNormalVector cells
          (resetIdentification st1)).1, ⟨[], [], []⟩)
      (resetIdentification st1, ⟨[], [], []⟩) hflag rfl rfl
    exact ⟨k3, k2⟩

/-- Witness of C20: two runs of the compositing in drawing mode over one cell
linked to two coloured overlays, the second run with other selected slice
coordinates and from a state that already holds events; and in picking mode
two runs over one cell, the second following the first, each after
`resetIdentification`: both colour the quadrilateral with the identifier 0. -/
theorem compositing_repeatable_witness :
    ((exampleState false).m_identificationModeFlag = false
      ∧ ({ exampleState false with events := [Event.glEnableBlend] } :
          DrawingState).m_identificationModeFlag = false)
    ∧ (obliqueComposite
        (exampleContext [exampleOverlay exampleCube, exampleOverlay exampleCube]
          VolumeSliceViewModeEnum.OBLIQUE 0)
        [exampleVolumeSlice [10, 20, 30, 255], exampleVolumeSlice [40, 50, 60, 255]] ⟨0, 0, 1⟩
        [exampleCellTwoLinks] (exampleState false)).2 =
      (obliqueComposite
        (exampleContext [exampleOverlay exampleCube, exampleOverlay exampleCube]
          VolumeSliceViewModeEnum.OBLIQUE 5)
        [exampleVolumeSlice [10, 20, 30, 255], exampleVolumeSlice [40, 50, 60, 255]] ⟨0, 0, 1⟩
        [exampleCellTwoLinks] { exampleState false with events := [Event.glEnableBlend] }).2
    ∧ (exampleState true).m_identificationModeFlag = true
    ∧ (∀ (e1 e2 : List Event) (c : Rgba) (i : Int),
        (exampleContext [exampleOverlay exampleCube]
            VolumeSliceViewModeEnum.OBLIQUE 0).colorIdentificationAddItem e1 c i =
          (exampleContext [exampleOverlay exampleCube]
            VolumeSliceViewModeEnum.OBLIQUE 0).colorIdentificationAddItem e2 c i)
    ∧ (obliqueComposite
        (exampleContext [exampleOverlay exampleCube] VolumeSliceViewModeEnum.OBLIQUE 0)
        [exampleVolumeSlice [10, 20, 30, 255]] ⟨0, 0, 1⟩ [exampleCellOneLink]
        (resetIdentification
          (obliqueComposite
            (exampleContext [exampleOverlay exampleCube] VolumeSliceViewModeEnum.OBLIQUE 0)
            [exampleVolumeSlice [10, 20, 30, 255]] ⟨0, 0, 1⟩ [exampleCellOneLink]
            (resetIdentification (exampleState true))).1)).2 =
      (obliqueComposite
        (exampleContext [exampleOverlay exampleCube] VolumeSliceViewModeEnum.OBLIQUE 0)
        [exampleVolumeSlice [10, 20, 30, 255]] ⟨0, 0, 1⟩ [exampleCellOneLink]
        (resetIdentification (exampleState true))).2 :=
  ⟨⟨rfl, rfl⟩, ((compositing_repeatable
    [exampleVolumeSlice [10, 20, 30, 255], exampleVolumeSlice [40, 50, 60, 255]] ⟨0, 0, 1⟩
    [exampleCellTwoLinks]
    (exampleContext [exampleOverlay exampleCube, exampleOverlay exampleCube]
      VolumeSliceViewModeEnum.OBLIQUE 0)
    (exampleContext [exampleOverlay exampleCube, exampleOverlay exampleCube]
      VolumeSliceViewModeEnum.OBLIQUE 5)
    (exampleState false) { exampleState false with events := [Event.glEnableBlend] }).1
      rfl rfl).1,
    rfl, fun _ _ _ _ => rfl,
    ((compositing_repeatable [exampleVolumeSlice [10, 20, 30, 255]] ⟨0, 0, 1⟩
      [exampleCellOneLink]
      (exampleContext [exampleOverlay exampleCube] VolumeSliceViewModeEnum.OBLIQUE 0)
      (exampleContext [exampleOverlay exampleCube] VolumeSliceViewModeEnum.OBLIQUE 0)
      (exampleState true) (exampleState true)).2.2 rfl (fun _ _ _ _ => rfl)).1⟩

/-- The buffers of the two runs of the witness in picking mode: the
quadrilateral of the cell carries the colour of the identifier 0 in the first
run and in the second run, which starts after `resetIdentification`. -/
theorem compositing_picking_example :
    (obliqueComposite
        (exampleContext [exampleOverlay exampleCube] VolumeSliceViewModeEnum.OBLIQUE 0)
        [exampleVolumeSlice [10, 20, 30, 255]] ⟨0, 0, 1⟩ [exampleCellOneLink]
        (resetIdentification (exampleState true))).2.rgba =
      [1, 0, 0, 255, 1, 0, 0, 255, 1, 0, 0, 255, 1, 0, 0, 255]
    ∧ (obliqueComposite
        (exampleContext [exampleOverlay exampleCube] VolumeSliceViewModeEnum.OBLIQUE 0)
        [exampleVolumeSlice [10, 20, 30, 255]] ⟨0, 0, 1⟩ [exampleCellOneLink]
        (resetIdentification
          (obliqueComposite
            (exampleContext [exampleOverlay exampleCube] VolumeSliceViewModeEnum.OBLIQUE 0)
            [exampleVolumeSlice [10, 20, 30, 255]] ⟨0, 0, 1⟩ [exampleCellOneLink]
            (resetIdentification (exampleState true))).1)).2.rgba =
      [1, 0, 0, 255, 1, 0, 0, 255, 1, 0, 0, 255, 1, 0, 0, 255] := by
  decide!

/-! ## Colouring of the oblique slice -/

theorem obliqueSampleVolumes_map {β : Type} (g : VolumeSlice → β)
    (hg : ∀ (v : VolumeSlice) (value : ℚ), g (v.addValue value).2 = g v)
    (ctx : DrawingContext) (c lb rb rt lt : Vec3) :
    ∀ (vdis : List VolumeDrawInfo) (iVol : Nat) (volumeSlices : List VolumeSlice)
      (cur : Option VoxelToDraw),
      (obliqueSampleVolumes ctx c lb rb rt lt iVol vdis volumeSlices cur).1.map g =
        volumeSlices.map g := by
  intro vdis
  induction vdis with
  | nil => intro iVol volumeSlices cur; simp [obliqueSampleVolumes]
  | cons vdi rest ih =>
    intro iVol volumeSlices cur
    cases volumeSlices with
    | nil => simp [obliqueSampleVolumes]
    | cons volumeSlice slices =>
      simp only [obliqueSampleVolumes]
      split
      · simp only [List.map_cons, ih, hg]
      · simp only [List.map_cons, ih]

theorem obliqueRowCells_map {β : Type} (g : VolumeSlice → β)
    (hg : ∀ (v : VolumeSlice) (value : ℚ), g (v.addValue value).2 = g v)
    (ctx : DrawingContext) (bottomD topD : Vec3) :
    ∀ (fuel : Nat) (bl tl : Vec3) (s : List VolumeSlice × List VoxelToDraw),
      (obliqueRowCells ctx bottomD topD fuel bl tl s).1.map g = s.1.map g := by
  intro fuel
  induction fuel with
  | zero => intro bl tl s; simp [obliqueRowCells]
  | succ n ih =>
    intro bl tl s
    simp only [obliqueRowCells]
    rw [ih]
    exact obliqueSampleVolumes_map g hg ctx _ _ _ _ _ _ _ _ _

theorem obliqueRows_map {β : Type} (g : VolumeSlice → β)
    (hg : ∀ (v : VolumeSlice) (value : ℚ), g (v.addValue value).2 = g v)
    (ctx : DrawingContext) (voxelSize : ℚ) (bl br ul ur : Vec3) (stepL stepR dt : ℚ) :
    ∀ (fuel : Nat) (t dL dR : ℚ) (s : List VolumeSlice × List VoxelToDraw),
      (obliqueRows ctx voxelSize bl br ul ur stepL stepR dt fuel t dL dR s).1.map g =
        s.1.map g := by
  intro fuel
  induction fuel with
  | zero => intro t dL dR s; simp [obliqueRows]
  | succ n ih =>
    intro t dL dR s
    simp only [obliqueRows]
    split
    · rw [ih]
      exact obliqueRowCells_map g hg ctx _ _ _ _ _ s
    · rfl

theorem obliqueTraversal_map {β : Type} (g : VolumeSlice → β)
    (hg : ∀ (v : VolumeSlice) (value : ℚ), g (v.addValue value).2 = g v)
    (ctx : DrawingContext) (st : DrawingState)
    (sliceViewPlane : VolumeSliceViewPlaneEnum) (transformationMatrix : Matrix4x4)
    (voxelSize : ℚ) :
    (obliqueTraversal ctx st sliceViewPlane transformationMatrix voxelSize).1.map g =
      ctx.m_volumeDrawInfo.map
        (fun info => g (VolumeSlice.create info.volumeFile (toInt32 info.mapIndex))) := by
  simp only [obliqueTraversal]
  split
  · rw [obliqueRows_map g hg]
    simp [List.map_map, Function.comp]
  · simp [List.map_map, Function.comp]

theorem obliqueColorVolume_fst (i : Nat) (volumeSlice : VolumeSlice) (events : List Event) :
    (obliqueColorVolume i volumeSlice events).1 = obliqueColoredSlice volumeSlice := by
  unfold obliqueColoredSlice obliqueColorVolume
  simp only []
  split
  · split
    · split <;> rfl
    · split <;> rfl
  · rfl

theorem obliqueColorVolumes_fst :
    ∀ (volumeSlices : List VolumeSlice) (i : Nat) (events : List Event),
      (obliqueColorVolumes i volumeSlices events).1 = volumeSlices.map obliqueColoredSlice := by
  intro volumeSlices
  induction volumeSlices with
  | nil => intro i events; rfl
  | cons v rest ih =>
    intro i events
    simp only [obliqueColorVolumes, List.map_cons, ih, obliqueColorVolume_fst]

theorem obliqueColoredSlice_missing_palette (volumeSlice : VolumeSlice)
    (hpalette : volumeSlice.m_volumeMappableInterface.isMappedWithPalette = true)
    (hmissing : volumeSlice.m_volumeMappableInterface.paletteFound volumeSlice.m_mapIndex = false)
    (hrgba : volumeSlice.m_rgba = []) :
    (obliqueColoredSlice volumeSlice).m_rgba = List.replicate (volumeSlice.m_values.length * 4) 0
    ∧ (obliqueColoredSlice volumeSlice).m_values = volumeSlice.m_values := by
  unfold obliqueColoredSlice obliqueColorVolume
  simp only []
  by_cases hn : volumeSlice.m_values.length > 0
  · simp [hn, VolumeSlice.allocateColors, hpalette, hmissing, hrgba]
  · have h0 : volumeSlice.m_values.length = 0 := by omega
    simp [hn, hrgba, h0]

theorem readByte_replicate_zero (n : Nat) (offset : Int) :
    readByte (List.replicate n 0) offset = 0 := by
  unfold readByte
  rw [List.getD_eq_getElem?_getD]
  by_cases h : offset.toNat < n
  · simp [List.getElem?_replicate, h]
  · simp [List.getElem?_replicate, h]

theorem getRgbaForValueByIndex_of_zero (volumeSlice : VolumeSlice) (n : Nat)
    (h : volumeSlice.m_rgba = List.replicate n 0) (indx : Int) :
    volumeSlice.getRgbaForValueByIndex indx = ⟨0, 0, 0, 0⟩ := by
  unfold VolumeSlice.getRgbaForValueByIndex
  simp only [h, readByte_replicate_zero]

theorem foldl_filter_of_noop {σ α : Type} (f : σ → α → σ) (p : α → Bool) :
    ∀ (l : List α) (s : σ), (∀ x ∈ l, p x = false → ∀ s, f s x = s) →
      l.foldl f s = (l.filter p).foldl f s := by
  intro l
  induction l with
  | nil => intro s _; rfl
  | cons x rest ih =>
    intro s h
    have hrest := fun s => ih s (fun y hy => h y (List.mem_cons_of_mem _ hy))
    by_cases hp : p x = true
    · rw [List.filter_cons, if_pos hp, List.foldl_cons, List.foldl_cons, hrest]
    · rw [List.filter_cons, if_neg hp, List.foldl_cons,
        h x (List.mem_cons_self _ _) (by simpa using hp) s, hrest]

theorem zip_map_fst_map_snd {α β : Type} :
    ∀ (l : List (α × β)), (l.map Prod.fst).zip (l.map Prod.snd) = l := by
  intro l
  induction l with
  | nil => rfl
  | cons x rest ih => simp [ih]

theorem VoxelToDraw.linkedEntries_withoutVolume (vtd : VoxelToDraw) (iVol : Nat) :
    (vtd.withoutVolume iVol).linkedEntries =
      vtd.linkedEntries.filter (fun e => !decide (e.1 = (iVol : Int))) := by
  unfold VoxelToDraw.withoutVolume
  simp only [VoxelToDraw.linkedEntries]
  exact zip_map_fst_map_snd _

/-! ## Invariants of the rasterizers -/

theorem RasterizerInvariant.foldl {R : DrawingState → DrawingState → Prop}
    (hR : RasterizerInvariant R) {α β : Type}
    (f : DrawingState × β → α → DrawingState × β)
    (hf : ∀ s x, R s.1 (f s x).1) :
    ∀ (xs : List α) (s : DrawingState × β), R s.1 (xs.foldl f s).1 := by
  intro xs
  induction xs with
  | nil => intro s; exact hR.refl _
  | cons x rest ih =>
    intro s
    rw [List.foldl_cons]
    exact hR.trans _ _ _ (hf s x) (ih (f s x))

theorem RasterizerInvariant.event {R : DrawingState → DrawingState → Prop}
    (hR : RasterizerInvariant R) (s : DrawingState) (es : List Event)
    (h : ∀ e ∈ es, e.isRasterizerCall = true) (s1 : DrawingState)
    (hs1 : s1 = { s with events := s.events ++ es }) : R s s1 := by
  rw [hs1]
  exact hR.events s es h

theorem drawOrthogonalSliceVoxel_invariant {R : DrawingState → DrawingState → Prop}
    (hR : RasterizerInvariant R) (ctx : DrawingContext)
    (sliceViewPlane : VolumeSliceViewPlaneEnum)
    (sliceNormalVector : Vec3) (selectedSliceIndices : Int × Int × Int)
    (coordinate rowStep columnStep : Vec3) (numberOfColumns : Int) (sliceRGBA : List Nat)
    (volumeIndex mapIndex : Int) (sliceOpacity : Nat) (jRow iCol : Nat)
    (s : DrawingState × QuadBuffers) :
    R s.1 (drawOrthogonalSliceVoxel ctx sliceViewPlane sliceNormalVector selectedSliceIndices
        coordinate rowStep columnStep numberOfColumns sliceRGBA volumeIndex mapIndex
        sliceOpacity jRow iCol s).1 := by
  unfold drawOrthogonalSliceVoxel
  simp only []
  split
  · split
    · exact hR.addVoxel ctx s.1 _ _ _ _ _
        (orthogonalVoxelRgba numberOfColumns sliceRGBA volumeIndex sliceOpacity jRow iCol)
    · exact hR.refl _
  · exact hR.refl _

theorem drawOrthogonalSliceVoxels_invariant {R : DrawingState → DrawingState → Prop}
    (hR : RasterizerInvariant R) (ctx : DrawingContext) (st : DrawingState)
    (sliceViewPlane : VolumeSliceViewPlaneEnum)
    (sliceNormalVector : Vec3) (selectedSliceIndices : Int × Int × Int)
    (coordinate rowStep columnStep : Vec3) (numberOfColumns numberOfRows : Int)
    (sliceRGBA : List Nat) (volumeIndex mapIndex : Int) (sliceOpacity : Nat) :
    R st (drawOrthogonalSliceVoxels ctx st sliceViewPlane sliceNormalVector selectedSliceIndices
        coordinate rowStep columnStep numberOfColumns numberOfRows sliceRGBA volumeIndex
        mapIndex sliceOpacity) := by
  have hloop : R st
      (drawOrthogonalSliceVoxelsLoop ctx sliceViewPlane sliceNormalVector selectedSliceIndices
        coordinate rowStep columnStep numberOfColumns numberOfRows sliceRGBA volumeIndex
        mapIndex sliceOpacity (st, ⟨[], [], []⟩)).1 := by
    unfold drawOrthogonalSliceVoxelsLoop
    refine hR.foldl _ ?_ _ ((st, ⟨[], [], []⟩) : DrawingState × QuadBuffers)
    intro s jRow
    apply hR.foldl
    intro s iCol
    exact drawOrthogonalSliceVoxel_invariant hR ctx sliceViewPlane sliceNormalVector
      selectedSliceIndices coordinate rowStep columnStep numberOfColumns sliceRGBA volumeIndex
      mapIndex sliceOpacity jRow iCol s
  unfold drawOrthogonalSliceVoxels
  simp only []
  split
  · refine hR.trans _ _ _ hloop (hR.events _ _ ?_)
    intro e he
    rw [List.mem_singleton] at he
    rw [he]
    rfl
  · exact hloop

theorem drawOrthogonalSliceOverlay_invariant {R : DrawingState → DrawingState → Prop}
    (hR : RasterizerInvariant R) (ctx : DrawingContext) (drawMode : DRAW_MODE)
    (sliceViewPlane : VolumeSliceViewPlaneEnum) (sliceNormalVector : Vec3)
    (selectedSliceCoordinate : ℚ) (iVol : Nat) (volInfo : VolumeDrawInfo)
    (s : DrawingState × List Nat) :
    R s.1 (drawOrthogonalSliceOverlay ctx drawMode sliceViewPlane sliceNormalVector
      selectedSliceCoordinate iVol volInfo s).1 := by
  unfold drawOrthogonalSliceOverlay
  simp only []
  split
  · exact hR.refl _
  · refine hR.trans _ _ _ ?_ (hR.events _ [Event.glDisablePolygonOffsetFill] ?_)
    · refine hR.trans _ _ _ ?_ (drawOrthogonalSliceVoxels_invariant hR ctx _ _ _ _ _ _ _ _ _ _
        _ _ _)
      split
      · refine hR.trans _ _ _ ?_ (hR.events _
          [Event.glEnablePolygonOffsetFill, Event.glPolygonOffset (-1) (-1)] ?_)
        · split
          · refine hR.trans _ _ _ (hR.events s.1 [Event.getVoxelColorsForSliceInMap _ _ _] ?_)
              (hR.events _ [Event.convertSliceColoringToOutlineMode _ _] ?_)
            · intro e he; rw [List.mem_singleton] at he; rw [he]; rfl
            · intro e he; rw [List.mem_singleton] at he; rw [he]; rfl
          · refine hR.events s.1 [Event.getVoxelColorsForSliceInMap _ _ _] ?_
            intro e he; rw [List.mem_singleton] at he; rw [he]; rfl
        · intro e he
          simp only [List.mem_cons, List.mem_singleton, List.not_mem_nil, or_false] at he
          rcases he with rfl | rfl <;> rfl
      · split
        · refine hR.trans _ _ _ (hR.events s.1 [Event.getVoxelColorsForSliceInMap _ _ _] ?_)
            (hR.events _ [Event.convertSliceColoringToOutlineMode _ _] ?_)
          · intro e he; rw [List.mem_singleton] at he; rw [he]; rfl
          · intro e he; rw [List.mem_singleton] at he; rw [he]; rfl
        · refine hR.events s.1 [Event.getVoxelColorsForSliceInMap _ _ _] ?_
          intro e he; rw [List.mem_singleton] at he; rw [he]; rfl
    · intro e he; rw [List.mem_singleton] at he; rw [he]; rfl

theorem drawOrthogonalSliceLoop_invariant {R : DrawingState → DrawingState → Prop}
    (hR : RasterizerInvariant R) (ctx : DrawingContext) (drawMode : DRAW_MODE)
    (sliceViewPlane : VolumeSliceViewPlaneEnum) (sliceNormalVector : Vec3)
    (selectedSliceCoordinate : ℚ) :
    ∀ (overlays : List VolumeDrawInfo) (iVol : Nat) (s : DrawingState × List Nat),
      R s.1 (drawOrthogonalSliceLoop ctx drawMode sliceViewPlane sliceNormalVector
        selectedSliceCoordinate iVol overlays s).1 := by
  intro overlays
  induction overlays with
  | nil => intro iVol s; exact hR.refl _
  | cons volInfo rest ih =>
    intro iVol s
    rw [drawOrthogonalSliceLoop]
    exact hR.trans _ _ _
      (drawOrthogonalSliceOverlay_invariant hR ctx drawMode sliceViewPlane sliceNormalVector
        selectedSliceCoordinate iVol volInfo s) (ih _ _)

theorem drawOrthogonalSlice_invariant {R : DrawingState → DrawingState → Prop}
    (hR : RasterizerInvariant R) (ctx : DrawingContext) (st : DrawingState)
    (drawMode : DRAW_MODE) (sliceViewPlane : VolumeSliceViewPlaneEnum) (plane : Plane)
    (montageSliceIndex : Int) :
    R st (drawOrthogonalSlice ctx st drawMode sliceViewPlane plane montageSliceIndex) := by
  unfold drawOrthogonalSlice
  refine hR.trans _ _ _ (hR.trans _ _ _
    (hR.events st [Event.glEnableBlend, Event.glBlendFuncSrcAlphaOneMinusSrcAlpha,
      Event.glShadeModelFlat] ?_)
    (drawOrthogonalSliceLoop_invariant hR ctx drawMode sliceViewPlane plane.m_normalVector _
      ctx.m_volumeDrawInfo 0 (_, []))) (hR.events _ [Event.glDisableBlend,
        Event.glShadeModelSmooth] ?_)
  · intro e he
    simp only [List.mem_cons, List.mem_singleton, List.not_mem_nil, or_false] at he
    rcases he with rfl | rfl | rfl <;> rfl
  · intro e he
    simp only [List.mem_cons, List.mem_singleton, List.not_mem_nil, or_false] at he
    rcases he with rfl | rfl <;> rfl

theorem obliqueColorVolume_events (i : Nat) (volumeSlice : VolumeSlice) (events : List Event) :
    ∃ added : List Event, (obliqueColorVolume i volumeSlice events).2 = events ++ added
      ∧ ∀ e ∈ added, e.isRasterizerCall = true := by
  unfold obliqueColorVolume
  simp only []
  split
  · split
    · split
      · exact ⟨_, rfl, by intro e he; rw [List.mem_singleton] at he; rw [he]; rfl⟩
      · exact ⟨_, rfl, by intro e he; rw [List.mem_singleton] at he; rw [he]; rfl⟩
    · split
      · exact ⟨_, rfl, by intro e he; rw [List.mem_singleton] at he; rw [he]; rfl⟩
      · exact ⟨[], by simp, by simp⟩
  · exact ⟨[], by simp, by simp⟩

theorem obliqueColorVolumes_events :
    ∀ (volumeSlices : List VolumeSlice) (i : Nat) (events : List Event),
      ∃ added : List Event, (obliqueColorVolumes i volumeSlices events).2 = events ++ added
        ∧ ∀ e ∈ added, e.isRasterizerCall = true := by
  intro volumeSlices
  induction volumeSlices with
  | nil => intro i events; exact ⟨[], by simp [obliqueColorVolumes], by simp⟩
  | cons v rest ih =>
    intro i events
    obtain ⟨a1, h1, p1⟩ := obliqueColorVolume_events i v events
    obtain ⟨a2, h2, p2⟩ := ih (i + 1) (obliqueColorVolume i v events).2
    refine ⟨a1 ++ a2, ?_, ?_⟩
    · simp only [obliqueColorVolumes]
      rw [h2, h1, List.append_assoc]
    · intro e he
      rcases List.mem_append.1 he with h | h
      · exact p1 e h
      · exact p2 e h

theorem obliqueCompositeEntry_invariant {R : DrawingState → DrawingState → Prop}
    (hR : RasterizerInvariant R) (ctx : DrawingContext) (volumeSlices : List VolumeSlice)
    (vtd : VoxelToDraw) (s : DrawingState × Rgba) (entry : Int × Int) :
    R s.1 (obliqueCompositeEntry ctx volumeSlices vtd s entry).1 := by
  unfold obliqueCompositeEntry
  simp only []
  split
  · exact hR.refl _
  · split
    · split
      · split
        · exact hR.addVoxel ctx s.1 _ _ _ _ _ _
        · exact hR.refl _
      · exact hR.refl _
    · exact hR.refl _

theorem obliqueCompositeVoxel_invariant {R : DrawingState → DrawingState → Prop}
    (hR : RasterizerInvariant R) (ctx : DrawingContext) (volumeSlices : List VolumeSlice)
    (sliceNormalVector : Vec3) (s : DrawingState × QuadBuffers) (vtd : VoxelToDraw) :
    R s.1 (obliqueCompositeVoxel ctx volumeSlices sliceNormalVector s vtd).1 := by
  have h : R s.1 (obliqueCompositeVoxelRgba ctx volumeSlices vtd s.1).1 := by
    unfold obliqueCompositeVoxelRgba
    exact hR.foldl _ (obliqueCompositeEntry_invariant hR ctx volumeSlices vtd) _
      ((s.1, ⟨0, 0, 0, 0⟩) : DrawingState × Rgba)
  unfold obliqueCompositeVoxel
  simp only []
  split
  · exact h
  · exact h

theorem obliqueComposite_invariant {R : DrawingState → DrawingState → Prop}
    (hR : RasterizerInvariant R) (ctx : DrawingContext) (volumeSlices : List VolumeSlice)
    (sliceNormalVector : Vec3) (cells : List VoxelToDraw) (st : DrawingState) :
    R st (obliqueComposite ctx volumeSlices sliceNormalVector cells st).1 := by
  unfold obliqueComposite
  exact hR.foldl _ (obliqueCompositeVoxel_invariant hR ctx volumeSlices sliceNormalVector) _
    ((st, ⟨[], [], []⟩) : DrawingState × QuadBuffers)

theorem drawObliqueSliceWithVoxelSize_invariant {R : DrawingState → DrawingState → Prop}
    (hR : RasterizerInvariant R) (ctx : DrawingContext) (st : DrawingState)
    (sliceViewPlane : VolumeSliceViewPlaneEnum) (plane : Plane)
    (transformationMatrix : Matrix4x4) (zoom voxelSize : ℚ) :
    R st (drawObliqueSliceWithVoxelSize ctx st sliceViewPlane plane transformationMatrix zoom
      voxelSize) := by
  obtain ⟨added, hadded, hp⟩ := obliqueColorVolumes_events
    (obliqueTraversal ctx st sliceViewPlane transformationMatrix voxelSize).1 0 st.events
  unfold drawObliqueSliceWithVoxelSize
  simp only []
  have h1 : R st { st with events := (obliqueColorVolumes 0
      (obliqueTraversal ctx st sliceViewPlane transformationMatrix voxelSize).1 st.events).2 } := by
    rw [hadded]
    exact hR.events st added hp
  have h2 := obliqueComposite_invariant hR ctx (obliqueColorVolumes 0
      (obliqueTraversal ctx st sliceViewPlane transformationMatrix voxelSize).1 st.events).1
    plane.m_normalVector
    (obliqueTraversal ctx st sliceViewPlane transformationMatrix voxelSize).2
    { st with events := (obliqueColorVolumes 0
      (obliqueTraversal ctx st sliceViewPlane transformationMatrix voxelSize).1 st.events).2 }
  split
  · refine hR.trans _ _ _ (hR.trans _ _ _ h1 h2) (hR.events _ _ ?_)
    intro e he
    simp only [List.mem_cons, List.mem_singleton, List.not_mem_nil, or_false] at he
    rcases he with rfl | rfl | rfl | rfl <;> rfl
  · exact hR.trans _ _ _ h1 h2

theorem drawObliqueSlice_invariant {R : DrawingState → DrawingState → Prop}
    (hR : RasterizerInvariant R) (ctx : DrawingContext) (st : DrawingState)
    (sliceViewPlane : VolumeSliceViewPlaneEnum) (plane : Plane) (drawMode : DRAW_MODE)
    (transformationMatrix : Matrix4x4) (zoom : ℚ) :
    R st (drawObliqueSlice ctx st sliceViewPlane plane drawMode transformationMatrix zoom) := by
  unfold drawObliqueSlice
  simp only []
  split
  · exact hR.refl _
  · exact drawObliqueSliceWithVoxelSize_invariant hR ctx st sliceViewPlane plane
      transformationMatrix zoom _

/-! ## The identification records of a slice draw -/

theorem addedItemIds_append (a b : List Event) :
    addedItemIds (a ++ b) = addedItemIds a ++ addedItemIds b := by
  induction a with
  | nil => rfl
  | cons e rest ih => cases e <;> simp [addedItemIds, ih]

theorem addedItemIds_of_no_addItem :
    ∀ (events : List Event), (∀ e ∈ events, e.isAddItem = false) → addedItemIds events = [] := by
  intro events
  induction events with
  | nil => intro _; rfl
  | cons e rest ih =>
    intro h
    have he := h e (List.mem_cons_self _ _)
    have hrest := ih (fun x hx => h x (List.mem_cons_of_mem _ hx))
    cases e <;> first | exact hrest | (simp [Event.isAddItem] at he)

theorem isAddItem_of_isRasterizerCall (e : Event) (h : e.isRasterizerCall = true) :
    e.isAddItem = false := by
  cases e <;> first | rfl | (simp [Event.isRasterizerCall] at h)

theorem flatten_length_const {β : Type} (n : Nat) :
    ∀ (l : List (List β)), (∀ r ∈ l, r.length = n) → l.flatten.length = n * l.length := by
  intro l
  induction l with
  | nil => intro _; simp
  | cons x rest ih =>
    intro h
    rw [List.flatten_cons, List.length_append, h x (List.mem_cons_self _ _),
      ih (fun y hy => h y (List.mem_cons_of_mem _ hy)), List.length_cons]
    ring

theorem identificationGrows_invariant : RasterizerInvariant identificationGrows := by
  refine ⟨?_, ?_, ?_, ?_⟩
  · intro s
    exact ⟨rfl, [], [], by simp, by simp, by simp, rfl⟩
  · intro a b c hab hbc
    obtain ⟨hf1, r1, c1, hl1, hi1, he1, hid1⟩ := hab
    obtain ⟨hf2, r2, c2, hl2, hi2, he2, hid2⟩ := hbc
    refine ⟨hf2.trans hf1, r1 ++ r2, c1 ++ c2, ?_, ?_, ?_, ?_⟩
    · intro r hr
      rcases List.mem_append.1 hr with h | h
      · exact hl1 r h
      · exact hl2 r h
    · rw [hi2, hi1, List.flatten_append, List.append_assoc]
    · rw [he2, he1, List.append_assoc]
    · have hb : b.m_identificationIndices.length / IDENTIFICATION_INDICES_PER_VOXEL =
          a.m_identificationIndices.length / IDENTIFICATION_INDICES_PER_VOXEL + r1.length := by
        rw [hi1, List.length_append, flatten_length_const _ r1 hl1]
        simp only [IDENTIFICATION_INDICES_PER_VOXEL]
        omega
      rw [addedItemIds_append, hid1, hid2, hb, List.length_append, List.range_add,
        List.map_append, List.map_map]
      simp only [Function.comp_def, Nat.add_assoc]
  · intro s es hes
    refine ⟨rfl, [], es, by simp, by simp, rfl, ?_⟩
    rw [addedItemIds_of_no_addItem es (fun e he => isAddItem_of_isRasterizerCall e (hes e he))]
    rfl
  · intro ctx s volumeIndex mapIndex i j k rgba
    refine ⟨rfl, [[volumeIndex, mapIndex, i, j, k]],
      [Event.colorIdentificationAddItem (identificationIdIndex s)], ?_, ?_, rfl, ?_⟩
    · intro r hr
      rw [List.mem_singleton] at hr
      rw [hr]
      rfl
    · simp [addVoxelToIdentification]
    · simp only [addedItemIds, identificationIdIndex, List.length_singleton]
      rw [show List.range 1 = [0] from rfl]
      simp only [List.map_cons, List.map_nil, Nat.add_zero]

theorem createSlicePlaneEquation_plane_eq (ctx ctx1 : DrawingContext) (st st1 : DrawingState)
    (sliceViewPlane : VolumeSliceViewPlaneEnum) (montageSliceIndex : Int)
    (h1 : ctx1.m_volumeDrawInfo = ctx.m_volumeDrawInfo)
    (h2 : ctx1.m_browserTabContent = ctx.m_browserTabContent)
    (h3 : ctx1.m_sliceViewMode = ctx.m_sliceViewMode)
    (h4 : ctx1.normalizeVector = ctx.normalizeVector) :
    (createSlicePlaneEquation ctx1 st1 sliceViewPlane montageSliceIndex).1 =
      (createSlicePlaneEquation ctx st sliceViewPlane montageSliceIndex).1 := by
  unfold createSlicePlaneEquation
  simp only [h1, h2, h3, h4]

theorem createSlicePlaneEquation_state (ctx : DrawingContext) (st : DrawingState)
    (sliceViewPlane : VolumeSliceViewPlaneEnum) (montageSliceIndex : Int) :
    (createSlicePlaneEquation ctx st sliceViewPlane montageSliceIndex).2.events = st.events
    ∧ (createSlicePlaneEquation ctx st sliceViewPlane
        montageSliceIndex).2.m_identificationIndices = st.m_identificationIndices
    ∧ (createSlicePlaneEquation ctx st sliceViewPlane
        montageSliceIndex).2.m_identificationModeFlag = st.m_identificationModeFlag :=
  ⟨rfl, rfl, rfl⟩

theorem setOrthographicProjection_spec (col : DrawCollaborators) (ctx : DrawingContext)
    (st : DrawingState) (sliceViewPlane : VolumeSliceViewPlaneEnum) (viewport : Viewport) :
    (setOrthographicProjection col ctx st sliceViewPlane viewport).1.m_volumeDrawInfo =
        ctx.m_volumeDrawInfo
    ∧ (setOrthographicProjection col ctx st sliceViewPlane viewport).1.m_browserTabContent =
        ctx.m_browserTabContent
    ∧ (setOrthographicProjection col ctx st sliceViewPlane viewport).1.m_sliceViewMode =
        ctx.m_sliceViewMode
    ∧ (setOrthographicProjection col ctx st sliceViewPlane viewport).1.normalizeVector =
        ctx.normalizeVector
    ∧ (setOrthographicProjection col ctx st sliceViewPlane viewport).1.m_ciftiMappableFileData =
        ctx.m_ciftiMappableFileData
    ∧ (setOrthographicProjection col ctx st sliceViewPlane viewport).2.m_identificationIndices =
        st.m_identificationIndices
    ∧ (setOrthographicProjection col ctx st sliceViewPlane viewport).2.m_identificationModeFlag =
        st.m_identificationModeFlag
    ∧ ∃ added : List Event,
        (setOrthographicProjection col ctx st sliceViewPlane viewport).2.events =
          st.events ++ added
        ∧ ∀ e ∈ added, e.isAddItem = false ∧ e.isGetMapData = false := by
  refine ⟨rfl, rfl, rfl, rfl, rfl, rfl, rfl, _, rfl, ?_⟩
  intro e he
  simp only [List.mem_cons, List.mem_singleton, List.not_mem_nil, or_false] at he
  rcases he with rfl | rfl | rfl | rfl <;> exact ⟨rfl, rfl⟩

theorem keepsRecords_refl (s : DrawingState) : keepsRecords s s :=
  ⟨rfl, eventsAdded_refl _ _⟩

theorem keepsRecords_trans {a b c : DrawingState} (h1 : keepsRecords a b)
    (h2 : keepsRecords b c) : keepsRecords a c :=
  ⟨h2.1.trans h1.1, eventsAdded_trans _ h1.2 h2.2⟩

theorem keepsRecords_log (s : DrawingState) (es : List Event)
    (h : ∀ e ∈ es, e.isAddItem = false) : keepsRecords s (s.log es) :=
  ⟨rfl, eventsAdded_append _ _ _ h⟩

theorem keepsRecords_of_eq (a b : DrawingState)
    (h1 : b.m_identificationIndices = a.m_identificationIndices) (h2 : b.events = a.events) :
    keepsRecords a b := by
  refine ⟨h1, ?_⟩
  rw [h2]
  exact eventsAdded_refl _ _

theorem addedItemIds_of_keepsRecords {a b : DrawingState} (h : keepsRecords a b) :
    ∃ added : List Event, b.events = a.events ++ added ∧ addedItemIds added = [] := by
  obtain ⟨_, added, hadded, hp⟩ := h
  exact ⟨added, hadded, addedItemIds_of_no_addItem added hp⟩

theorem drawSliceForSliceViewRasterize_invariant {R : DrawingState → DrawingState → Prop}
    (hR : RasterizerInvariant R) (ctx : DrawingContext) (st : DrawingState)
    (sliceViewPlane : VolumeSliceViewPlaneEnum) (drawMode : DRAW_MODE)
    (montageSliceIndex : Int) (slicePlane : Plane) (obliqueTransformationMatrix : Matrix4x4) :
    R st (drawSliceForSliceViewRasterize ctx st sliceViewPlane drawMode montageSliceIndex
      slicePlane obliqueTransformationMatrix) := by
  unfold drawSliceForSliceViewRasterize
  cases ctx.m_sliceViewMode with
  | MONTAGE => exact drawOrthogonalSlice_invariant hR ctx st drawMode sliceViewPlane slicePlane _
  | OBLIQUE =>
    exact drawObliqueSlice_invariant hR ctx st sliceViewPlane slicePlane drawMode _ _
  | ORTHOGONAL =>
    exact drawOrthogonalSlice_invariant hR ctx st drawMode sliceViewPlane slicePlane _

theorem drawSliceForSliceViewFromReset_finish (col : DrawCollaborators) (ctx : DrawingContext)
    (st : DrawingState) (sliceViewPlane : VolumeSliceViewPlaneEnum) (drawMode : DRAW_MODE)
    (montageSliceIndex : Int) (slicePlane : Plane) (obliqueTransformationMatrix : Matrix4x4) :
    keepsRecords
      (drawSliceForSliceViewRasterize ctx ((resetIdentification st).log [Event.glDisableCullFace])
        sliceViewPlane drawMode montageSliceIndex slicePlane obliqueTransformationMatrix)
      (drawSliceForSliceViewFromReset col ctx st sliceViewPlane drawMode montageSliceIndex
        slicePlane obliqueTransformationMatrix) := by
  unfold drawSliceForSliceViewFromReset keepsRecords eventsAdded DrawingState.log
  simp only []
  repeat' split
  all_goals
    refine And.intro rfl ?_
    apply Exists.intro
    refine And.intro ?_ ?_
    · try simp only [List.append_assoc]
      exact rfl
    · simp [Event.isAddItem]

theorem drawSliceForSliceViewFromReset_records (col : DrawCollaborators) (ctx : DrawingContext)
    (st : DrawingState) (sliceViewPlane : VolumeSliceViewPlaneEnum) (drawMode : DRAW_MODE)
    (montageSliceIndex : Int) (slicePlane : Plane) (obliqueTransformationMatrix : Matrix4x4) :
    ∃ (records : List (List Int)) (calls : List Event),
      (∀ r ∈ records, r.length = IDENTIFICATION_INDICES_PER_VOXEL)
      ∧ (drawSliceForSliceViewFromReset col ctx st sliceViewPlane drawMode montageSliceIndex
          slicePlane obliqueTransformationMatrix).m_identificationIndices = records.flatten
      ∧ (drawSliceForSliceViewFromReset col ctx st sliceViewPlane drawMode montageSliceIndex
          slicePlane obliqueTransformationMatrix).events = st.events ++ calls
      ∧ addedItemIds calls
          = (List.range records.length).map (fun (n : Nat) => toInt32 (Int.ofNat n)) := by
  obtain ⟨_, records, calls, hl, hi, he, hid⟩ := drawSliceForSliceViewRasterize_invariant
    identificationGrows_invariant ctx ((resetIdentification st).log [Event.glDisableCullFace])
    sliceViewPlane drawMode montageSliceIndex slicePlane obliqueTransformationMatrix
  obtain ⟨hfi, added, hadded, hp⟩ := drawSliceForSliceViewFromReset_finish col ctx st
    sliceViewPlane drawMode montageSliceIndex slicePlane obliqueTransformationMatrix
  refine ⟨records, [Event.glDisableCullFace] ++ calls ++ added, hl, ?_, ?_, ?_⟩
  · rw [hfi, hi]
    rfl
  · rw [hadded, he]
    simp only [DrawingState.log, resetIdentification, List.append_assoc]
  · rw [addedItemIds_append, addedItemIds_append, addedItemIds_of_no_addItem added hp, hid]
    simp only [addedItemIds, List.nil_append, List.append_nil]
    apply List.map_congr_left
    intro n _
    simp only [resetIdentification, DrawingState.log, List.length_nil, Nat.zero_div,
      Nat.zero_add]
    simp only [Int.ofNat_eq_coe]


theorem createSlicePlaneEquation_events (ctx : DrawingContext) (st : DrawingState)
    (sliceViewPlane : VolumeSliceViewPlaneEnum) (montageSliceIndex : Int) :
    (createSlicePlaneEquation ctx st sliceViewPlane montageSliceIndex).2.events = st.events :=
  rfl

theorem createSlicePlaneEquation_indices (ctx : DrawingContext) (st : DrawingState)
    (sliceViewPlane : VolumeSliceViewPlaneEnum) (montageSliceIndex : Int) :
    (createSlicePlaneEquation ctx st sliceViewPlane
      montageSliceIndex).2.m_identificationIndices = st.m_identificationIndices :=
  rfl

theorem drawSliceForSliceView_shape (col : DrawCollaborators) (ctx : DrawingContext)
    (st : DrawingState) (sliceViewPlane : VolumeSliceViewPlaneEnum) (drawMode : DRAW_MODE)
    (montageSliceIndex : Int) (viewport : Viewport) :
    (¬ reachesRasterization col ctx st sliceViewPlane montageSliceIndex →
        eventsAdded (fun e => e.isAddItem = false ∧ e.isGetMapData = false) st.events
          (drawSliceForSliceView col ctx st sliceViewPlane drawMode montageSliceIndex
            viewport).2.events
        ∧ (drawSliceForSliceView col ctx st sliceViewPlane drawMode montageSliceIndex
            viewport).2.m_identificationIndices = st.m_identificationIndices)
    ∧ (reachesRasterization col ctx st sliceViewPlane montageSliceIndex →
        ∃ (ctx1 : DrawingContext) (st1 : DrawingState) (slicePlane : Plane)
          (obliqueTransformationMatrix : Matrix4x4),
          eventsAdded (fun e => e.isAddItem = false ∧ e.isGetMapData = false) st.events
            st1.events
          ∧ ctx1.m_volumeDrawInfo = ctx.m_volumeDrawInfo
          ∧ ctx1.m_ciftiMappableFileData = ctx.m_ciftiMappableFileData
          ∧ (drawSliceForSliceView col ctx st sliceViewPlane drawMode montageSliceIndex
              viewport).2 = drawSliceForSliceViewFromReset col ctx1 st1 sliceViewPlane
                drawMode montageSliceIndex slicePlane obliqueTransformationMatrix) := by
  have hplane : ∀ (s : DrawingState),
      (createSlicePlaneEquation (setOrthographicProjection col ctx s sliceViewPlane viewport).1
        (setOrthographicProjection col ctx s sliceViewPlane viewport).2 sliceViewPlane
        montageSliceIndex).1 = (createSlicePlaneEquation ctx st sliceViewPlane
          montageSliceIndex).1 := fun s =>
    createSlicePlaneEquation_plane_eq ctx _ st _ sliceViewPlane montageSliceIndex rfl rfl rfl rfl
  unfold drawSliceForSliceView reachesRasterization
  by_cases hv : (createSlicePlaneEquation ctx st sliceViewPlane montageSliceIndex).1.isValidPlane
    = true
  · cases hm : col.mode
    · refine ⟨fun hn => absurd ⟨hv, Or.inl rfl⟩ hn, fun _ => ?_⟩
      cases drawMode
      all_goals simp only [if_true, if_false, Bool.false_eq_true, hplane, hv]
      all_goals
        refine ⟨_, _, _, _, ?_, ?_, ?_, rfl⟩
        · unfold eventsAdded
          apply Exists.intro
          refine And.intro ?_ ?_
          · simp only [DrawingState.log, setOrthographicProjection,
              setVolumeSliceViewingAndModelingTransformations, createSlicePlaneEquation_events,
              List.append_assoc]
            exact rfl
          · simp [Event.isAddItem, Event.isGetMapData]
        · exact rfl
        · exact rfl
    · by_cases he : col.isEnabledForSelection = true
      · refine ⟨fun hn => absurd ⟨hv, Or.inr ⟨rfl, he⟩⟩ hn, fun _ => ?_⟩
        cases drawMode
        all_goals simp only [if_true, if_false, Bool.false_eq_true, hplane, hv, he]
        all_goals
          refine ⟨_, _, _, _, ?_, ?_, ?_, rfl⟩
          · unfold eventsAdded
            apply Exists.intro
            refine And.intro ?_ ?_
            · simp only [DrawingState.log, setOrthographicProjection,
                setVolumeSliceViewingAndModelingTransformations,
                createSlicePlaneEquation_events, List.append_assoc]
              exact rfl
            · simp [Event.isAddItem, Event.isGetMapData]
          · exact rfl
          · exact rfl
      · refine ⟨fun _ => ?_, fun hr => ?_⟩
        · cases drawMode
          all_goals simp only [if_true, if_false, Bool.false_eq_true, hplane, hv, he]
          all_goals
            refine And.intro ?_ rfl
            unfold eventsAdded
            apply Exists.intro
            refine And.intro ?_ ?_
            · simp only [DrawingState.log, setOrthographicProjection,
                setVolumeSliceViewingAndModelingTransformations,
                createSlicePlaneEquation_events, List.append_assoc]
              exact rfl
            · simp [Event.isAddItem, Event.isGetMapData]
        · rcases hr.2 with h | h
          · exact absurd h (by simp)
          · exact absurd h.2 he
    · refine ⟨fun _ => ?_, fun hr => ?_⟩
      · cases drawMode
        all_goals simp only [if_true, if_false, Bool.false_eq_true, hplane, hv]
        all_goals
          refine And.intro ?_ rfl
          unfold eventsAdded
          apply Exists.intro
          refine And.intro ?_ ?_
          · simp only [DrawingState.log, setOrthographicProjection,
              setVolumeSliceViewingAndModelingTransformations,
              createSlicePlaneEquation_events, List.append_assoc]
            exact rfl
          · simp [Event.isAddItem, Event.isGetMapData]
      · rcases hr.2 with h | h
        · exact absurd h (by simp)
        · exact absurd h.1 (by simp)
  · refine ⟨fun _ => ?_, fun hr => absurd hr.1 hv⟩
    have hv2 : (createSlicePlaneEquation ctx st sliceViewPlane
        montageSliceIndex).1.isValidPlane = false := by
      simpa using hv
    cases drawMode
    all_goals simp only [if_true, if_false, Bool.false_eq_true, hplane, hv2]
    all_goals
      refine And.intro ?_ rfl
      unfold eventsAdded
      apply Exists.intro
      refine And.intro ?_ ?_
      · simp only [DrawingState.log, setOrthographicProjection,
          setVolumeSliceViewingAndModelingTransformations,
          createSlicePlaneEquation_events, List.append_assoc]
        first | exact rfl | exact (List.append_nil _).symm
      · simp [Event.isAddItem, Event.isGetMapData]

/-- C16: the identification records are local to a slice draw.
`resetIdentification` leaves the record sequence empty, and the identifier of
the next record 0, whatever the sequence held before.  Whenever
`drawSliceForSliceView` reaches the rasterizers (valid plane, drawing mode or
identification mode with the voxel identification enabled) the sequence it
leaves consists of the whole records of this call alone, each of
`IDENTIFICATION_INDICES_PER_VOXEL` fields, so its length is that multiple of
the number of records, and the identifiers handed to `addItem` during the call
count these records from 0; when it does not reach them the sequence is
untouched and `addItem` is not called.  Each rasterizer, from any state, keeps
the records it finds unmodified and appends whole records whose identifiers
continue the count. -/
theorem identification_records_are_draw_local (col : DrawCollaborators) (ctx : DrawingContext)
    (st : DrawingState) (sliceViewPlane : VolumeSliceViewPlaneEnum) (drawMode : DRAW_MODE)
    (montageSliceIndex : Int) (viewport : Viewport) :
    ((resetIdentification st).m_identificationIndices = []
      ∧ identificationIdIndex (resetIdentification st) = 0)
    ∧ (reachesRasterization col ctx st sliceViewPlane montageSliceIndex →
        ∃ records : List (List Int),
          (∀ r ∈ records, r.length = IDENTIFICATION_INDICES_PER_VOXEL)
          ∧ (drawSliceForSliceView col ctx st sliceViewPlane drawMode montageSliceIndex
              viewport).2.m_identificationIndices = records.flatten
          ∧ (drawSliceForSliceView col ctx st sliceViewPlane drawMode montageSliceIndex
              viewport).2.m_identificationIndices.length
                = IDENTIFICATION_INDICES_PER_VOXEL * records.length
          ∧ addedItemIds ((drawSliceForSliceView col ctx st sliceViewPlane drawMode
              montageSliceIndex viewport).2.events.drop st.events.length)
                = (List.range records.length).map (fun (n : Nat) => toInt32 (Int.ofNat n)))
    ∧ (¬ reachesRasterization col ctx st sliceViewPlane montageSliceIndex →
        (drawSliceForSliceView col ctx st sliceViewPlane drawMode montageSliceIndex
          viewport).2.m_identificationIndices = st.m_identificationIndices
        ∧ addedItemIds ((drawSliceForSliceView col ctx st sliceViewPlane drawMode
            montageSliceIndex viewport).2.events.drop st.events.length) = [])
    ∧ (∀ (ctx1 : DrawingContext) (st1 : DrawingState) (plane : Plane),
        identificationGrows st1
          (drawOrthogonalSlice ctx1 st1 drawMode sliceViewPlane plane montageSliceIndex))
    ∧ (∀ (ctx1 : DrawingContext) (st1 : DrawingState) (plane : Plane)
        (transformationMatrix : Matrix4x4) (zoom : ℚ),
        identificationGrows st1
          (drawObliqueSlice ctx1 st1 sliceViewPlane plane drawMode transformationMatrix zoom)) := by
  obtain ⟨hnot, hreach⟩ := drawSliceForSliceView_shape col ctx st sliceViewPlane drawMode
    montageSliceIndex viewport
  refine ⟨⟨rfl, ?_⟩, ?_, ?_, ?_, ?_⟩
  · simp only [identificationIdIndex, resetIdentification, List.length_nil, Nat.zero_div]
    rfl
  · intro h
    obtain ⟨ctx1, st1, slicePlane, matrix, ⟨pre, hpre, hP⟩, _, _, hres⟩ := hreach h
    obtain ⟨records, calls, hl, hi, he, hid⟩ := drawSliceForSliceViewFromReset_records col ctx1
      st1 sliceViewPlane drawMode montageSliceIndex slicePlane matrix
    refine ⟨records, hl, ?_, ?_, ?_⟩
    · rw [hres, hi]
    · rw [hres, hi]
      exact flatten_length_const _ records hl
    · rw [hres, he, hpre, List.append_assoc, List.drop_left, addedItemIds_append,
        addedItemIds_of_no_addItem pre (fun e h => (hP e h).1), List.nil_append, hid]
  · intro h
    obtain ⟨⟨pre, hpre, hP⟩, hi⟩ := hnot h
    refine ⟨hi, ?_⟩
    rw [hpre, List.drop_left]
    exact addedItemIds_of_no_addItem pre (fun e h => (hP e h).1)
  · intro ctx1 st1 plane
    exact drawOrthogonalSlice_invariant identificationGrows_invariant ctx1 st1 drawMode
      sliceViewPlane plane montageSliceIndex
  · intro ctx1 st1 plane transformationMatrix zoom
    exact drawObliqueSlice_invariant identificationGrows_invariant ctx1 st1 sliceViewPlane plane
      drawMode transformationMatrix zoom

theorem identification_records_are_draw_local_witness :
    reachesRasterization (exampleCollaborators Mode.MODE_IDENTIFICATION)
        (exampleContext [exampleOverlay exampleCube] VolumeSliceViewModeEnum.ORTHOGONAL 0)
        (exampleStateWithRecord false) VolumeSliceViewPlaneEnum.AXIAL 0
    ∧ ∃ records : List (List Int),
        (∀ r ∈ records, r.length = IDENTIFICATION_INDICES_PER_VOXEL)
        ∧ (drawSliceForSliceView (exampleCollaborators Mode.MODE_IDENTIFICATION)
            (exampleContext [exampleOverlay exampleCube] VolumeSliceViewModeEnum.ORTHOGONAL 0)
            (exampleStateWithRecord false) VolumeSliceViewPlaneEnum.AXIAL
            DRAW_MODE.DRAW_MODE_VOLUME_VIEW_SLICE_SINGLE 0
            ⟨0, 0, 100, 100⟩).2.m_identificationIndices = records.flatten
        ∧ (drawSliceForSliceView (exampleCollaborators Mode.MODE_IDENTIFICATION)
            (exampleContext [exampleOverlay exampleCube] VolumeSliceViewModeEnum.ORTHOGONAL 0)
            (exampleStateWithRecord false) VolumeSliceViewPlaneEnum.AXIAL
            DRAW_MODE.DRAW_MODE_VOLUME_VIEW_SLICE_SINGLE 0
            ⟨0, 0, 100, 100⟩).2.m_identificationIndices.length
              = IDENTIFICATION_INDICES_PER_VOXEL * records.length
        ∧ addedItemIds ((drawSliceForSliceView (exampleCollaborators Mode.MODE_IDENTIFICATION)
            (exampleContext [exampleOverlay exampleCube] VolumeSliceViewModeEnum.ORTHOGONAL 0)
            (exampleStateWithRecord false) VolumeSliceViewPlaneEnum.AXIAL
            DRAW_MODE.DRAW_MODE_VOLUME_VIEW_SLICE_SINGLE 0
            ⟨0, 0, 100, 100⟩).2.events.drop (exampleStateWithRecord false).events.length)
              = (List.range records.length).map (fun (n : Nat) => toInt32 (Int.ofNat n)) :=
  ⟨⟨by decide!, Or.inr ⟨rfl, rfl⟩⟩,
    (identification_records_are_draw_local (exampleCollaborators Mode.MODE_IDENTIFICATION)
      (exampleContext [exampleOverlay exampleCube] VolumeSliceViewModeEnum.ORTHOGONAL 0)
      (exampleStateWithRecord false) VolumeSliceViewPlaneEnum.AXIAL
      DRAW_MODE.DRAW_MODE_VOLUME_VIEW_SLICE_SINGLE 0 ⟨0, 0, 100, 100⟩).2.1
      ⟨by decide!, Or.inr ⟨rfl, rfl⟩⟩⟩

theorem identification_example_draw_records :
    (drawSliceForSliceView (exampleCollaborators Mode.MODE_IDENTIFICATION)
      (exampleContext [exampleOverlay exampleCube] VolumeSliceViewModeEnum.ORTHOGONAL 0)
      (exampleStateWithRecord false) VolumeSliceViewPlaneEnum.AXIAL
      DRAW_MODE.DRAW_MODE_VOLUME_VIEW_SLICE_SINGLE 0
      ⟨0, 0, 100, 100⟩).2.m_identificationIndices
      = [0, 0, 0, 0, 0, 0, 0, 1, 0, 0, 0, 0, 0, 1, 0, 0, 0, 1, 1, 0] := by
  decide!


theorem obliqueTraversal_slice (ctx : DrawingContext) (st : DrawingState)
    (sliceViewPlane : VolumeSliceViewPlaneEnum) (transformationMatrix : Matrix4x4)
    (voxelSize : ℚ) (i : Nat) (info : VolumeDrawInfo)
    (hi : ctx.m_volumeDrawInfo[i]? = some info) :
    ∃ slice : VolumeSlice,
      (obliqueTraversal ctx st sliceViewPlane transformationMatrix voxelSize).1[i]? = some slice
      ∧ slice.m_volumeMappableInterface = info.volumeFile
      ∧ slice.m_mapIndex = toInt32 info.mapIndex
      ∧ slice.m_rgba = [] := by
  have h := obliqueTraversal_map
    (fun v => (v.m_volumeMappableInterface, v.m_mapIndex, v.m_rgba)) (fun _ _ => rfl)
    ctx st sliceViewPlane transformationMatrix voxelSize
  have h2 := congrArg (fun l => l[i]?) h
  simp only [List.getElem?_map, hi, Option.map_some'] at h2
  cases hs : (obliqueTraversal ctx st sliceViewPlane transformationMatrix voxelSize).1[i]? with
  | none => rw [hs] at h2; exact absurd h2 (by simp)
  | some slice =>
    rw [hs] at h2
    simp only [Option.map_some', Option.some.injEq, VolumeSlice.create, Prod.mk.injEq] at h2
    exact ⟨slice, rfl, h2.1, h2.2.1, h2.2.2⟩

theorem obliqueCompositeEntry_withoutVolume (ctx : DrawingContext)
    (volumeSlices : List VolumeSlice) (vtd : VoxelToDraw) (iVol : Nat) :
    obliqueCompositeEntry ctx volumeSlices (vtd.withoutVolume iVol) =
      obliqueCompositeEntry ctx volumeSlices vtd := rfl

theorem obliqueEntryNonZero_of_zero_slice (volumeSlices : List VolumeSlice) (iVol : Nat)
    (slice : VolumeSlice) (n : Nat) (hs : volumeSlices[iVol]? = some slice)
    (hz : slice.m_rgba = List.replicate n 0) (entry : Int × Int)
    (he : entry.1 = (iVol : Int)) :
    obliqueEntryNonZero volumeSlices entry = false := by
  unfold obliqueEntryNonZero
  rw [he, Int.toNat_ofNat, hs]
  simp only [getRgbaForValueByIndex_of_zero slice n hz]
  decide

theorem obliqueCompositeVoxel_withoutVolume (ctx : DrawingContext)
    (volumeSlices : List VolumeSlice) (sliceNormalVector : Vec3) (iVol : Nat)
    (slice : VolumeSlice) (n : Nat) (hs : volumeSlices[iVol]? = some slice)
    (hz : slice.m_rgba = List.replicate n 0) (s : DrawingState × QuadBuffers)
    (vtd : VoxelToDraw) :
    obliqueCompositeVoxel ctx volumeSlices sliceNormalVector s (vtd.withoutVolume iVol) =
      obliqueCompositeVoxel ctx volumeSlices sliceNormalVector s vtd := by
  have hfold : obliqueCompositeVoxelRgba ctx volumeSlices (vtd.withoutVolume iVol) s.1 =
      obliqueCompositeVoxelRgba ctx volumeSlices vtd s.1 := by
    unfold obliqueCompositeVoxelRgba
    rw [obliqueCompositeEntry_withoutVolume]
    have hl := VoxelToDraw.linkedEntries_withoutVolume vtd iVol
    unfold VoxelToDraw.linkedEntries at hl
    rw [hl]
    symm
    apply foldl_filter_of_noop
    intro e _ hp s0
    apply obliqueCompositeEntry_of_zero
    apply obliqueEntryNonZero_of_zero_slice volumeSlices iVol slice n hs hz
    simpa using hp
  unfold obliqueCompositeVoxel
  simp only [hfold]
  rfl

theorem obliqueComposite_withoutVolume (ctx : DrawingContext)
    (volumeSlices : List VolumeSlice) (sliceNormalVector : Vec3) (iVol : Nat)
    (slice : VolumeSlice) (n : Nat) (hs : volumeSlices[iVol]? = some slice)
    (hz : slice.m_rgba = List.replicate n 0) (cells : List VoxelToDraw) (st : DrawingState) :
    obliqueComposite ctx volumeSlices sliceNormalVector
        (cells.map (fun c => c.withoutVolume iVol)) st =
      obliqueComposite ctx volumeSlices sliceNormalVector cells st := by
  unfold obliqueComposite
  rw [List.foldl_map]
  congr 1
  funext s vtd
  exact obliqueCompositeVoxel_withoutVolume ctx volumeSlices sliceNormalVector iVol slice n hs hz
    s vtd

theorem obliqueCompositeVoxel_of_only_zero_slice (ctx : DrawingContext)
    (volumeSlices : List VolumeSlice) (sliceNormalVector : Vec3) (iVol : Nat)
    (slice : VolumeSlice) (n : Nat) (hs : volumeSlices[iVol]? = some slice)
    (hz : slice.m_rgba = List.replicate n 0) (s : DrawingState × QuadBuffers)
    (vtd : VoxelToDraw) (honly : ∀ e ∈ vtd.linkedEntries, e.1 = (iVol : Int)) :
    obliqueCompositeVoxel ctx volumeSlices sliceNormalVector s vtd = s := by
  have hfold : obliqueCompositeVoxelRgba ctx volumeSlices vtd s.1 = (s.1, ⟨0, 0, 0, 0⟩) := by
    unfold obliqueCompositeVoxelRgba
    apply obliqueCompositeFold_of_zero
    intro e he
    exact obliqueEntryNonZero_of_zero_slice volumeSlices iVol slice n hs hz e (honly e he)
  unfold obliqueCompositeVoxel
  simp only [hfold]
  rfl

theorem obliqueColorVolumes_logs_missing_palette :
    ∀ (volumeSlices : List VolumeSlice) (k : Nat) (events : List Event) (j : Nat)
      (slice : VolumeSlice), volumeSlices[j]? = some slice →
      slice.m_volumeMappableInterface.isMappedWithPalette = true →
      slice.m_volumeMappableInterface.paletteFound slice.m_mapIndex = false →
      slice.m_values ≠ [] →
      Event.logWarningMissingPalette (k + j) ∈ (obliqueColorVolumes k volumeSlices events).2 := by
  intro volumeSlices
  induction volumeSlices with
  | nil => intro k events j slice h; simp at h
  | cons v rest ih =>
    intro k events j slice h hp hm hv
    cases j with
    | zero =>
      simp only [List.getElem?_cons_zero, Option.some.injEq] at h
      subst h
      obtain ⟨added, hadded, _⟩ := obliqueColorVolumes_events rest (k + 1)
        (obliqueColorVolume k v events).2
      simp only [obliqueColorVolumes, hadded, Nat.add_zero]
      apply List.mem_append_left
      have hlen : v.m_values.length > 0 := List.length_pos.mpr hv
      simp [obliqueColorVolume, hlen, VolumeSlice.allocateColors, hp, hm]
    | succ j =>
      simp only [List.getElem?_cons_succ] at h
      have := ih (k + 1) (obliqueColorVolume k v events).2 j slice h hp hm hv
      simp only [obliqueColorVolumes]
      rw [show k + (j + 1) = k + 1 + j by omega]
      exact this

/-- C17: when the palette of the palette-mapped overlay `i` is not found, the
oblique draw goes on (the warning is logged once the overlay has a sample):
after the colouring loop every byte of the colour buffer of the overlay is zero
and so is every colour read from it; every overlay is coloured from its own
values alone; the compositing of the cells, in either mode, is the compositing
of the cells without their links to the overlay; and a cell linked to this
overlay alone leaves the state and the quad buffers as they were. -/
theorem missing_palette_overlay_is_invisible (ctx : DrawingContext) (st : DrawingState)
    (sliceViewPlane : VolumeSliceViewPlaneEnum) (plane : Plane)
    (transformationMatrix : Matrix4x4) (voxelSize : ℚ) (i : Nat) (info : VolumeDrawInfo)
    (hi : ctx.m_volumeDrawInfo[i]? = some info)
    (hpalette : info.volumeFile.isMappedWithPalette = true)
    (hmissing : info.volumeFile.paletteFound (toInt32 info.mapIndex) = false) :
    (∃ slice : VolumeSlice,
      (obliqueColorVolumes 0
        (obliqueTraversal ctx st sliceViewPlane transformationMatrix voxelSize).1
        st.events).1[i]? = some slice
      ∧ slice.m_rgba = List.replicate (slice.m_values.length * 4) 0
      ∧ (∀ indx : Int, slice.getRgbaForValueByIndex indx = ⟨0, 0, 0, 0⟩)
      ∧ (slice.m_values ≠ [] → Event.logWarningMissingPalette i ∈
          (obliqueColorVolumes 0
            (obliqueTraversal ctx st sliceViewPlane transformationMatrix voxelSize).1
            st.events).2))
    ∧ (obliqueColorVolumes 0
        (obliqueTraversal ctx st sliceViewPlane transformationMatrix voxelSize).1
        st.events).1
        = (obliqueTraversal ctx st sliceViewPlane transformationMatrix voxelSize).1.map
            obliqueColoredSlice
    ∧ (∀ s : DrawingState,
        obliqueComposite ctx
          (obliqueColorVolumes 0
            (obliqueTraversal ctx st sliceViewPlane transformationMatrix voxelSize).1
            st.events).1 plane.m_normalVector
          (obliqueTraversal ctx st sliceViewPlane transformationMatrix voxelSize).2 s
        = obliqueComposite ctx
          (obliqueColorVolumes 0
            (obliqueTraversal ctx st sliceViewPlane transformationMatrix voxelSize).1
            st.events).1 plane.m_normalVector
          ((obliqueTraversal ctx st sliceViewPlane transformationMatrix voxelSize).2.map
            (fun cell => cell.withoutVolume i)) s)
    ∧ (∀ (s : DrawingState × QuadBuffers) (vtd : VoxelToDraw),
        (∀ e ∈ vtd.linkedEntries, e.1 = (i : Int)) →
        obliqueCompositeVoxel ctx
          (obliqueColorVolumes 0
            (obliqueTraversal ctx st sliceViewPlane transformationMatrix voxelSize).1
            st.events).1 plane.m_normalVector s vtd = s) := by
  obtain ⟨slice, hs, hfile, hmap, hrgba⟩ := obliqueTraversal_slice ctx st sliceViewPlane
    transformationMatrix voxelSize i info hi
  have hcol := obliqueColorVolumes_fst
    (obliqueTraversal ctx st sliceViewPlane transformationMatrix voxelSize).1 0 st.events
  have hzero := obliqueColoredSlice_missing_palette slice (by rw [hfile]; exact hpalette)
    (by rw [hfile, hmap]; exact hmissing) hrgba
  have hcs : (obliqueColorVolumes 0
      (obliqueTraversal ctx st sliceViewPlane transformationMatrix voxelSize).1
      st.events).1[i]? = some (obliqueColoredSlice slice) := by
    rw [hcol, List.getElem?_map, hs]
    rfl
  have hz : (obliqueColoredSlice slice).m_rgba
      = List.replicate ((obliqueColoredSlice slice).m_values.length * 4) 0 := by
    rw [hzero.1, hzero.2]
  refine ⟨⟨obliqueColoredSlice slice, hcs, hz, ?_, ?_⟩, hcol, ?_, ?_⟩
  · intro indx
    exact getRgbaForValueByIndex_of_zero _ _ hz indx
  · intro hv
    rw [hzero.2] at hv
    have := obliqueColorVolumes_logs_missing_palette
      (obliqueTraversal ctx st sliceViewPlane transformationMatrix voxelSize).1 0 st.events i
      slice hs (by rw [hfile]; exact hpalette) (by rw [hfile, hmap]; exact hmissing) hv
    rw [Nat.zero_add] at this
    exact this
  · intro s
    exact (obliqueComposite_withoutVolume ctx _ plane.m_normalVector i _ _ hcs hz _ s).symm
  · intro s vtd honly
    exact obliqueCompositeVoxel_of_only_zero_slice ctx _ plane.m_normalVector i _ _ hcs hz s vtd
      honly

theorem missing_palette_overlay_is_invisible_witness :
    (exampleContext [exampleOverlay exampleCube, exampleOverlay exampleMissingPalette]
        VolumeSliceViewModeEnum.OBLIQUE 0).m_volumeDrawInfo[1]?
      = some (exampleOverlay exampleMissingPalette)
    ∧ (exampleOverlay exampleMissingPalette).volumeFile.isMappedWithPalette = true
    ∧ (exampleOverlay exampleMissingPalette).volumeFile.paletteFound
        (toInt32 (exampleOverlay exampleMissingPalette).mapIndex) = false
    ∧ (obliqueColorVolumes 0
        (obliqueTraversal
          (exampleContext [exampleOverlay exampleCube, exampleOverlay exampleMissingPalette]
            VolumeSliceViewModeEnum.OBLIQUE 0)
          (exampleState false) VolumeSliceViewPlaneEnum.AXIAL exampleIdentityMatrix 1).1
        (exampleState false).events).1
        = (obliqueTraversal
          (exampleContext [exampleOverlay exampleCube, exampleOverlay exampleMissingPalette]
            VolumeSliceViewModeEnum.OBLIQUE 0)
          (exampleState false) VolumeSliceViewPlaneEnum.AXIAL exampleIdentityMatrix 1).1.map
            obliqueColoredSlice :=
  ⟨rfl, rfl, rfl,
    (missing_palette_overlay_is_invisible
      (exampleContext [exampleOverlay exampleCube, exampleOverlay exampleMissingPalette]
        VolumeSliceViewModeEnum.OBLIQUE 0)
      (exampleState false) VolumeSliceViewPlaneEnum.AXIAL ⟨⟨0, 0, 1⟩, ⟨0, 0, 0⟩⟩
      exampleIdentityMatrix 1 1 (exampleOverlay exampleMissingPalette) rfl rfl rfl).2.1⟩


/-! ## The whole-map fetches of a draw -/

theorem isGetMapData_of_isRasterizerCall (e : Event) (h : e.isRasterizerCall = true) :
    e.isGetMapData = false := by
  cases e <;> first | rfl | exact absurd h (by simp [Event.isRasterizerCall])

theorem noGetMapData_invariant :
    RasterizerInvariant
      (fun a b => eventsAdded (fun e => e.isGetMapData = false) a.events b.events) where
  refl := fun _ => eventsAdded_refl _ _
  trans := fun _ _ _ h1 h2 => eventsAdded_trans _ h1 h2
  events := fun _ _ h =>
    eventsAdded_append _ _ _ (fun e he => isGetMapData_of_isRasterizerCall e (h e he))
  addVoxel := fun ctx s volumeIndex mapIndex i j k rgba =>
    addVoxelToIdentification_eventsAdded (fun e => e.isGetMapData = false) (fun _ => rfl) ctx s
      volumeIndex mapIndex i j k rgba

theorem drawSliceForSliceViewFromReset_noGetMapData (col : DrawCollaborators)
    (ctx : DrawingContext) (st : DrawingState) (sliceViewPlane : VolumeSliceViewPlaneEnum)
    (drawMode : DRAW_MODE) (montageSliceIndex : Int) (slicePlane : Plane)
    (obliqueTransformationMatrix : Matrix4x4) :
    eventsAdded (fun e => e.isGetMapData = false) st.events
      (drawSliceForSliceViewFromReset col ctx st sliceViewPlane drawMode montageSliceIndex
        slicePlane obliqueTransformationMatrix).events := by
  have h1 : eventsAdded (fun e => e.isGetMapData = false) st.events
      ((resetIdentification st).log [Event.glDisableCullFace]).events :=
    eventsAdded_append _ _ _ (by simp [Event.isGetMapData])
  have h2 := drawSliceForSliceViewRasterize_invariant noGetMapData_invariant ctx
    ((resetIdentification st).log [Event.glDisableCullFace]) sliceViewPlane drawMode
    montageSliceIndex slicePlane obliqueTransformationMatrix
  refine eventsAdded_trans _ (eventsAdded_trans _ h1 h2) ?_
  unfold drawSliceForSliceViewFromReset eventsAdded DrawingState.log
  simp only []
  repeat' split
  all_goals
    apply Exists.intro
    refine And.intro ?_ ?_
    · try simp only [List.append_assoc]
      exact rfl
    · simp [Event.isGetMapData]

theorem drawSliceForSliceView_context (col : DrawCollaborators) (ctx : DrawingContext)
    (st : DrawingState) (sliceViewPlane : VolumeSliceViewPlaneEnum) (drawMode : DRAW_MODE)
    (montageSliceIndex : Int) (viewport : Viewport) :
    (drawSliceForSliceView col ctx st sliceViewPlane drawMode montageSliceIndex
      viewport).1.m_ciftiMappableFileData = ctx.m_ciftiMappableFileData := by
  unfold drawSliceForSliceView
  cases drawMode
  all_goals
    simp only [if_true, if_false, Bool.false_eq_true]
    repeat' split
    all_goals rfl

theorem keepsMapData_refl (s : DrawingContext × DrawingState) : keepsMapData s s :=
  ⟨rfl, eventsAdded_refl _ _⟩

theorem keepsMapData_trans {a b c : DrawingContext × DrawingState} (h1 : keepsMapData a b)
    (h2 : keepsMapData b c) : keepsMapData a c :=
  ⟨h2.1.trans h1.1, eventsAdded_trans _ h1.2 h2.2⟩

theorem keepsMapData_log (ctx : DrawingContext) (st : DrawingState) (es : List Event)
    (h : ∀ e ∈ es, e.isGetMapData = false) : keepsMapData (ctx, st) (ctx, st.log es) :=
  ⟨rfl, eventsAdded_append _ _ _ h⟩

theorem drawSliceForSliceView_keepsMapData (col : DrawCollaborators) (ctx : DrawingContext)
    (st : DrawingState) (sliceViewPlane : VolumeSliceViewPlaneEnum) (drawMode : DRAW_MODE)
    (montageSliceIndex : Int) (viewport : Viewport) :
    keepsMapData (ctx, st)
      (drawSliceForSliceView col ctx st sliceViewPlane drawMode montageSliceIndex viewport) := by
  refine ⟨drawSliceForSliceView_context col ctx st sliceViewPlane drawMode montageSliceIndex
    viewport, ?_⟩
  obtain ⟨hnot, hreach⟩ := drawSliceForSliceView_shape col ctx st sliceViewPlane drawMode
    montageSliceIndex viewport
  by_cases h : reachesRasterization col ctx st sliceViewPlane montageSliceIndex
  · obtain ⟨ctx1, st1, slicePlane, matrix, hpre, _, _, hres⟩ := hreach h
    rw [hres]
    exact eventsAdded_trans _ (eventsAdded_mono (fun e he => he.2) hpre)
      (drawSliceForSliceViewFromReset_noGetMapData col ctx1 st1 sliceViewPlane drawMode
        montageSliceIndex slicePlane matrix)
  · exact eventsAdded_mono (fun e he => he.2) (hnot h).1

theorem drawSliceForSliceViewPushed_keepsMapData (col : DrawCollaborators)
    (s : DrawingContext × DrawingState) (sliceViewPlane : VolumeSliceViewPlaneEnum)
    (drawMode : DRAW_MODE) (montageSliceIndex : Int) (viewport : Viewport) :
    keepsMapData s
      (drawSliceForSliceViewPushed col s sliceViewPlane drawMode montageSliceIndex viewport) := by
  unfold drawSliceForSliceViewPushed
  exact keepsMapData_trans (keepsMapData_trans
    (keepsMapData_log s.1 s.2 [Event.glPushMatrix] (by simp [Event.isGetMapData]))
    (drawSliceForSliceView_keepsMapData col s.1 _ sliceViewPlane drawMode montageSliceIndex
      viewport))
    (keepsMapData_log _ _ [Event.glPopMatrix] (by simp [Event.isGetMapData]))

theorem foldl_keepsMapData {α β : Type}
    (f : DrawingContext × DrawingState × β → α → DrawingContext × DrawingState × β)
    (hf : ∀ s x, keepsMapData (s.1, s.2.1) ((f s x).1, (f s x).2.1)) :
    ∀ (xs : List α) (s : DrawingContext × DrawingState × β),
      keepsMapData (s.1, s.2.1) ((xs.foldl f s).1, (xs.foldl f s).2.1) := by
  intro xs
  induction xs with
  | nil => intro s; exact keepsMapData_refl _
  | cons x rest ih =>
    intro s
    rw [List.foldl_cons]
    exact keepsMapData_trans (hf s x) (ih (f s x))

theorem drawSliceMontageCell_keepsMapData (col : DrawCollaborators) (viewport : Viewport)
    (slicePlane : VolumeSliceViewPlaneEnum) (maximumSliceIndex sliceStep : Int)
    (sliceOrigin sliceThickness : ℚ) (numRows vpSizeX vpSizeY montageMargin : Int) (i j : Nat)
    (s : DrawingContext × DrawingState × Int) :
    keepsMapData (s.1, s.2.1)
      ((drawSliceMontageCell col viewport slicePlane maximumSliceIndex sliceStep sliceOrigin
          sliceThickness numRows vpSizeX vpSizeY montageMargin i j s).1,
        (drawSliceMontageCell col viewport slicePlane maximumSliceIndex sliceStep sliceOrigin
          sliceThickness numRows vpSizeX vpSizeY montageMargin i j s).2.1) := by
  unfold drawSliceMontageCell
  simp only []
  split
  · split
    · exact keepsMapData_refl _
    · split
      · exact keepsMapData_trans
          (drawSliceForSliceView_keepsMapData col s.1 s.2.1 slicePlane _ _ _)
          (keepsMapData_log _ _ _ (by simp [Event.isGetMapData]))
      · exact drawSliceForSliceView_keepsMapData col s.1 s.2.1 slicePlane _ _ _
  · exact keepsMapData_refl _

theorem drawSliceMontage_keepsMapData (col : DrawCollaborators) (ctx : DrawingContext)
    (st : DrawingState) (viewport : Viewport) :
    keepsMapData (ctx, st) (drawSliceMontage col ctx st viewport) := by
  unfold drawSliceMontage
  simp only []
  have hloop : ∀ (maximumSliceIndex sliceStep : Int) (sliceOrigin sliceThickness : ℚ)
      (numRows vpSizeX vpSizeY montageMargin : Int) (rows cols : List Nat)
      (s : DrawingContext × DrawingState × Int),
      keepsMapData (s.1, s.2.1)
        ((rows.foldl (fun s i => cols.foldl (fun s j =>
            drawSliceMontageCell col viewport col.getSliceViewPlane maximumSliceIndex sliceStep
              sliceOrigin sliceThickness numRows vpSizeX vpSizeY montageMargin i j s) s) s).1,
          (rows.foldl (fun s i => cols.foldl (fun s j =>
            drawSliceMontageCell col viewport col.getSliceViewPlane maximumSliceIndex sliceStep
              sliceOrigin sliceThickness numRows vpSizeX vpSizeY montageMargin i j s) s) s).2.1) := by
    intro maximumSliceIndex sliceStep sliceOrigin sliceThickness numRows vpSizeX vpSizeY
      montageMargin rows cols s
    refine foldl_keepsMapData _ (fun s i => ?_) rows s
    exact foldl_keepsMapData _ (fun s j => drawSliceMontageCell_keepsMapData col viewport _ _ _
      _ _ _ _ _ _ i j s) cols s
  split_ifs
  · exact keepsMapData_trans (keepsMapData_trans (hloop _ _ _ _ _ _ _ _ _ _ (ctx, st, _))
      (keepsMapData_log _ _ _ (by simp [Event.isGetMapData])))
      (keepsMapData_log _ _ _ (by simp [Event.isGetMapData]))
  · exact keepsMapData_trans (hloop _ _ _ _ _ _ _ _ _ _ (ctx, st, _))
      (keepsMapData_log _ _ _ (by simp [Event.isGetMapData]))
  · exact keepsMapData_trans (keepsMapData_log _ _ _ (by simp [Event.isGetMapData]))
      (keepsMapData_log _ _ _ (by simp [Event.isGetMapData]))
  · exact keepsMapData_log _ _ _ (by simp [Event.isGetMapData])

theorem keepsMapData_log_pair (s : DrawingContext × DrawingState) (es : List Event)
    (h : ∀ e ∈ es, e.isGetMapData = false) : keepsMapData s (s.1, s.2.log es) :=
  ⟨rfl, eventsAdded_append _ _ _ h⟩

theorem keepsMapData_pushed_if (col : DrawCollaborators) (b : Bool)
    (plane : VolumeSliceViewPlaneEnum) (drawMode : DRAW_MODE) (montageSliceIndex : Int)
    (viewport : Viewport) (a s : DrawingContext × DrawingState) (h : keepsMapData a s) :
    keepsMapData a
      (if b = true then
        drawSliceForSliceViewPushed col s plane drawMode montageSliceIndex viewport
      else s) := by
  split
  · exact keepsMapData_trans h (drawSliceForSliceViewPushed_keepsMapData col s _ _ _ _)
  · exact h

theorem drawSlicesForAllStructuresView_keepsMapData (col : DrawCollaborators)
    (ctx : DrawingContext) (st : DrawingState) (viewport : Viewport) :
    keepsMapData (ctx, st) (drawSlicesForAllStructuresView col ctx st viewport) := by
  unfold drawSlicesForAllStructuresView
  simp only []
  refine keepsMapData_pushed_if col _ _ _ _ _ _ _ ?_
  refine keepsMapData_pushed_if col _ _ _ _ _ _ _ ?_
  refine keepsMapData_pushed_if col _ _ _ _ _ _ _ ?_
  exact ⟨rfl, eventsAdded_refl _ _⟩

theorem setOrthographicProjection_keepsMapData (col : DrawCollaborators) (ctx : DrawingContext)
    (st : DrawingState) (sliceViewPlane : VolumeSliceViewPlaneEnum) (viewport : Viewport) :
    keepsMapData (ctx, st) (setOrthographicProjection col ctx st sliceViewPlane viewport) := by
  obtain ⟨_, _, _, _, h5, _, _, added, hadded, hP⟩ :=
    setOrthographicProjection_spec col ctx st sliceViewPlane viewport
  exact ⟨h5, added, hadded, fun e he => (hP e he).2⟩

theorem drawAllThreeSlicesForVolumeSliceView_keepsMapData (col : DrawCollaborators)
    (ctx : DrawingContext) (st : DrawingState) (viewport : Viewport) :
    keepsMapData (ctx, st) (drawAllThreeSlicesForVolumeSliceView col ctx st viewport) := by
  unfold drawAllThreeSlicesForVolumeSliceView
  simp only []
  refine keepsMapData_trans ?_ (keepsMapData_log_pair _ _ (by simp [Event.isGetMapData]))
  refine keepsMapData_trans ?_ (drawSliceForSliceViewPushed_keepsMapData col _ _ _ _ _)
  refine keepsMapData_trans ?_ (drawSliceForSliceViewPushed_keepsMapData col _ _ _ _ _)
  refine keepsMapData_trans ?_ (drawSliceForSliceViewPushed_keepsMapData col _ _ _ _ _)
  refine keepsMapData_trans ?_ (keepsMapData_log_pair _ _ (by simp [Event.isGetMapData]))
  refine keepsMapData_trans ?_ (setOrthographicProjection_keepsMapData col ctx _ _ _)
  exact keepsMapData_log ctx st _ (by simp [Event.isGetMapData])

theorem drawAllThreeSlicesForVolumeSliceView_keepsMapData_pair (col : DrawCollaborators)
    (s : DrawingContext × DrawingState) (viewport : Viewport) :
    keepsMapData s (drawAllThreeSlicesForVolumeSliceView col s.1 s.2 viewport) :=
  drawAllThreeSlicesForVolumeSliceView_keepsMapData col s.1 s.2 viewport

theorem drawVolumeModelViews_keepsMapData (col : DrawCollaborators) (ctx : DrawingContext)
    (st : DrawingState) (viewport : Viewport) :
    keepsMapData (ctx, st) (drawVolumeModelViews col ctx st viewport) := by
  have hstart : keepsMapData (ctx, st) (ctx, st.log [Event.glEnableDepthTest]) :=
    keepsMapData_log ctx st _ (by simp [Event.isGetMapData])
  unfold drawVolumeModelViews
  simp only []
  cases hplane : col.getSliceViewPlane
  · simp only []
    split_ifs
    · refine keepsMapData_trans ?_ (keepsMapData_log_pair _ _ (by simp [Event.isGetMapData]))
      refine keepsMapData_trans ?_ (drawSliceForSliceViewPushed_keepsMapData col _ _ _ _ _)
      refine keepsMapData_trans ?_ (drawSliceForSliceViewPushed_keepsMapData col _ _ _ _ _)
      refine keepsMapData_trans ?_ (drawSliceForSliceViewPushed_keepsMapData col _ _ _ _ _)
      exact hstart
    · refine keepsMapData_trans ?_
        (drawAllThreeSlicesForVolumeSliceView_keepsMapData_pair col _ _)
      refine keepsMapData_trans ?_ (drawSliceForSliceViewPushed_keepsMapData col _ _ _ _ _)
      refine keepsMapData_trans ?_ (drawSliceForSliceViewPushed_keepsMapData col _ _ _ _ _)
      refine keepsMapData_trans ?_ (drawSliceForSliceViewPushed_keepsMapData col _ _ _ _ _)
      exact hstart
    · refine keepsMapData_trans ?_ (drawSliceForSliceViewPushed_keepsMapData col _ _ _ _ _)
      refine keepsMapData_trans ?_ (drawSliceForSliceViewPushed_keepsMapData col _ _ _ _ _)
      refine keepsMapData_trans ?_ (drawSliceForSliceViewPushed_keepsMapData col _ _ _ _ _)
      exact hstart
  all_goals
    simp only []
    split_ifs
    · refine keepsMapData_trans ?_ (keepsMapData_log _ _ _ (by simp [Event.isGetMapData]))
      refine keepsMapData_trans ?_ (keepsMapData_log _ _ _ (by simp [Event.isGetMapData]))
      refine keepsMapData_trans ?_ (keepsMapData_log_pair _ _ (by simp [Event.isGetMapData]))
      refine keepsMapData_trans ?_ (drawSliceForSliceViewPushed_keepsMapData col _ _ _ _ _)
      exact hstart
    · refine keepsMapData_trans ?_ (keepsMapData_log _ _ _ (by simp [Event.isGetMapData]))
      refine keepsMapData_trans ?_ (keepsMapData_log_pair _ _ (by simp [Event.isGetMapData]))
      refine keepsMapData_trans ?_ (drawSliceForSliceViewPushed_keepsMapData col _ _ _ _ _)
      exact hstart
    · refine keepsMapData_trans ?_ (drawSliceForSliceViewPushed_keepsMapData col _ _ _ _ _)
      exact hstart

theorem drawFetchMapData_events (col : DrawCollaborators) :
    ∀ (infos : List VolumeDrawInfo) (i : Nat) (s : List (List ℚ) × List Event),
      (drawFetchMapData col i infos s).2 = s.2 ++
        ((infos.enumFrom i).filter (fun p => p.2.volumeFile.isCiftiMappableDataFile)).map
          (fun p => Event.getMapData p.1 p.2.mapIndex) := by
  intro infos
  induction infos with
  | nil => intro i s; simp [drawFetchMapData]
  | cons info rest ih =>
    intro i s
    simp only [drawFetchMapData, List.enumFrom_cons, List.filter_cons]
    rw [ih]
    by_cases h : info.volumeFile.isCiftiMappableDataFile = true
    · simp [h]
    · simp [h]

theorem drawFetchMapData_earlier (col : DrawCollaborators) :
    ∀ (infos : List VolumeDrawInfo) (i : Nat) (s : List (List ℚ) × List Event) (k : Nat),
      k < i → k < s.1.length → (drawFetchMapData col i infos s).1[k]? = s.1[k]? := by
  intro infos
  induction infos with
  | nil => intro i s k _ _; simp [drawFetchMapData]
  | cons info rest ih =>
    intro i s k hk hlen
    simp only [drawFetchMapData]
    by_cases h : info.volumeFile.isCiftiMappableDataFile = true
    · simp only [h, if_true]
      rw [ih (i + 1) _ k (by omega) (by simp; omega)]
      simp only []
      rw [List.getElem?_set_ne (by omega), List.getElem?_append_left hlen]
    · simp only [h, if_false, Bool.false_eq_true]
      rw [ih (i + 1) _ k (by omega) (by simp; omega)]
      simp only []
      rw [List.getElem?_append_left hlen]

theorem drawFetchMapData_data (col : DrawCollaborators) :
    ∀ (infos : List VolumeDrawInfo) (i : Nat) (s : List (List ℚ) × List Event) (j : Nat)
      (info : VolumeDrawInfo), i ≤ s.1.length → infos[j]? = some info →
      info.volumeFile.isCiftiMappableDataFile = true →
      (drawFetchMapData col i infos s).1[i + j]? =
        some (col.getMapData info.volumeFile info.mapIndex) := by
  intro infos
  induction infos with
  | nil => intro i s j info _ h; simp at h
  | cons first rest ih =>
    intro i s j info hlen hj hcifti
    cases j with
    | zero =>
      simp only [List.getElem?_cons_zero, Option.some.injEq] at hj
      subst hj
      simp only [drawFetchMapData, hcifti, if_true, Nat.add_zero]
      rw [drawFetchMapData_earlier col rest (i + 1) _ i (by omega) (by simp; omega)]
      simp only []
      rw [List.getElem?_set_self (by simp; omega)]
    | succ j =>
      simp only [List.getElem?_cons_succ] at hj
      simp only [drawFetchMapData]
      rw [show i + (j + 1) = i + 1 + j by omega]
      apply ih (i + 1) _ j info _ hj hcifti
      by_cases h : first.volumeFile.isCiftiMappableDataFile = true
      · simp [h]; omega
      · simp [h]; omega

theorem keepsMapData_pushed_if_all (col : DrawCollaborators) (b : Bool) (viewport : Viewport)
    (a s : DrawingContext × DrawingState) (h : keepsMapData a s) :
    keepsMapData a
      (if b = true then drawSlicesForAllStructuresView col s.1 s.2 viewport else s) := by
  split
  · exact keepsMapData_trans h (drawSlicesForAllStructuresView_keepsMapData col s.1 s.2 viewport)
  · exact h

theorem filter_isGetMapData_of_none (l : List Event) (h : ∀ e ∈ l, e.isGetMapData = false) :
    l.filter Event.isGetMapData = [] := by
  rw [List.filter_eq_nil_iff]
  intro e he
  rw [h e he]
  exact Bool.false_ne_true

theorem filter_isGetMapData_mapDataFetches (l : List (Nat × VolumeDrawInfo)) :
    (l.map (fun p => Event.getMapData p.1 p.2.mapIndex)).filter Event.isGetMapData =
      l.map (fun p => Event.getMapData p.1 p.2.mapIndex) := by
  rw [List.filter_eq_self]
  intro e he
  obtain ⟨p, _, rfl⟩ := List.mem_map.1 he
  rfl

theorem draw_shape (col : DrawCollaborators) (ctx : DrawingContext) (st : DrawingState)
    (viewport : Viewport) (hne : ctx.m_volumeDrawInfo.isEmpty = false) :
    keepsMapData
      (({ ctx with m_ciftiMappableFileData := (drawFetchMapData col 0 ctx.m_volumeDrawInfo
          (ctx.m_ciftiMappableFileData, st.events ++ [Event.glMatrixModeModelview])).1 } :
            DrawingContext),
        ({ st with events := (drawFetchMapData col 0 ctx.m_volumeDrawInfo
          (ctx.m_ciftiMappableFileData, st.events ++ [Event.glMatrixModeModelview])).2 } :
            DrawingState))
      (draw col ctx st viewport) := by
  unfold draw
  simp only [hne, Bool.false_eq_true, if_false, DrawingState.log]
  refine keepsMapData_pushed_if_all col _ _ _ _ ?_
  split
  · cases ctx.m_sliceViewMode
    · exact drawSliceMontage_keepsMapData col _ _ viewport
    · exact drawVolumeModelViews_keepsMapData col _ _ viewport
    · exact drawVolumeModelViews_keepsMapData col _ _ viewport
  · exact keepsMapData_refl _

/-- C18: during one call of `draw` the calls of `getMapData` are exactly one
per overlay that is a `CiftiMappableDataFile`, in the order of the overlays,
each with the position and the map index of its overlay, whatever views, slice
planes and cells are drawn; after them the buffer of `m_ciftiMappableFileData`
at the position of each such overlay holds the data fetched for it, and the
views leave it there.  In the oblique traversal an overlay that is a
`CiftiMappableDataFile` (and so no palette-mapped `VolumeFile`) is sampled by
the value at the voxel offset in the buffer at its position in the overlay
list, a negative offset giving no sample. -/
theorem map_data_fetched_once_per_cifti_overlay (col : DrawCollaborators) (ctx : DrawingContext)
    (st : DrawingState) (viewport : Viewport) :
    (∃ added : List Event,
      (draw col ctx st viewport).2.events = st.events ++ added
      ∧ added.filter Event.isGetMapData = mapDataFetches ctx.m_volumeDrawInfo)
    ∧ (∀ (i : Nat) (info : VolumeDrawInfo), ctx.m_volumeDrawInfo[i]? = some info →
        info.volumeFile.isCiftiMappableDataFile = true →
        (draw col ctx st viewport).1.m_ciftiMappableFileData[i]? =
          some (col.getMapData info.volumeFile info.mapIndex))
    ∧ (∀ (ctx1 : DrawingContext) (iVol : Nat) (vdi : VolumeDrawInfo) (voxelCenter : Vec3),
        vdi.volumeFile.isCiftiMappableDataFile = true →
        vdi.volumeFile.isVolumeFile = false →
        obliqueSampleVolume ctx1 iVol vdi voxelCenter =
          if vdi.volumeFile.getMapDataOffsetForVoxelAtCoordinate voxelCenter vdi.mapIndex ≥ 0 then
            ((ctx1.m_ciftiMappableFileData.getD iVol []).getD
              (vdi.volumeFile.getMapDataOffsetForVoxelAtCoordinate voxelCenter
                vdi.mapIndex).toNat 0, true)
          else (0, false)) := by
  refine ⟨?_, ?_, ?_⟩
  · by_cases hne : ctx.m_volumeDrawInfo.isEmpty = true
    · refine ⟨[], ?_, ?_⟩
      · simp [draw, hne]
      · rw [List.isEmpty_iff] at hne
        rw [hne]
        rfl
    · have hne2 : ctx.m_volumeDrawInfo.isEmpty = false := by simpa using hne
      obtain ⟨_, views, hviews, hP⟩ := draw_shape col ctx st viewport hne2
      have hfetch : (drawFetchMapData col 0 ctx.m_volumeDrawInfo
          (ctx.m_ciftiMappableFileData, st.events ++ [Event.glMatrixModeModelview])).2 =
          st.events ++ [Event.glMatrixModeModelview] ++ mapDataFetches ctx.m_volumeDrawInfo :=
        drawFetchMapData_events col ctx.m_volumeDrawInfo 0
          (ctx.m_ciftiMappableFileData, st.events ++ [Event.glMatrixModeModelview])
      simp only [] at hviews
      refine ⟨[Event.glMatrixModeModelview] ++ mapDataFetches ctx.m_volumeDrawInfo ++ views,
        ?_, ?_⟩
      · rw [hviews, hfetch, List.append_assoc, List.append_assoc, List.append_assoc]
      · rw [List.filter_append, List.filter_append, filter_isGetMapData_of_none views hP,
          List.append_nil]
        unfold mapDataFetches
        rw [filter_isGetMapData_mapDataFetches]
        rfl
  · intro i info hi hcifti
    have hne : ctx.m_volumeDrawInfo.isEmpty = false := by
      cases h : ctx.m_volumeDrawInfo with
      | nil => rw [h] at hi; simp at hi
      | cons _ _ => rfl
    obtain ⟨hdata, _⟩ := draw_shape col ctx st viewport hne
    rw [hdata]
    have := drawFetchMapData_data col ctx.m_volumeDrawInfo 0
      (ctx.m_ciftiMappableFileData, st.events ++ [Event.glMatrixModeModelview]) i info
      (Nat.zero_le _) hi hcifti
    rw [Nat.zero_add] at this
    exact this
  · intro ctx1 iVol vdi voxelCenter hcifti hvolume
    unfold obliqueSampleVolume
    simp only [hvolume, hcifti, Bool.false_and, Bool.false_eq_true, if_false, if_true]

theorem map_data_fetched_once_per_cifti_overlay_witness :
    (exampleOverlay exampleCifti).volumeFile.isCiftiMappableDataFile = true
    ∧ (exampleOverlay exampleCifti).volumeFile.isVolumeFile = false
    ∧ obliqueSampleVolume
        { exampleContext [exampleOverlay exampleCube, exampleOverlay exampleCifti]
            VolumeSliceViewModeEnum.OBLIQUE 0 with m_ciftiMappableFileData := [[], [5, 7]] }
        1 (exampleOverlay exampleCifti) ⟨1, 0, 0⟩ =
          if (exampleOverlay exampleCifti).volumeFile.getMapDataOffsetForVoxelAtCoordinate
              ⟨1, 0, 0⟩ (exampleOverlay exampleCifti).mapIndex ≥ 0 then
            (((({ exampleContext [exampleOverlay exampleCube, exampleOverlay exampleCifti]
                VolumeSliceViewModeEnum.OBLIQUE 0 with
                  m_ciftiMappableFileData := [[], [5, 7]] } :
                    DrawingContext).m_ciftiMappableFileData.getD 1 []).getD
              ((exampleOverlay exampleCifti).volumeFile.getMapDataOffsetForVoxelAtCoordinate
                ⟨1, 0, 0⟩ (exampleOverlay exampleCifti).mapIndex).toNat 0), true)
          else (0, false) :=
  ⟨rfl, rfl,
    (map_data_fetched_once_per_cifti_overlay (exampleCollaborators Mode.MODE_DRAWING)
      (exampleContext [exampleOverlay exampleCube, exampleOverlay exampleCifti]
        VolumeSliceViewModeEnum.OBLIQUE 0)
      (exampleState false) ⟨0, 0, 100, 100⟩).2.2 _ 1 (exampleOverlay exampleCifti) ⟨1, 0, 0⟩
      rfl rfl⟩

theorem map_data_example_draw_fetches :
    ((draw (exampleCollaborators Mode.MODE_DRAWING)
      (exampleContext [exampleOverlay exampleCube, exampleOverlay exampleCifti,
        exampleOverlay exampleCifti] VolumeSliceViewModeEnum.ORTHOGONAL 0)
      (exampleState false) ⟨0, 0, 100, 100⟩).2.events.filter Event.isGetMapData
        = [Event.getMapData 1 0, Event.getMapData 2 0])
    ∧ (draw (exampleCollaborators Mode.MODE_DRAWING)
      (exampleContext [exampleOverlay exampleCube, exampleOverlay exampleCifti,
        exampleOverlay exampleCifti] VolumeSliceViewModeEnum.ORTHOGONAL 0)
      (exampleState false) ⟨0, 0, 100, 100⟩).1.m_ciftiMappableFileData
        = [[], [0, 1], [0, 1], [], [], []] := by
  decide!


/-! ## The search for the first slice of a montage -/

theorem montageFirstValidSlice_of_exit (maximumSliceIndex sliceStep sliceIndex : Int)
    (h : sliceIndex < 0 ∨ sliceIndex < maximumSliceIndex) (fuel : Nat) :
    montageFirstValidSlice maximumSliceIndex sliceStep fuel sliceIndex = sliceIndex := by
  cases fuel with
  | zero => rfl
  | succ n =>
    simp only [montageFirstValidSlice]
    by_cases h0 : sliceIndex ≥ 0
    · have h1 : sliceIndex < maximumSliceIndex := by
        rcases h with h | h
        · omega
        · exact h
      simp [h0, h1]
    · simp [h0]

theorem montageFirstValidSlice_iterations (maximumSliceIndex sliceStep : Int)
    (hstep : 1 ≤ sliceStep) :
    ∀ (n : Nat) (start : Int), start < n →
      ∃ k : Nat, k ≤ n
        ∧ (∀ fuel, k ≤ fuel →
            montageFirstValidSlice maximumSliceIndex sliceStep fuel start = start - k * sliceStep)
        ∧ (start - k * sliceStep < 0 ∨ start - k * sliceStep < maximumSliceIndex)
        ∧ (∀ j : Nat, j < k →
            0 ≤ start - j * sliceStep ∧ maximumSliceIndex ≤ start - j * sliceStep) := by
  intro n
  induction n with
  | zero =>
    intro start h
    refine ⟨0, le_refl _, ?_, ?_, ?_⟩
    · intro fuel _
      simp only [Nat.cast_zero, zero_mul, sub_zero]
      exact montageFirstValidSlice_of_exit _ _ _ (Or.inl (by simpa using h)) fuel
    · left
      simpa using h
    · intro j hj
      omega
  | succ n ih =>
    intro start h
    by_cases hexit : start < 0 ∨ start < maximumSliceIndex
    · refine ⟨0, Nat.zero_le _, ?_, ?_, ?_⟩
      · intro fuel _
        simp only [Nat.cast_zero, zero_mul, sub_zero]
        exact montageFirstValidSlice_of_exit _ _ _ hexit fuel
      · simpa using hexit
      · intro j hj
        omega
    · have h0 : 0 ≤ start := by
        by_contra hc
        exact hexit (Or.inl (by omega))
      have h1 : maximumSliceIndex ≤ start := by
        by_contra hc
        exact hexit (Or.inr (by omega))
      have hlt : start - sliceStep < (n : Int) := by
        push_cast at h
        omega
      obtain ⟨k, hk, hfuel, hex, hbefore⟩ := ih (start - sliceStep) hlt
      refine ⟨k + 1, by omega, ?_, ?_, ?_⟩
      · intro fuel hf
        obtain ⟨m, rfl⟩ : ∃ m, fuel = m + 1 := ⟨fuel - 1, by omega⟩
        have h0' : start ≥ 0 := h0
        have h1' : ¬ start < maximumSliceIndex := by omega
        simp only [montageFirstValidSlice, h0', h1', if_true, if_false]
        rw [hfuel m (by omega)]
        push_cast
        ring
      · have e : start - ((k + 1 : Nat) : Int) * sliceStep
            = start - sliceStep - (k : Int) * sliceStep := by
          push_cast
          ring
        rw [e]
        exact hex
      · intro j hj
        cases j with
        | zero => simpa using ⟨h0, h1⟩
        | succ j =>
          have e : start - ((j + 1 : Nat) : Int) * sliceStep
              = start - sliceStep - (j : Int) * sliceStep := by
            push_cast
            ring
          rw [e]
          exact hbefore j (by omega)

/-- C30: the loop of `drawSliceMontage` that finds the first valid slice
terminates whenever the slice spacing is at least 1: for every starting index
and every maximum there is a number `k` of subtractions, at most the number of
iterations that `drawSliceMontage` allows, after which the loop has left with
whatever number of iterations allowed beyond `k`, having continued at every
index before; the index it leaves with is the starting index minus `k` times
the spacing, so congruent to the starting index modulo the spacing, and it is
negative or a valid slice index. -/
theorem montage_first_valid_slice_search_terminates (maximumSliceIndex sliceStep start : Int)
    (hstep : 1 ≤ sliceStep) :
    ∃ k : Nat, k ≤ start.toNat + 1
      ∧ (∀ fuel, k ≤ fuel →
          montageFirstValidSlice maximumSliceIndex sliceStep fuel start = start - k * sliceStep)
      ∧ (∀ j : Nat, j < k →
          0 ≤ start - j * sliceStep ∧ maximumSliceIndex ≤ start - j * sliceStep)
      ∧ (montageFirstValidSlice maximumSliceIndex sliceStep (start.toNat + 1) start < 0
        ∨ (0 ≤ montageFirstValidSlice maximumSliceIndex sliceStep (start.toNat + 1) start
          ∧ montageFirstValidSlice maximumSliceIndex sliceStep (start.toNat + 1) start
            < maximumSliceIndex))
      ∧ montageFirstValidSlice maximumSliceIndex sliceStep (start.toNat + 1) start % sliceStep
          = start % sliceStep := by
  obtain ⟨k, hk, hfuel, hex, hbefore⟩ := montageFirstValidSlice_iterations maximumSliceIndex
    sliceStep hstep (start.toNat + 1) start (by push_cast; omega)
  refine ⟨k, hk, hfuel, hbefore, ?_, ?_⟩
  · rw [hfuel _ hk]
    omega
  · rw [hfuel _ hk]
    rw [Int.sub_eq_add_neg, ← Int.neg_mul, Int.add_mul_emod_self]

theorem montage_first_valid_slice_search_terminates_witness :
    ∃ k : Nat, k ≤ (7 : Int).toNat + 1
      ∧ (∀ fuel, k ≤ fuel → montageFirstValidSlice 4 2 fuel 7 = 7 - k * 2)
      ∧ (∀ j : Nat, j < k → 0 ≤ (7 : Int) - j * 2 ∧ (4 : Int) ≤ 7 - j * 2)
      ∧ (montageFirstValidSlice 4 2 ((7 : Int).toNat + 1) 7 < 0
        ∨ (0 ≤ montageFirstValidSlice 4 2 ((7 : Int).toNat + 1) 7
          ∧ montageFirstValidSlice 4 2 ((7 : Int).toNat + 1) 7 < 4))
      ∧ montageFirstValidSlice 4 2 ((7 : Int).toNat + 1) 7 % 2 = 7 % 2 :=
  montage_first_valid_slice_search_terminates 4 2 7 (by decide)

theorem montageFirstValidSlice_example : montageFirstValidSlice 4 2 8 7 = 3 := by decide


/-! ## Minimum and maximum voxel spacing -/

/-- C28: the outputs of `getMinMaxVoxelSpacing` are, for every volume and
whatever the signs of its index-to-space steps, the least and the greatest of
the absolute differences per axis between the voxels (1,1,1) and (0,0,0); they
are non-negative with minimum ≤ maximum; the value returned is true exactly
when both outputs are greater than zero, which is exactly when the difference
is non-zero on all three axes. -/
theorem min_max_voxel_spacing (volume : VolumeMappableInterface) :
    IsLeast {|(volume.indexToSpace 1 1 1).x - (volume.indexToSpace 0 0 0).x|,
        |(volume.indexToSpace 1 1 1).y - (volume.indexToSpace 0 0 0).y|,
        |(volume.indexToSpace 1 1 1).z - (volume.indexToSpace 0 0 0).z|}
      (getMinMaxVoxelSpacing volume).2.1
    ∧ IsGreatest {|(volume.indexToSpace 1 1 1).x - (volume.indexToSpace 0 0 0).x|,
        |(volume.indexToSpace 1 1 1).y - (volume.indexToSpace 0 0 0).y|,
        |(volume.indexToSpace 1 1 1).z - (volume.indexToSpace 0 0 0).z|}
      (getMinMaxVoxelSpacing volume).2.2
    ∧ 0 ≤ (getMinMaxVoxelSpacing volume).2.1
    ∧ 0 ≤ (getMinMaxVoxelSpacing volume).2.2
    ∧ (getMinMaxVoxelSpacing volume).2.1 ≤ (getMinMaxVoxelSpacing volume).2.2
    ∧ ((getMinMaxVoxelSpacing volume).1 = true ↔
        0 < (getMinMaxVoxelSpacing volume).2.1 ∧ 0 < (getMinMaxVoxelSpacing volume).2.2)
    ∧ ((getMinMaxVoxelSpacing volume).1 = true ↔
        (volume.indexToSpace 1 1 1).x - (volume.indexToSpace 0 0 0).x ≠ 0
        ∧ (volume.indexToSpace 1 1 1).y - (volume.indexToSpace 0 0 0).y ≠ 0
        ∧ (volume.indexToSpace 1 1 1).z - (volume.indexToSpace 0 0 0).z ≠ 0) := by
  have hmin : (getMinMaxVoxelSpacing volume).2.1 =
      min (min |(volume.indexToSpace 1 1 1).x - (volume.indexToSpace 0 0 0).x|
        |(volume.indexToSpace 1 1 1).y - (volume.indexToSpace 0 0 0).y|)
        |(volume.indexToSpace 1 1 1).z - (volume.indexToSpace 0 0 0).z| := by
    unfold getMinMaxVoxelSpacing
    simp only []
    split <;> rfl
  have hmax : (getMinMaxVoxelSpacing volume).2.2 =
      max (max |(volume.indexToSpace 1 1 1).x - (volume.indexToSpace 0 0 0).x|
        |(volume.indexToSpace 1 1 1).y - (volume.indexToSpace 0 0 0).y|)
        |(volume.indexToSpace 1 1 1).z - (volume.indexToSpace 0 0 0).z| := by
    unfold getMinMaxVoxelSpacing
    simp only []
    split <;> rfl
  have hret : (getMinMaxVoxelSpacing volume).1 = true ↔
      0 < (getMinMaxVoxelSpacing volume).2.1 ∧ 0 < (getMinMaxVoxelSpacing volume).2.2 := by
    rw [hmin, hmax]
    unfold getMinMaxVoxelSpacing
    simp only [gt_iff_lt]
    split
    · rename_i h
      exact ⟨fun _ => h, fun _ => rfl⟩
    · rename_i h
      exact ⟨fun hc => absurd hc (by simp), fun hc => absurd hc h⟩
  generalize (volume.indexToSpace 1 1 1).x - (volume.indexToSpace 0 0 0).x = dx at *
  generalize (volume.indexToSpace 1 1 1).y - (volume.indexToSpace 0 0 0).y = dy at *
  generalize (volume.indexToSpace 1 1 1).z - (volume.indexToSpace 0 0 0).z = dz at *
  have hx := abs_nonneg dx
  have hy := abs_nonneg dy
  have hz := abs_nonneg dz
  refine ⟨?_, ?_, ?_, ?_, ?_, hret, ?_⟩
  · rw [hmin]
    constructor
    · simp only [Set.mem_insert_iff, Set.mem_singleton_iff]
      rcases le_total |dx| |dy| with h1 | h1 <;> rcases le_total |dx| |dz| with h2 | h2 <;>
        rcases le_total |dy| |dz| with h3 | h3 <;>
        simp [min_def, h1, h2, h3]
    · intro b hb
      simp only [Set.mem_insert_iff, Set.mem_singleton_iff] at hb
      rcases hb with rfl | rfl | rfl
      · exact le_trans (min_le_left _ _) (min_le_left _ _)
      · exact le_trans (min_le_left _ _) (min_le_right _ _)
      · exact min_le_right _ _
  · rw [hmax]
    constructor
    · simp only [Set.mem_insert_iff, Set.mem_singleton_iff]
      rcases le_total |dx| |dy| with h1 | h1 <;> rcases le_total |dx| |dz| with h2 | h2 <;>
        rcases le_total |dy| |dz| with h3 | h3 <;>
        simp [max_def, h1, h2, h3]
    · intro b hb
      simp only [Set.mem_insert_iff, Set.mem_singleton_iff] at hb
      rcases hb with rfl | rfl | rfl
      · exact le_trans (le_max_left _ _) (le_max_left _ _)
      · exact le_trans (le_max_right _ _) (le_max_left _ _)
      · exact le_max_right _ _
  · rw [hmin]
    exact le_min (le_min hx hy) hz
  · rw [hmax]
    exact le_trans hx (le_trans (le_max_left _ _) (le_max_left _ _))
  · rw [hmin, hmax]
    exact le_trans (le_trans (min_le_left _ _) (min_le_left _ _))
      (le_trans (le_max_left _ _) (le_max_left _ _))
  · rw [hret, hmin, hmax]
    constructor
    · rintro ⟨h, _⟩
      have h1 := lt_of_lt_of_le h (le_trans (min_le_left _ _) (min_le_left _ _))
      have h2 := lt_of_lt_of_le h (le_trans (min_le_left _ _) (min_le_right _ _))
      have h3 := lt_of_lt_of_le h (min_le_right _ _)
      exact ⟨abs_pos.1 h1, abs_pos.1 h2, abs_pos.1 h3⟩
    · rintro ⟨h1, h2, h3⟩
      have p1 := abs_pos.2 h1
      have p2 := abs_pos.2 h2
      have p3 := abs_pos.2 h3
      exact ⟨lt_min (lt_min p1 p2) p3,
        lt_of_lt_of_le p1 (le_trans (le_max_left _ _) (le_max_left _ _))⟩

theorem min_max_voxel_spacing_example :
    getMinMaxVoxelSpacing (exampleVolume 2 2 2 ⟨0, 0, 0⟩ ⟨-3, 1, 2⟩ (fun _ => 255)
      (fun _ => 255)) = (true, 1, 3)
    ∧ getMinMaxVoxelSpacing (exampleVolume 2 2 2 ⟨0, 0, 0⟩ ⟨0, 1, 2⟩ (fun _ => 255)
      (fun _ => 255)) = (false, 0, 2) := by
  decide!


/-! ## GraphicsPrimitiveV3f -/

theorem GraphicsPrimitiveV3f.addVertex_float (p : GraphicsPrimitiveV3f) (xyz : Vec3)
    (h : p.m_colorType = ColorType.FLOAT_RGBA) :
    p.addVertex xyz =
      { p with
        m_xyz := p.m_xyz ++ xyz.toList
        m_floatRGBA := p.m_floatRGBA ++ p.m_floatSolidRGBA.toList } := by
  unfold GraphicsPrimitiveV3f.addVertex GraphicsPrimitiveV3f.addVertexProtected
  simp only [h]

theorem GraphicsPrimitiveV3f.addVertices_float (xyzArray : List Vec3) :
    ∀ (p : GraphicsPrimitiveV3f), p.m_colorType = ColorType.FLOAT_RGBA →
      p.addVertices xyzArray =
        { p with
          m_xyz := p.m_xyz ++ xyzArray.flatMap Vec3.toList
          m_floatRGBA := p.m_floatRGBA ++ xyzArray.flatMap (fun _ => p.m_floatSolidRGBA.toList) } := by
  induction xyzArray with
  | nil => intro p _; simp [GraphicsPrimitiveV3f.addVertices]
  | cons v rest ih =>
    intro p h
    have hstep : (p.addVertex v).m_colorType = ColorType.FLOAT_RGBA := by
      rw [GraphicsPrimitiveV3f.addVertex_float p v h]
      exact h
    have := ih (p.addVertex v) hstep
    unfold GraphicsPrimitiveV3f.addVertices at this ⊢
    rw [List.foldl_cons, this, GraphicsPrimitiveV3f.addVertex_float p v h]
    simp [List.flatMap_cons, List.append_assoc]

/-- No call changes the colour type or the member `m_floatSolidRGBA` of a
float-colour primitive: the colour copied for a new vertex is always the colour
of the construction. -/
theorem GraphicsPrimitiveV3f.call_keeps_solid_color (p : GraphicsPrimitiveV3f)
    (c : PrimitiveCall) (h : p.m_colorType = ColorType.FLOAT_RGBA) :
    (p.call c).m_colorType = ColorType.FLOAT_RGBA
    ∧ (p.call c).m_floatSolidRGBA = p.m_floatSolidRGBA := by
  cases c with
  | addVertex xyz =>
    simp only [GraphicsPrimitiveV3f.call, GraphicsPrimitiveV3f.addVertex_float p xyz h]
    exact ⟨h, trivial⟩
  | addVertices xyzArray =>
    simp only [GraphicsPrimitiveV3f.call, GraphicsPrimitiveV3f.addVertices_float xyzArray p h]
    exact ⟨h, trivial⟩
  | replaceColoring rgba =>
    simp only [GraphicsPrimitiveV3f.call, GraphicsPrimitiveV3f.replaceColoring, h, if_true]
    generalize (List.range (toInt32 ((p.m_floatRGBA.length / 4 : Nat) : Int)).toNat) = l
    induction l generalizing p with
    | nil => exact ⟨h, rfl⟩
    | cons i rest ih =>
      rw [List.foldl_cons]
      have := ih (GraphicsPrimitiveV3f.replaceColoringAt rgba p i) h
      exact ⟨this.1, this.2.trans rfl⟩

theorem GraphicsPrimitiveV3f.replaceColoring_lengths (rgba : RgbaFloat) :
    ∀ (l : List Nat) (p : GraphicsPrimitiveV3f),
      (l.foldl (GraphicsPrimitiveV3f.replaceColoringAt rgba) p).m_floatRGBA.length
          = p.m_floatRGBA.length
      ∧ (l.foldl (GraphicsPrimitiveV3f.replaceColoringAt rgba) p).m_xyz = p.m_xyz := by
  intro l
  induction l with
  | nil => intro p; exact ⟨rfl, rfl⟩
  | cons i rest ih =>
    intro p
    rw [List.foldl_cons]
    obtain ⟨h1, h2⟩ := ih (GraphicsPrimitiveV3f.replaceColoringAt rgba p i)
    refine ⟨h1.trans ?_, h2.trans rfl⟩
    simp [GraphicsPrimitiveV3f.replaceColoringAt]

/-- Every call keeps four colour components for each vertex of a float-colour
primitive. -/
theorem GraphicsPrimitiveV3f.call_keeps_four_components (p : GraphicsPrimitiveV3f)
    (c : PrimitiveCall) (h : p.m_colorType = ColorType.FLOAT_RGBA)
    (hlen : 3 * p.m_floatRGBA.length = 4 * p.m_xyz.length) :
    3 * (p.call c).m_floatRGBA.length = 4 * (p.call c).m_xyz.length := by
  cases c with
  | addVertex xyz =>
    simp only [GraphicsPrimitiveV3f.call, GraphicsPrimitiveV3f.addVertex_float p xyz h,
      List.length_append, Vec3.toList, RgbaFloat.toList, List.length_cons, List.length_nil]
    omega
  | addVertices xyzArray =>
    simp only [GraphicsPrimitiveV3f.call, GraphicsPrimitiveV3f.addVertices_float xyzArray p h,
      List.length_append]
    have h1 : (xyzArray.flatMap Vec3.toList).length = 3 * xyzArray.length :=
      flatMap_length_const Vec3.toList 3 xyzArray (fun _ _ => rfl)
    have h2 : (xyzArray.flatMap (fun _ => p.m_floatSolidRGBA.toList)).length
        = 4 * xyzArray.length :=
      flatMap_length_const (fun _ => p.m_floatSolidRGBA.toList) 4 xyzArray (fun _ _ => rfl)
    rw [h1, h2]
    omega
  | replaceColoring rgba =>
    simp only [GraphicsPrimitiveV3f.call, GraphicsPrimitiveV3f.replaceColoring, h, if_true]
    obtain ⟨h1, h2⟩ := GraphicsPrimitiveV3f.replaceColoring_lengths rgba
      (List.range (toInt32 ((p.m_floatRGBA.length / 4 : Nat) : Int)).toNat) p
    rw [h1, h2]
    exact hlen

/-- C21 (the code at the failing input): a float-colour primitive constructed
with red, given a vertex, recoloured green and given a second vertex holds
green for the first vertex and red, the colour of the construction, for the
second: `replaceColoring` rewrites the colour array and leaves the member
`m_floatSolidRGBA`, from which `addVertex` copies, as it was. -/
theorem primitive_vertex_added_after_replaceColoring_has_construction_color :
    ((((GraphicsPrimitiveV3f.createFloat ⟨1, 0, 0, 1⟩ ⟨0, 0, 0, 0⟩).addVertex
        ⟨0, 0, 0⟩).replaceColoring ⟨0, 1, 0, 1⟩).addVertex ⟨1, 0, 0⟩).m_floatRGBA
      = [0, 1, 0, 1, 1, 0, 0, 1]
    ∧ ((((GraphicsPrimitiveV3f.createFloat ⟨1, 0, 0, 1⟩ ⟨0, 0, 0, 0⟩).addVertex
        ⟨0, 0, 0⟩).replaceColoring ⟨0, 1, 0, 1⟩).addVertex ⟨1, 0, 0⟩).vertexColor 0
      ≠ ((((GraphicsPrimitiveV3f.createFloat ⟨1, 0, 0, 1⟩ ⟨0, 0, 0, 0⟩).addVertex
        ⟨0, 0, 0⟩).replaceColoring ⟨0, 1, 0, 1⟩).addVertex ⟨1, 0, 0⟩).vertexColor 1
    ∧ ((((GraphicsPrimitiveV3f.createFloat ⟨1, 0, 0, 1⟩ ⟨0, 0, 0, 0⟩).addVertex
        ⟨0, 0, 0⟩).replaceColoring ⟨0, 1, 0, 1⟩).addVertex ⟨1, 0, 0⟩).numberOfVertices = 2 := by
  decide!


/-! ## The traversal of the oblique grid as a fold over its cells -/

theorem obliqueRowCells_eq_foldl (ctx : DrawingContext) (bottomD topD : Vec3) :
    ∀ (fuel : Nat) (bl tl : Vec3) (s : List VolumeSlice × List VoxelToDraw),
      obliqueRowCells ctx bottomD topD fuel bl tl s =
        (obliqueRowGrid bottomD topD fuel bl tl).foldl (obliqueCellStep ctx) s := by
  intro fuel
  induction fuel with
  | zero => intro bl tl s; rfl
  | succ n ih =>
    intro bl tl s
    simp only [obliqueRowCells, obliqueRowGrid, List.foldl_cons]
    rw [ih]
    rfl

theorem obliqueRow_eq_foldl (ctx : DrawingContext) (voxelSize : ℚ) (bl br ul ur : Vec3)
    (stepL stepR dL dR : ℚ) (s : List VolumeSlice × List VoxelToDraw) :
    obliqueRow ctx voxelSize bl br ul ur stepL stepR dL dR s =
      (obliqueRowGeometry ctx voxelSize bl br ul ur stepL stepR dL dR).cells.foldl
        (obliqueCellStep ctx) s := by
  unfold obliqueRow RowGeometry.cells obliqueRowGeometry
  exact obliqueRowCells_eq_foldl ctx _ _ _ _ _ s

theorem obliqueRows_eq_foldl (ctx : DrawingContext) (voxelSize : ℚ) (bl br ul ur : Vec3)
    (stepL stepR dt : ℚ) :
    ∀ (fuel : Nat) (t dL dR : ℚ) (s : List VolumeSlice × List VoxelToDraw),
      obliqueRows ctx voxelSize bl br ul ur stepL stepR dt fuel t dL dR s =
        ((obliqueRowsGeometry ctx voxelSize bl br ul ur stepL stepR dt fuel t dL
          dR).flatMap RowGeometry.cells).foldl (obliqueCellStep ctx) s := by
  intro fuel
  induction fuel with
  | zero => intro t dL dR s; rfl
  | succ n ih =>
    intro t dL dR s
    simp only [obliqueRows, obliqueRowsGeometry]
    split
    · rw [ih, List.flatMap_cons, List.foldl_append, obliqueRow_eq_foldl]
    · rfl

/-- The traversal of `drawObliqueSlice` is the body of the loop over the cells
run over the cells of the grid in order, from fresh volume slices. -/
theorem obliqueTraversal_eq_foldl (ctx : DrawingContext) (st : DrawingState)
    (sliceViewPlane : VolumeSliceViewPlaneEnum) (transformationMatrix : Matrix4x4)
    (voxelSize : ℚ) :
    obliqueTraversal ctx st sliceViewPlane transformationMatrix voxelSize =
      (obliqueGrid ctx st sliceViewPlane transformationMatrix voxelSize).foldl
        (obliqueCellStep ctx)
        (ctx.m_volumeDrawInfo.map
          (fun info => VolumeSlice.create info.volumeFile (toInt32 info.mapIndex)), []) := by
  unfold obliqueTraversal obliqueGrid obliqueGridRows
  simp only []
  split
  · exact obliqueRows_eq_foldl ctx voxelSize _ _ _ _ _ _ _ _ _ _ _ _
  · rfl

theorem overlaySample_of_getElem (ctx : DrawingContext) (iVol : Nat) (vdi : VolumeDrawInfo)
    (c : Vec3) (h : ctx.m_volumeDrawInfo[iVol]? = some vdi) :
    overlaySample ctx iVol c = obliqueSampleVolume ctx iVol vdi c := by
  unfold overlaySample
  rw [h]

theorem obliqueSampleVolumes_spec (ctx : DrawingContext) (c lb rb rt lt : Vec3)
    (lenAt : Nat → Nat) :
    ∀ (vdis : List VolumeDrawInfo) (iVol : Nat) (slices : List VolumeSlice)
      (cur : Option VoxelToDraw), slices.length = vdis.length →
      (∀ j vdi, vdis[j]? = some vdi → ctx.m_volumeDrawInfo[iVol + j]? = some vdi) →
      (∀ j sl, slices[j]? = some sl → lenAt (iVol + j) = sl.m_values.length) →
      (obliqueSampleVolumes ctx c lb rb rt lt iVol vdis slices cur).1 =
          List.zipWith (sampledSlice ctx c) (List.range' iVol slices.length) slices
      ∧ (obliqueSampleVolumes ctx c lb rb rt lt iVol vdis slices cur).2 =
          if (List.range' iVol vdis.length).filter (fun v => (overlaySample ctx v c).2) = [] then
            cur
          else
            some
              { cur.getD (VoxelToDraw.create c lb rb rt lt) with
                m_sliceIndices := (cur.getD (VoxelToDraw.create c lb rb rt lt)).m_sliceIndices
                  ++ ((List.range' iVol vdis.length).filter
                    (fun v => (overlaySample ctx v c).2)).map Int.ofNat
                m_sliceOffsets := (cur.getD (VoxelToDraw.create c lb rb rt lt)).m_sliceOffsets
                  ++ ((List.range' iVol vdis.length).filter
                    (fun v => (overlaySample ctx v c).2)).map (fun v => Int.ofNat (lenAt v)) } := by
  intro vdis
  induction vdis with
  | nil =>
    intro iVol slices cur hlen _ _
    have : slices = [] := List.length_eq_zero.1 hlen
    subst this
    simp [obliqueSampleVolumes]
  | cons vdi rest ih =>
    intro iVol slices cur hlen hv hl
    cases slices with
    | nil => simp at hlen
    | cons slice slices =>
      have hs : overlaySample ctx iVol c = obliqueSampleVolume ctx iVol vdi c :=
        overlaySample_of_getElem ctx iVol vdi c (by simpa using hv 0 vdi (by simp))
      have hlen0 : lenAt iVol = slice.m_values.length := by simpa using hl 0 slice (by simp)
      have hlen' : slices.length = rest.length := by simpa using hlen
      have hv' : ∀ j vdi, rest[j]? = some vdi →
          ctx.m_volumeDrawInfo[iVol + 1 + j]? = some vdi := by
        intro j w hj
        have := hv (j + 1) w (by simpa using hj)
        rw [show iVol + 1 + j = iVol + (j + 1) by omega]
        exact this
      have hl' : ∀ j sl, slices[j]? = some sl → lenAt (iVol + 1 + j) = sl.m_values.length := by
        intro j sl hj
        have := hl (j + 1) sl (by simpa using hj)
        rw [show iVol + 1 + j = iVol + (j + 1) by omega]
        exact this
      simp only [obliqueSampleVolumes, List.length_cons, List.range'_succ, List.zipWith_cons_cons,
        List.filter_cons]
      by_cases hvalid : (obliqueSampleVolume ctx iVol vdi c).2 = true
      · obtain ⟨h1, h2⟩ := ih (iVol + 1) slices
          (some ((match cur with
            | none => VoxelToDraw.create c lb rb rt lt
            | some v => v).addVolumeValue iVol (slice.addValue
              (obliqueSampleVolume ctx iVol vdi c).1).1)) hlen' hv' hl'
        simp only [hvalid, if_true, hs, h1, h2]
        refine ⟨?_, ?_⟩
        · simp [sampledSlice, hs, hvalid, VolumeSlice.addValue]
        · cases cur with
          | none =>
            split
            · simp [VoxelToDraw.addVolumeValue, VolumeSlice.addValue, hlen0, *]
            · simp [VoxelToDraw.addVolumeValue, VolumeSlice.addValue, hlen0]
          | some v =>
            split
            · simp [VoxelToDraw.addVolumeValue, VolumeSlice.addValue, hlen0, *]
            · simp [VoxelToDraw.addVolumeValue, VolumeSlice.addValue, hlen0]
      · obtain ⟨h1, h2⟩ := ih (iVol + 1) slices cur hlen' hv' hl'
        simp only [hvalid, if_false, hs, h1, h2, Bool.false_eq_true]
        refine ⟨?_, trivial⟩
        simp [sampledSlice, hs, hvalid]

theorem obliqueCellStep_spec (ctx : DrawingContext) (s : List VolumeSlice × List VoxelToDraw)
    (g : GridCell) (hlen : s.1.length = ctx.m_volumeDrawInfo.length) :
    obliqueCellStep ctx s g =
      (List.zipWith (sampledSlice ctx g.voxelCenter) (List.range s.1.length) s.1,
        s.2 ++ (if validOverlays ctx g.voxelCenter = [] then []
          else [g.record ctx s.1])) := by
  obtain ⟨h1, h2⟩ := obliqueSampleVolumes_spec ctx g.voxelCenter g.bottomLeftVoxelCoord
    g.bottomRightVoxelCoord g.topRightVoxelCoord g.topLeftVoxelCoord (valuesStored s.1)
    ctx.m_volumeDrawInfo 0 s.1 none hlen
    (by intro j vdi h; simpa using h)
    (by intro j sl h; simp [valuesStored, h])
  unfold obliqueCellStep
  simp only [h1, h2, ← List.range_eq_range']
  refine Prod.ext rfl ?_
  simp only []
  unfold validOverlays
  split
  · rfl
  · simp [GridCell.record, VoxelToDraw.create, GridCell.coordinates, validOverlays]

theorem getElem?_zipWith_range {β : Type} (f : Nat → VolumeSlice → β) (slices : List VolumeSlice)
    (i : Nat) :
    (List.zipWith f (List.range slices.length) slices)[i]? = slices[i]?.map (f i) := by
  rw [List.getElem?_zipWith]
  by_cases h : i < slices.length
  · rw [List.getElem?_range h, List.getElem?_eq_getElem h]
    rfl
  · rw [List.getElem?_eq_none (by simpa using h), List.getElem?_eq_none (by simpa using h)]
    rfl

theorem mem_validOverlays (ctx : DrawingContext) (c : Vec3) (iVol : Nat) :
    iVol ∈ validOverlays ctx c ↔ (overlaySample ctx iVol c).2 = true := by
  unfold validOverlays
  rw [List.mem_filter, List.mem_range]
  constructor
  · exact fun h => h.2
  · intro h
    refine ⟨?_, h⟩
    by_contra hn
    unfold overlaySample at h
    rw [List.getElem?_eq_none (by omega)] at h
    exact Bool.false_ne_true h

theorem validOverlays_nodup (ctx : DrawingContext) (c : Vec3) : (validOverlays ctx c).Nodup :=
  List.Nodup.filter _ (List.nodup_range _)

theorem valuesStored_sampled (ctx : DrawingContext) (c : Vec3) (slices : List VolumeSlice)
    (hlen : slices.length = ctx.m_volumeDrawInfo.length) (iVol : Nat) :
    valuesStored (List.zipWith (sampledSlice ctx c) (List.range slices.length) slices) iVol =
      valuesStored slices iVol + (if iVol ∈ validOverlays ctx c then 1 else 0) := by
  unfold valuesStored
  rw [getElem?_zipWith_range]
  cases h : slices[iVol]? with
  | none =>
    have hn : ¬ iVol ∈ validOverlays ctx c := by
      rw [mem_validOverlays]
      unfold overlaySample
      have : ctx.m_volumeDrawInfo.length ≤ iVol := by
        rw [← hlen]
        exact List.getElem?_eq_none_iff.1 h
      rw [List.getElem?_eq_none this]
      exact Bool.false_ne_true
    simp [hn]
  | some sl =>
    simp only [Option.map_some', sampledSlice, mem_validOverlays]
    split <;> simp

theorem filter_eq_of_nodup :
    ∀ (l : List Nat) (v : Nat), l.Nodup →
      l.filter (fun u => decide (Int.ofNat u = Int.ofNat v)) = if v ∈ l then [v] else [] := by
  intro l
  induction l with
  | nil => intro v _; rfl
  | cons x rest ih =>
    intro v hnd
    rw [List.nodup_cons] at hnd
    rw [List.filter_cons, ih v hnd.2]
    by_cases hx : x = v
    · subst hx
      simp [hnd.1]
    · have hx2 : ¬ Int.ofNat x = Int.ofNat v := fun h => hx (Int.ofNat.inj h)
      have hx3 : ¬ v = x := fun h => hx h.symm
      simp [hx2, hx3, hx]

theorem GridCell.record_linkedEntries (ctx : DrawingContext) (slices : List VolumeSlice)
    (g : GridCell) :
    (g.record ctx slices).linkedEntries =
      (validOverlays ctx g.voxelCenter).map
        (fun iVol => (Int.ofNat iVol, Int.ofNat (valuesStored slices iVol))) := by
  unfold VoxelToDraw.linkedEntries GridCell.record
  simp only [List.zip_map']

theorem linkedOffsets_append (a b : List VoxelToDraw) (iVol : Nat) :
    linkedOffsets (a ++ b) iVol = linkedOffsets a iVol ++ linkedOffsets b iVol := by
  unfold linkedOffsets
  rw [List.flatMap_append]

theorem linkedOffsets_record (ctx : DrawingContext) (slices : List VolumeSlice) (g : GridCell)
    (iVol : Nat) :
    linkedOffsets [g.record ctx slices] iVol =
      if iVol ∈ validOverlays ctx g.voxelCenter then [Int.ofNat (valuesStored slices iVol)]
      else [] := by
  unfold linkedOffsets
  rw [List.flatMap_cons, List.flatMap_nil, List.append_nil, GridCell.record_linkedEntries,
    List.filter_map, List.map_map]
  have : ((fun e : Int × Int => decide (e.1 = Int.ofNat iVol)) ∘
      fun iVol => (Int.ofNat iVol, Int.ofNat (valuesStored slices iVol))) =
      fun u => decide (Int.ofNat u = Int.ofNat iVol) := rfl
  rw [this, filter_eq_of_nodup _ _ (validOverlays_nodup ctx g.voxelCenter)]
  split <;> rfl

theorem TraversalInvariant.step (ctx : DrawingContext) (s : List VolumeSlice × List VoxelToDraw)
    (g : GridCell) (h : TraversalInvariant ctx s) :
    TraversalInvariant ctx (obliqueCellStep ctx s g) := by
  rw [obliqueCellStep_spec ctx s g h.slices]
  have hget : ∀ iVol, (List.zipWith (sampledSlice ctx g.voxelCenter) (List.range s.1.length)
      s.1)[iVol]? = s.1[iVol]?.map (sampledSlice ctx g.voxelCenter iVol) :=
    fun iVol => getElem?_zipWith_range _ _ _
  constructor
  · simp only [List.length_zipWith, List.length_range, Nat.min_self]
    exact h.slices
  · intro cell hcell
    simp only [List.mem_append] at hcell
    rcases hcell with hcell | hcell
    · exact h.links cell hcell
    · split at hcell
      · simp at hcell
      · rename_i hne
        rw [List.mem_singleton] at hcell
        subst hcell
        exact ⟨rfl, hne, by simp [GridCell.record]⟩
  · intro iVol
    simp only []
    rw [linkedOffsets_append, h.offsets iVol, valuesStored_sampled ctx g.voxelCenter s.1 h.slices]
    by_cases hv : iVol ∈ validOverlays ctx g.voxelCenter
    · have hne : validOverlays ctx g.voxelCenter ≠ [] := List.ne_nil_of_mem hv
      simp only [hne, if_false, hv, if_true, linkedOffsets_record, List.range_succ,
        List.map_append, List.map_cons, List.map_nil]
    · simp only [hv, if_false, Nat.add_zero]
      split
      · simp [linkedOffsets]
      · simp [linkedOffsets_record, hv]
  · intro cell hcell e he
    simp only [List.mem_append] at hcell
    rcases hcell with hcell | hcell
    · obtain ⟨iVol, k, sl, rfl, hsl, hk⟩ := h.values cell hcell e he
      refine ⟨iVol, k, sampledSlice ctx g.voxelCenter iVol sl, rfl, ?_, ?_⟩
      · simp only [hget, hsl, Option.map_some']
      · unfold sampledSlice
        split
        · have hlt : k < sl.m_values.length := by
            by_contra hc
            rw [List.getElem?_eq_none (by omega)] at hk
            exact Option.noConfusion hk
          simp only []
          rw [List.getElem?_append_left hlt]
          exact hk
        · exact hk
    · split at hcell
      · simp at hcell
      · rw [List.mem_singleton] at hcell
        subst hcell
        rw [GridCell.record_linkedEntries, List.mem_map] at he
        obtain ⟨iVol, hv, rfl⟩ := he
        have hvalid := (mem_validOverlays ctx g.voxelCenter iVol).1 hv
        cases hsl : s.1[iVol]? with
        | none =>
          exfalso
          have : ctx.m_volumeDrawInfo.length ≤ iVol := by
            rw [← h.slices]
            exact List.getElem?_eq_none_iff.1 hsl
          unfold overlaySample at hvalid
          rw [List.getElem?_eq_none this] at hvalid
          exact Bool.false_ne_true hvalid
        | some sl =>
          refine ⟨iVol, valuesStored s.1 iVol, sampledSlice ctx g.voxelCenter iVol sl, rfl, ?_, ?_⟩
          · simp only [hget, hsl, Option.map_some']
          · simp only [sampledSlice, hvalid, if_true, valuesStored, hsl, GridCell.record]
            rw [List.getElem?_append_right (le_refl _)]
            simp

theorem TraversalInvariant.fresh (ctx : DrawingContext) :
    TraversalInvariant ctx
      (ctx.m_volumeDrawInfo.map
        (fun info => VolumeSlice.create info.volumeFile (toInt32 info.mapIndex)), []) := by
  constructor
  · simp
  · intro cell hcell
    simp at hcell
  · intro iVol
    have : valuesStored (ctx.m_volumeDrawInfo.map
        (fun info => VolumeSlice.create info.volumeFile (toInt32 info.mapIndex))) iVol = 0 := by
      unfold valuesStored
      rw [List.getElem?_map]
      cases ctx.m_volumeDrawInfo[iVol]? <;> rfl
    simp only [this, List.range_zero, List.map_nil]
    rfl
  · intro cell hcell
    simp at hcell

theorem TraversalInvariant.of_foldl (ctx : DrawingContext) (cells : List GridCell)
    (s : List VolumeSlice × List VoxelToDraw) (h : TraversalInvariant ctx s) :
    TraversalInvariant ctx (cells.foldl (obliqueCellStep ctx) s) :=
  foldl_invariant (TraversalInvariant ctx) (obliqueCellStep ctx)
    (fun s g hs => TraversalInvariant.step ctx s g hs) cells s h

theorem obliqueTraversal_invariant (ctx : DrawingContext) (st : DrawingState)
    (sliceViewPlane : VolumeSliceViewPlaneEnum) (transformationMatrix : Matrix4x4)
    (voxelSize : ℚ) :
    TraversalInvariant ctx
      (obliqueTraversal ctx st sliceViewPlane transformationMatrix voxelSize) := by
  rw [obliqueTraversal_eq_foldl]
  exact TraversalInvariant.of_foldl ctx _ _ (TraversalInvariant.fresh ctx)


/-! ## The cell records of the oblique traversal -/

theorem validOverlays_pairwise (ctx : DrawingContext) (c : Vec3) :
    List.Pairwise (fun a b : Int => a < b) ((validOverlays ctx c).map Int.ofNat) := by
  rw [List.pairwise_map]
  unfold validOverlays
  refine List.Pairwise.filter _ ?_
  exact List.Pairwise.imp (fun h => Int.ofNat_lt.2 h) (List.pairwise_lt_range _)

theorem oblique_traversal_example_records :
    (obliqueTraversal
        (exampleContext [exampleOverlay exampleCube, exampleOverlay exampleCifti]
          VolumeSliceViewModeEnum.OBLIQUE 0)
        (exampleState false) VolumeSliceViewPlaneEnum.AXIAL exampleIdentityMatrix 1).2.map
      (fun c => (c.m_center.x, c.m_sliceIndices, c.m_sliceOffsets))
      = [(-1, [0], [0]), (0, [0, 1], [1, 0]), (1, [0, 1], [2, 1]),
         (-1, [0], [3]), (0, [0, 1], [4, 2]), (1, [0, 1], [5, 3]),
         (-1, [0], [6]), (0, [0, 1], [7, 4]), (1, [0, 1], [8, 5])] := by
  decide!


/-! ## The colour lookups of the compositing -/

theorem VolumeSlice.allocateColors_length (v : VolumeSlice) :
    v.allocateColors.m_rgba.length = 4 * v.m_values.length
    ∧ v.allocateColors.m_values = v.m_values := by
  unfold VolumeSlice.allocateColors
  refine ⟨?_, rfl⟩
  simp only [List.length_take, List.length_append, List.length_replicate]
  omega

theorem writeBytes_length (buffer : List Nat) (n : Nat) (f : Nat → Nat)
    (h : buffer.length = n) : (writeBytes buffer n f).length = n := by
  unfold writeBytes
  simp only [List.length_append, List.length_map, List.length_range, List.length_drop]
  omega

theorem obliqueColoredSlice_lengths (v : VolumeSlice) :
    (obliqueColoredSlice v).m_values = v.m_values
    ∧ (v.m_values ≠ [] → (obliqueColoredSlice v).m_rgba.length = 4 * v.m_values.length) := by
  obtain ⟨hlen, hval⟩ := VolumeSlice.allocateColors_length v
  unfold obliqueColoredSlice obliqueColorVolume
  simp only []
  by_cases hn : v.m_values.length > 0
  · simp only [hn, if_true]
    have hw : ∀ f, (writeBytes v.allocateColors.m_rgba (4 * v.m_values.length) f).length
        = 4 * v.m_values.length := fun f => writeBytes_length _ _ f hlen
    split
    · split
      · exact ⟨hval, fun _ => hw _⟩
      · exact ⟨hval, fun _ => hlen⟩
    · split
      · exact ⟨hval, fun _ => hw _⟩
      · exact ⟨hval, fun _ => hlen⟩
  · simp only [hn, if_false]
    refine ⟨trivial, fun hne => ?_⟩
    exact absurd (List.length_pos.2 hne) hn

/-- C24: the colour lookups of the compositing are in bounds.  `addValue`
returns the number of values stored before the call and stores one more;
`allocateColors` makes the colour buffer exactly four bytes for each value
stored; and after the traversal and the colouring of `drawObliqueSlice` every
link of every cell record names a volume slice that holds values, whose colour
buffer has four bytes for each value, and an offset below the number of its
values, so that the four bytes that `getRgbaForValueByIndex` reads at the
offset lie in the buffer. -/
theorem oblique_color_lookups_in_bounds (ctx : DrawingContext) (st : DrawingState)
    (sliceViewPlane : VolumeSliceViewPlaneEnum) (transformationMatrix : Matrix4x4)
    (voxelSize : ℚ) :
    (∀ (v : VolumeSlice) (value : ℚ),
      (v.addValue value).1 = Int.ofNat v.m_values.length
      ∧ (v.addValue value).2.m_values = v.m_values ++ [value])
    ∧ (∀ v : VolumeSlice, v.allocateColors.m_rgba.length = 4 * v.m_values.length)
    ∧ (∀ cell ∈ (obliqueTraversal ctx st sliceViewPlane transformationMatrix voxelSize).2,
        ∀ e ∈ cell.linkedEntries,
          ∃ (iVol k : Nat) (colored : VolumeSlice),
            e = (Int.ofNat iVol, Int.ofNat k)
            ∧ (obliqueColorVolumes 0
                (obliqueTraversal ctx st sliceViewPlane transformationMatrix voxelSize).1
                st.events).1[iVol]? = some colored
            ∧ colored.m_values ≠ []
            ∧ colored.m_rgba.length = 4 * colored.m_values.length
            ∧ k < colored.m_values.length
            ∧ (e.2 * 4).toNat = 4 * k
            ∧ 4 * k + 3 < colored.m_rgba.length) := by
  refine ⟨fun v value => ⟨rfl, rfl⟩, fun v => (VolumeSlice.allocateColors_length v).1, ?_⟩
  intro cell hcell e he
  obtain ⟨iVol, k, sl, rfl, hsl, hk⟩ :=
    (obliqueTraversal_invariant ctx st sliceViewPlane transformationMatrix voxelSize).values
      cell hcell e he
  have hlt : k < sl.m_values.length := by
    by_contra hc
    rw [List.getElem?_eq_none (by omega)] at hk
    exact Option.noConfusion hk
  have hne : sl.m_values ≠ [] := by
    intro h
    rw [h] at hlt
    exact Nat.not_lt_zero _ hlt
  obtain ⟨hv, hr⟩ := obliqueColoredSlice_lengths sl
  refine ⟨iVol, k, obliqueColoredSlice sl, rfl, ?_, ?_, ?_, ?_, ?_, ?_⟩
  · rw [obliqueColorVolumes_fst, List.getElem?_map, hsl]
    rfl
  · rw [hv]
    exact hne
  · rw [hr hne, hv]
  · rw [hv]
    exact hlt
  · simp only [Int.ofNat_eq_coe]
    omega
  · rw [hr hne]
    omega

theorem oblique_color_lookups_in_bounds_witness :
    exampleFirstCell ∈ (obliqueTraversal exampleLayeredContext (exampleState false)
        VolumeSliceViewPlaneEnum.AXIAL exampleIdentityMatrix 1).2
    ∧ ((1 : Int), (0 : Int)) ∈ exampleFirstCell.linkedEntries
    ∧ ∃ (iVol k : Nat) (colored : VolumeSlice),
        ((1 : Int), (0 : Int)) = (Int.ofNat iVol, Int.ofNat k)
        ∧ (obliqueColorVolumes 0
            (obliqueTraversal exampleLayeredContext (exampleState false)
              VolumeSliceViewPlaneEnum.AXIAL exampleIdentityMatrix 1).1
            (exampleState false).events).1[iVol]? = some colored
        ∧ colored.m_values ≠ []
        ∧ colored.m_rgba.length = 4 * colored.m_values.length
        ∧ k < colored.m_values.length
        ∧ (((1 : Int), (0 : Int)).2 * 4).toNat = 4 * k
        ∧ 4 * k + 3 < colored.m_rgba.length :=
  ⟨by decide!, by decide!,
    (oblique_color_lookups_in_bounds exampleLayeredContext (exampleState false)
      VolumeSliceViewPlaneEnum.AXIAL exampleIdentityMatrix 1).2.2 exampleFirstCell (by decide!)
      (1, 0) (by decide!)⟩


/-! ## The sampling method of the oblique traversal -/

/-- C27: at a cell centre `drawObliqueSlice` samples an overlay by its backing
type.  A `VolumeFile` that is mapped with a palette is sampled by
`interpolateValue`; otherwise a `CiftiMappableDataFile` is sampled from the
buffer fetched for its position, the sample being valid exactly when the offset
of the voxel is not negative and the value being the entry of the buffer at
that offset; otherwise `getVoxelValue` is used.  The loop over the overlays
records the value in the volume slice of the overlay, and links the cell to it,
exactly when the sample is valid. -/
theorem oblique_sampling_by_backing_type (ctx : DrawingContext) (iVol : Nat)
    (vdi : VolumeDrawInfo) (voxelCenter : Vec3) :
    (vdi.volumeFile.isVolumeFile = true → vdi.volumeFile.isMappedWithPalette = true →
      obliqueSampleVolume ctx iVol vdi voxelCenter =
        vdi.volumeFile.interpolateValue voxelCenter vdi.mapIndex)
    ∧ ((vdi.volumeFile.isVolumeFile = false ∨ vdi.volumeFile.isMappedWithPalette = false) →
        vdi.volumeFile.isCiftiMappableDataFile = true →
        ((obliqueSampleVolume ctx iVol vdi voxelCenter).2 = true ↔
          0 ≤ vdi.volumeFile.getMapDataOffsetForVoxelAtCoordinate voxelCenter vdi.mapIndex)
        ∧ (0 ≤ vdi.volumeFile.getMapDataOffsetForVoxelAtCoordinate voxelCenter vdi.mapIndex →
            (obliqueSampleVolume ctx iVol vdi voxelCenter).1 =
              (ctx.m_ciftiMappableFileData.getD iVol []).getD
                (vdi.volumeFile.getMapDataOffsetForVoxelAtCoordinate voxelCenter
                  vdi.mapIndex).toNat 0))
    ∧ ((vdi.volumeFile.isVolumeFile = false ∨ vdi.volumeFile.isMappedWithPalette = false) →
        vdi.volumeFile.isCiftiMappableDataFile = false →
        obliqueSampleVolume ctx iVol vdi voxelCenter =
          vdi.volumeFile.getVoxelValue voxelCenter vdi.mapIndex)
    ∧ (∀ (lb rb rt lt : Vec3) (vdis : List VolumeDrawInfo) (volumeSlice : VolumeSlice)
        (volumeSlices : List VolumeSlice) (cur : Option VoxelToDraw),
        ((obliqueSampleVolume ctx iVol vdi voxelCenter).2 = true →
          obliqueSampleVolumes ctx voxelCenter lb rb rt lt iVol (vdi :: vdis)
              (volumeSlice :: volumeSlices) cur =
            ((volumeSlice.addValue (obliqueSampleVolume ctx iVol vdi voxelCenter).1).2 ::
              (obliqueSampleVolumes ctx voxelCenter lb rb rt lt (iVol + 1) vdis volumeSlices
                (some ((cur.getD (VoxelToDraw.create voxelCenter lb rb rt lt)).addVolumeValue
                  iVol (Int.ofNat volumeSlice.m_values.length)))).1,
              (obliqueSampleVolumes ctx voxelCenter lb rb rt lt (iVol + 1) vdis volumeSlices
                (some ((cur.getD (VoxelToDraw.create voxelCenter lb rb rt lt)).addVolumeValue
                  iVol (Int.ofNat volumeSlice.m_values.length)))).2))
        ∧ ((obliqueSampleVolume ctx iVol vdi voxelCenter).2 = false →
          obliqueSampleVolumes ctx voxelCenter lb rb rt lt iVol (vdi :: vdis)
              (volumeSlice :: volumeSlices) cur =
            (volumeSlice ::
              (obliqueSampleVolumes ctx voxelCenter lb rb rt lt (iVol + 1) vdis volumeSlices
                cur).1,
              (obliqueSampleVolumes ctx voxelCenter lb rb rt lt (iVol + 1) vdis volumeSlices
                cur).2))) := by
  refine ⟨?_, ?_, ?_, ?_⟩
  · intro h1 h2
    simp [obliqueSampleVolume, h1, h2]
  · intro h1 h2
    have h3 : (vdi.volumeFile.isVolumeFile && vdi.volumeFile.isMappedWithPalette) = false := by
      rcases h1 with h | h <;> simp [h]
    unfold obliqueSampleVolume
    simp only [h3, h2, Bool.false_eq_true, if_false, if_true, ge_iff_le]
    constructor
    · split <;> simp [*]
    · intro h
      simp [h]
  · intro h1 h2
    have h3 : (vdi.volumeFile.isVolumeFile && vdi.volumeFile.isMappedWithPalette) = false := by
      rcases h1 with h | h <;> simp [h]
    unfold obliqueSampleVolume
    simp only [h3, h2, Bool.false_eq_true, if_false]
  · intro lb rb rt lt vdis volumeSlice volumeSlices cur
    constructor
    · intro h
      simp only [obliqueSampleVolumes, h, if_true]
      cases cur <;> rfl
    · intro h
      simp only [obliqueSampleVolumes, h, Bool.false_eq_true, if_false]

theorem oblique_sampling_by_backing_type_witness :
    (exampleOverlay exampleCifti).volumeFile.isVolumeFile = false
    ∧ (exampleOverlay exampleCifti).volumeFile.isCiftiMappableDataFile = true
    ∧ ((obliqueSampleVolume
          { exampleContext [exampleOverlay exampleCube, exampleOverlay exampleCifti]
              VolumeSliceViewModeEnum.OBLIQUE 0 with m_ciftiMappableFileData := [[], [5, 7]] }
          1 (exampleOverlay exampleCifti) ⟨-1, 0, 0⟩).2 = true ↔
        0 ≤ (exampleOverlay exampleCifti).volumeFile.getMapDataOffsetForVoxelAtCoordinate
          ⟨-1, 0, 0⟩ (exampleOverlay exampleCifti).mapIndex) :=
  ⟨rfl, rfl,
    ((oblique_sampling_by_backing_type
      { exampleContext [exampleOverlay exampleCube, exampleOverlay exampleCifti]
          VolumeSliceViewModeEnum.OBLIQUE 0 with m_ciftiMappableFileData := [[], [5, 7]] }
      1 (exampleOverlay exampleCifti) ⟨-1, 0, 0⟩).2.1 (Or.inl rfl) rfl).1⟩

theorem oblique_sampling_examples :
    obliqueSampleVolume
        { exampleContext [exampleOverlay exampleCube, exampleOverlay exampleCifti]
            VolumeSliceViewModeEnum.OBLIQUE 0 with m_ciftiMappableFileData := [[], [5, 7]] }
        1 (exampleOverlay exampleCifti) ⟨1, 0, 0⟩ = (7, true)
    ∧ obliqueSampleVolume
        { exampleContext [exampleOverlay exampleCube, exampleOverlay exampleCifti]
            VolumeSliceViewModeEnum.OBLIQUE 0 with m_ciftiMappableFileData := [[], [5, 7]] }
        1 (exampleOverlay exampleCifti) ⟨-1, 0, 0⟩ = (0, false)
    ∧ obliqueSampleVolume
        (exampleContext [exampleOverlay exampleCube] VolumeSliceViewModeEnum.OBLIQUE 0)
        0 (exampleOverlay exampleCube) ⟨1, 0, 0⟩ = (1, true) := by
  decide!


/-! ## The layering of the overlays in the compositing -/

theorem exists_last_of_exists {α : Type} (p : α → Bool) :
    ∀ (l : List α), (∃ x ∈ l, p x = true) →
      ∃ (front : List α) (w : α) (back : List α),
        l = front ++ w :: back ∧ p w = true ∧ ∀ e ∈ back, p e = false := by
  intro l
  induction l with
  | nil => rintro ⟨x, hx, _⟩; simp at hx
  | cons x rest ih =>
    intro h
    by_cases hrest : ∃ y ∈ rest, p y = true
    · obtain ⟨front, w, back, hl, hw, hb⟩ := ih hrest
      exact ⟨x :: front, w, back, by rw [hl]; rfl, hw, hb⟩
    · have hx : p x = true := by
        obtain ⟨y, hy, hpy⟩ := h
        rcases List.mem_cons.1 hy with rfl | hy
        · exact hpy
        · exact absurd ⟨y, hy, hpy⟩ hrest
      refine ⟨[], x, rest, rfl, hx, ?_⟩
      intro e he
      by_contra hc
      exact hrest ⟨e, he, by simpa using hc⟩

theorem obliqueCompositeFold_drawing_state (ctx : DrawingContext)
    (volumeSlices : List VolumeSlice) (vtd : VoxelToDraw) (st : DrawingState)
    (hmode : st.m_identificationModeFlag = false) (entries : List (Int × Int)) (acc : Rgba) :
    (entries.foldl (obliqueCompositeEntry ctx volumeSlices vtd) (st, acc)).1 = st := by
  rw [obliqueCompositeFold_drawing ctx volumeSlices vtd st hmode]

theorem obliqueCompositeEntry_drawing_nonZero (ctx : DrawingContext)
    (volumeSlices : List VolumeSlice) (vtd : VoxelToDraw) (st : DrawingState) (acc : Rgba)
    (entry : Int × Int) (hmode : st.m_identificationModeFlag = false)
    (h : obliqueEntryNonZero volumeSlices entry = true) :
    obliqueCompositeEntry ctx volumeSlices vtd (st, acc) entry =
      (st, obliqueEntryColor volumeSlices entry) := by
  rw [obliqueCompositeEntry_drawing ctx volumeSlices vtd st acc entry hmode]
  unfold obliqueEntryNonZero at h
  unfold obliqueEntryColor
  cases hv : volumeSlices[entry.1.toNat]? with
  | none => rw [hv] at h; exact absurd h (by simp)
  | some volumeSlice =>
    rw [hv] at h
    simp only [decide_eq_true_eq] at h
    simp [h]

theorem obliqueCompositeVoxelRgba_drawing_winner (ctx : DrawingContext)
    (volumeSlices : List VolumeSlice) (vtd : VoxelToDraw) (st : DrawingState)
    (hmode : st.m_identificationModeFlag = false) (front back : List (Int × Int))
    (w : Int × Int) (hentries : vtd.linkedEntries = front ++ w :: back)
    (hw : obliqueEntryNonZero volumeSlices w = true)
    (hback : ∀ e ∈ back, obliqueEntryNonZero volumeSlices e = false) :
    obliqueCompositeVoxelRgba ctx volumeSlices vtd st =
      (st, obliqueEntryColor volumeSlices w) := by
  unfold obliqueCompositeVoxelRgba
  rw [show vtd.m_sliceIndices.zip vtd.m_sliceOffsets = vtd.linkedEntries from rfl, hentries,
    List.foldl_append, List.foldl_cons]
  have hfront : front.foldl (obliqueCompositeEntry ctx volumeSlices vtd) (st, ⟨0, 0, 0, 0⟩) =
      (st, (front.foldl (obliqueCompositeEntry ctx volumeSlices vtd) (st, ⟨0, 0, 0, 0⟩)).2) :=
    Prod.ext (obliqueCompositeFold_drawing_state ctx volumeSlices vtd st hmode front _) rfl
  rw [hfront, obliqueCompositeEntry_drawing_nonZero ctx volumeSlices vtd st _ w hmode hw,
    obliqueCompositeFold_of_zero ctx volumeSlices vtd back _ hback]

/-- C22: in drawing mode, for every cell record of the traversal of
`drawObliqueSlice` that has a linked entry whose colour has a non-zero alpha,
the colour composited for the cell is the colour of one such entry, whose
overlay index is greater than that of every other such entry of the cell: the
later overlay is on top of every earlier one.  This is the colour of the
quadrilateral emitted for the cell. -/
theorem later_overlay_layered_on_top (ctx : DrawingContext) (st : DrawingState)
    (sliceViewPlane : VolumeSliceViewPlaneEnum) (transformationMatrix : Matrix4x4)
    (voxelSize : ℚ) (volumeSlices : List VolumeSlice) (sliceNormalVector : Vec3)
    (s : DrawingState × QuadBuffers) (cell : VoxelToDraw)
    (hmode : s.1.m_identificationModeFlag = false)
    (hcell : cell ∈ (obliqueTraversal ctx st sliceViewPlane transformationMatrix voxelSize).2)
    (hnz : ∃ e ∈ cell.linkedEntries, obliqueEntryNonZero volumeSlices e = true) :
    ∃ w ∈ cell.linkedEntries,
      obliqueEntryNonZero volumeSlices w = true
      ∧ (∀ e ∈ cell.linkedEntries, obliqueEntryNonZero volumeSlices e = true → e ≠ w →
          e.1 < w.1)
      ∧ obliqueCompositeVoxelRgba ctx volumeSlices cell s.1 =
          (s.1, obliqueEntryColor volumeSlices w)
      ∧ obliqueCompositeVoxel ctx volumeSlices sliceNormalVector s cell =
          (s.1, s.2.addQuad (cell.m_coordinates.take 12) sliceNormalVector
            (obliqueEntryColor volumeSlices w)) := by
  obtain ⟨hidx, _, hlen⟩ :=
    (obliqueTraversal_invariant ctx st sliceViewPlane transformationMatrix voxelSize).links
      cell hcell
  obtain ⟨front, w, back, hl, hw, hb⟩ :=
    exists_last_of_exists (obliqueEntryNonZero volumeSlices) cell.linkedEntries hnz
  have hpair : List.Pairwise (fun a b : Int => a < b) (cell.linkedEntries.map Prod.fst) := by
    unfold VoxelToDraw.linkedEntries
    rw [List.map_fst_zip _ _ (le_of_eq hlen.symm), hidx]
    exact validOverlays_pairwise ctx cell.m_center
  have hcolor := obliqueCompositeVoxelRgba_drawing_winner ctx volumeSlices cell s.1 hmode front
    back w hl hw hb
  have hpos : (obliqueEntryColor volumeSlices w).a > 0 := by
    unfold obliqueEntryNonZero at hw
    unfold obliqueEntryColor
    cases hv : volumeSlices[w.1.toNat]? with
    | none => rw [hv] at hw; exact absurd hw (by simp)
    | some volumeSlice =>
      rw [hv] at hw
      simpa using hw
  refine ⟨w, by rw [hl]; simp, hw, ?_, hcolor, ?_⟩
  · intro e he hnze hne
    rw [hl, List.map_append, List.map_cons, List.pairwise_append] at hpair
    rw [hl, List.mem_append, List.mem_cons] at he
    rcases he with he | he | he
    · exact hpair.2.2 e.1 (List.mem_map_of_mem _ he) w.1 (List.mem_cons_self _ _)
    · exact absurd he hne
    · rw [hb e he] at hnze
      exact absurd hnze (by simp)
  · unfold obliqueCompositeVoxel
    simp only [hcolor, hpos, if_true]
    rfl

theorem later_overlay_layered_on_top_witness :
    ∃ w ∈ exampleFirstCell.linkedEntries,
      obliqueEntryNonZero exampleColoredSlices w = true
      ∧ (∀ e ∈ exampleFirstCell.linkedEntries,
          obliqueEntryNonZero exampleColoredSlices e = true → e ≠ w → e.1 < w.1)
      ∧ obliqueCompositeVoxelRgba exampleLayeredContext exampleColoredSlices exampleFirstCell
          (exampleState false) = (exampleState false, obliqueEntryColor exampleColoredSlices w)
      ∧ obliqueCompositeVoxel exampleLayeredContext exampleColoredSlices ⟨0, 0, 1⟩
          (exampleState false, ⟨[], [], []⟩) exampleFirstCell =
          (exampleState false,
            (⟨[], [], []⟩ : QuadBuffers).addQuad (exampleFirstCell.m_coordinates.take 12)
              ⟨0, 0, 1⟩ (obliqueEntryColor exampleColoredSlices w)) :=
  later_overlay_layered_on_top exampleLayeredContext (exampleState false)
    VolumeSliceViewPlaneEnum.AXIAL exampleIdentityMatrix 1 exampleColoredSlices ⟨0, 0, 1⟩
    (exampleState false, ⟨[], [], []⟩) exampleFirstCell rfl (by decide!)
    ⟨(1, 0), by decide!, by decide!⟩

theorem later_overlay_example_color :
    obliqueEntryColor exampleColoredSlices (0, 0) = ⟨10, 20, 30, 255⟩
    ∧ obliqueEntryColor exampleColoredSlices (1, 0) = ⟨255, 255, 255, 255⟩
    ∧ (obliqueCompositeVoxelRgba exampleLayeredContext exampleColoredSlices exampleFirstCell
        (exampleState false)).2 = obliqueEntryColor exampleColoredSlices (1, 0) := by
  decide!


/-! ## The slices of a montage -/

theorem drawSliceMontage_eq (col : DrawCollaborators) (ctx : DrawingContext) (st : DrawingState)
    (viewport : Viewport) :
    drawSliceMontage col ctx st viewport =
      montageFinish col viewport
        (let drawn : DrawingContext × DrawingState × Int :=
          if montageFirstSlice col ctx ≥ 0 then
            (montageCells col).foldl
              (fun s p =>
                drawSliceMontageCell col viewport col.getSliceViewPlane
                  (montageMaximumSlice col ctx) col.getMontageSliceSpacing
                  (montageSetup col ctx).2.2.2 (montageSetup col ctx).2.2.1
                  col.getMontageNumberOfRows (montageCellSize col viewport).1
                  (montageCellSize col viewport).2 col.getVolumeMontageGap p.1 p.2 s)
              (ctx, st, montageFirstSlice col ctx)
          else (ctx, st, montageFirstSlice col ctx)
        (drawn.1, drawn.2.1)) := by
  have h := foldl_nested_eq_foldl_pairs
    (fun (s : DrawingContext × DrawingState × Int) (i j : Nat) =>
      drawSliceMontageCell col viewport col.getSliceViewPlane
        (montageMaximumSlice col ctx) col.getMontageSliceSpacing
        (montageSetup col ctx).2.2.2 (montageSetup col ctx).2.2.1
        col.getMontageNumberOfRows (montageCellSize col viewport).1
        (montageCellSize col viewport).2 col.getVolumeMontageGap i j s)
    (List.range col.getMontageNumberOfColumns.toNat)
    (List.range col.getMontageNumberOfRows.toNat) (ctx, st, montageFirstSlice col ctx)
  simp only [] at h
  unfold montageCells
  rw [← h]
  rfl

theorem drawSliceMontageCell_eq (col : DrawCollaborators) (ctx : DrawingContext)
    (viewport : Viewport) (hx : 0 < (montageCellSize col viewport).1)
    (hy : 0 < (montageCellSize col viewport).2) (i j : Nat)
    (s : DrawingContext × DrawingState) (sliceIndex : Int) :
    drawSliceMontageCell col viewport col.getSliceViewPlane (montageMaximumSlice col ctx)
        col.getMontageSliceSpacing (montageSetup col ctx).2.2.2 (montageSetup col ctx).2.2.1
        col.getMontageNumberOfRows (montageCellSize col viewport).1
        (montageCellSize col viewport).2 col.getVolumeMontageGap i j (s.1, s.2, sliceIndex) =
      if 0 ≤ sliceIndex ∧ sliceIndex < montageMaximumSlice col ctx then
        ((montageDrawSlice col ctx viewport s ((i, j), sliceIndex)).1,
          (montageDrawSlice col ctx viewport s ((i, j), sliceIndex)).2,
          sliceIndex - col.getMontageSliceSpacing)
      else (s.1, s.2, sliceIndex - col.getMontageSliceSpacing) := by
  unfold drawSliceMontageCell
  simp only [ge_iff_le]
  have hvp : ¬ ((montageCellSize col viewport).1 ≤ 0 ∨ (montageCellSize col viewport).2 ≤ 0) := by
    omega
  by_cases h : 0 ≤ sliceIndex ∧ sliceIndex < montageMaximumSlice col ctx
  · simp only [h, and_self, if_true, hvp, if_false]
    rfl
  · simp only [h, if_false]

theorem montageCells_foldl (col : DrawCollaborators) (ctx : DrawingContext)
    (viewport : Viewport) (hx : 0 < (montageCellSize col viewport).1)
    (hy : 0 < (montageCellSize col viewport).2) (first : Int) :
    ∀ (cells : List (Nat × Nat)) (n : Nat) (s : DrawingContext × DrawingState),
      cells.foldl
          (fun s p =>
            drawSliceMontageCell col viewport col.getSliceViewPlane
              (montageMaximumSlice col ctx) col.getMontageSliceSpacing
              (montageSetup col ctx).2.2.2 (montageSetup col ctx).2.2.1
              col.getMontageNumberOfRows (montageCellSize col viewport).1
              (montageCellSize col viewport).2 col.getVolumeMontageGap p.1 p.2 s)
          (s.1, s.2, first - n * col.getMontageSliceSpacing) =
        (fun (r : DrawingContext × DrawingState) =>
          (r.1, r.2, first - ((n + cells.length : Nat) : Int) * col.getMontageSliceSpacing))
          ((((cells.enumFrom n).map
              (fun p => (p.2, first - p.1 * col.getMontageSliceSpacing))).filter
            (fun c => decide (0 ≤ c.2 ∧ c.2 < montageMaximumSlice col ctx))).foldl
            (montageDrawSlice col ctx viewport) s) := by
  intro cells
  induction cells with
  | nil => intro n s; simp
  | cons p rest ih =>
    intro n s
    rw [List.foldl_cons, drawSliceMontageCell_eq col ctx viewport hx hy p.1 p.2 s]
    have hnext : first - (n : Int) * col.getMontageSliceSpacing - col.getMontageSliceSpacing
        = first - ((n + 1 : Nat) : Int) * col.getMontageSliceSpacing := by
      push_cast
      ring
    have hlen : ((n + (p :: rest).length : Nat) : Int) = ((n + 1 + rest.length : Nat) : Int) := by
      simp only [List.length_cons]
      congr 1
      omega
    rw [hnext, hlen, List.enumFrom_cons, List.map_cons, List.filter_cons]
    by_cases h : 0 ≤ first - (n : Int) * col.getMontageSliceSpacing
        ∧ first - (n : Int) * col.getMontageSliceSpacing < montageMaximumSlice col ctx
    · simp only [h, and_self, if_true, decide_True, List.foldl_cons]
      exact ih (n + 1) (montageDrawSlice col ctx viewport s
        (p, first - (n : Int) * col.getMontageSliceSpacing))
    · simp only [h, if_false, decide_False, Bool.false_eq_true]
      exact ih (n + 1) s

theorem enumFrom_map_range {β : Type} (f : Nat → β) (c n : Nat) :
    ((List.range c).map f).enumFrom n = (List.range c).map (fun j => (n + j, f j)) := by
  apply List.ext_getElem?
  intro m
  rw [List.getElem?_enumFrom, List.getElem?_map, List.getElem?_map]
  by_cases h : m < c
  · rw [List.getElem?_range h]
    rfl
  · rw [List.getElem?_eq_none (by simpa using h)]
    rfl

theorem enumFrom_rows (c : Nat) :
    ∀ (m k : Nat),
      ((List.range' k m).flatMap (fun i => (List.range c).map (fun j => (i, j)))).enumFrom (k * c) =
        (List.range' k m).flatMap
          (fun i => (List.range c).map (fun j => (i * c + j, (i, j)))) := by
  intro m
  induction m with
  | zero => intro k; rfl
  | succ m ih =>
    intro k
    rw [List.range'_succ, List.flatMap_cons, List.flatMap_cons, List.enumFrom_append,
      enumFrom_map_range, List.length_map, List.length_range,
      show k * c + c = (k + 1) * c by ring, ih (k + 1)]

theorem montageCells_enum (col : DrawCollaborators) :
    (montageCells col).enum =
      (List.range col.getMontageNumberOfRows.toNat).flatMap
        (fun i => (List.range col.getMontageNumberOfColumns.toNat).map
          (fun j => (i * col.getMontageNumberOfColumns.toNat + j, (i, j)))) := by
  have h := enumFrom_rows col.getMontageNumberOfColumns.toNat col.getMontageNumberOfRows.toNat 0
  rw [Nat.zero_mul, ← List.range_eq_range'] at h
  exact h

theorem montageCells_length (col : DrawCollaborators) :
    (montageCells col).length =
      col.getMontageNumberOfColumns.toNat * col.getMontageNumberOfRows.toNat := by
  unfold montageCells
  rw [flatMap_length_const _ col.getMontageNumberOfColumns.toNat _ (by intro x _; simp)]
  simp

theorem montageSlices_eq (col : DrawCollaborators) (ctx : DrawingContext) :
    montageSlices col ctx =
      ((List.range col.getMontageNumberOfRows.toNat).flatMap
        (fun i => (List.range col.getMontageNumberOfColumns.toNat).map
          (fun j => ((i, j), montageFirstSlice col ctx
            - ((i * col.getMontageNumberOfColumns.toNat + j : Nat) : Int)
              * col.getMontageSliceSpacing)))).filter
        (fun c => decide (0 ≤ c.2 ∧ c.2 < montageMaximumSlice col ctx)) := by
  unfold montageSlices
  rw [montageCells_enum, List.map_flatMap]
  simp only [List.map_map]
  rfl

theorem montageFirstSlice_spec (col : DrawCollaborators) (ctx : DrawingContext)
    (hr : 1 ≤ col.getMontageNumberOfRows) (hc : 1 ≤ col.getMontageNumberOfColumns)
    (hstep : 1 ≤ col.getMontageSliceSpacing)
    (hsel : 0 ≤ montageSelectedSlice col ctx
      ∧ montageSelectedSlice col ctx < montageMaximumSlice col ctx) :
    ∃ k : Nat, (k : Int) ≤ (col.getMontageNumberOfColumns * col.getMontageNumberOfRows).tdiv 2
      ∧ montageFirstSlice col ctx = montageStartSlice col ctx - k * col.getMontageSliceSpacing
      ∧ 0 ≤ montageFirstSlice col ctx
      ∧ montageFirstSlice col ctx < montageMaximumSlice col ctx
      ∧ (montageStartSlice col ctx < montageMaximumSlice col ctx → k = 0) := by
  obtain ⟨k, hk, hfuel, hex, hbefore⟩ := montageFirstValidSlice_iterations
    (montageMaximumSlice col ctx) col.getMontageSliceSpacing hstep
    ((montageStartSlice col ctx).toNat + 1) (montageStartSlice col ctx) (by push_cast; omega)
  have hhalf : 0 ≤ (col.getMontageNumberOfColumns * col.getMontageNumberOfRows).tdiv 2 :=
    Int.tdiv_nonneg (Int.mul_nonneg (by omega) (by omega)) (by decide)
  have hfirst : montageFirstSlice col ctx
      = montageStartSlice col ctx - k * col.getMontageSliceSpacing := hfuel _ hk
  have hkle : (k : Int) ≤ (col.getMontageNumberOfColumns * col.getMontageNumberOfRows).tdiv 2 := by
    by_contra hc2
    have hlt : ((col.getMontageNumberOfColumns * col.getMontageNumberOfRows).tdiv 2).toNat < k := by
      omega
    have := (hbefore _ hlt).2
    rw [Int.toNat_of_nonneg hhalf] at this
    unfold montageStartSlice at this
    omega
  have hge : montageSelectedSlice col ctx ≤ montageFirstSlice col ctx := by
    rw [hfirst]
    unfold montageStartSlice
    have : (k : Int) * col.getMontageSliceSpacing
        ≤ (col.getMontageNumberOfColumns * col.getMontageNumberOfRows).tdiv 2
          * col.getMontageSliceSpacing :=
      Int.mul_le_mul_of_nonneg_right hkle (by omega)
    omega
  refine ⟨k, hkle, hfirst, by omega, ?_, ?_⟩
  · rw [hfirst]
    rcases hex with h | h
    · rw [← hfirst] at h
      omega
    · exact h
  · intro hlt
    by_contra hk0
    have := (hbefore 0 (by omega)).2
    simp only [Nat.cast_zero, zero_mul, sub_zero] at this
    omega

theorem montageSlices_mem_of_position (col : DrawCollaborators) (ctx : DrawingContext)
    (n : Nat) (hn : n < (montageCells col).length)
    (hin : 0 ≤ montageFirstSlice col ctx - n * col.getMontageSliceSpacing
      ∧ montageFirstSlice col ctx - n * col.getMontageSliceSpacing
        < montageMaximumSlice col ctx) :
    ∃ cell, (montageCells col)[n]? = some cell
      ∧ (cell, montageFirstSlice col ctx - n * col.getMontageSliceSpacing)
          ∈ montageSlices col ctx := by
  refine ⟨(montageCells col)[n], List.getElem?_eq_getElem hn, ?_⟩
  unfold montageSlices
  rw [List.mem_filter]
  refine ⟨?_, by simpa using hin⟩
  rw [List.mem_map]
  refine ⟨(n, (montageCells col)[n]), ?_, rfl⟩
  rw [List.mem_iff_getElem?]
  refine ⟨n, ?_⟩
  rw [List.enum_eq_enumFrom, List.getElem?_enumFrom, List.getElem?_eq_getElem hn]
  simp

/-- C29: for a montage of at least one row and one column with a slice spacing
of at least 1, a selected slice of the underlay that is a slice of the volume,
and a viewport in which the cells have a positive width and height,
`drawSliceMontage` is the drawing, cell after cell, of the slices of the
montage followed by the restoring of the viewport: the cell at position `n` of
the row-major order from the top left has the slice index `first - n * step`,
where `first` is the first valid slice found from the selected slice plus half
the number of cells times the spacing, and a slice is drawn in it exactly when
that index is a slice of the volume.  So only slices of the volume are drawn,
the selected slice is one of them, and it is drawn in the cell at position
`(r * c) / 2` when the search had no slice to skip. -/
theorem montage_slices_drawn (col : DrawCollaborators) (ctx : DrawingContext)
    (st : DrawingState) (viewport : Viewport)
    (hr : 1 ≤ col.getMontageNumberOfRows) (hc : 1 ≤ col.getMontageNumberOfColumns)
    (hstep : 1 ≤ col.getMontageSliceSpacing)
    (hsel : 0 ≤ montageSelectedSlice col ctx
      ∧ montageSelectedSlice col ctx < montageMaximumSlice col ctx)
    (hx : 0 < (montageCellSize col viewport).1) (hy : 0 < (montageCellSize col viewport).2) :
    drawSliceMontage col ctx st viewport =
        montageFinish col viewport
          ((montageSlices col ctx).foldl (montageDrawSlice col ctx viewport) (ctx, st))
    ∧ (∀ c ∈ montageSlices col ctx, 0 ≤ c.2 ∧ c.2 < montageMaximumSlice col ctx)
    ∧ montageSlices col ctx =
        ((List.range col.getMontageNumberOfRows.toNat).flatMap
          (fun i => (List.range col.getMontageNumberOfColumns.toNat).map
            (fun j => ((i, j), montageFirstSlice col ctx
              - ((i * col.getMontageNumberOfColumns.toNat + j : Nat) : Int)
                * col.getMontageSliceSpacing)))).filter
          (fun c => decide (0 ≤ c.2 ∧ c.2 < montageMaximumSlice col ctx))
    ∧ (∃ k : Nat, (k : Int) ≤ (col.getMontageNumberOfColumns * col.getMontageNumberOfRows).tdiv 2
        ∧ montageFirstSlice col ctx
            = montageStartSlice col ctx - k * col.getMontageSliceSpacing
        ∧ 0 ≤ montageFirstSlice col ctx
        ∧ montageFirstSlice col ctx < montageMaximumSlice col ctx)
    ∧ (∃ cell, (cell, montageSelectedSlice col ctx) ∈ montageSlices col ctx)
    ∧ (montageStartSlice col ctx < montageMaximumSlice col ctx →
        ∃ cell, (montageCells col)[((col.getMontageNumberOfColumns
              * col.getMontageNumberOfRows).tdiv 2).toNat]? = some cell
          ∧ (cell, montageSelectedSlice col ctx) ∈ montageSlices col ctx) := by
  obtain ⟨k, hk, hfirst, h0, hmax, hzero⟩ := montageFirstSlice_spec col ctx hr hc hstep hsel
  have hhalf : 0 ≤ (col.getMontageNumberOfColumns * col.getMontageNumberOfRows).tdiv 2 :=
    Int.tdiv_nonneg (Int.mul_nonneg (by omega) (by omega)) (by decide)
  have hcells : ((col.getMontageNumberOfColumns * col.getMontageNumberOfRows).tdiv 2).toNat
      < (montageCells col).length := by
    rw [montageCells_length]
    have hprod : (1 : Int) ≤ col.getMontageNumberOfColumns * col.getMontageNumberOfRows := by
      have := Int.mul_le_mul hc hr (by decide) (by omega)
      simpa using this
    have hlt : (col.getMontageNumberOfColumns * col.getMontageNumberOfRows).tdiv 2
        < col.getMontageNumberOfColumns * col.getMontageNumberOfRows := by
      rw [Int.tdiv_eq_ediv (by omega) (by decide)]
      omega
    have hcast : ((col.getMontageNumberOfColumns.toNat * col.getMontageNumberOfRows.toNat : Nat)
        : Int) = col.getMontageNumberOfColumns * col.getMontageNumberOfRows := by
      push_cast
      rw [Int.toNat_of_nonneg (by omega), Int.toNat_of_nonneg (by omega)]
    omega
  have hposition : ∀ n : Nat,
      (n : Int) = (col.getMontageNumberOfColumns * col.getMontageNumberOfRows).tdiv 2 - k →
      ∃ cell, (montageCells col)[n]? = some cell
        ∧ (cell, montageSelectedSlice col ctx) ∈ montageSlices col ctx := by
    intro n hn
    have hsame : montageFirstSlice col ctx - n * col.getMontageSliceSpacing
        = montageSelectedSlice col ctx := by
      rw [hfirst, hn]
      unfold montageStartSlice
      ring
    have := montageSlices_mem_of_position col ctx n (by omega) (by rw [hsame]; exact hsel)
    rw [hsame] at this
    exact this
  refine ⟨?_, ?_, montageSlices_eq col ctx, ⟨k, hk, hfirst, h0, hmax⟩, ?_, ?_⟩
  · rw [drawSliceMontage_eq]
    have hge : montageFirstSlice col ctx ≥ 0 := h0
    simp only [hge, if_true]
    have h := montageCells_foldl col ctx viewport hx hy (montageFirstSlice col ctx)
      (montageCells col) 0 (ctx, st)
    simp only [Nat.cast_zero, zero_mul, sub_zero] at h
    rw [h]
    rfl
  · intro c hcm
    unfold montageSlices at hcm
    rw [List.mem_filter] at hcm
    simpa using hcm.2
  · obtain ⟨cell, _, hmem⟩ := hposition
      ((col.getMontageNumberOfColumns * col.getMontageNumberOfRows).tdiv 2 - k).toNat
      (by rw [Int.toNat_of_nonneg (by omega)])
    exact ⟨cell, hmem⟩
  · intro hlt
    have hk0 := hzero hlt
    subst hk0
    exact hposition _ (by rw [Int.toNat_of_nonneg hhalf]; simp)

theorem montage_slices_drawn_witness :
    (1 : Int) ≤ exampleMontage.getMontageNumberOfRows
    ∧ (1 : Int) ≤ exampleMontage.getMontageNumberOfColumns
    ∧ (1 : Int) ≤ exampleMontage.getMontageSliceSpacing
    ∧ (0 ≤ montageSelectedSlice exampleMontage exampleMontageContext
        ∧ montageSelectedSlice exampleMontage exampleMontageContext
          < montageMaximumSlice exampleMontage exampleMontageContext)
    ∧ 0 < (montageCellSize exampleMontage ⟨0, 0, 100, 100⟩).1
    ∧ 0 < (montageCellSize exampleMontage ⟨0, 0, 100, 100⟩).2
    ∧ drawSliceMontage exampleMontage exampleMontageContext (exampleState false)
          ⟨0, 0, 100, 100⟩ =
        montageFinish exampleMontage ⟨0, 0, 100, 100⟩
          ((montageSlices exampleMontage exampleMontageContext).foldl
            (montageDrawSlice exampleMontage exampleMontageContext ⟨0, 0, 100, 100⟩)
            (exampleMontageContext, exampleState false)) :=
  ⟨by decide, by decide, by decide, by decide!, by decide!, by decide!,
    (montage_slices_drawn exampleMontage exampleMontageContext (exampleState false)
      ⟨0, 0, 100, 100⟩ (by decide) (by decide) (by decide) (by decide!) (by decide!)
      (by decide!)).1⟩

/-- The slices of the example montage of 2 x 2 cells over a volume of 4 slices
with the selected slice 0: the slices 2, 1 and 0 in the first three cells of the
row-major order, and no slice in the fourth cell, whose index -1 is no slice of
the volume. -/
theorem montage_example_slices :
    montageSlices exampleMontage exampleMontageContext
      = [((0, 0), 2), ((0, 1), 1), ((1, 0), 0)]
    ∧ montageSlices exampleMontage
        (exampleContext [exampleOverlay exampleCube] VolumeSliceViewModeEnum.MONTAGE 0)
      = [((0, 0), 1), ((0, 1), 0)]
    ∧ montageCellViewport exampleMontage ⟨0, 0, 100, 100⟩ 0 0 = ⟨0, 50, 50, 50⟩
    ∧ montageCellViewport exampleMontage ⟨0, 0, 100, 100⟩ 1 1 = ⟨50, 0, 50, 50⟩ := by
  decide!

/-- In a viewport of width 0 the cells of a montage have the width 0 and
`drawSliceMontage` draws no slice, the selected slice included: it only
restores the viewport. -/
theorem montage_draws_nothing_in_empty_cells :
    (1 : Int) ≤ exampleMontage.getMontageNumberOfRows
    ∧ (1 : Int) ≤ exampleMontage.getMontageNumberOfColumns
    ∧ (1 : Int) ≤ exampleMontage.getMontageSliceSpacing
    ∧ (0 ≤ montageSelectedSlice exampleMontage exampleMontageContext
        ∧ montageSelectedSlice exampleMontage exampleMontageContext
          < montageMaximumSlice exampleMontage exampleMontageContext)
    ∧ (drawSliceMontage exampleMontage exampleMontageContext (exampleState false)
          ⟨0, 0, 0, 100⟩).2.events = [Event.glViewport 0 0 0 100]
    ∧ (drawSliceMontage exampleMontage exampleMontageContext (exampleState false)
          ⟨0, 0, 100, 100⟩).2.events.length > 1 := by
  decide!


/-! ## The cells of a row of the oblique traversal -/

theorem Vec3.add_scale_sub (a b : Vec3) : a.add (Vec3.scale 1 (b.sub a)) = b := by
  cases a
  cases b
  simp only [Vec3.add, Vec3.scale, Vec3.sub, Vec3.mk.injEq]
  refine ⟨?_, ?_, ?_⟩ <;> ring

/-- The rows of the axial grid of `exampleUnitContext` with step size 1: three
rows of three cells of width 1 between the left edge at -3/2 and the right edge
at 3/2, the centres of the cells being the points of integer coordinates. -/
theorem oblique_rows_example :
    (obliqueGridRows exampleUnitContext (exampleState false)
        VolumeSliceViewPlaneEnum.AXIAL exampleIdentityMatrix 1).map
      (fun row => (row.numVoxelsInRow,
        row.cells.map (fun c => (c.voxelCenter.x, c.voxelCenter.y, c.bottomRightVoxelCoord.x))))
      = [(3, [(-1, -1, -1 / 2), (0, -1, 1 / 2), (1, -1, 3 / 2)]),
         (3, [(-1, 0, -1 / 2), (0, 0, 1 / 2), (1, 0, 3 / 2)]),
         (3, [(-1, 1, -1 / 2), (0, 1, 1 / 2), (1, 1, 3 / 2)])]
    ∧ (obliqueGridRows exampleUnitContext (exampleState false)
        VolumeSliceViewPlaneEnum.AXIAL exampleIdentityMatrix 1).map
      (fun row => (row.bottomVoxelEdgeDistance, row.bottomEdgeVoxelSize,
        row.rightEdgeBottomCoord.x))
      = [(3, 1, 3 / 2), (3, 1, 3 / 2), (3, 1, 3 / 2)] := by
  decide!


/-! ## The alignment of the oblique grid to the voxels of the first overlay -/

/-- In the oblique view mode with the identity as the rotation matrix,
`createObliqueTransformationMatrix` gives the translation by the selected
slice coordinates. -/
theorem createObliqueTransformationMatrix_identity_rotation (ctx : DrawingContext)
    (hmode : ctx.m_sliceViewMode = VolumeSliceViewModeEnum.OBLIQUE)
    (hrot : ctx.m_browserTabContent.getObliqueVolumeRotationMatrix = Matrix4x4.identity) :
    createObliqueTransformationMatrix ctx =
      Matrix4x4.translation
        ⟨ctx.m_browserTabContent.getSliceCoordinateParasagittal,
          ctx.m_browserTabContent.getSliceCoordinateCoronal,
          ctx.m_browserTabContent.getSliceCoordinateAxial⟩ := by
  unfold createObliqueTransformationMatrix
  simp only [hmode, hrot, Matrix4x4.translate, Matrix4x4.postmultiply, Matrix4x4.identity,
    Matrix4x4.translation, Matrix4x4.mk.injEq]
  and_intros <;> ring_nf

/-- The aligned screen bounds and the centres of the cells of the axial grid of
`exampleUnitContext` with step size 1, without and with a look-at centre off
the voxel centres: in both views the centres are the points of integer
coordinates along the screen axes in world space. -/
theorem oblique_alignment_example :
    obliqueScreenBounds exampleUnitContext (exampleState false)
        VolumeSliceViewPlaneEnum.AXIAL 1 = (-3 / 2, 3 / 2, -3 / 2, 3 / 2)
    ∧ (obliqueGrid exampleUnitContext (exampleState false) VolumeSliceViewPlaneEnum.AXIAL
          (Matrix4x4.translation ⟨0, 0, 0⟩) 1).map GridCell.voxelCenter
        = [⟨-1, -1, 0⟩, ⟨0, -1, 0⟩, ⟨1, -1, 0⟩, ⟨-1, 0, 0⟩, ⟨0, 0, 0⟩, ⟨1, 0, 0⟩,
           ⟨-1, 1, 0⟩, ⟨0, 1, 0⟩, ⟨1, 1, 0⟩]
    ∧ obliqueScreenBounds exampleUnitContext
        { exampleState false with m_lookAtCenter := ⟨1 / 4, 0, 1 / 3⟩ }
        VolumeSliceViewPlaneEnum.AXIAL 1 = (-7 / 4, 5 / 4, -3 / 2, 3 / 2)
    ∧ (obliqueGrid exampleUnitContext
          { exampleState false with m_lookAtCenter := ⟨1 / 4, 0, 1 / 3⟩ }
          VolumeSliceViewPlaneEnum.AXIAL (Matrix4x4.translation ⟨1 / 4, 0, 1 / 3⟩)
          1).map GridCell.voxelCenter
        = [⟨-1, -1, 1 / 3⟩, ⟨0, -1, 1 / 3⟩, ⟨1, -1, 1 / 3⟩, ⟨-1, 0, 1 / 3⟩, ⟨0, 0, 1 / 3⟩,
           ⟨1, 0, 1 / 3⟩, ⟨-1, 1, 1 / 3⟩, ⟨0, 1, 1 / 3⟩, ⟨1, 1, 1 / 3⟩] := by
  decide!

/-- The rows of a screen that the alignment makes 10 voxels high, with the
`double`s of the header of the row loop rounded as binary64 numbers:
`dtVertical` is the `double` nearest to 1/10, the counter `tVertical` is still
below 1 after ten sums, and the loop visits 11 rows of 3 cells; the centres of
the cells of the eleventh row, above the screen, are points of integer
coordinates like the others. -/
theorem oblique_rows_with_doubles_example :
    obliqueScreenBounds exampleTallContext (exampleState false)
        VolumeSliceViewPlaneEnum.AXIAL 1 = (-3 / 2, 3 / 2, -11 / 2, 9 / 2)
    ∧ exampleTallContext.roundDouble (1 / 10)
        = 3602879701896397 / 36028797018963968
    ∧ (obliqueGridRows exampleTallContext (exampleState false) VolumeSliceViewPlaneEnum.AXIAL
        (Matrix4x4.translation ⟨0, 0, 0⟩) 1).length = 11
    ∧ (obliqueGridRows exampleTallContext (exampleState false) VolumeSliceViewPlaneEnum.AXIAL
        (Matrix4x4.translation ⟨0, 0, 0⟩) 1).map (fun row => row.cells.length)
        = [3, 3, 3, 3, 3, 3, 3, 3, 3, 3, 3]
    ∧ ((obliqueGrid exampleTallContext (exampleState false) VolumeSliceViewPlaneEnum.AXIAL
        (Matrix4x4.translation ⟨0, 0, 0⟩) 1).map GridCell.voxelCenter).drop 27
        = [⟨-1, 4, 0⟩, ⟨0, 4, 0⟩, ⟨1, 4, 0⟩, ⟨-1, 5, 0⟩, ⟨0, 5, 0⟩, ⟨1, 5, 0⟩] := by
  decide!

/-- The numbers of voxels of the alignment for the step size that is the
`float` nearest to 0.8 and a screen from -8 to 8: the quotient of 8 and the
step size, a little below 10, is the `float` 10 and is truncated to 10 voxels
(9 if the quotient were not rounded). -/
theorem oblique_alignment_with_floats_example :
    roundToFloat (8 / 10) = 13421773 / 16777216
    ∧ obliqueVoxelCounts { exampleUnitContext with m_orthographicBounds := (-8, 8, -1, 1) }
        (exampleState false) VolumeSliceViewPlaneEnum.AXIAL (13421773 / 16777216)
      = (-10, 10, -1, 1)
    ∧ truncToInt (8 / (13421773 / 16777216)) = 9 := by
  decide!

end Workbench
